import Mathlib

/-!
# go-defaults: default-value population for struct fields

A shallow embedding of `defaults.go`, `parser.go` and `tag.go`.

Modelling conventions.

* `reflect.Type` is the tree `GoType`.  A declared (named) type wraps its underlying type
  in `GoType.named`.  The only way a Go type can mention itself along the paths that the
  traversal follows is through a pointer, so a pointer to a declared type may also be
  written `GoType.ptrRef id`, whose element type is looked up in a `TypeEnv`.
* Values are trees: a non-nil pointer owns its pointee (`Value.ptr`), so two fields never
  share a pointee.  These are the values of Go in which no memory is shared.  The section
  "defaults.go on a memory with sharing" gives the functions of `defaults.go` once more, on
  a memory of allocated objects in which a pointer holds an address.  The relation
  `HoldsTree` says when a memory holds a value without sharing, and on such a memory the
  functions on the memory do what the functions on the value do (`Defaults_of_Mem`).
* A `reflect.Value` is a `Value` together with its `GoType`; the functions that take a
  `reflect.Value` in the source take both here.
* The package variable `Tag` is passed explicitly as `Tag : String`.
* The standard library and the JSON decoder are the record `Lib`.
* A function that need not return normally (unbounded recursion, a run-time panic of
  `reflect.Value.Convert`) returns an `Option`; `none` is "no normal return".
-/

namespace GoDefaults

/-! ## reflect.Kind -/

/-- The kinds of `reflect.Kind`. -/
inductive Kind where
  | Invalid | Bool
  | Int | Int8 | Int16 | Int32 | Int64
  | Uint | Uint8 | Uint16 | Uint32 | Uint64 | Uintptr
  | Float32 | Float64 | Complex64 | Complex128
  | Array | Chan | Func | Interface | Map | Pointer | Slice | String | Struct
  | UnsafePointer
  deriving DecidableEq, Repr

/-- The text of `reflect.Kind.String()`. -/
def kindString : Kind → String
  | .Invalid => "invalid"
  | .Bool => "bool"
  | .Int => "int"
  | .Int8 => "int8"
  | .Int16 => "int16"
  | .Int32 => "int32"
  | .Int64 => "int64"
  | .Uint => "uint"
  | .Uint8 => "uint8"
  | .Uint16 => "uint16"
  | .Uint32 => "uint32"
  | .Uint64 => "uint64"
  | .Uintptr => "uintptr"
  | .Float32 => "float32"
  | .Float64 => "float64"
  | .Complex64 => "complex64"
  | .Complex128 => "complex128"
  | .Array => "array"
  | .Chan => "chan"
  | .Func => "func"
  | .Interface => "interface"
  | .Map => "map"
  | .Pointer => "ptr"
  | .Slice => "slice"
  | .String => "string"
  | .Struct => "struct"
  | .UnsafePointer => "unsafe.Pointer"

/-! ## reflect.StructTag -/

/-- A struct tag, as the list of its `key:"value"` pairs. -/
abbrev StructTag := List (String × String)

/-- The value `reflect.StructTag.Get` returns: the value of the first pair with the key,
the empty string when there is none. -/
def StructTag.Get (tag : StructTag) (key : String) : String :=
  match tag with
  | [] => ""
  | (k, v) :: rest => if k = key then v else StructTag.Get rest key

/-! ## reflect.Type -/

mutual
/-- A Go type, as `reflect.Type` describes it. -/
inductive GoType where
  /-- a predeclared scalar type: `bool`, the integer, float and complex types, `string` -/
  | basic (k : Kind)
  /-- a type of another kind (`func`, `chan`, `interface`, `unsafe.Pointer`; `Invalid` for
  the absent type of an untyped nil); `str` is its `String()` -/
  | other (k : Kind) (str : String)
  | ptr (elem : GoType)
  /-- pointer to the declared type `id` of the type environment -/
  | ptrRef (id : String)
  | slice (elem : GoType)
  | array (len : Nat) (elem : GoType)
  | map (key : GoType) (elem : GoType)
  | struct (fields : List StructField)
  /-- a declared type: `name` is `Name()`, `str` is `String()` (package-qualified) -/
  | named (name : String) (str : String) (underlying : GoType)
/-- One field of a struct type, as `reflect.StructField` describes it. -/
inductive StructField where
  | mk (Name : String) (PkgPath : String) (Typ : GoType) (Tag : StructTag)
end

/-- The field name. -/
def StructField.Name : StructField → String
  | .mk n _ _ _ => n

/-- The package path of an unexported field; empty for an exported one. -/
def StructField.PkgPath : StructField → String
  | .mk _ p _ _ => p

/-- The declared type of the field. -/
def StructField.Typ : StructField → GoType
  | .mk _ _ t _ => t

/-- The tag of the field. -/
def StructField.Tag : StructField → StructTag
  | .mk _ _ _ t => t

/-- The method `reflect.StructField.IsExported`. -/
def StructField.IsExported (f : StructField) : Bool :=
  f.PkgPath == ""

/-- The declared types that `GoType.ptrRef` refers to. -/
abbrev TypeEnv := String → Option GoType

/-- The method `reflect.Type.Kind`. -/
def GoType.Kind : GoType → Kind
  | .basic k => k
  | .other k _ => k
  | .ptr _ => .Pointer
  | .ptrRef _ => .Pointer
  | .slice _ => .Slice
  | .array _ _ => .Array
  | .map _ _ => .Map
  | .struct _ => .Struct
  | .named _ _ u => u.Kind

/-- The method `reflect.Type.Name`: the name of a declared or predeclared type, empty for an
unnamed type. -/
def GoType.Name : GoType → String
  | .basic k => kindString k
  | .named n _ _ => n
  | _ => ""

/-- The method `reflect.Type.Elem`: the element type of a pointer, slice, array or map
type. -/
def GoType.Elem (env : TypeEnv) : GoType → Option GoType
  | .ptr e => some e
  | .ptrRef id => env id
  | .slice e => some e
  | .array _ e => some e
  | .map _ e => some e
  | .named _ _ u => u.Elem env
  | _ => none

/-- The method `reflect.Type.Len` of an array type. -/
def GoType.Len : GoType → Nat
  | .array n _ => n
  | .named _ _ u => u.Len
  | _ => 0

/-- The fields of a struct type. -/
def GoType.Fields : GoType → List StructField
  | .struct fs => fs
  | .named _ _ u => u.Fields
  | _ => []

/-! ## Values -/

/-- A floating-point number: a sign and the rest of its bit pattern (`mag = 0` exactly for
the two zeros), or a NaN. -/
inductive GoFloat where
  | num (neg : Bool) (mag : Nat)
  | nan
  deriving DecidableEq, Repr

/-- The comparison `==` on floating-point numbers: the two zeros are equal, a NaN equals
nothing. -/
def GoFloat.eq : GoFloat → GoFloat → Bool
  | .num n₁ m₁, .num n₂ m₂ => (m₁ == 0 && m₂ == 0) || (n₁ == n₂ && m₁ == m₂)
  | _, _ => false

/-- A Go value. -/
inductive Value where
  | bool (b : Bool)
  /-- a value of a signed integer kind -/
  | int (i : Int)
  /-- a value of an unsigned integer kind -/
  | uint (n : Nat)
  | float (f : GoFloat)
  | complex (re : GoFloat) (im : GoFloat)
  | string (s : String)
  /-- the nil pointer, map, slice, func, chan, interface or unsafe pointer -/
  | nil
  /-- a non-nil pointer, with its pointee -/
  | ptr (pointee : Value)
  /-- a non-nil slice -/
  | slice (elems : List Value)
  /-- a non-nil map -/
  | map (entries : List (Value × Value))
  | array (elems : List Value)
  | struct (fields : List Value)
  /-- a non-nil func, chan, interface or unsafe pointer, by identity -/
  | handle (id : Nat)

/-- The method `reflect.Value.IsNil`. -/
def Value.IsNil : Value → Bool
  | .nil => true
  | _ => false

/-- The method `reflect.Value.Elem` on a pointer: its pointee, none for a nil pointer. -/
def Value.Elem : Value → Option Value
  | .ptr p => some p
  | _ => none

/-- The method `reflect.Value.Len` of a slice or array. -/
def Value.Len : Value → Nat
  | .slice es => es.length
  | .array es => es.length
  | _ => 0

/-- The elements of a slice or array value. -/
def Value.Elems : Value → List Value
  | .slice es => es
  | .array es => es
  | _ => []

/-- A `reflect.Value`: a value with its type. -/
structure RValue where
  typ : GoType
  val : Value

/-- The zero value of a predeclared scalar kind. -/
def zeroBasic : Kind → Value
  | .Bool => .bool false
  | .Int | .Int8 | .Int16 | .Int32 | .Int64 => .int 0
  | .Uint | .Uint8 | .Uint16 | .Uint32 | .Uint64 | .Uintptr => .uint 0
  | .Float32 | .Float64 => .float (.num false 0)
  | .Complex64 | .Complex128 => .complex (.num false 0) (.num false 0)
  | .String => .string ""
  | _ => .nil

mutual
/-- The value of `reflect.Zero(t)`, which is also what `reflect.New(t)` points to. -/
def zeroValue : GoType → Value
  | .basic k => zeroBasic k
  | .other _ _ => .nil
  | .ptr _ => .nil
  | .ptrRef _ => .nil
  | .slice _ => .nil
  | .map _ _ => .nil
  | .array n e => .array (List.replicate n (zeroValue e))
  | .struct fs => .struct (zeroFields fs)
  | .named _ _ u => zeroValue u
/-- The zero values of the fields of a struct type. -/
def zeroFields : List StructField → List Value
  | [] => []
  | f :: fs => zeroField f :: zeroFields fs
/-- The zero value of one field. -/
def zeroField : StructField → Value
  | .mk _ _ t _ => zeroValue t
end

mutual
/-- The function `reflect.DeepEqual` on two values of one type.  Maps are compared entry by
entry in the stored order and handles by identity; the program compares against a zero
value only, where a map, func or chan is nil. -/
def deepEqual : Value → Value → Bool
  | .bool a, .bool b => a == b
  | .int a, .int b => a == b
  | .uint a, .uint b => a == b
  | .float a, .float b => a.eq b
  | .complex a₁ a₂, .complex b₁ b₂ => a₁.eq b₁ && a₂.eq b₂
  | .string a, .string b => a == b
  | .nil, .nil => true
  | .ptr a, .ptr b => deepEqual a b
  | .slice xs, .slice ys => deepEqualList xs ys
  | .map xs, .map ys => deepEqualEntries xs ys
  | .array xs, .array ys => deepEqualList xs ys
  | .struct xs, .struct ys => deepEqualList xs ys
  | .handle a, .handle b => a == b
  | _, _ => false
/-- Element-wise `deepEqual`. -/
def deepEqualList : List Value → List Value → Bool
  | [], [] => true
  | x :: xs, y :: ys => deepEqual x y && deepEqualList xs ys
  | _, _ => false
/-- Entry-wise `deepEqual`. -/
def deepEqualEntries : List (Value × Value) → List (Value × Value) → Bool
  | [], [] => true
  | (k₁, v₁) :: xs, (k₂, v₂) :: ys =>
    deepEqual k₁ k₂ && deepEqual v₁ v₂ && deepEqualEntries xs ys
  | _, _ => false
end

/-! ## Errors -/

/-- A Go `error` value. -/
inductive GoError where
  /-- an error made by `errors.New`, or by `fmt.Errorf` without `%w` -/
  | text (msg : String)
  /-- an error made by `fmt.Errorf(pre + "%w", cause)` -/
  | wrap (pre : String) (cause : GoError)
  deriving DecidableEq, Repr

/-- The method `Error()`. -/
def GoError.Error : GoError → String
  | .text msg => msg
  | .wrap pre cause => pre ++ cause.Error

/-- The method `Unwrap()`. -/
def GoError.Unwrap : GoError → Option GoError
  | .text _ => none
  | .wrap _ cause => some cause

/-! ## The standard library -/

/-- The functions of the Go standard library and of the JSON decoder that the package
calls and whose code is outside it. -/
structure Lib where
  /-- the function `strconv.Quote` -/
  strconvQuote : String → String
  /-- the call `strconv.ParseInt(s, base, bitSize)` -/
  strconvParseInt : String → Nat → Nat → Except GoError Int
  /-- the call `strconv.ParseUint(s, base, bitSize)` -/
  strconvParseUint : String → Nat → Nat → Except GoError Nat
  /-- the call `strconv.ParseFloat(s, bitSize)` -/
  strconvParseFloat : String → Nat → Except GoError GoFloat
  /-- the call `strconv.ParseComplex(s, bitSize)` -/
  strconvParseComplex : String → Nat → Except GoError (GoFloat × GoFloat)
  /-- the call `time.ParseDuration(s)`, in nanoseconds -/
  timeParseDuration : String → Except GoError Int
  /-- the call `json.Unmarshal(data, p)` for a pointer `p` to a fresh zero value of the
  type: the value `p` points to afterwards, or the decoder's error -/
  jsonUnmarshal : String → GoType → Except GoError Value
  /-- the method `reflect.Value.Convert` between values of different representation;
  none when it panics -/
  convert : RValue → GoType → Option Value
  /-- the method `reflect.Type.ConvertibleTo` -/
  convertibleTo : GoType → GoType → Bool
  /-- the text `%v` prints for a type -/
  typeString : GoType → String
  /-- a type is convertible to itself -/
  convertibleTo_self : ∀ t, convertibleTo t t = true

/-- The text of `reflect.Type.String()` for a predeclared or declared type; for the other
types, the text the library gives. -/
def GoType.TypeString (lib : Lib) : GoType → String
  | .basic k => kindString k
  | .named _ s _ => s
  | t => lib.typeString t

/-- The error `strconv.ErrSyntax`. -/
def ErrSyntax : GoError := .text "invalid syntax"

/-- The error `strconv.ErrRange`. -/
def ErrRange : GoError := .text "value out of range"

/-- A `*strconv.NumError`: its text is
`"strconv." + fn + ": parsing " + strconv.Quote(num) + ": " + err.Error()`. -/
def numError (lib : Lib) (fn : String) (num : String) (err : GoError) : GoError :=
  .wrap ("strconv." ++ fn ++ ": parsing " ++ lib.strconvQuote num ++ ": ") err

/-- The function `strconv.ParseBool`. -/
def strconvParseBool (lib : Lib) (str : String) : Except GoError Bool :=
  match str with
  | "1" | "t" | "T" | "true" | "TRUE" | "True" => .ok true
  | "0" | "f" | "F" | "false" | "FALSE" | "False" => .ok false
  | _ => .error (numError lib "ParseBool" str ErrSyntax)

/-- The width of a signed integer kind (`int` has 64 bits). -/
def intBits : Kind → Option Nat
  | .Int => some 64
  | .Int8 => some 8
  | .Int16 => some 16
  | .Int32 => some 32
  | .Int64 => some 64
  | _ => none

/-- The width of an unsigned integer kind (`uint` and `uintptr` have 64 bits). -/
def uintBits : Kind → Option Nat
  | .Uint => some 64
  | .Uint8 => some 8
  | .Uint16 => some 16
  | .Uint32 => some 32
  | .Uint64 => some 64
  | .Uintptr => some 64
  | _ => none

/-- The two's-complement value of `i` in `w` bits. -/
def wrapSigned (w : Nat) (i : Int) : Int :=
  (i + 2 ^ (w - 1)) % 2 ^ w - 2 ^ (w - 1)

/-- The kinds whose values convert to a type of the same kind without change. -/
def sameKindConvertible : Kind → Bool
  | .Bool | .String | .Float32 | .Float64 | .Complex64 | .Complex128 => true
  | _ => false

/-- The method `reflect.Value.Convert`: the value converted to type `t`; none when it
panics. -/
def Convert (lib : Lib) (v : RValue) (t : GoType) : Option RValue :=
  match v.val, intBits t.Kind, uintBits t.Kind with
  | .int i, some w, _ => some ⟨t, .int (wrapSigned w i)⟩
  | .uint n, _, some w => some ⟨t, .uint (n % 2 ^ w)⟩
  | _, _, _ =>
    if v.typ.Kind = t.Kind ∧ sameKindConvertible t.Kind = true then some ⟨t, v.val⟩
    else (lib.convert v t).map (fun x => ⟨t, x⟩)

/-! ## strconv: integers

The functions `ParseUint`, `ParseInt` and `underscoreOK` of the Go standard library
(`strconv/atoi.go`).  They read the bytes of the text; here they read its characters.  A
character outside ASCII is encoded by bytes from 128 on, which are neither digits, letters
nor underscores, so both readings reject the text at the same place. -/

/-- The constant `maxUint64`. -/
def maxUint64 : Nat := 2 ^ 64 - 1

/-- The function `lower` of `strconv`, `c | ('x' - 'X')`, on the code of a character. -/
def lowerCode (c : Char) : Nat := c.toNat ||| 32

/-- The digit `d` a character stands for in the loop of `strconv.ParseUint`: `c - '0'` for
a decimal digit, `lower(c) - 'a' + 10` for a letter, none for any other character. -/
def digitOf (c : Char) : Option Nat :=
  if 48 ≤ c.toNat ∧ c.toNat ≤ 57 then some (c.toNat - 48)
  else if 97 ≤ lowerCode c ∧ lowerCode c ≤ 122 then some (lowerCode c - 97 + 10)
  else none

/-- A `*strconv.NumError` before it is printed. -/
structure NumError where
  Func : String
  Num : String
  Err : GoError
  deriving DecidableEq

/-- The error value of a `*strconv.NumError`. -/
def NumError.toError (lib : Lib) (e : NumError) : GoError :=
  numError lib e.Func e.Num e.Err

/-- The loop over the loop variable `scan` of `strconv.underscoreOK`, from the state
`saw`. -/
def underscoreOKLoop (hex : Bool) : List Char → Char → Bool
  | [], saw => saw != '_'
  | c :: cs, saw =>
    if (48 ≤ c.toNat ∧ c.toNat ≤ 57) ∨
        (hex = true ∧ 97 ≤ lowerCode c ∧ lowerCode c ≤ 102) then
      underscoreOKLoop hex cs '0'
    else if c = '_' then
      if saw != '0' then false else underscoreOKLoop hex cs '_'
    else if saw = '_' then false
    else underscoreOKLoop hex cs '!'

/-- The text without its optional sign, as `strconv.ParseInt` and `strconv.underscoreOK`
strip it. -/
def dropSign : List Char → List Char
  | '-' :: rest => rest
  | '+' :: rest => rest
  | s => s

/-- The function `strconv.underscoreOK`. -/
def underscoreOK (s : List Char) : Bool :=
  match dropSign s with
  | c₀ :: c₁ :: rest =>
    if c₀ = '0' ∧ (lowerCode c₁ = 98 ∨ lowerCode c₁ = 111 ∨ lowerCode c₁ = 120) then
      underscoreOKLoop (lowerCode c₁ == 120) rest '0'
    else underscoreOKLoop false (c₀ :: c₁ :: rest) '^'
  | s' => underscoreOKLoop false s' '^'

/-- The case `base == 0` of `strconv.ParseUint`: the base the prefix of the text implies,
and the text after the prefix. -/
def detectBase : List Char → Nat × List Char
  | '0' :: c₁ :: c₂ :: rest =>
    if lowerCode c₁ = 98 then (2, c₂ :: rest)
    else if lowerCode c₁ = 111 then (8, c₂ :: rest)
    else if lowerCode c₁ = 120 then (16, c₂ :: rest)
    else (8, c₁ :: c₂ :: rest)
  | '0' :: rest => (8, rest)
  | s => (10, s)

/-- The loop of `strconv.ParseUint` over the characters, from the value `n` read so far and
the flag `underscores`: the value and the flag at the end, or the value and the error with
which the loop returns. -/
def parseUintLoop (base0 : Bool) (base : Nat) (cutoff : Nat) (maxVal : Nat) :
    List Char → Nat → Bool → Except (Nat × GoError) (Nat × Bool)
  | [], n, underscores => .ok (n, underscores)
  | c :: cs, n, underscores =>
    if c = '_' ∧ base0 = true then parseUintLoop base0 base cutoff maxVal cs n true
    else
      match digitOf c with
      | none => .error (0, ErrSyntax)
      | some d =>
        if d ≥ base then .error (0, ErrSyntax)
        else if n ≥ cutoff then .error (maxVal, ErrRange)
        else
          let n' := (n * base) % 2 ^ 64
          let n1 := (n' + d) % 2 ^ 64
          if n1 < n' ∨ n1 > maxVal then .error (maxVal, ErrRange)
          else parseUintLoop base0 base cutoff maxVal cs n1 underscores

/-- The function `strconv.ParseUint`, with both of its results. -/
def strconvParseUintRaw (s : String) (base : Nat) (bitSize : Nat) : Nat × Option NumError :=
  if s = "" then (0, some ⟨"ParseUint", s, ErrSyntax⟩)
  else
    let base0 : Bool := base == 0
    let chosen : Option (Nat × List Char) :=
      if 2 ≤ base ∧ base ≤ 36 then some (base, s.data)
      else if base = 0 then some (detectBase s.data)
      else none
    match chosen with
    | none => (0, some ⟨"ParseUint", s, .text ("invalid base " ++ toString base)⟩)
    | some (b, body) =>
      if bitSize > 64 then
        (0, some ⟨"ParseUint", s, .text ("invalid bit size " ++ toString bitSize)⟩)
      else
        let bits := if bitSize = 0 then 64 else bitSize
        let cutoff := maxUint64 / b + 1
        let maxVal := 2 ^ bits - 1
        match parseUintLoop base0 b cutoff maxVal body 0 false with
        | .error (v, err) => (v, some ⟨"ParseUint", s, err⟩)
        | .ok (n, underscores) =>
          if underscores = true ∧ underscoreOK s.data = false then
            (0, some ⟨"ParseUint", s, ErrSyntax⟩)
          else (n, none)

/-- The end of `strconv.ParseInt`, after the unsigned value `un` has been read: the range
check against `cutoff` and the conversion to `int64` with the sign. -/
def parseIntTail (s : String) (neg : Bool) (bitSize : Nat) (un : Nat) : Int × Option NumError :=
  let bits := if bitSize = 0 then 64 else bitSize
  let cutoff := 2 ^ (bits - 1)
  if neg = false ∧ un ≥ cutoff then ((cutoff : Int) - 1, some ⟨"ParseInt", s, ErrRange⟩)
  else if neg = true ∧ un > cutoff then (-(cutoff : Int), some ⟨"ParseInt", s, ErrRange⟩)
  else
    let n := wrapSigned 64 un
    (if neg then wrapSigned 64 (-n) else n, none)

/-- The text begins with a minus sign. -/
def isNeg : List Char → Bool
  | '-' :: _ => true
  | _ => false

/-- The function `strconv.ParseInt`, with both of its results. -/
def strconvParseIntRaw (s : String) (base : Nat) (bitSize : Nat) : Int × Option NumError :=
  if s = "" then (0, some ⟨"ParseInt", s, ErrSyntax⟩)
  else
    let neg : Bool := isNeg s.data
    let rest : List Char := dropSign s.data
    match strconvParseUintRaw (String.mk rest) base bitSize with
    | (un, some e) =>
      if e.Err ≠ ErrRange then (0, some ⟨"ParseInt", s, e.Err⟩)
      else parseIntTail s neg bitSize un
    | (un, none) => parseIntTail s neg bitSize un

/-- The call `strconv.ParseUint(s, base, bitSize)` as the package sees it: the value when
the error is nil, the error otherwise. -/
def strconvParseUint (lib : Lib) (s : String) (base : Nat) (bitSize : Nat) :
    Except GoError Nat :=
  match strconvParseUintRaw s base bitSize with
  | (n, none) => .ok n
  | (_, some e) => .error (e.toError lib)

/-- The call `strconv.ParseInt(s, base, bitSize)` as the package sees it: the value when
the error is nil, the error otherwise. -/
def strconvParseInt (lib : Lib) (s : String) (base : Nat) (bitSize : Nat) :
    Except GoError Int :=
  match strconvParseIntRaw s base bitSize with
  | (n, none) => .ok n
  | (_, some e) => .error (e.toError lib)

/-- The library `lib` with `strconv.ParseInt` and `strconv.ParseUint` as defined above. -/
def withStrconv (lib : Lib) : Lib :=
  { lib with
    strconvParseInt := strconvParseInt lib
    strconvParseUint := strconvParseUint lib }

/-! ## parser.go -/

/-- The error `ErrUnsupportedType`. -/
def ErrUnsupportedType : GoError := .text "unsupported type"

/-- What a parser returns: the pair of a `reflect.Value` (none for the invalid
`reflect.Value{}`) and an error (none for `nil`); the outer none is a panic. -/
abbrev ParseResult := Option (Option RValue × Option GoError)

/-- The type `ParserFunc`. -/
abbrev ParserFunc := String → GoType → ParseResult

/-- The tail `return reflect.ValueOf(val).Convert(t), nil` of the scalar parsers. -/
def returnConverted (lib : Lib) (v : RValue) (t : GoType) : ParseResult :=
  match Convert lib v t with
  | none => none
  | some r => some (some r, none)

/-- The function `ParseInt`. -/
def ParseInt (lib : Lib) (str : String) (t : GoType) : ParseResult :=
  let bitSize : Nat :=
    match t.Kind with
    | .Int8 => 8
    | .Int16 => 16
    | .Int32 => 32
    | .Int64 => 64
    | _ => 0
  match lib.strconvParseInt str 0 bitSize with
  | .error err => some (none, some err)
  | .ok val => returnConverted lib ⟨.basic .Int64, .int val⟩ t

/-- The function `ParseUint`. -/
def ParseUint (lib : Lib) (str : String) (t : GoType) : ParseResult :=
  let bitSize : Nat :=
    match t.Kind with
    | .Uint8 => 8
    | .Uint16 => 16
    | .Uint32 => 32
    | .Uint64 => 64
    | _ => 0
  match lib.strconvParseUint str 0 bitSize with
  | .error err => some (none, some err)
  | .ok val => returnConverted lib ⟨.basic .Uint64, .uint val⟩ t

/-- The function `ParseFloat`. -/
def ParseFloat (lib : Lib) (str : String) (t : GoType) : ParseResult :=
  let bitSize : Option Nat :=
    match t.Kind with
    | .Float32 => some 32
    | .Float64 => some 64
    | _ => none
  match bitSize with
  | none => some (none, some ErrUnsupportedType)
  | some bits =>
    match lib.strconvParseFloat str bits with
    | .error err => some (none, some err)
    | .ok val => returnConverted lib ⟨.basic .Float64, .float val⟩ t

/-- The function `ParseComplex`. -/
def ParseComplex (lib : Lib) (str : String) (t : GoType) : ParseResult :=
  let bitSize : Option Nat :=
    match t.Kind with
    | .Complex64 => some 64
    | .Complex128 => some 128
    | _ => none
  match bitSize with
  | none => some (none, some ErrUnsupportedType)
  | some bits =>
    match lib.strconvParseComplex str bits with
    | .error err => some (none, some err)
    | .ok val => returnConverted lib ⟨.basic .Complex128, .complex val.1 val.2⟩ t

/-- The function `ParseBool`. -/
def ParseBool (lib : Lib) (str : String) (t : GoType) : ParseResult :=
  match strconvParseBool lib str with
  | .error err => some (none, some err)
  | .ok val => returnConverted lib ⟨.basic .Bool, .bool val⟩ t

/-- The function `ParseString`. -/
def ParseString (lib : Lib) (str : String) (t : GoType) : ParseResult :=
  returnConverted lib ⟨.basic .String, .string str⟩ t

/-- The type `time.Duration`. -/
def durationType : GoType := .named "Duration" "time.Duration" (.basic .Int64)

/-- The function `ParseDuration`. -/
def ParseDuration (lib : Lib) (str : String) (t : GoType) : ParseResult :=
  match lib.timeParseDuration str with
  | .error err => some (none, some err)
  | .ok val => returnConverted lib ⟨durationType, .int val⟩ t

/-- The function `ParseMap`. -/
def ParseMap (lib : Lib) (str : String) (t : GoType) : ParseResult :=
  if t.Kind ≠ .Map then some (none, some (.text "t is not a map"))
  else
    match lib.jsonUnmarshal str t with
    | .error err => some (none, some (.wrap "invalid map format: " err))
    | .ok val => some (some ⟨t, val⟩, none)

/-- The function `ParseSlice`. -/
def ParseSlice (lib : Lib) (str : String) (t : GoType) : ParseResult :=
  if t.Kind ≠ .Slice then some (none, some (.text "t is not a slice"))
  else
    match lib.jsonUnmarshal str t with
    | .error err => some (none, some (.wrap "invalid slice format: " err))
    | .ok val => some (some ⟨t, val⟩, none)

/-- The element type of an array type, for `t.Elem()` in `ParseArray`. -/
def GoType.ArrayElem : GoType → GoType
  | .array _ e => e
  | .named _ _ u => u.ArrayElem
  | t => t

/-- The function `ParseArray`. -/
def ParseArray (lib : Lib) (str : String) (t : GoType) : ParseResult :=
  if t.Kind ≠ .Array then some (none, some (.text "t is not an array"))
  else
    let elemType := t.ArrayElem
    match lib.jsonUnmarshal str (.slice elemType) with
    | .error err => some (none, some (.wrap "invalid array format: " err))
    | .ok tempSlice =>
      let expectedLen := t.Len
      if tempSlice.Len > expectedLen then
        some (none, some (.text ("array length " ++ toString tempSlice.Len ++
          " exceeds capacity " ++ toString expectedLen)))
      else
        let arrayVal := zeroValue t
        some (some ⟨t, .array (tempSlice.Elems ++ arrayVal.Elems.drop tempSlice.Len)⟩, none)

/-- The registry `parser`: the parser registered under a type name, none when there is
none. -/
def parser (lib : Lib) (typeName : String) : Option ParserFunc :=
  match typeName with
  | "int" | "int8" | "int16" | "int32" | "int64" => some (ParseInt lib)
  | "uint" | "uint8" | "uint16" | "uint32" | "uint64" => some (ParseUint lib)
  | "float32" | "float64" => some (ParseFloat lib)
  | "complex64" | "complex128" => some (ParseComplex lib)
  | "bool" => some (ParseBool lib)
  | "string" => some (ParseString lib)
  | "time.Duration" => some (ParseDuration lib)
  | "map" => some (ParseMap lib)
  | "slice" => some (ParseSlice lib)
  | "array" => some (ParseArray lib)
  | _ => none

/-! ## tag.go -/

/-- The constant `defaultTag`. -/
def defaultTag : String := "default"

/-- The initial value of the package variable `Tag`. -/
def initialTag : String := defaultTag

/-- The function `SetDefaultTag`: the value of the package variable `Tag` after the call,
given its value before. -/
def SetDefaultTag (_Tag : String) (tag : String) : String := tag

/-! ## defaults.go -/

/-- The method `fieldVal.CanSet()` for the value of field `field` of a struct the
traversal has reached: such a struct is addressable and was not reached through an unexported
field, so its field is settable exactly when the field is exported. -/
def CanSet (field : StructField) : Bool :=
  field.IsExported

/-- The function `assignable`. -/
def assignable (field : StructField) : Bool :=
  field.IsExported && CanSet field

/-- The function `isUnset`, on a value `val` of type `t`. -/
def isUnset (t : GoType) (val : Value) : Bool :=
  if t.Kind = .Pointer then val.IsNil
  else deepEqual val (zeroValue t)

/-- The function `isStructOrStructPtr`, on a value of type `t`. -/
def isStructOrStructPtr (env : TypeEnv) (t : GoType) : Bool :=
  t.Kind == .Struct ||
    (t.Kind == .Pointer &&
      (match t.Elem env with
       | some e => e.Kind == .Struct
       | none => false))

/-- A result of the traversal functions: the value the place holds afterwards and the
error returned (none for `nil`). -/
abbrev Outcome := Value × Option GoError

/-- The local variable `typeName` of `setFieldValue`: the key under which the parser of
`fieldType` is looked up. -/
def typeName (lib : Lib) (fieldType : GoType) : String :=
  if fieldType.Name = "" then kindString fieldType.Kind else fieldType.TypeString lib

/-- The part of `setFieldValue` after the pointer has been dereferenced: the look-up of the
parser, the parse and the assignment, on the value `fieldVal` of type `fieldType`. -/
def setParsedValue (lib : Lib) (fieldVal : Value) (fieldType : GoType) (tagVal : String) :
    Option Outcome :=
  let typeName : String := typeName lib fieldType
  match parser lib typeName with
  | none => some (fieldVal, some (.text (ErrUnsupportedType.Error ++ " \"" ++ typeName ++ "\"")))
  | some parserFunc =>
    match parserFunc tagVal fieldType with
    | none => none
    | some (_, some err) => some (fieldVal, some err)
    | some (none, none) => some (fieldVal, none)
    | some (some parsedVal, none) =>
      if fieldType.Kind = .Map ∨ fieldType.Kind = .Slice ∨ fieldType.Kind = .Array then
        if lib.convertibleTo parsedVal.typ fieldType then some (parsedVal.val, none)
        else some (fieldVal, some (.text ("parsed value type " ++ lib.typeString parsedVal.typ ++
          " cannot be converted to field type " ++ lib.typeString fieldType)))
      else some (parsedVal.val, none)

/-- The function `setFieldValue`: the value of the field afterwards and the error
returned. -/
def setFieldValue (env : TypeEnv) (lib : Lib) (fieldVal : Value) (fieldType : GoType)
    (tagVal : String) : Option Outcome :=
  if fieldType.Kind = .Pointer then
    match fieldType.Elem env with
    | none => none
    | some elemType =>
      let allocated : Value := if fieldVal.IsNil then .ptr (zeroValue elemType) else fieldVal
      match allocated.Elem with
      | none => none
      | some pointee =>
        match setParsedValue lib pointee elemType tagVal with
        | none => none
        | some (pointee', err) => some (.ptr pointee', err)
  else setParsedValue lib fieldVal fieldType tagVal

/-- The body of the loop of `setDefaults` for one field: the value of the field afterwards
and the error the loop returns at this field (none when the loop goes on).  The argument
`recurse` is the recursive call `setDefaults`. -/
def setDefaultsField (recurse : GoType → Value → Option Outcome) (env : TypeEnv) (lib : Lib)
    (Tag : String) (field : StructField) (fieldVal : Value) : Option Outcome :=
  if !assignable field then some (fieldVal, none)
  else if isStructOrStructPtr env field.Typ &&
      (field.Tag.Get Tag == "" || field.Typ.Kind == .Struct) then
    if field.Typ.Kind = .Pointer then
      match field.Typ.Elem env with
      | none => none
      | some elemType =>
        let allocated : Value := if fieldVal.IsNil then .ptr (zeroValue elemType) else fieldVal
        match allocated.Elem with
        | none => none
        | some pointee =>
          match recurse elemType pointee with
          | none => none
          | some (pointee', some err) =>
            some (.ptr pointee',
              some (.wrap ("failed to set defaults for field " ++ field.Name ++ ": ") err))
          | some (pointee', none) => some (.ptr pointee', none)
    else
      match recurse field.Typ fieldVal with
      | none => none
      | some (fieldVal', some err) =>
        some (fieldVal',
          some (.wrap ("failed to set defaults for field " ++ field.Name ++ ": ") err))
      | some (fieldVal', none) => some (fieldVal', none)
  else if !isUnset field.Typ fieldVal then some (fieldVal, none)
  else
    let tagVal := field.Tag.Get Tag
    if tagVal = "" then some (fieldVal, none)
    else
      match setFieldValue env lib fieldVal field.Typ tagVal with
      | none => none
      | some (fieldVal', some err) =>
        some (fieldVal',
          some (.wrap ("failed to set default for field " ++ field.Name ++ ": ") err))
      | some (fieldVal', none) => some (fieldVal', none)

/-- The loop of `setDefaults` over the fields in declaration order: the values of the
fields afterwards and the error returned.  It stops at the first field whose body returns an
error. -/
def setDefaultsLoop (body : StructField → Value → Option Outcome) :
    List StructField → List Value → Option (List Value × Option GoError)
  | [], vals => some (vals, none)
  | _ :: _, [] => none
  | field :: fields, fieldVal :: rest =>
    match body field fieldVal with
    | none => none
    | some (fieldVal', some err) => some (fieldVal' :: rest, some err)
    | some (fieldVal', none) =>
      match setDefaultsLoop body fields rest with
      | none => none
      | some (rest', err) => some (fieldVal' :: rest', err)

/-- The function `setDefaults` on the struct value `v` of type `t`: the struct afterwards
and the error returned.  The first argument bounds the depth of the recursion; the result is
none when the bound is reached. -/
def setDefaults (env : TypeEnv) (lib : Lib) (Tag : String) :
    Nat → GoType → Value → Option Outcome
  | 0, _, _ => none
  | fuel + 1, t, v =>
    match v with
    | .struct vals =>
      match setDefaultsLoop (setDefaultsField (setDefaults env lib Tag fuel) env lib Tag)
          t.Fields vals with
      | none => none
      | some (vals', err) => some (.struct vals', err)
    | _ => none

/-- The function `Defaults` on the argument `s`: the argument afterwards (a pointer, with
the struct it points to) and the error returned. -/
def Defaults (env : TypeEnv) (lib : Lib) (Tag : String) (fuel : Nat) (s : RValue) :
    Option Outcome :=
  if s.typ.Kind ≠ .Pointer ∨ s.val.IsNil = true then
    some (s.val, some (.text "input must be a non-nil pointer to a struct"))
  else
    match s.typ.Elem env, s.val.Elem with
    | some t, some v =>
      if t.Kind ≠ .Struct then
        some (s.val, some (.text "input must be a pointer to a struct"))
      else
        match setDefaults env lib Tag fuel t v with
        | none => none
        | some (v', err) => some (.ptr v', err)
    | _, _ => none

/-! ## Integer literals -/

/-- The number the digits of `cs` denote in base `base`, continuing from `n`, with no
bound on its size; underscores are skipped. -/
def foldDigits (base : Nat) : List Char → Nat → Nat
  | [], n => n
  | c :: cs, n =>
    if c = '_' then foldDigits base cs n
    else foldDigits base cs (n * base + (digitOf c).getD 0)

/-- Every character of `cs` is an underscore or a digit of base `base`. -/
def validDigits (base : Nat) : List Char → Bool
  | [] => true
  | c :: cs =>
    (c == '_' ||
      (match digitOf c with
       | some d => decide (d < base)
       | none => false)) && validDigits base cs

/-- The text `cs` has an underscore. -/
def hasUnderscore : List Char → Bool
  | [] => false
  | c :: cs => c == '_' || hasUnderscore cs

/-- A well-formed unsigned integer literal and the value it denotes, in the words of the
claims: a base prefix (`0b`, `0o` or `0`, `0x`; none for base 10), then digits of that base,
with underscores only where `underscoreOK` allows them.  The value is read without a bound.
None for a text that is not such a literal. -/
def uintLiteral (s : String) : Option Nat :=
  if s = "" then none
  else if validDigits (detectBase s.data).1 (detectBase s.data).2 = true ∧
      (hasUnderscore (detectBase s.data).2 = true → underscoreOK s.data = true) then
    some (foldDigits (detectBase s.data).1 (detectBase s.data).2 0)
  else none

/-- A well-formed integer literal and the value it denotes: an optional sign, then an
unsigned literal. -/
def intLiteral (s : String) : Option Int :=
  match uintLiteral (String.mk (dropSign s.data)) with
  | none => none
  | some u => some (if isNeg s.data = true then -(u : Int) else (u : Int))

/-! ## A sample library and sample struct types

The theorems below hold for every `Lib`.  Their instances are evaluated with `sampleLib`,
which reads plain decimal integer literals and rejects every JSON text, and on the struct
types of `defaults_test.go`. -/

/-- The number a list of decimal digits denotes, continuing from `acc`; none when a
character is not a digit. -/
def digitsValue (acc : Nat) : List Char → Option Nat
  | [] => some acc
  | c :: cs => if c.isDigit then digitsValue (acc * 10 + (c.toNat - 48)) cs else none

/-- A plain decimal literal with an optional minus sign, as `strconv.ParseInt` reads it
with base 0 for the width `bitSize` (0 standing for 64). -/
def sampleParseInt (quote : String → String) (s : String) (bitSize : Nat) :
    Except GoError Int :=
  let bits := if bitSize = 0 then 64 else bitSize
  let syntaxErr : GoError := .wrap ("strconv.ParseInt: parsing " ++ quote s ++ ": ") ErrSyntax
  let rangeErr : GoError := .wrap ("strconv.ParseInt: parsing " ++ quote s ++ ": ") ErrRange
  match s.data with
  | [] => .error syntaxErr
  | '-' :: cs =>
    match cs, digitsValue 0 cs with
    | _ :: _, some n => if n ≤ 2 ^ (bits - 1) then .ok (-(n : Int)) else .error rangeErr
    | _, _ => .error syntaxErr
  | cs =>
    match digitsValue 0 cs with
    | some n => if n < 2 ^ (bits - 1) then .ok (n : Int) else .error rangeErr
    | none => .error syntaxErr

/-- A plain decimal literal, as `strconv.ParseUint` reads it with base 0 for the width
`bitSize` (0 standing for 64). -/
def sampleParseUint (quote : String → String) (s : String) (bitSize : Nat) :
    Except GoError Nat :=
  let bits := if bitSize = 0 then 64 else bitSize
  match s.data with
  | [] => .error (.wrap ("strconv.ParseUint: parsing " ++ quote s ++ ": ") ErrSyntax)
  | cs =>
    match digitsValue 0 cs with
    | some n =>
      if n < 2 ^ bits then .ok n
      else .error (.wrap ("strconv.ParseUint: parsing " ++ quote s ++ ": ") ErrRange)
    | none => .error (.wrap ("strconv.ParseUint: parsing " ++ quote s ++ ": ") ErrSyntax)

/-- A text in double quotes, as `strconv.Quote` gives it for a text without characters to
escape. -/
def sampleQuote (s : String) : String := "\"" ++ s ++ "\""

/-- A library for the examples: it reads plain decimal integers and rejects every float,
complex, duration and JSON text. -/
def sampleLib : Lib where
  strconvQuote := sampleQuote
  strconvParseInt := fun s _ bitSize => sampleParseInt sampleQuote s bitSize
  strconvParseUint := fun s _ bitSize => sampleParseUint sampleQuote s bitSize
  strconvParseFloat := fun s _ =>
    .error (.wrap ("strconv.ParseFloat: parsing " ++ sampleQuote s ++ ": ") ErrSyntax)
  strconvParseComplex := fun s _ =>
    .error (.wrap ("strconv.ParseComplex: parsing " ++ sampleQuote s ++ ": ") ErrSyntax)
  timeParseDuration := fun s => .error (.text ("time: invalid duration " ++ sampleQuote s))
  jsonUnmarshal := fun _ _ => .error (.text "json: invalid character")
  convert := fun _ _ => none
  convertibleTo := fun _ _ => true
  typeString := fun t => kindString t.Kind
  convertibleTo_self := fun _ => rfl

/-- No declared type is referred to by name. -/
def noEnv : TypeEnv := fun _ => none

/-- An exported field with the tag `default:"tag"`. -/
def taggedField (name : String) (typ : GoType) (tag : String) : StructField :=
  .mk name "" typ [("default", tag)]

/-- An exported field without a tag. -/
def untaggedField (name : String) (typ : GoType) : StructField :=
  .mk name "" typ []

/-- The test type `testStruct` (with the tag of `A` written without underscores). -/
def testStruct : GoType :=
  .named "testStruct" "defaults.testStruct"
    (.struct [taggedField "A" (.basic .Int) "123", taggedField "B" (.basic .String) "gm"])

/-- The test type `testUnexportedField`. -/
def testUnexportedField : GoType :=
  .named "testUnexportedField" "defaults.testUnexportedField"
    (.struct [.mk "privateField" "defaults" (.basic .Int) [("default", "123")]])

/-- The test type `testEmptyDefaultTag`. -/
def testEmptyDefaultTag : GoType :=
  .named "testEmptyDefaultTag" "defaults.testEmptyDefaultTag"
    (.struct [taggedField "Field" (.basic .Int) ""])

/-- The test type `testParseBool`. -/
def testParseBool : GoType :=
  .named "testParseBool" "defaults.testParseBool"
    (.struct [taggedField "Bool" (.basic .Bool) "TTT"])

/-- The test record `test` cut down to its field `Bool`, tagged `default:"true"`. -/
def boolRecord : GoType :=
  .named "test" "defaults.test" (.struct [taggedField "Bool" (.basic .Bool) "true"])

/-- The test type `test` cut down to its field `StructPtr`, a `*testStruct` without a
tag. -/
def structPtrRecord : GoType :=
  .named "test" "defaults.test" (.struct [untaggedField "StructPtr" (.ptr testStruct)])

/-- The test type `test` cut down to its field `Struct`, here with a tag of its own. -/
def structRecord : GoType :=
  .named "test" "defaults.test" (.struct [taggedField "Struct" testStruct "not parsed"])

/-- A record with a field `StructPtr *testStruct` that has the tag `default:"x"`. -/
def taggedStructPtrRecord : GoType :=
  .named "tagged" "defaults.tagged" (.struct [taggedField "StructPtr" (.ptr testStruct) "x"])

/-- The test type `test` cut down to its field `BoolPtr *bool`, tagged `default:"true"`. -/
def boolPtrRecord : GoType :=
  .named "test" "defaults.test" (.struct [taggedField "BoolPtr" (.ptr (.basic .Bool)) "true"])

/-- The fields of a record without tags, in the words of the claim: no field carries a tag,
no field is a pointer to a struct, and each field of struct kind satisfies `nested` with the
value it holds.  The list of values has a value for each field. -/
def untaggedFields (nested : GoType → Value → Bool) (env : TypeEnv) (Tag : String) :
    List StructField → List Value → Bool
  | [], _ => true
  | _ :: _, [] => false
  | field :: fields, fieldVal :: rest =>
    (field.Tag.Get Tag == "" &&
      (if field.Typ.Kind = .Struct then nested field.Typ fieldVal
       else !isStructOrStructPtr env field.Typ)) &&
    untaggedFields nested env Tag fields rest

/-- A record without tags, in the words of the claim: a struct value of nesting depth at
most `depth` none of whose fields, those of its nested structs included, carries a tag, and
which has no pointer-to-struct field. -/
def untaggedRecord (env : TypeEnv) (Tag : String) : Nat → GoType → Value → Bool
  | 0, _, _ => false
  | depth + 1, t, v =>
    match v with
    | .struct vals => untaggedFields (untaggedRecord env Tag depth) env Tag t.Fields vals
    | _ => false

/-- A record with an untagged int field and an untagged nested struct whose fields are
untagged too. -/
def plainRecord : GoType :=
  .named "plain" "defaults.plain"
    (.struct [untaggedField "N" (.basic .Int),
      untaggedField "Inner" (.struct [untaggedField "S" (.basic .String),
        untaggedField "F" (.other .Func "func()")])])

/-- A record whose second field has a tag that does not parse: `A int` tagged `"123"`,
`Bad bool` tagged `"TTT"`, `C int` tagged `"123"`. -/
def stopRecord : GoType :=
  .named "stop" "defaults.stop"
    (.struct [taggedField "A" (.basic .Int) "123", taggedField "Bad" (.basic .Bool) "TTT",
      taggedField "C" (.basic .Int) "123"])

/-- The record `stopRecord` with the tag of its second field repaired to `"true"`. -/
def stopRecordRepaired : GoType :=
  .named "stop" "defaults.stop"
    (.struct [taggedField "A" (.basic .Int) "123", taggedField "Bad" (.basic .Bool) "true",
      taggedField "C" (.basic .Int) "123"])

/-- The test type `testFuncType`. -/
def testFuncType : GoType :=
  .named "testFuncType" "defaults.testFuncType"
    (.struct [taggedField "FuncField" (.other .Func "func()") "some_value"])

/-- The test type `testFuncPtrType`. -/
def testFuncPtrType : GoType :=
  .named "testFuncPtrType" "defaults.testFuncPtrType"
    (.struct [taggedField "FuncPtrField" (.ptr (.other .Func "func()")) "some_value"])

/-- A struct whose field `Count int` carries the tag `"abc"`. -/
def badInner : GoType :=
  .named "badInner" "defaults.badInner"
    (.struct [taggedField "Count" (.basic .Int) "abc"])

/-- A struct with a field `Inner badInner`. -/
def badOuter : GoType :=
  .named "badOuter" "defaults.badOuter" (.struct [untaggedField "Inner" badInner])

/-! ## Error paths -/

/-- The error that wraps `leaf` once for each name of `names`, outermost first, each time
with the prefix "failed to set defaults for field NAME: ". -/
def wrapPath : List String → GoError → GoError
  | [], leaf => leaf
  | n :: ns, leaf => .wrap ("failed to set defaults for field " ++ n ++ ": ") (wrapPath ns leaf)

/-- The prefixes of `wrapPath names`, concatenated. -/
def pathText : List String → String
  | [] => ""
  | n :: ns => "failed to set defaults for field " ++ n ++ ": " ++ pathText ns

/-- The result of calling `Unwrap` `n` times in a row. -/
def unwrapN : Nat → GoError → Option GoError
  | 0, e => some e
  | n + 1, e =>
    match e.Unwrap with
    | none => none
    | some cause => unwrapN n cause

/-- The names `names` lead from the struct type `t` through nested fields, each a struct or
a pointer, to a struct type that has a field named `leaf`. -/
def isFieldPath (env : TypeEnv) : List String → GoType → String → Prop
  | [], t, leaf => ∃ f ∈ t.Fields, f.Name = leaf
  | n :: ns, t, leaf =>
    ∃ f ∈ t.Fields, f.Name = n ∧
      ((f.Typ.Kind = .Struct ∧ isFieldPath env ns f.Typ leaf) ∨
        (f.Typ.Kind = .Pointer ∧ ∃ e, f.Typ.Elem env = some e ∧ isFieldPath env ns e leaf))

/-- The error `err` names a path of fields from the struct type `t` down to a field for
which `setFieldValue` returned the error `cause`. -/
def ErrPath (env : TypeEnv) (lib : Lib) (Tag : String) (t : GoType) (err : GoError)
    (names : List String) (leaf : String) (cause : GoError) : Prop :=
  isFieldPath env names t leaf ∧
    err = wrapPath names (.wrap ("failed to set default for field " ++ leaf ++ ": ") cause) ∧
    ∃ (f : StructField) (fv fv' : Value), f.Name = leaf ∧
      setFieldValue env lib fv f.Typ (f.Tag.Get Tag) = some (fv', some cause)

/-- The test type `testInt8Overflow`. -/
def testInt8Overflow : GoType :=
  .named "testInt8Overflow" "defaults.testInt8Overflow"
    (.struct [taggedField "Int8" (.basic .Int8) "128"])

/-- The test type `testInt8PtrOverflow`. -/
def testInt8PtrOverflow : GoType :=
  .named "testInt8PtrOverflow" "defaults.testInt8PtrOverflow"
    (.struct [taggedField "Int8Ptr" (.ptr (.basic .Int8)) "128"])

/-- A record `struct { P *int8; Q int }` whose fields are tagged `default:"128"` and
`default:"5"`. -/
def retryRecord : GoType :=
  .named "retryRecord" "defaults.retryRecord"
    (.struct [taggedField "P" (.ptr (.basic .Int8)) "128",
      taggedField "Q" (.basic .Int) "5"])

/-- The type `type Node struct { Next *Node }`; the pointer refers to the type by name. -/
def nodeType : GoType :=
  .named "Node" "main.Node" (.struct [untaggedField "Next" (.ptrRef "main.Node")])

/-- The declared types of a program that declares `Node`. -/
def nodeEnv : TypeEnv := fun id => if id = "main.Node" then some nodeType else none

/-- The elements of a JSON array of plain decimal numbers, read from the text after the
opening bracket: `n` is the number read so far, `seen` tells whether it has a digit, `acc`
holds the elements before it.  None when the text is not such an array. -/
def sampleInts : List Char → Nat → Bool → List Value → Option (List Value)
  | [], _, _, _ => none
  | c :: cs, n, seen, acc =>
    if c.isDigit then sampleInts cs (n * 10 + (c.toNat - 48)) true acc
    else if c = ',' then
      if seen then sampleInts cs 0 false (acc ++ [.int n]) else none
    else if c = ']' then
      if cs.isEmpty then
        if seen then some (acc ++ [.int n])
        else if acc.isEmpty then some []
        else none
      else none
    else none

/-- A decoder for the examples: it decodes a JSON array of plain decimal numbers, written
without blanks, into a `[]int`, and rejects every other text and every other target. -/
def sampleJsonUnmarshal (s : String) (t : GoType) : Except GoError Value :=
  match t, s.data with
  | .slice (.basic .Int), '[' :: cs =>
    match sampleInts cs 0 false [] with
    | some vs => .ok (.slice vs)
    | none => .error (.text "json: invalid character")
  | _, _ => .error (.text "json: invalid character")

/-- The library `sampleLib` with the decoder `sampleJsonUnmarshal`. -/
def jsonLib : Lib :=
  { sampleLib with jsonUnmarshal := sampleJsonUnmarshal }

/-- The test type `testArrayOverflow`. -/
def testArrayOverflow : GoType :=
  .named "testArrayOverflow" "defaults.testArrayOverflow"
    (.struct [taggedField "Array" (.array 5 (.basic .Int)) "[1,2,3,4,5,6]"])

/-- The test type `testArrayPtrOverflow`. -/
def testArrayPtrOverflow : GoType :=
  .named "testArrayPtrOverflow" "defaults.testArrayPtrOverflow"
    (.struct [taggedField "ArrayPtr" (.ptr (.array 5 (.basic .Int))) "[1,2,3,4,5,6]"])

/-- The test type `testInvalidMap`, with `any` as an interface type. -/
def testInvalidMap : GoType :=
  .named "testInvalidMap" "defaults.testInvalidMap"
    (.struct [taggedField "Map" (.map (.basic .String) (.other .Interface "interface {}"))
      "{invalid}"])

/-- Two lists of fields agree under the tag key `k`: field by field they have the same
name, package path and type, and the same value under `k`; what they carry under other keys
may differ. -/
def agreeUnderKey (k : String) (fs gs : List StructField) : Prop :=
  List.Forall₂ (fun f g => f.Name = g.Name ∧ f.PkgPath = g.PkgPath ∧ f.Typ = g.Typ ∧
    f.Tag.Get k = g.Tag.Get k) fs gs

/-- A field that is unexported, or that is neither a struct nor a pointer to a struct and
has an empty tag under the key `Tag`. -/
def unexportedOrEmptyTag (env : TypeEnv) (Tag : String) (f : StructField) : Bool :=
  !f.IsExported || (f.Tag.Get Tag == "" && !isStructOrStructPtr env f.Typ)

/-- A record `struct { Map map[string]int; Slice []int }` whose fields are tagged
`default:"{\"a\":1}"` and `default:"[1,2,3]"`. -/
def collectionRecord : GoType :=
  .named "collections" "defaults.collections"
    (.struct [taggedField "Map" (.map (.basic .String) (.basic .Int)) "\x7b\"a\":1\x7d",
      taggedField "Slice" (.slice (.basic .Int)) "[1,2,3]"])

/-- A record `struct { N int }` whose field carries `default:"5" cfg:"7"`. -/
def twoKeyRecord : GoType :=
  .named "twoKey" "defaults.twoKey"
    (.struct [.mk "N" "" (.basic .Int) [("default", "5"), ("cfg", "7")]])

/-- The record `twoKeyRecord` with the pair under `default` changed to `default:"abc"`. -/
def twoKeyRecordOther : GoType :=
  .named "twoKey" "defaults.twoKey"
    (.struct [.mk "N" "" (.basic .Int) [("default", "abc"), ("cfg", "7")]])

/-! ## time: durations

The functions `ParseDuration`, `leadingInt`, `leadingFraction` and `quote` of the Go standard
library (`time/format.go`).  They read the bytes of the text; here they read its characters.
A character outside ASCII is encoded by bytes from 128 on, which are neither digits, signs
nor periods, so both readings split the text at the same places. -/

/-- The test `c == '.' || '0' <= c && c <= '9'`. -/
def isDigitOrDot (c : Char) : Bool :=
  c = '.' ∨ (48 ≤ c.toNat ∧ c.toNat ≤ 57)

/-- The function `leadingInt`, continuing from the number `x`: the number the leading digits
denote and the rest of the text; none for `errLeadingInt`. -/
def leadingInt : List Char → Nat → Option (Nat × List Char)
  | [], x => some (x, [])
  | c :: cs, x =>
    if c.toNat < 48 ∨ c.toNat > 57 then some (x, c :: cs)
    else if x > 2 ^ 63 / 10 then none
    else
      let x' := (x * 10 + c.toNat - 48) % 2 ^ 64
      if x' > 2 ^ 63 then none else leadingInt cs x'

/-- The function `leadingFraction`, continuing from the number `x`, the scale `scale` (a
power of ten) and the flag `overflow`: the number, the scale and the rest of the text. -/
def leadingFraction : List Char → Nat → Nat → Bool → Nat × Nat × List Char
  | [], x, scale, _ => (x, scale, [])
  | c :: cs, x, scale, overflow =>
    if c.toNat < 48 ∨ c.toNat > 57 then (x, scale, c :: cs)
    else if overflow then leadingFraction cs x scale true
    else if x > (2 ^ 63 - 1) / 10 then leadingFraction cs x scale true
    else
      let y := (x * 10 + c.toNat - 48) % 2 ^ 64
      if y > 2 ^ 63 then leadingFraction cs x scale true
      else leadingFraction cs y (scale * 10) false

/-- The integer nearest to `num / den`, the even one of two that are equally near. -/
def roundHalfEven (num den : Nat) : Nat :=
  let q := num / den
  let r := num % den
  if 2 * r < den then q
  else if 2 * r > den then q + 1
  else if q % 2 = 0 then q else q + 1

/-- The `float64` nearest to the positive number `num / den`, as a fraction: a mantissa of
53 bits times a power of two.  The numbers that occur are far from the ends of the exponent
range. -/
def roundFloat64 (num den : Nat) : Nat × Nat :=
  if num = 0 then (0, 1)
  else
    let e₀ : Int := (Nat.log2 num : Int) - (Nat.log2 den : Int)
    let below : Bool :=
      if 0 ≤ e₀ then decide (num < den * 2 ^ e₀.toNat) else decide (num * 2 ^ (-e₀).toNat < den)
    let e : Int := if below then e₀ - 1 else e₀
    if e ≤ 52 then (roundHalfEven (num * 2 ^ (52 - e).toNat) den, 2 ^ (52 - e).toNat)
    else (roundHalfEven num (den * 2 ^ (e - 52).toNat) * 2 ^ (e - 52).toNat, 1)

/-- The expression `uint64(float64(f) * (float64(unit) / scale))`. -/
def fractionNanos (f unit scale : Nat) : Nat :=
  let a := roundFloat64 f 1
  let b := roundFloat64 unit scale
  let p := roundFloat64 (a.1 * b.1) (a.2 * b.2)
  (p.1 / p.2) % 2 ^ 64

/-- The table `unitMap`. -/
def unitMap (u : String) : Option Nat :=
  match u with
  | "ns" => some 1
  | "us" => some 1000
  | "µs" => some 1000
  | "μs" => some 1000
  | "ms" => some 1000000
  | "s" => some 1000000000
  | "m" => some 60000000000
  | "h" => some 3600000000000
  | _ => none

/-- The digit `lowerhex[n]`. -/
def lowerhex (n : Nat) : Char :=
  if n < 10 then Char.ofNat (48 + n) else Char.ofNat (87 + n)

/-- The bytes of the UTF-8 encoding of a character. -/
def utf8Bytes (c : Char) : List Nat :=
  let n := c.toNat
  if n < 128 then [n]
  else if n < 2048 then [192 + n / 64, 128 + n % 64]
  else if n < 65536 then [224 + n / 4096, 128 + n / 64 % 64, 128 + n % 64]
  else [240 + n / 262144, 128 + n / 4096 % 64, 128 + n / 64 % 64, 128 + n % 64]

/-- What `quote` of package `time` appends for one character: the character, after a
backslash when it is a double quote or a backslash; for a control character or a character
outside ASCII, `\x` and two hexadecimal digits for each of its bytes. -/
def timeQuoteChar (c : Char) : List Char :=
  if c.toNat ≥ 128 ∨ c.toNat < 32 then
    (utf8Bytes c).flatMap (fun b => ['\\', 'x', lowerhex (b / 16), lowerhex (b % 16)])
  else if c = '"' ∨ c = '\\' then ['\\', c]
  else [c]

/-- The function `quote` of package `time`. -/
def timeQuote (s : List Char) : String :=
  String.mk ('"' :: s.flatMap timeQuoteChar ++ ['"'])

/-- The leading characters of the text that are neither digits nor periods, and the rest:
the loop that consumes the unit. -/
def unitText : List Char → List Char × List Char
  | [] => ([], [])
  | c :: cs =>
    if isDigitOrDot c then ([], c :: cs)
    else ((c :: (unitText cs).1), (unitText cs).2)

/-- The error `errors.New("time: invalid duration " + quote(orig))`. -/
def invalidDuration (orig : List Char) : GoError :=
  .text ("time: invalid duration " ++ timeQuote orig)

/-- The step `(\.[0-9]*)?` of a round, on the text `s₁` that follows the leading digits:
the fraction `f`, its scale, the rest of the text and the flag `post`. -/
def durationFraction (s₁ : List Char) : Nat × Nat × List Char × Bool :=
  match s₁ with
  | c₁ :: r =>
    if c₁ = '.' then
      ((leadingFraction r 0 1 false).1, (leadingFraction r 0 1 false).2.1,
        (leadingFraction r 0 1 false).2.2,
        r.length != (leadingFraction r 0 1 false).2.2.length)
    else (0, 1, s₁, false)
  | [] => (0, 1, s₁, false)

/-- The value `v` of a round after the fraction has been added: `v₁` is `v * unit`. -/
def addFraction (v₁ f unit scale : Nat) : Nat :=
  if f > 0 then (v₁ + fractionNanos f unit scale) % 2 ^ 64 else v₁

/-- The end of a round, from "Consume unit" on: `v`, `f` and `scale` are the number read,
`s₂` is the text that follows it and `d` the sum so far. -/
def parseDurationUnit (orig : List Char) (v f scale : Nat) (s₂ : List Char) (d : Nat) :
    Except GoError (List Char × Nat) :=
  if (unitText s₂).1.isEmpty then
    .error (.text ("time: missing unit in duration " ++ timeQuote orig))
  else
    match unitMap (String.mk (unitText s₂).1) with
    | none =>
      .error (.text ("time: unknown unit " ++ timeQuote (unitText s₂).1 ++ " in duration " ++
        timeQuote orig))
    | some unit =>
      if v > 2 ^ 63 / unit then .error (invalidDuration orig)
      else if f > 0 ∧ addFraction ((v * unit) % 2 ^ 64) f unit scale > 2 ^ 63 then
        .error (invalidDuration orig)
      else if (d + addFraction ((v * unit) % 2 ^ 64) f unit scale) % 2 ^ 64 > 2 ^ 63 then
        .error (invalidDuration orig)
      else
        .ok ((unitText s₂).2, (d + addFraction ((v * unit) % 2 ^ 64) f unit scale) % 2 ^ 64)

/-- One round of the loop `for s != ""` of `time.ParseDuration`, on the rest `s` of the
text (not empty) and the sum `d` so far: the rest of the text and the sum after the round, or
the error the function returns. -/
def parseDurationRound (orig : List Char) (s : List Char) (d : Nat) :
    Except GoError (List Char × Nat) :=
  match s with
  | [] => .ok ([], d)
  | c :: cs =>
    if !isDigitOrDot c then .error (invalidDuration orig)
    else
      match leadingInt (c :: cs) 0 with
      | none => .error (invalidDuration orig)
      | some (v, s₁) =>
        let pre : Bool := (c :: cs).length != s₁.length
        let post : Bool := (durationFraction s₁).2.2.2
        if !pre && !post then .error (invalidDuration orig)
        else
          parseDurationUnit orig v (durationFraction s₁).1 (durationFraction s₁).2.1
            (durationFraction s₁).2.2.1 d

/-- The loop `for s != ""` of `time.ParseDuration` on the rest `s` of the text and the sum
`d` so far: the final sum or the error.  The first argument bounds the number of rounds;
each round consumes at least one character, so the length of the text is enough. -/
def parseDurationLoop (orig : List Char) : Nat → List Char → Nat → Except GoError Nat
  | 0, _, d => .ok d
  | _ + 1, [], d => .ok d
  | fuel + 1, c :: cs, d =>
    match parseDurationRound orig (c :: cs) d with
    | .error err => .error err
    | .ok (s', d') => parseDurationLoop orig fuel s' d'

/-- The function `time.ParseDuration`: the duration in nanoseconds, or the error. -/
def timeParseDuration (s : String) : Except GoError Int :=
  let orig := s.data
  let neg := isNeg s.data
  let s₁ := dropSign s.data
  if s₁ = ['0'] then .ok 0
  else if s₁ = [] then .error (invalidDuration orig)
  else
    match parseDurationLoop orig s₁.length s₁ 0 with
    | .error err => .error err
    | .ok d =>
      if neg then .ok (wrapSigned 64 (-(wrapSigned 64 (d : Int))))
      else if d > 2 ^ 63 - 1 then .error (invalidDuration orig)
      else .ok (d : Int)

/-- The library `lib` with `time.ParseDuration` as defined above. -/
def withTime (lib : Lib) : Lib :=
  { lib with timeParseDuration := timeParseDuration }


/-! ## Duration literals -/

/-- The unit suffixes the claim names. -/
inductive DurationUnit where
  | ns | us | ms | s | m | h
  deriving DecidableEq, Repr

/-- The text of a unit suffix. -/
def DurationUnit.suffix : DurationUnit → String
  | .ns => "ns"
  | .us => "us"
  | .ms => "ms"
  | .s => "s"
  | .m => "m"
  | .h => "h"

/-- The length of a unit in nanoseconds. -/
def DurationUnit.nanos : DurationUnit → Nat
  | .ns => 1
  | .us => 1000
  | .ms => 1000000
  | .s => 1000000000
  | .m => 60000000000
  | .h => 3600000000000

/-- The number a text of decimal digits denotes, continuing from `x`, with no bound on its
size. -/
def decimalValue : List Char → Nat → Nat
  | [], x => x
  | c :: cs, x => decimalValue cs (x * 10 + (c.toNat - 48))

/-- A non-empty text of decimal digits. -/
def isDecimal (cs : List Char) : Bool :=
  !cs.isEmpty && cs.all (fun c => decide (48 ≤ c.toNat ∧ c.toNat ≤ 57))

/-- A duration literal in the words of the claim, as the list of its groups: each group is
a decimal number and a unit suffix. -/
abbrev DurationGroups := List (List Char × DurationUnit)

/-- Every number of the groups is a non-empty text of decimal digits. -/
def wellFormedGroups (gs : DurationGroups) : Bool :=
  gs.all (fun g => isDecimal g.1)

/-- The text of the literal: each number followed by its suffix. -/
def durationText : DurationGroups → List Char
  | [] => []
  | g :: gs => g.1 ++ g.2.suffix.data ++ durationText gs

/-- The sum of number times unit, in nanoseconds, with no bound on its size. -/
def durationSum : DurationGroups → Nat
  | [] => 0
  | g :: gs => decimalValue g.1 0 * g.2.nanos + durationSum gs

/-- The keys of the registry `parser`. -/
def parserKeys : List String :=
  ["int", "int8", "int16", "int32", "int64", "uint", "uint8", "uint16", "uint32", "uint64",
    "float32", "float64", "complex64", "complex128", "bool", "string", "time.Duration",
    "map", "slice", "array"]

/-- A record with a field `Inner testStruct` without a tag. -/
def untaggedStructRecord : GoType :=
  .named "outer" "defaults.outer" (.struct [untaggedField "Inner" testStruct])

/-- The type `type MyInt int`. -/
def myIntType : GoType := .named "MyInt" "defaults.MyInt" (.basic .Int)

/-- A record with a field `N MyInt` tagged `default:"5"`. -/
def myIntRecord : GoType :=
  .named "myIntRecord" "defaults.myIntRecord" (.struct [taggedField "N" myIntType "5"])

/-- A record with a field `D time.Duration` tagged `default:"1h30m"`. -/
def durationRecord : GoType :=
  .named "durationRecord" "defaults.durationRecord"
    (.struct [taggedField "D" durationType "1h30m"])

/-- The test type `testParseBoolPtr`. -/
def testParseBoolPtr : GoType :=
  .named "testParseBoolPtr" "defaults.testParseBoolPtr"
    (.struct [taggedField "BoolPtr" (.ptr (.basic .Bool)) "FAISE"])

/-- A text of octal digits: every character is one of `0` to `7`. -/
def isOctal (cs : List Char) : Bool :=
  cs.all (fun c => decide (48 ≤ c.toNat ∧ c.toNat ≤ 55))

/-! ## defaults.go on a memory with sharing

In the definitions above a pointer owns its pointee.  In Go two places can share memory: a
pointer field may point to another field of the struct, or to the struct another pointer
points to.  The functions of `defaults.go` are given once more, on a memory of allocated
objects in which a pointer holds an address, and a `reflect.Value` that can be set is the
address of a place. -/

/-- The address of a place: an allocated object and the path of field indices that leads
from the object to the place. -/
structure Addr where
  obj : Nat
  path : List Nat
  deriving DecidableEq, Repr

/-- What a place of the memory holds. -/
inductive Cell where
  /-- a value of a kind other than pointer and struct -/
  | val (v : Value)
  /-- a pointer: nil (none) or the address it holds -/
  | ptr (target : Option Addr)
  /-- a struct, with the places of its fields -/
  | struct (fields : List Cell)

/-- The memory: the allocated objects, an object being identified by its index. -/
abbrev Memory := List Cell

/-- The place a path of field indices leads to. -/
def Cell.get : Cell → List Nat → Option Cell
  | c, [] => some c
  | .struct fields, i :: path =>
    match fields[i]? with
    | some c => c.get path
    | none => none
  | _, _ :: _ => none

/-- The cell with the place at the end of a path replaced by `x`. -/
def Cell.set : Cell → List Nat → Cell → Option Cell
  | _, [], x => some x
  | .struct fields, i :: path, x =>
    match fields[i]? with
    | some c =>
      match c.set path x with
      | some c' => some (.struct (fields.set i c'))
      | none => none
    | none => none
  | _, _ :: _, _ => none

/-- What the place at an address holds. -/
def Memory.load (m : Memory) (a : Addr) : Option Cell :=
  match m[a.obj]? with
  | some c => c.get a.path
  | none => none

/-- The memory after `x` is stored at an address. -/
def Memory.store (m : Memory) (a : Addr) (x : Cell) : Option Memory :=
  match m[a.obj]? with
  | some c =>
    match c.set a.path x with
    | some c' => some (m.set a.obj c')
    | none => none
  | none => none

mutual
/-- The zero value of a type as the memory holds it: what `reflect.New(t)` points to. -/
def zeroCell : GoType → Cell
  | .basic k => .val (zeroBasic k)
  | .other _ _ => .val .nil
  | .ptr _ => .ptr none
  | .ptrRef _ => .ptr none
  | .slice _ => .val .nil
  | .map _ _ => .val .nil
  | .array n e => .val (zeroValue (.array n e))
  | .struct fs => .struct (zeroCells fs)
  | .named _ _ u => zeroCell u
/-- The zero values of the fields of a struct type, as the memory holds them. -/
def zeroCells : List StructField → List Cell
  | [] => []
  | f :: fs => zeroFieldCell f :: zeroCells fs
/-- The zero value of one field, as the memory holds it. -/
def zeroFieldCell : StructField → Cell
  | .mk _ _ t _ => zeroCell t
end

/-- The function `isUnset`, on what a place of type `t` holds; none when the cell is not of
the type (the function is called on fields that are not of struct kind). -/
def isUnsetMem (t : GoType) (val : Cell) : Option Bool :=
  if t.Kind = .Pointer then
    match val with
    | .ptr target => some target.isNone
    | _ => none
  else
    match val with
    | .val v => some (deepEqual v (zeroValue t))
    | _ => none

/-- A result of the traversal functions on the memory: the memory afterwards and the error
returned (none for `nil`). -/
abbrev MemOutcome := Memory × Option GoError

/-- The steps `if fieldVal.IsNil() { fieldVal.Set(reflect.New(elemType)) }` and
`fieldVal.Elem()` on the pointer `val` held at the address `fieldVal`: the memory afterwards
and the address the pointer holds.  A new object gets the next free index. -/
def elemOrNew (m : Memory) (fieldVal : Addr) (val : Cell) (elemType : GoType) :
    Option (Memory × Addr) :=
  match val with
  | .ptr none =>
    match (m ++ [zeroCell elemType]).store fieldVal (.ptr (some ⟨m.length, []⟩)) with
    | some m' => some (m', ⟨m.length, []⟩)
    | none => none
  | .ptr (some a) => some (m, a)
  | _ => none

/-- The part of `setFieldValue` after the pointer has been dereferenced, on the place at
the address `fieldVal`. -/
def setParsedValueMem (lib : Lib) (m : Memory) (fieldVal : Addr) (fieldType : GoType)
    (tagVal : String) : Option MemOutcome :=
  let typeName : String := typeName lib fieldType
  match parser lib typeName with
  | none => some (m, some (.text (ErrUnsupportedType.Error ++ " \"" ++ typeName ++ "\"")))
  | some parserFunc =>
    match parserFunc tagVal fieldType with
    | none => none
    | some (_, some err) => some (m, some err)
    | some (none, none) => some (m, none)
    | some (some parsedVal, none) =>
      if fieldType.Kind = .Map ∨ fieldType.Kind = .Slice ∨ fieldType.Kind = .Array then
        if lib.convertibleTo parsedVal.typ fieldType then
          match m.store fieldVal (.val parsedVal.val) with
          | some m' => some (m', none)
          | none => none
        else some (m, some (.text ("parsed value type " ++ lib.typeString parsedVal.typ ++
          " cannot be converted to field type " ++ lib.typeString fieldType)))
      else
        match m.store fieldVal (.val parsedVal.val) with
        | some m' => some (m', none)
        | none => none

/-- The function `setFieldValue`, on the place at the address `fieldVal`, which holds
`val`. -/
def setFieldValueMem (env : TypeEnv) (lib : Lib) (m : Memory) (fieldVal : Addr) (val : Cell)
    (fieldType : GoType) (tagVal : String) : Option MemOutcome :=
  if fieldType.Kind = .Pointer then
    match fieldType.Elem env with
    | none => none
    | some elemType =>
      match elemOrNew m fieldVal val elemType with
      | none => none
      | some (m', elem) => setParsedValueMem lib m' elem elemType tagVal
  else setParsedValueMem lib m fieldVal fieldType tagVal

/-- The body of the loop of `setDefaults` for field `i` of the struct at the address `v`.
The argument `recurse` is the recursive call `setDefaults`. -/
def setDefaultsFieldMem (recurse : Memory → GoType → Addr → Option MemOutcome)
    (env : TypeEnv) (lib : Lib) (Tag : String) (v : Addr) (m : Memory) (i : Nat)
    (field : StructField) : Option MemOutcome :=
  let fieldVal : Addr := ⟨v.obj, v.path ++ [i]⟩
  match m.load fieldVal with
  | none => none
  | some val =>
    if !assignable field then some (m, none)
    else if isStructOrStructPtr env field.Typ &&
        (field.Tag.Get Tag == "" || field.Typ.Kind == .Struct) then
      if field.Typ.Kind = .Pointer then
        match field.Typ.Elem env with
        | none => none
        | some elemType =>
          match elemOrNew m fieldVal val elemType with
          | none => none
          | some (m', elem) =>
            match recurse m' elemType elem with
            | none => none
            | some (m'', some err) =>
              some (m'',
                some (.wrap ("failed to set defaults for field " ++ field.Name ++ ": ") err))
            | some (m'', none) => some (m'', none)
      else
        match recurse m field.Typ fieldVal with
        | none => none
        | some (m', some err) =>
          some (m',
            some (.wrap ("failed to set defaults for field " ++ field.Name ++ ": ") err))
        | some (m', none) => some (m', none)
    else
      match isUnsetMem field.Typ val with
      | none => none
      | some false => some (m, none)
      | some true =>
        let tagVal := field.Tag.Get Tag
        if tagVal = "" then some (m, none)
        else
          match setFieldValueMem env lib m fieldVal val field.Typ tagVal with
          | none => none
          | some (m', some err) =>
            some (m',
              some (.wrap ("failed to set default for field " ++ field.Name ++ ": ") err))
          | some (m', none) => some (m', none)

/-- The loop of `setDefaults` over the fields from index `i` on, in declaration order.  It
stops at the first field whose body returns an error. -/
def setDefaultsLoopMem (body : Memory → Nat → StructField → Option MemOutcome) :
    List StructField → Nat → Memory → Option MemOutcome
  | [], _, m => some (m, none)
  | field :: fields, i, m =>
    match body m i field with
    | none => none
    | some (m', some err) => some (m', some err)
    | some (m', none) => setDefaultsLoopMem body fields (i + 1) m'

/-- The function `setDefaults` on the struct of type `t` at the address `v`.  The first
argument bounds the depth of the recursion; the result is none when the bound is reached,
and when the place does not hold a struct. -/
def setDefaultsMem (env : TypeEnv) (lib : Lib) (Tag : String) :
    Nat → Memory → GoType → Addr → Option MemOutcome
  | 0, _, _, _ => none
  | fuel + 1, m, t, v =>
    match m.load v with
    | some (.struct _) =>
      setDefaultsLoopMem (setDefaultsFieldMem (setDefaultsMem env lib Tag fuel) env lib Tag v)
        t.Fields 0 m
    | _ => none

/-- The function `Defaults` on the argument `s` of type `typ`, in the memory `m`. -/
def DefaultsMem (env : TypeEnv) (lib : Lib) (Tag : String) (fuel : Nat) (m : Memory)
    (typ : GoType) (s : Cell) : Option MemOutcome :=
  match s with
  | .ptr (some v) =>
    if typ.Kind ≠ .Pointer then
      some (m, some (.text "input must be a non-nil pointer to a struct"))
    else
      match typ.Elem env with
      | some t =>
        if t.Kind ≠ .Struct then some (m, some (.text "input must be a pointer to a struct"))
        else setDefaultsMem env lib Tag fuel m t v
      | none => none
  | _ => some (m, some (.text "input must be a non-nil pointer to a struct"))

/-- The type `Inner`: a struct with the field `A int` tagged `default:"5"`. -/
def innerType : GoType :=
  .named "Inner" "defaults.Inner" (.struct [taggedField "A" (.basic .Int) "5"])

/-- A struct `T2` with a field `P *int` tagged `default:"1"` and a field `S Inner`. -/
def sharedPointeeRecord : GoType :=
  .named "T2" "defaults.T2"
    (.struct [taggedField "P" (.ptr (.basic .Int)) "1", untaggedField "S" innerType])

/-- A value of `sharedPointeeRecord` with `P = &S.A` and `S.A = 0`. -/
def sharedPointeeMemory : Memory :=
  [.struct [.ptr (some ⟨0, [1, 0]⟩), .struct [.val (.int 0)]]]

/-- A struct `T8` with an unexported field `inner Inner` and a field `S *Inner`. -/
def sharedUnexportedRecord : GoType :=
  .named "T8" "defaults.T8"
    (.struct [.mk "inner" "defaults" innerType [], untaggedField "S" (.ptr innerType)])

/-- A value of `sharedUnexportedRecord` with `S = &inner` and `inner.A = 0`. -/
def sharedUnexportedMemory : Memory :=
  [.struct [.struct [.val (.int 0)], .ptr (some ⟨0, [0]⟩)]]

/-- A struct `T10` with the fields `S *Inner`, `Bad bool` tagged `default:"TTT"` and
`V Inner`. -/
def sharedLaterRecord : GoType :=
  .named "T10" "defaults.T10"
    (.struct [untaggedField "S" (.ptr innerType), taggedField "Bad" (.basic .Bool) "TTT",
      untaggedField "V" innerType])

/-- A value of `sharedLaterRecord` with `S = &V` and `V.A = 0`. -/
def sharedLaterMemory : Memory :=
  [.struct [.ptr (some ⟨0, [2]⟩), .val (.bool false), .struct [.val (.int 0)]]]

/-- A struct `T33` with a field `SP *Inner` tagged `default:"x"` and a field `Q *Inner`. -/
def sharedStructPtrRecord : GoType :=
  .named "T33" "defaults.T33"
    (.struct [taggedField "SP" (.ptr innerType) "x", untaggedField "Q" (.ptr innerType)])

/-- A value of `sharedStructPtrRecord` with `SP == Q`, both pointing to an `Inner` with
`A = 0`. -/
def sharedStructPtrMemory : Memory :=
  [.struct [.ptr (some ⟨1, []⟩), .ptr (some ⟨1, []⟩)], .struct [.val (.int 0)]]

/-- A struct `T7` with a field `Bad bool` tagged `default:"TTT"` followed by a field
`BoolPtr *bool` tagged `default:"true"`. -/
def badThenBoolPtr : GoType :=
  .named "T7" "defaults.T7"
    (.struct [taggedField "Bad" (.basic .Bool) "TTT",
      taggedField "BoolPtr" (.ptr (.basic .Bool)) "true"])

/-- The struct `badThenBoolPtr` with its two fields in the other order. -/
def boolPtrThenBad : GoType :=
  .named "T7" "defaults.T7"
    (.struct [taggedField "BoolPtr" (.ptr (.basic .Bool)) "true",
      taggedField "Bad" (.basic .Bool) "TTT"])

/-! ## A memory that holds a tree

The values of the first part are the values of a memory in which nothing is shared.  The
relation below says when a memory holds such a value, and what a call of the traversal that
agrees with the call on the value has done to the memory. -/

/-- The memory `m` holds the value `x` in the cell `c` as a tree, without sharing: every
pointer reached from `c` points to a whole object, the objects reached are those of the
list `F`, and no object is reached twice (a pointee is reached from one pointer only, the
fields of a struct reach different objects). -/
inductive HoldsTree (m : Memory) : Cell → Value → List Nat → Prop where
  /-- a value of a kind other than pointer and struct is held as it is -/
  | val (v : Value) : HoldsTree m (.val v) v []
  /-- a nil pointer -/
  | nil : HoldsTree m (.ptr none) .nil []
  /-- a pointer to the whole object `o`, which holds the pointee and is not reached again
  from it -/
  | ptr (o : Nat) (c : Cell) (x : Value) (F : List Nat) (hobj : m[o]? = some c)
      (h : HoldsTree m c x F) (hfresh : o ∉ F) :
      HoldsTree m (.ptr (some ⟨o, []⟩)) (.ptr x) (o :: F)
  /-- a struct: field `j` holds its value and reaches the objects `G j`, two fields reach
  no object in common, and `F` lists the objects the fields reach -/
  | struct (cs : List Cell) (xs : List Value) (G : Nat → List Nat) (F : List Nat)
      (hlen : cs.length = xs.length)
      (hrep : ∀ (j : Nat) (c : Cell) (x : Value),
        cs[j]? = some c → xs[j]? = some x → HoldsTree m c x (G j))
      (hdisj : ∀ (j₁ j₂ : Nat), j₁ ≠ j₂ → j₁ < cs.length → j₂ < cs.length →
        ∀ k ∈ G j₁, k ∉ G j₂)
      (hF : ∀ k, k ∈ F ↔ ∃ j, j < cs.length ∧ k ∈ G j) :
      HoldsTree m (.struct cs) (.struct xs) F

/-- What a call of the traversal on the place at the path `p` of the object `o`, which held
a tree that reaches the objects `F`, has done to the memory: the object `o` is as before
but for the place, which holds `c'`; the other old objects outside `F` are as they were; and
the place holds the tree `x'`, which reaches the objects `F'`, each of them an object of `F`
or a new one. -/
def TreeResult (m m' : Memory) (o : Nat) (p : List Nat) (F : List Nat) (c' : Cell)
    (x' : Value) (F' : List Nat) : Prop :=
  m.length ≤ m'.length ∧
  (∃ obj obj', m[o]? = some obj ∧ m'[o]? = some obj' ∧ obj.set p c' = some obj') ∧
  (∀ k, k < m.length → k ≠ o → k ∉ F → m'[k]? = m[k]?) ∧
  HoldsTree m' c' x' F' ∧ o ∉ F' ∧ (∀ k ∈ F', k ∈ F ∨ m.length ≤ k)

/-! # Theorems -/

/-! ## Zero values -/

/-- The zero value of a type of pointer kind is nil. -/
theorem zeroValue_pointer : ∀ t : GoType, t.Kind = .Pointer → zeroValue t = .nil
  | .basic k, h => by
    simp only [GoType.Kind] at h
    subst h
    rfl
  | .other _ _, _ => by simp [zeroValue]
  | .ptr _, _ => by simp [zeroValue]
  | .ptrRef _, _ => by simp [zeroValue]
  | .slice _, _ => by simp [zeroValue]
  | .map _ _, _ => by simp [zeroValue]
  | .array _ _, h => by simp [GoType.Kind] at h
  | .struct _, h => by simp [GoType.Kind] at h
  | .named _ _ u, h => by
    simp only [GoType.Kind] at h
    simp only [zeroValue]
    exact zeroValue_pointer u h

/-- A list of copies of a value that is deep-equal to itself is deep-equal to itself. -/
theorem deepEqualList_replicate (v : Value) (h : deepEqual v v = true) :
    ∀ n : Nat, deepEqualList (List.replicate n v) (List.replicate n v) = true
  | 0 => by simp [deepEqualList]
  | n + 1 => by
    simp only [List.replicate_succ, deepEqualList, h, Bool.true_and]
    exact deepEqualList_replicate v h n

mutual
/-- A zero value is deep-equal to itself. -/
theorem deepEqual_zeroValue : ∀ t : GoType, deepEqual (zeroValue t) (zeroValue t) = true
  | .basic k => by cases k <;> simp [zeroValue, zeroBasic, deepEqual, GoFloat.eq]
  | .other _ _ => by simp [zeroValue, deepEqual]
  | .ptr _ => by simp [zeroValue, deepEqual]
  | .ptrRef _ => by simp [zeroValue, deepEqual]
  | .slice _ => by simp [zeroValue, deepEqual]
  | .map _ _ => by simp [zeroValue, deepEqual]
  | .array n e => by
    simp only [zeroValue, deepEqual]
    exact deepEqualList_replicate _ (deepEqual_zeroValue e) n
  | .struct fs => by
    simp only [zeroValue, deepEqual]
    exact deepEqualList_zeroFields fs
  | .named _ _ u => by
    simp only [zeroValue]
    exact deepEqual_zeroValue u
/-- The zero values of the fields of a struct type are deep-equal to themselves. -/
theorem deepEqualList_zeroFields :
    ∀ fs : List StructField, deepEqualList (zeroFields fs) (zeroFields fs) = true
  | [] => by simp [zeroFields, deepEqualList]
  | .mk _ _ t _ :: fs => by
    simp only [zeroFields, zeroField, deepEqualList, Bool.and_eq_true]
    exact ⟨deepEqual_zeroValue t, deepEqualList_zeroFields fs⟩
end

/-- A zero value is unset. -/
theorem isUnset_zeroValue (t : GoType) : isUnset t (zeroValue t) = true := by
  unfold isUnset
  by_cases hk : t.Kind = .Pointer
  · simp [hk, zeroValue_pointer t hk, Value.IsNil]
  · simp [hk, deepEqual_zeroValue t]

/-- The fields of a zero struct value are the zero values of the fields of its type. -/
theorem zeroValue_struct : ∀ (t : GoType) (zs : List Value),
    zeroValue t = .struct zs → zs = zeroFields t.Fields
  | .basic k, zs, h => by cases k <;> simp [zeroValue, zeroBasic] at h
  | .other _ _, _, h => by simp [zeroValue] at h
  | .ptr _, _, h => by simp [zeroValue] at h
  | .ptrRef _, _, h => by simp [zeroValue] at h
  | .slice _, _, h => by simp [zeroValue] at h
  | .map _ _, _, h => by simp [zeroValue] at h
  | .array _ _, _, h => by simp [zeroValue] at h
  | .struct fs, zs, h => by
    simp only [zeroValue, Value.struct.injEq] at h
    simp [GoType.Fields, h]
  | .named _ _ u, zs, h => by
    simp only [zeroValue] at h
    simp only [GoType.Fields]
    exact zeroValue_struct u zs h

/-- The zero value of the field at an index of a struct type. -/
theorem zeroFields_get : ∀ (fs : List StructField) (j : Nat) (g : StructField),
    fs[j]? = some g → (zeroFields fs)[j]? = some (zeroValue g.Typ)
  | [], j, g, h => by simp at h
  | .mk n p t tg :: fs, 0, g, h => by
    simp only [List.getElem?_cons_zero, Option.some.injEq] at h
    subst h
    simp [zeroFields, zeroField, StructField.Typ]
  | .mk n p t tg :: fs, j + 1, g, h => by
    simp only [List.getElem?_cons_succ] at h
    simp only [zeroFields, List.getElem?_cons_succ]
    exact zeroFields_get fs j g h

/-! ## The loop over the fields -/

/-- After a pass without error, every field holds what the loop body gave it. -/
theorem setDefaultsLoop_ok_get (body : StructField → Value → Option Outcome) :
    ∀ (fields : List StructField) (vals vals' : List Value),
      setDefaultsLoop body fields vals = some (vals', none) →
      ∀ (i : Nat) (field : StructField) (fieldVal : Value),
        fields[i]? = some field → vals[i]? = some fieldVal →
        ∃ fieldVal', vals'[i]? = some fieldVal' ∧ body field fieldVal = some (fieldVal', none) := by
  intro fields
  induction fields with
  | nil => intro vals vals' _ i field fieldVal hf; simp at hf
  | cons f fs ih =>
    intro vals vals' h i field fieldVal hf hv
    cases vals with
    | nil => simp at hv
    | cons v vs =>
      simp only [setDefaultsLoop] at h
      cases hb : body f v with
      | none => simp [hb] at h
      | some r =>
        obtain ⟨v', e⟩ := r
        cases e with
        | some err => simp [hb] at h
        | none =>
          simp only [hb] at h
          cases hl : setDefaultsLoop body fs vs with
          | none => simp [hl] at h
          | some r2 =>
            obtain ⟨rest', e2⟩ := r2
            simp only [hl, Option.some.injEq, Prod.mk.injEq] at h
            obtain ⟨h1, h2⟩ := h
            subst h1 h2
            cases i with
            | zero =>
              simp only [List.getElem?_cons_zero, Option.some.injEq] at hf hv
              subst hf hv
              exact ⟨v', by simp, hb⟩
            | succ j =>
              simp only [List.getElem?_cons_succ] at hf hv
              obtain ⟨w, hw, hbw⟩ := ih vs rest' hl j field fieldVal hf hv
              exact ⟨w, by simpa using hw, hbw⟩

/-- After any pass that returns, a field holds either its old value or what the loop body
gave it. -/
theorem setDefaultsLoop_get (body : StructField → Value → Option Outcome) :
    ∀ (fields : List StructField) (vals vals' : List Value) (err : Option GoError),
      setDefaultsLoop body fields vals = some (vals', err) →
      ∀ (i : Nat) (field : StructField) (fieldVal : Value),
        fields[i]? = some field → vals[i]? = some fieldVal →
        ∃ fieldVal', vals'[i]? = some fieldVal' ∧
          (fieldVal' = fieldVal ∨ ∃ e, body field fieldVal = some (fieldVal', e)) := by
  intro fields
  induction fields with
  | nil => intro vals vals' _ _ i field fieldVal hf; simp at hf
  | cons f fs ih =>
    intro vals vals' err h i field fieldVal hf hv
    cases vals with
    | nil => simp at hv
    | cons v vs =>
      simp only [setDefaultsLoop] at h
      cases hb : body f v with
      | none => simp [hb] at h
      | some r =>
        obtain ⟨v', e⟩ := r
        cases e with
        | some e1 =>
          simp only [hb, Option.some.injEq, Prod.mk.injEq] at h
          obtain ⟨h1, h2⟩ := h
          subst h1 h2
          cases i with
          | zero =>
            simp only [List.getElem?_cons_zero, Option.some.injEq] at hf hv
            subst hf hv
            exact ⟨v', by simp, Or.inr ⟨_, hb⟩⟩
          | succ j =>
            simp only [List.getElem?_cons_succ] at hf hv
            exact ⟨fieldVal, by simpa using hv, Or.inl rfl⟩
        | none =>
          simp only [hb] at h
          cases hl : setDefaultsLoop body fs vs with
          | none => simp [hl] at h
          | some r2 =>
            obtain ⟨rest', e2⟩ := r2
            simp only [hl, Option.some.injEq, Prod.mk.injEq] at h
            obtain ⟨h1, h2⟩ := h
            subst h1 h2
            cases i with
            | zero =>
              simp only [List.getElem?_cons_zero, Option.some.injEq] at hf hv
              subst hf hv
              exact ⟨v', by simp, Or.inr ⟨_, hb⟩⟩
            | succ j =>
              simp only [List.getElem?_cons_succ] at hf hv
              obtain ⟨w, hw, hbw⟩ := ih vs rest' e2 hl j field fieldVal hf hv
              exact ⟨w, by simpa using hw, hbw⟩

/-- A field whose loop body returns the field unchanged and no error is unchanged by every
pass that returns. -/
theorem setDefaultsLoop_frame (body : StructField → Value → Option Outcome)
    (fields : List StructField) (vals vals' : List Value) (err : Option GoError)
    (h : setDefaultsLoop body fields vals = some (vals', err))
    (i : Nat) (field : StructField) (fieldVal : Value)
    (hf : fields[i]? = some field) (hv : vals[i]? = some fieldVal)
    (hb : body field fieldVal = some (fieldVal, none)) :
    vals'[i]? = some fieldVal := by
  obtain ⟨w, hw, hor⟩ := setDefaultsLoop_get body fields vals vals' err h i field fieldVal hf hv
  rcases hor with rfl | ⟨e, he⟩
  · exact hw
  · rw [hb] at he
    simp only [Option.some.injEq, Prod.mk.injEq] at he
    rw [hw, ← he.1]

/-- A pass that returns an error stopped at one field: the body returned that error
there, gave every earlier field its value without error, and no later field was touched. -/
theorem setDefaultsLoop_err (body : StructField → Value → Option Outcome) :
    ∀ (fields : List StructField) (vals vals' : List Value) (err : GoError),
      setDefaultsLoop body fields vals = some (vals', some err) →
      ∃ (i : Nat) (field : StructField) (fieldVal fieldVal' : Value),
        fields[i]? = some field ∧ vals[i]? = some fieldVal ∧
        body field fieldVal = some (fieldVal', some err) ∧ vals'[i]? = some fieldVal' ∧
        (∀ (j : Nat) (g : StructField) (w : Value), j < i → fields[j]? = some g →
          vals[j]? = some w → ∃ w', vals'[j]? = some w' ∧ body g w = some (w', none)) ∧
        (∀ j : Nat, i < j → vals'[j]? = vals[j]?) := by
  intro fields
  induction fields with
  | nil => intro vals vals' err h; simp [setDefaultsLoop] at h
  | cons f fs ih =>
    intro vals vals' err h
    cases vals with
    | nil => simp [setDefaultsLoop] at h
    | cons v vs =>
      simp only [setDefaultsLoop] at h
      cases hb : body f v with
      | none => simp [hb] at h
      | some r =>
        obtain ⟨v', e⟩ := r
        cases e with
        | some e1 =>
          simp only [hb, Option.some.injEq, Prod.mk.injEq] at h
          obtain ⟨h1, h2⟩ := h
          subst h1 h2
          refine ⟨0, f, v, v', by simp, by simp, hb, by simp, ?_, ?_⟩
          · intro j g w hj; omega
          · intro j hj
            cases j with
            | zero => omega
            | succ k => simp
        | none =>
          simp only [hb] at h
          cases hl : setDefaultsLoop body fs vs with
          | none => simp [hl] at h
          | some r2 =>
            obtain ⟨rest', e2⟩ := r2
            simp only [hl, Option.some.injEq, Prod.mk.injEq] at h
            obtain ⟨h1, h2⟩ := h
            subst h1 h2
            obtain ⟨i, field, fieldVal, fieldVal', hf, hv, hbi, hv', hbefore, hafter⟩ :=
              ih vs rest' err hl
            refine ⟨i + 1, field, fieldVal, fieldVal', by simpa using hf, by simpa using hv,
              hbi, by simpa using hv', ?_, ?_⟩
            · intro j g w hj hg hw
              cases j with
              | zero =>
                simp only [List.getElem?_cons_zero, Option.some.injEq] at hg hw
                subst hg hw
                exact ⟨v', by simp, hb⟩
              | succ k =>
                simp only [List.getElem?_cons_succ] at hg hw
                obtain ⟨w', hw', hbw⟩ := hbefore k g w (by omega) hg hw
                exact ⟨w', by simpa using hw', hbw⟩
            · intro j hj
              cases j with
              | zero => omega
              | succ k =>
                simp only [List.getElem?_cons_succ]
                exact hafter k (by omega)

/-! ## The loop body -/

/-- The loop body skips a field that is not assignable. -/
theorem setDefaultsField_skip_unassignable (recurse : GoType → Value → Option Outcome)
    (env : TypeEnv) (lib : Lib) (Tag : String) (field : StructField) (fieldVal : Value)
    (h : assignable field = false) :
    setDefaultsField recurse env lib Tag field fieldVal = some (fieldVal, none) := by
  simp [setDefaultsField, h]

/-- The loop body skips a field that is outside the recursion branch and already set. -/
theorem setDefaultsField_skip_set (recurse : GoType → Value → Option Outcome)
    (env : TypeEnv) (lib : Lib) (Tag : String) (field : StructField) (fieldVal : Value)
    (hbranch : (isStructOrStructPtr env field.Typ &&
      (field.Tag.Get Tag == "" || field.Typ.Kind == .Struct)) = false)
    (hset : isUnset field.Typ fieldVal = false) :
    setDefaultsField recurse env lib Tag field fieldVal = some (fieldVal, none) := by
  unfold setDefaultsField
  by_cases ha : assignable field = true
  · simp [ha, hbranch, hset]
  · simp [ha]

/-- The loop body skips a field that is neither a struct nor a pointer to a struct and has
an empty tag. -/
theorem setDefaultsField_skip_untagged (recurse : GoType → Value → Option Outcome)
    (env : TypeEnv) (lib : Lib) (Tag : String) (field : StructField) (fieldVal : Value)
    (hleaf : isStructOrStructPtr env field.Typ = false)
    (htag : field.Tag.Get Tag = "") :
    setDefaultsField recurse env lib Tag field fieldVal = some (fieldVal, none) := by
  unfold setDefaultsField
  by_cases ha : assignable field = true
  · by_cases hu : isUnset field.Typ fieldVal = true
    · simp [ha, hleaf, hu, htag]
    · simp [ha, hleaf, hu]
  · simp [ha]

/-- The loop body on an assignable, unset field outside the recursion branch with a
non-empty tag: the result of `setFieldValue`, the error wrapped with the field name. -/
theorem setDefaultsField_parse (recurse : GoType → Value → Option Outcome)
    (env : TypeEnv) (lib : Lib) (Tag : String) (field : StructField) (fieldVal : Value)
    (ha : assignable field = true)
    (hbranch : (isStructOrStructPtr env field.Typ &&
      (field.Tag.Get Tag == "" || field.Typ.Kind == .Struct)) = false)
    (hunset : isUnset field.Typ fieldVal = true)
    (htag : field.Tag.Get Tag ≠ "") :
    setDefaultsField recurse env lib Tag field fieldVal =
      match setFieldValue env lib fieldVal field.Typ (field.Tag.Get Tag) with
      | none => none
      | some (fieldVal', some err) =>
        some (fieldVal',
          some (.wrap ("failed to set default for field " ++ field.Name ++ ": ") err))
      | some (fieldVal', none) => some (fieldVal', none) := by
  unfold setDefaultsField
  simp [ha, hbranch, hunset, htag]

/-- The loop body on an assignable field of struct kind: the recursive call on the field,
the error wrapped with the field name. -/
theorem setDefaultsField_struct (recurse : GoType → Value → Option Outcome)
    (env : TypeEnv) (lib : Lib) (Tag : String) (field : StructField) (fieldVal : Value)
    (ha : assignable field = true) (hk : field.Typ.Kind = .Struct) :
    setDefaultsField recurse env lib Tag field fieldVal =
      match recurse field.Typ fieldVal with
      | none => none
      | some (fieldVal', some err) =>
        some (fieldVal',
          some (.wrap ("failed to set defaults for field " ++ field.Name ++ ": ") err))
      | some (fieldVal', none) => some (fieldVal', none) := by
  unfold setDefaultsField
  simp [ha, hk, isStructOrStructPtr]

/-- The loop body on an assignable pointer-to-struct field with an empty tag: the recursive
call on the pointee, a fresh zero struct when the pointer is nil. -/
theorem setDefaultsField_structPtr (recurse : GoType → Value → Option Outcome)
    (env : TypeEnv) (lib : Lib) (Tag : String) (field : StructField) (fieldVal : Value)
    (elemType : GoType)
    (ha : assignable field = true) (hk : field.Typ.Kind = .Pointer)
    (he : field.Typ.Elem env = some elemType) (hek : elemType.Kind = .Struct)
    (htag : field.Tag.Get Tag = "") :
    setDefaultsField recurse env lib Tag field fieldVal =
      match (if fieldVal.IsNil then Value.ptr (zeroValue elemType) else fieldVal).Elem with
      | none => none
      | some pointee =>
        match recurse elemType pointee with
        | none => none
        | some (pointee', some err) =>
          some (.ptr pointee',
            some (.wrap ("failed to set defaults for field " ++ field.Name ++ ": ") err))
        | some (pointee', none) => some (.ptr pointee', none) := by
  unfold setDefaultsField
  simp [ha, hk, he, hek, htag, isStructOrStructPtr]

/-! ## Unfolding `setDefaults` and `Defaults` -/

/-- A call of `setDefaults` that returns ran the loop on a struct value with one unit of
depth less. -/
theorem setDefaults_some (env : TypeEnv) (lib : Lib) (Tag : String) (fuel : Nat)
    (t : GoType) (v out : Value) (err : Option GoError)
    (h : setDefaults env lib Tag fuel t v = some (out, err)) :
    ∃ (n : Nat) (vals vals' : List Value), fuel = n + 1 ∧ v = .struct vals ∧
      out = .struct vals' ∧
      setDefaultsLoop (setDefaultsField (setDefaults env lib Tag n) env lib Tag)
        t.Fields vals = some (vals', err) := by
  cases fuel with
  | zero => simp [setDefaults] at h
  | succ n =>
    cases v with
    | struct vals =>
      simp only [setDefaults] at h
      cases hl : setDefaultsLoop (setDefaultsField (setDefaults env lib Tag n) env lib Tag)
          t.Fields vals with
      | none => simp [hl] at h
      | some r =>
        obtain ⟨vals', e⟩ := r
        simp only [hl, Option.some.injEq, Prod.mk.injEq] at h
        exact ⟨n, vals, vals', rfl, rfl, h.1.symm, by rw [← h.2]; exact hl⟩
    | _ => simp [setDefaults] at h

/-- A call of `Defaults` on a pointer to a struct value that returns either rejected the
target type, or ran `setDefaults` on the struct. -/
theorem Defaults_some (env : TypeEnv) (lib : Lib) (Tag : String) (fuel : Nat)
    (t : GoType) (vals : List Value) (out : Value) (err : Option GoError)
    (h : Defaults env lib Tag fuel ⟨.ptr t, .ptr (.struct vals)⟩ = some (out, err)) :
    (t.Kind ≠ .Struct ∧ out = .ptr (.struct vals) ∧
      err = some (.text "input must be a pointer to a struct")) ∨
    (t.Kind = .Struct ∧ ∃ (n : Nat) (vals' : List Value), fuel = n + 1 ∧
      out = .ptr (.struct vals') ∧
      setDefaultsLoop (setDefaultsField (setDefaults env lib Tag n) env lib Tag)
        t.Fields vals = some (vals', err)) := by
  simp only [Defaults, GoType.Kind, Value.IsNil, GoType.Elem, Value.Elem, ne_eq,
    not_true_eq_false, false_or, Bool.false_eq_true, if_false] at h
  by_cases hk : t.Kind = .Struct
  · right
    refine ⟨hk, ?_⟩
    simp only [hk, not_true_eq_false, if_false] at h
    cases hs : setDefaults env lib Tag fuel t (.struct vals) with
    | none => simp [hs] at h
    | some r =>
      obtain ⟨v', e⟩ := r
      simp only [hs, Option.some.injEq, Prod.mk.injEq] at h
      obtain ⟨n, vals0, vals', hn, hv, hout, hl⟩ := setDefaults_some env lib Tag fuel t _ v' e hs
      simp only [Value.struct.injEq] at hv
      subst hv
      refine ⟨n, vals', hn, ?_, ?_⟩
      · rw [← h.1, hout]
      · rw [← h.2]; exact hl
  · left
    simp only [hk, not_false_eq_true, if_true, Option.some.injEq, Prod.mk.injEq] at h
    exact ⟨hk, h.1.symm, h.2.symm⟩

/-! ## Parsing and assigning one field -/

/-- When the registered parser accepts the tag, `setParsedValue` either assigns the parsed
value or returns an error. -/
theorem setParsedValue_of_accept (lib : Lib) (fieldVal : Value) (fieldType : GoType)
    (tagVal : String) (parserFunc : ParserFunc) (parsedVal : RValue)
    (hparser : parser lib (typeName lib fieldType) = some parserFunc)
    (haccept : parserFunc tagVal fieldType = some (some parsedVal, none))
    (fieldVal' : Value)
    (h : setParsedValue lib fieldVal fieldType tagVal = some (fieldVal', none)) :
    fieldVal' = parsedVal.val := by
  simp only [setParsedValue, hparser, haccept] at h
  split at h
  · split at h
    · simp only [Option.some.injEq, Prod.mk.injEq, and_true] at h
      exact h.symm
    · simp at h
  · simp only [Option.some.injEq, Prod.mk.injEq, and_true] at h
    exact h.symm

/-- When `setFieldValue` returns no error and the registered parser of the dereferenced
type accepts the tag, the field (the pointee of a pointer field) holds the parsed value. -/
theorem setFieldValue_of_accept (env : TypeEnv) (lib : Lib) (fieldVal : Value)
    (fieldType target : GoType) (tagVal : String) (parserFunc : ParserFunc)
    (parsedVal : RValue)
    (htarget : if fieldType.Kind = .Pointer then fieldType.Elem env = some target
      else target = fieldType)
    (hparser : parser lib (typeName lib target) = some parserFunc)
    (haccept : parserFunc tagVal target = some (some parsedVal, none))
    (fieldVal' : Value)
    (h : setFieldValue env lib fieldVal fieldType tagVal = some (fieldVal', none)) :
    fieldVal' = if fieldType.Kind = .Pointer then .ptr parsedVal.val else parsedVal.val := by
  unfold setFieldValue at h
  by_cases hk : fieldType.Kind = .Pointer
  · simp only [hk, if_true] at h htarget ⊢
    simp only [htarget] at h
    cases hal : (if fieldVal.IsNil = true then Value.ptr (zeroValue target) else fieldVal).Elem with
    | none => simp [hal] at h
    | some pointee =>
      simp only [hal] at h
      cases hs : setParsedValue lib pointee target tagVal with
      | none => simp [hs] at h
      | some r =>
        obtain ⟨p', e⟩ := r
        simp only [hs, Option.some.injEq, Prod.mk.injEq] at h
        obtain ⟨h1, h2⟩ := h
        subst h2
        rw [← h1, setParsedValue_of_accept lib pointee target tagVal parserFunc parsedVal
          hparser haccept p' hs]
  · simp only [hk, if_false] at h htarget ⊢
    subst htarget
    exact setParsedValue_of_accept lib fieldVal target tagVal parserFunc parsedVal
      hparser haccept fieldVal' h

/-- Every error the loop body returns is wrapped with a text that begins
`failed to set default`. -/
theorem setDefaultsField_err_wrapped (recurse : GoType → Value → Option Outcome)
    (env : TypeEnv) (lib : Lib) (Tag : String) (field : StructField)
    (fieldVal fieldVal' : Value) (err : GoError)
    (h : setDefaultsField recurse env lib Tag field fieldVal = some (fieldVal', some err)) :
    ∃ cause,
      err = .wrap ("failed to set defaults for field " ++ field.Name ++ ": ") cause ∨
      err = .wrap ("failed to set default for field " ++ field.Name ++ ": ") cause := by
  unfold setDefaultsField at h
  by_cases ha : assignable field = true
  swap
  · simp [ha] at h
  by_cases hb : (isStructOrStructPtr env field.Typ &&
      (field.Tag.Get Tag == "" || field.Typ.Kind == .Struct)) = true
  · simp only [ha, hb, Bool.not_true, Bool.false_eq_true, if_false, if_true] at h
    by_cases hk : field.Typ.Kind = .Pointer
    · simp only [hk, if_true] at h
      cases he : field.Typ.Elem env with
      | none => simp [he] at h
      | some elemType =>
        simp only [he] at h
        cases hal : (if fieldVal.IsNil = true then Value.ptr (zeroValue elemType)
            else fieldVal).Elem with
        | none => simp [hal] at h
        | some pointee =>
          simp only [hal] at h
          rcases hr : recurse elemType pointee with _ | ⟨x, _ | e⟩
          · simp [hr] at h
          · simp [hr] at h
          · simp only [hr, Option.some.injEq, Prod.mk.injEq] at h
            exact ⟨e, Or.inl h.2.symm⟩
    · simp only [hk, if_false] at h
      rcases hr : recurse field.Typ fieldVal with _ | ⟨x, _ | e⟩
      · simp [hr] at h
      · simp [hr] at h
      · simp only [hr, Option.some.injEq, Prod.mk.injEq] at h
        exact ⟨e, Or.inl h.2.symm⟩
  · simp only [ha, hb, Bool.not_true, Bool.false_eq_true, if_false] at h
    by_cases hu : isUnset field.Typ fieldVal = true
    swap
    · simp [hu] at h
    by_cases ht : field.Tag.Get Tag = ""
    · simp [hu, ht] at h
    · simp only [hu, ht, Bool.not_true, Bool.false_eq_true, if_false] at h
      rcases hr : setFieldValue env lib fieldVal field.Typ (field.Tag.Get Tag) with
        _ | ⟨x, _ | e⟩
      · simp [hr] at h
      · simp [hr] at h
      · simp only [hr, Option.some.injEq, Prod.mk.injEq] at h
        exact ⟨e, Or.inr h.2.symm⟩

/-- The text of a wrapped error begins with the text of the wrapper. -/
theorem GoError.Error_wrap_data (pre : String) (cause : GoError) :
    (GoError.wrap pre cause).Error.data = pre.data ++ cause.Error.data := by
  simp [GoError.Error]

/-- The text of an error of the loop body is neither of the two texts with which
`Defaults` rejects its argument. -/
theorem setDefaultsField_err_text (recurse : GoType → Value → Option Outcome)
    (env : TypeEnv) (lib : Lib) (Tag : String) (field : StructField)
    (fieldVal fieldVal' : Value) (err : GoError)
    (h : setDefaultsField recurse env lib Tag field fieldVal = some (fieldVal', some err)) :
    err.Error ≠ "input must be a non-nil pointer to a struct" ∧
      err.Error ≠ "input must be a pointer to a struct" := by
  obtain ⟨cause, hc | hc⟩ := setDefaultsField_err_wrapped recurse env lib Tag field fieldVal
    fieldVal' err h
  all_goals
    subst hc
    constructor
    all_goals
      intro heq
      have hd := congrArg String.data heq
      rw [GoError.Error_wrap_data] at hd
      simp only [String.data_append, List.append_assoc] at hd
      have hh := congrArg List.head? hd
      simp at hh

/-- Every pass of `Defaults` on a pointer to a struct value that returns leaves a field
unchanged when the loop body returns that field unchanged and without error. -/
theorem Defaults_frame (env : TypeEnv) (lib : Lib) (Tag : String) (fuel : Nat)
    (t : GoType) (vals : List Value) (out : Value) (err : Option GoError)
    (i : Nat) (field : StructField) (fieldVal : Value)
    (hfield : t.Fields[i]? = some field) (hval : vals[i]? = some fieldVal)
    (hbody : ∀ recurse, setDefaultsField recurse env lib Tag field fieldVal =
      some (fieldVal, none))
    (hrun : Defaults env lib Tag fuel ⟨.ptr t, .ptr (.struct vals)⟩ = some (out, err)) :
    ∃ vals', out = .ptr (.struct vals') ∧ vals'[i]? = some fieldVal := by
  rcases Defaults_some env lib Tag fuel t vals out err hrun with
    ⟨_, hout, _⟩ | ⟨_, n, vals', _, hout, hl⟩
  · exact ⟨vals, hout, hval⟩
  · exact ⟨vals', hout, setDefaultsLoop_frame _ _ _ _ _ hl i field fieldVal hfield hval
      (hbody _)⟩

/-- The text of every error `setDefaults` returns is neither of the two texts with which
`Defaults` rejects its argument. -/
theorem setDefaults_err_text (env : TypeEnv) (lib : Lib) (Tag : String) (fuel : Nat)
    (t : GoType) (v out : Value) (err : GoError)
    (h : setDefaults env lib Tag fuel t v = some (out, some err)) :
    err.Error ≠ "input must be a non-nil pointer to a struct" ∧
      err.Error ≠ "input must be a pointer to a struct" := by
  obtain ⟨n, vals, vals', _, _, _, hl⟩ := setDefaults_some env lib Tag fuel t v out _ h
  obtain ⟨i, field, fieldVal, fieldVal', _, _, hb, _⟩ := setDefaultsLoop_err _ _ _ _ _ hl
  exact setDefaultsField_err_text _ env lib Tag field fieldVal fieldVal' err hb

/-- After a pass of the loop without error, an assignable, unset field outside the
recursion branch with a non-empty tag that the registered parser accepts holds the parsed
value (as its pointee, for a pointer field). -/
theorem setDefaultsLoop_parsed (recurse : GoType → Value → Option Outcome) (env : TypeEnv)
    (lib : Lib) (Tag : String) (fields : List StructField) (vals vals' : List Value)
    (hl : setDefaultsLoop (setDefaultsField recurse env lib Tag) fields vals =
      some (vals', none))
    (i : Nat) (field : StructField) (fieldVal : Value)
    (target : GoType) (parserFunc : ParserFunc) (parsedVal : RValue)
    (hfield : fields[i]? = some field) (hval : vals[i]? = some fieldVal)
    (hassign : assignable field = true)
    (hbranch : (isStructOrStructPtr env field.Typ &&
      (field.Tag.Get Tag == "" || field.Typ.Kind == .Struct)) = false)
    (hunset : isUnset field.Typ fieldVal = true)
    (htag : field.Tag.Get Tag ≠ "")
    (htarget : if field.Typ.Kind = .Pointer then field.Typ.Elem env = some target
      else target = field.Typ)
    (hparser : parser lib (typeName lib target) = some parserFunc)
    (haccept : parserFunc (field.Tag.Get Tag) target = some (some parsedVal, none)) :
    vals'[i]? =
      some (if field.Typ.Kind = .Pointer then .ptr parsedVal.val else parsedVal.val) := by
  obtain ⟨v', hv', hb⟩ := setDefaultsLoop_ok_get _ _ _ _ hl i field fieldVal hfield hval
  rw [setDefaultsField_parse _ env lib Tag field fieldVal hassign hbranch hunset htag] at hb
  cases hs : setFieldValue env lib fieldVal field.Typ (field.Tag.Get Tag) with
  | none => simp [hs] at hb
  | some r =>
    obtain ⟨w, e⟩ := r
    cases e with
    | some err => simp [hs] at hb
    | none =>
      simp only [hs, Option.some.injEq, Prod.mk.injEq, and_true] at hb
      subst hb
      rw [hv', setFieldValue_of_accept env lib fieldVal field.Typ target _ parserFunc
        parsedVal htarget hparser haccept w hs]

/-! ## The registered parsers return a value of the requested type -/

/-- A converted value has the type it was converted to. -/
theorem returnConverted_typ (lib : Lib) (v : RValue) (t : GoType) (r : RValue)
    (h : returnConverted lib v t = some (some r, none)) : r.typ = t := by
  unfold returnConverted at h
  cases hc : Convert lib v t with
  | none => simp [hc] at h
  | some r' =>
    simp only [hc, Option.some.injEq, Prod.mk.injEq, and_true] at h
    subst h
    unfold Convert at hc
    split at hc
    · simp only [Option.some.injEq] at hc
      rw [← hc]
    · simp only [Option.some.injEq] at hc
      rw [← hc]
    · split at hc
      · simp only [Option.some.injEq] at hc
        rw [← hc]
      · cases hl : lib.convert v t with
        | none => simp [hl] at hc
        | some x =>
          simp only [hl, Option.map_some', Option.some.injEq] at hc
          rw [← hc]

/-- Every parser of the registry returns, when it returns a value, a value of the type it
was asked for. -/
theorem parser_typ (lib : Lib) (name : String) (parserFunc : ParserFunc)
    (hparser : parser lib name = some parserFunc) (str : String) (t : GoType) (r : RValue)
    (h : parserFunc str t = some (some r, none)) : r.typ = t := by
  unfold parser at hparser
  split at hparser
  all_goals
    first
    | (simp only [Option.some.injEq] at hparser
       subst hparser
       first
       | (unfold ParseInt at h; simp only at h; split at h
          · simp at h
          · exact returnConverted_typ lib _ t r h)
       | (unfold ParseUint at h; simp only at h; split at h
          · simp at h
          · exact returnConverted_typ lib _ t r h)
       | (unfold ParseFloat at h; simp only at h; split at h
          · simp at h
          · split at h
            · simp at h
            · exact returnConverted_typ lib _ t r h)
       | (unfold ParseComplex at h; simp only at h; split at h
          · simp at h
          · split at h
            · simp at h
            · exact returnConverted_typ lib _ t r h)
       | (unfold ParseBool at h; split at h
          · simp at h
          · exact returnConverted_typ lib _ t r h)
       | (unfold ParseString at h; exact returnConverted_typ lib _ t r h)
       | (unfold ParseDuration at h; split at h
          · simp at h
          · exact returnConverted_typ lib _ t r h)
       | (unfold ParseMap at h; split at h
          · simp at h
          · split at h
            · simp at h
            · simp only [Option.some.injEq, Prod.mk.injEq, and_true] at h
              rw [← h])
       | (unfold ParseSlice at h; split at h
          · simp at h
          · split at h
            · simp at h
            · simp only [Option.some.injEq, Prod.mk.injEq, and_true] at h
              rw [← h])
       | (unfold ParseArray at h; split at h
          · simp at h
          · simp only at h
            split at h
            · simp at h
            · split at h
              · simp at h
              · simp only [Option.some.injEq, Prod.mk.injEq, and_true] at h
                rw [← h]))
    | simp at hparser

/-- When the registered parser accepts the tag, `setParsedValue` assigns the parsed value
and returns no error. -/
theorem setParsedValue_accept (lib : Lib) (fieldVal : Value) (fieldType : GoType)
    (tagVal : String) (parserFunc : ParserFunc) (parsedVal : RValue)
    (hparser : parser lib (typeName lib fieldType) = some parserFunc)
    (haccept : parserFunc tagVal fieldType = some (some parsedVal, none)) :
    setParsedValue lib fieldVal fieldType tagVal = some (parsedVal.val, none) := by
  have htyp := parser_typ lib _ parserFunc hparser tagVal fieldType parsedVal haccept
  simp only [setParsedValue, hparser, haccept, htyp, lib.convertibleTo_self, if_true, ite_self]

/-- The loop returns the fields of a record without tags unchanged and without error. -/
theorem setDefaultsLoop_untagged (recurse : GoType → Value → Option Outcome)
    (nested : GoType → Value → Bool) (env : TypeEnv) (lib : Lib) (Tag : String)
    (hrec : ∀ t v, nested t v = true → recurse t v = some (v, none)) :
    ∀ (fields : List StructField) (vals : List Value),
      untaggedFields nested env Tag fields vals = true →
      setDefaultsLoop (setDefaultsField recurse env lib Tag) fields vals = some (vals, none)
  | [], vals, _ => by simp [setDefaultsLoop]
  | _ :: _, [], h => by simp [untaggedFields] at h
  | field :: fields, fieldVal :: rest, h => by
    simp only [untaggedFields, Bool.and_eq_true, beq_iff_eq] at h
    obtain ⟨⟨htag, hkind⟩, hrest⟩ := h
    have hb : setDefaultsField recurse env lib Tag field fieldVal = some (fieldVal, none) := by
      by_cases hk : field.Typ.Kind = .Struct
      · simp only [hk, if_true] at hkind
        by_cases ha : assignable field = true
        · rw [setDefaultsField_struct recurse env lib Tag field fieldVal ha hk,
            hrec _ _ hkind]
        · exact setDefaultsField_skip_unassignable recurse env lib Tag field fieldVal
            (by simpa using ha)
      · simp only [hk, if_false, Bool.not_eq_true'] at hkind
        exact setDefaultsField_skip_untagged recurse env lib Tag field fieldVal hkind htag
    simp only [setDefaultsLoop, hb,
      setDefaultsLoop_untagged recurse nested env lib Tag hrec fields rest hrest]

/-- `setDefaults` returns a record without tags unchanged and without error, once the
bound on the depth of the recursion is at least the nesting depth of the record. -/
theorem setDefaults_untagged (env : TypeEnv) (lib : Lib) (Tag : String) :
    ∀ (depth fuel : Nat) (t : GoType) (v : Value), depth ≤ fuel →
      untaggedRecord env Tag depth t v = true →
      setDefaults env lib Tag fuel t v = some (v, none)
  | 0, _, _, _, _, h => by simp [untaggedRecord] at h
  | depth + 1, 0, _, _, hle, _ => by omega
  | depth + 1, fuel + 1, t, v, hle, h => by
    cases v with
    | struct vals =>
      simp only [untaggedRecord] at h
      simp only [setDefaults]
      rw [setDefaultsLoop_untagged (setDefaults env lib Tag fuel) (untaggedRecord env Tag depth)
        env lib Tag (fun t' v' h' => setDefaults_untagged env lib Tag depth fuel t' v'
          (by omega) h') t.Fields vals h]
    | _ => simp [untaggedRecord] at h

/-! ## strconv.ParseUint and strconv.ParseInt on well-formed literals -/

/-- The value read grows with the value read so far. -/
theorem foldDigits_ge (base : Nat) (hb : 1 ≤ base) :
    ∀ (cs : List Char) (n : Nat), n ≤ foldDigits base cs n
  | [], n => by simp [foldDigits]
  | c :: cs, n => by
    simp only [foldDigits]
    split
    · exact foldDigits_ge base hb cs n
    · have h1 := foldDigits_ge base hb cs (n * base + (digitOf c).getD 0)
      have h2 : n ≤ n * base := Nat.le_mul_of_pos_right n hb
      omega

/-- The constant `maxUint64` as a numeral. -/
theorem maxUint64_eq : maxUint64 = 18446744073709551615 := by
  norm_num [maxUint64]

/-- The loop of `strconv.ParseUint` on valid digits returns the value they denote when it
is at most `maxVal`, and a range error otherwise. -/
theorem parseUintLoop_valid (base maxVal : Nat) (hb : 2 ≤ base) (hb36 : base ≤ 36)
    (hmax : maxVal ≤ maxUint64) :
    ∀ (cs : List Char) (n : Nat) (us : Bool), validDigits base cs = true → n ≤ maxVal →
      parseUintLoop true base (maxUint64 / base + 1) maxVal cs n us =
        if foldDigits base cs n ≤ maxVal then
          .ok (foldDigits base cs n, us || hasUnderscore cs)
        else .error (maxVal, ErrRange)
  | [], n, us, _, hn => by simp [parseUintLoop, foldDigits, hasUnderscore, hn]
  | c :: cs, n, us, hv, hn => by
    simp only [validDigits, Bool.and_eq_true, Bool.or_eq_true, beq_iff_eq] at hv
    obtain ⟨hc, hcs⟩ := hv
    by_cases hu : c = '_'
    · simp only [parseUintLoop, hu, and_self, if_true, foldDigits, hasUnderscore, beq_self_eq_true,
        Bool.true_or, Bool.or_true]
      rw [parseUintLoop_valid base maxVal hb hb36 hmax cs n true hcs hn]
      simp
    · rcases hc with hc | hc
      · exact absurd hc hu
      cases hd : digitOf c with
      | none => simp [hd] at hc
      | some d =>
        simp only [hd, decide_eq_true_eq] at hc
        have hmono := foldDigits_ge base (by omega) cs (n * base + d)
        have hcu : (c == '_') = false := by simp [hu]
        simp only [parseUintLoop, hu, false_and, if_false, hd, ge_iff_le, foldDigits,
          Option.getD_some, hasUnderscore, hcu, Bool.false_or]
        rw [if_neg (by omega)]
        have h64 : (2:Nat) ^ 64 = 18446744073709551616 := by norm_num
        have hM := maxUint64_eq
        by_cases hcut : maxUint64 / base + 1 ≤ n
        · have hlt : maxUint64 / base < n := by omega
          rw [Nat.div_lt_iff_lt_mul (by omega)] at hlt
          rw [if_pos hcut, if_neg (by omega)]
        · have hle : n ≤ maxUint64 / base := by omega
          rw [Nat.le_div_iff_mul_le (by omega)] at hle
          rw [if_neg hcut, h64]
          generalize n * base = m at hle hmono ⊢
          have hm : m % 18446744073709551616 = m := Nat.mod_eq_of_lt (by omega)
          rw [hm]
          by_cases hov : m + d < 18446744073709551616
          · rw [Nat.mod_eq_of_lt hov]
            by_cases hbig : maxVal < m + d
            · rw [if_pos (Or.inr hbig), if_neg (by omega)]
            · rw [if_neg (by omega)]
              exact parseUintLoop_valid base maxVal hb hb36 hmax cs (m + d) us hcs (by omega)
          · have hwrap : (m + d) % 18446744073709551616 < m := by omega
            rw [if_pos (Or.inl hwrap), if_neg (by omega)]

/-- The base a prefix implies is 2, 8, 10 or 16. -/
theorem detectBase_base (s : List Char) :
    2 ≤ (detectBase s).1 ∧ (detectBase s).1 ≤ 36 := by
  unfold detectBase
  split
  · split_ifs <;> simp
  · simp
  · simp

/-- On a well-formed unsigned literal `strconv.ParseUint` with base 0 returns the value the
literal denotes when it fits the bit size, and the largest value with a range error
otherwise. -/
theorem strconvParseUintRaw_literal (s : String) (bitSize : Nat) (v : Nat)
    (hbits : bitSize ≤ 64) (hv : uintLiteral s = some v) :
    strconvParseUintRaw s 0 bitSize =
      if v ≤ 2 ^ (if bitSize = 0 then 64 else bitSize) - 1 then (v, none)
      else (2 ^ (if bitSize = 0 then 64 else bitSize) - 1,
        some ⟨"ParseUint", s, ErrRange⟩) := by
  unfold uintLiteral at hv
  by_cases hs : s = ""
  · simp [hs] at hv
  simp only [hs, if_false] at hv
  split at hv
  swap
  · simp at hv
  rename_i hwf
  obtain ⟨hvalid, hus⟩ := hwf
  simp only [Option.some.injEq] at hv
  obtain ⟨hb2, hb36⟩ := detectBase_base s.data
  have hmax : 2 ^ (if bitSize = 0 then 64 else bitSize) - 1 ≤ maxUint64 := by
    have : 2 ^ (if bitSize = 0 then 64 else bitSize) ≤ 2 ^ 64 :=
      Nat.pow_le_pow_right (by omega) (by split <;> omega)
    unfold maxUint64
    omega
  unfold strconvParseUintRaw
  simp only [hs, if_false, Nat.not_le.mpr (by omega : 0 < 2), false_and, beq_self_eq_true,
    if_true, Nat.not_lt.mpr hbits]
  rw [parseUintLoop_valid _ _ hb2 hb36 hmax _ 0 false hvalid (Nat.zero_le _)]
  rw [hv]
  by_cases hle : v ≤ 2 ^ (if bitSize = 0 then 64 else bitSize) - 1
  · simp only [hle, if_true, Bool.false_or]
    by_cases hu : hasUnderscore (detectBase s.data).2 = true
    · simp [hu, hus hu]
    · simp [hu]
  · simp only [hle, if_false]

/-- The text of a string built from the characters of a non-empty string is not empty. -/
theorem String.mk_ne_empty (cs : List Char) (h : cs ≠ []) : String.mk cs ≠ "" := by
  intro he
  apply h
  have := congrArg String.data he
  simpa using this

/-- A value in the range of `w` bits is its own two's-complement value. -/
theorem wrapSigned_of_inRange (w : Nat) (hw : 1 ≤ w) (x : Int)
    (h1 : -(2 : Int) ^ (w - 1) ≤ x) (h2 : x ≤ 2 ^ (w - 1) - 1) : wrapSigned w x = x := by
  unfold wrapSigned
  have hp : (2 : Int) ^ w = 2 * 2 ^ (w - 1) := by
    conv_lhs => rw [show w = (w - 1) + 1 by omega]
    rw [pow_succ]
    ring
  rw [hp]
  generalize (2 : Int) ^ (w - 1) = p at *
  rw [Int.emod_eq_of_lt (by omega) (by omega)]
  omega

/-- The value `2^63` wraps to `-2^63` in 64 bits. -/
theorem wrapSigned_min : wrapSigned 64 9223372036854775808 = -9223372036854775808 := by
  unfold wrapSigned
  have e1 : (2 : Int) ^ (64 - 1) = 9223372036854775808 := by norm_num
  have e2 : (2 : Int) ^ 64 = 18446744073709551616 := by norm_num
  rw [e1, e2]
  omega

/-- The end of `strconv.ParseInt`: the signed value when it fits `w` bits, a range error
otherwise. -/
theorem parseIntTail_spec (s : String) (neg : Bool) (bitSize w un : Nat)
    (hb : (if bitSize = 0 then 64 else bitSize) = w) (hw2 : 2 ≤ w) (hw64 : w ≤ 64)
    (hun : un < 2 ^ 64) (v : Int) (hv : v = if neg = true then -(un : Int) else (un : Int)) :
    (-(2 : Int) ^ (w - 1) ≤ v ∧ v ≤ 2 ^ (w - 1) - 1 →
      parseIntTail s neg bitSize un = (v, none)) ∧
    (¬(-(2 : Int) ^ (w - 1) ≤ v ∧ v ≤ 2 ^ (w - 1) - 1) →
      (parseIntTail s neg bitSize un).2 = some ⟨"ParseInt", s, ErrRange⟩) := by
  have hcI : (2 : Int) ^ (w - 1) = ((2 ^ (w - 1) : Nat) : Int) := by push_cast; rfl
  have hc63 : 2 ^ (w - 1) ≤ 9223372036854775808 := by
    have h := Nat.pow_le_pow_right (by omega : 0 < 2) (by omega : w - 1 ≤ 63)
    have e : (2 : Nat) ^ 63 = 9223372036854775808 := by norm_num
    omega
  have hc1 : 1 ≤ 2 ^ (w - 1) := Nat.one_le_two_pow
  have h64 : (2 : Nat) ^ 64 = 18446744073709551616 := by norm_num
  have e63 : (2 : Int) ^ (64 - 1) = 9223372036854775808 := by norm_num
  rw [h64] at hun
  unfold parseIntTail
  simp only [hb]
  rw [hcI]
  generalize 2 ^ (w - 1) = c at hc63 hc1 ⊢
  cases neg
  · simp only [Bool.false_eq_true, if_false] at hv
    subst hv
    simp only [true_and, Bool.false_eq_true, false_and, if_false, ge_iff_le]
    constructor
    · intro ⟨_, h2⟩
      rw [if_neg (by omega), wrapSigned_of_inRange 64 (by omega) _ (by rw [e63]; omega)
        (by rw [e63]; omega)]
    · intro h
      rw [if_pos (by omega)]
  · simp only [if_true] at hv
    subst hv
    simp only [Bool.true_eq_false, false_and, if_false, true_and, gt_iff_lt, if_true]
    constructor
    · intro ⟨h1, _⟩
      rw [if_neg (by omega)]
      by_cases hmin : un = 9223372036854775808
      · subst hmin
        simp only [Nat.cast_ofNat]
        rw [wrapSigned_min]
        simp only [neg_neg]
        rw [wrapSigned_min]
      · rw [wrapSigned_of_inRange 64 (by omega) (un : Int) (by rw [e63]; omega)
            (by rw [e63]; omega),
          wrapSigned_of_inRange 64 (by omega) (-(un : Int)) (by rw [e63]; omega)
            (by rw [e63]; omega)]
    · intro h
      rw [if_pos (by omega)]

/-- On a well-formed integer literal `strconv.ParseInt` with base 0 returns the value the
literal denotes when it fits the bit size, and a range error otherwise. -/
theorem strconvParseIntRaw_literal (s : String) (bitSize w : Nat) (v : Int)
    (hb : (if bitSize = 0 then 64 else bitSize) = w) (hw2 : 2 ≤ w) (hw64 : w ≤ 64)
    (hv : intLiteral s = some v) :
    (-(2 : Int) ^ (w - 1) ≤ v ∧ v ≤ 2 ^ (w - 1) - 1 →
      strconvParseIntRaw s 0 bitSize = (v, none)) ∧
    (¬(-(2 : Int) ^ (w - 1) ≤ v ∧ v ≤ 2 ^ (w - 1) - 1) →
      (strconvParseIntRaw s 0 bitSize).2 = some ⟨"ParseInt", s, ErrRange⟩) := by
  unfold intLiteral at hv
  cases hu : uintLiteral (String.mk (dropSign s.data)) with
  | none => simp [hu] at hv
  | some u =>
    simp only [hu, Option.some.injEq] at hv
    have hs : s ≠ "" := by
      intro he
      subst he
      simp [dropSign, uintLiteral] at hu
    have hbits : bitSize ≤ 64 := by
      split at hb <;> omega
    have hraw := strconvParseUintRaw_literal (String.mk (dropSign s.data)) bitSize u hbits hu
    rw [hb] at hraw
    have hp : (2 : Nat) ^ w = 2 * 2 ^ (w - 1) := by
      conv_lhs => rw [show w = (w - 1) + 1 by omega]
      rw [pow_succ]
      ring
    have hp2 : 2 ≤ 2 ^ (w - 1) := by
      have := Nat.pow_le_pow_right (by omega : 0 < 2) (by omega : 1 ≤ w - 1)
      simpa using this
    have hw64' : 2 ^ w ≤ 2 ^ 64 := Nat.pow_le_pow_right (by omega) hw64
    have hcI : (2 : Int) ^ (w - 1) = ((2 ^ (w - 1) : Nat) : Int) := by push_cast; rfl
    unfold strconvParseIntRaw
    simp only [hs, if_false, hraw]
    by_cases hle : u ≤ 2 ^ w - 1
    · simp only [hle, if_true]
      exact parseIntTail_spec s (isNeg s.data) bitSize w u hb hw2 hw64 (by omega) v hv.symm
    · simp only [hle, if_false, ne_eq, not_true_eq_false]
      have hmaxspec := parseIntTail_spec s (isNeg s.data) bitSize w (2 ^ w - 1) hb hw2 hw64
        (by omega) _ rfl
      rw [hcI] at hmaxspec ⊢
      rw [hp] at hle hmaxspec ⊢
      generalize 2 ^ (w - 1) = p at hp2 hle hmaxspec ⊢
      have hcast : ((2 * p - 1 : Nat) : Int) = 2 * (p : Int) - 1 := by omega
      constructor
      · intro hr
        exfalso
        cases hneg : isNeg s.data
        · simp only [hneg, Bool.false_eq_true, if_false] at hv
          omega
        · simp only [hneg, if_true] at hv
          omega
      · intro _
        apply hmaxspec.2
        cases hneg : isNeg s.data
        · simp only [Bool.false_eq_true, if_false]
          omega
        · simp only [if_true]
          omega

/-- On a well-formed integer literal `ParseInt` with a target of signed integer kind of
width `w` returns the value the literal denotes, as a value of the target type, exactly when
the value fits `w` bits, and otherwise an invalid value and a range error. -/
theorem ParseInt_literal (lib : Lib) (s : String) (t : GoType) (w : Nat) (v : Int)
    (hw : intBits t.Kind = some w) (hv : intLiteral s = some v) :
    (-(2 : Int) ^ (w - 1) ≤ v ∧ v ≤ 2 ^ (w - 1) - 1 →
      ParseInt (withStrconv lib) s t = some (some ⟨t, .int v⟩, none)) ∧
    (¬(-(2 : Int) ^ (w - 1) ≤ v ∧ v ≤ 2 ^ (w - 1) - 1) →
      ParseInt (withStrconv lib) s t =
        some (none, some (numError lib "ParseInt" s ErrRange))) := by
  have key : ∀ bitSize : Nat, (if bitSize = 0 then 64 else bitSize) = w → 2 ≤ w → w ≤ 64 →
      (-(2 : Int) ^ (w - 1) ≤ v ∧ v ≤ 2 ^ (w - 1) - 1 →
        (match strconvParseInt lib s 0 bitSize with
          | .error err => some (none, some err)
          | .ok val => returnConverted (withStrconv lib) ⟨.basic .Int64, .int val⟩ t) =
          some (some ⟨t, .int v⟩, none)) ∧
      (¬(-(2 : Int) ^ (w - 1) ≤ v ∧ v ≤ 2 ^ (w - 1) - 1) →
        (match strconvParseInt lib s 0 bitSize with
          | .error err => some (none, some err)
          | .ok val => returnConverted (withStrconv lib) ⟨.basic .Int64, .int val⟩ t) =
          some (none, some (numError lib "ParseInt" s ErrRange))) := by
    intro bitSize hb hw2 hw64
    have hraw := strconvParseIntRaw_literal s bitSize w v hb hw2 hw64 hv
    constructor
    · intro hr
      simp only [strconvParseInt, hraw.1 hr, returnConverted, Convert, hw,
        wrapSigned_of_inRange w (by omega) v hr.1 hr.2]
    · intro hr
      have h2 := hraw.2 hr
      rcases hres : strconvParseIntRaw s 0 bitSize with ⟨n, e⟩
      rw [hres] at h2
      simp only at h2
      subst h2
      simp [strconvParseInt, hres, NumError.toError]
  cases hk : t.Kind <;> rw [hk] at hw <;> simp only [intBits] at hw <;> cases hw <;>
    (simp only [ParseInt, hk, withStrconv]
     exact key _ (by simp) (by omega) (by omega))

/-- On a well-formed unsigned literal `ParseUint` with a target of unsigned integer kind of
width `w` returns the value the literal denotes, as a value of the target type, exactly when
the value fits `w` bits, and otherwise an invalid value and a range error. -/
theorem ParseUint_literal (lib : Lib) (s : String) (t : GoType) (w : Nat) (v : Nat)
    (hw : uintBits t.Kind = some w) (hv : uintLiteral s = some v) :
    (v ≤ 2 ^ w - 1 →
      ParseUint (withStrconv lib) s t = some (some ⟨t, .uint v⟩, none)) ∧
    (¬v ≤ 2 ^ w - 1 →
      ParseUint (withStrconv lib) s t =
        some (none, some (numError lib "ParseUint" s ErrRange))) := by
  have key : ∀ bitSize : Nat, (if bitSize = 0 then 64 else bitSize) = w → bitSize ≤ 64 →
      (v ≤ 2 ^ w - 1 →
        (match strconvParseUint lib s 0 bitSize with
          | .error err => some (none, some err)
          | .ok val => returnConverted (withStrconv lib) ⟨.basic .Uint64, .uint val⟩ t) =
          some (some ⟨t, .uint v⟩, none)) ∧
      (¬v ≤ 2 ^ w - 1 →
        (match strconvParseUint lib s 0 bitSize with
          | .error err => some (none, some err)
          | .ok val => returnConverted (withStrconv lib) ⟨.basic .Uint64, .uint val⟩ t) =
          some (none, some (numError lib "ParseUint" s ErrRange))) := by
    intro bitSize hb hbits
    have hraw := strconvParseUintRaw_literal s bitSize v hbits hv
    rw [hb] at hraw
    have hpos : 0 < 2 ^ w := Nat.one_le_two_pow
    constructor
    · intro hr
      simp only [strconvParseUint, hraw, hr, if_true, returnConverted, Convert, hw,
        Nat.mod_eq_of_lt (by omega : v < 2 ^ w)]
    · intro hr
      simp [strconvParseUint, hraw, hr, NumError.toError]
  cases hk : t.Kind <;> rw [hk] at hw <;> simp only [uintBits] at hw <;> cases hw <;>
    (simp only [ParseUint, hk, withStrconv]
     exact key _ (by simp) (by omega))

/-! ## The decimal rendering of a number is a literal that denotes it -/

/-- The character of a decimal digit has the code `48 + m`. -/
theorem digitChar_toNat : ∀ m : Nat, m < 10 → (Nat.digitChar m).toNat = 48 + m := by
  decide

/-- The digit of a decimal digit character. -/
theorem digitOf_decimal (c : Char) (h1 : 48 ≤ c.toNat) (h2 : c.toNat ≤ 57) :
    digitOf c = some (c.toNat - 48) := by
  simp [digitOf, h1, h2]

/-- A decimal digit character is not an underscore. -/
theorem ne_underscore_of_decimal (c : Char) (h2 : c.toNat ≤ 57) : c ≠ '_' := by
  intro h
  subst h
  revert h2
  decide

/-- Reading a text in two parts. -/
theorem foldDigits_append (base : Nat) :
    ∀ (xs ys : List Char) (n : Nat),
      foldDigits base (xs ++ ys) n = foldDigits base ys (foldDigits base xs n)
  | [], ys, n => by simp [foldDigits]
  | c :: xs, ys, n => by
    simp only [List.cons_append, foldDigits]
    split
    · exact foldDigits_append base xs ys n
    · exact foldDigits_append base xs ys _

/-- The digits `Nat.toDigitsCore` puts in front of `ds`: decimal digit characters that
denote `n`, with a first digit other than `0` unless `n` is zero. -/
theorem toDigitsCore_spec :
    ∀ (fuel n : Nat) (ds : List Char), n < fuel →
      ∃ pre : List Char, Nat.toDigitsCore 10 fuel n ds = pre ++ ds ∧
        (∀ c ∈ pre, 48 ≤ c.toNat ∧ c.toNat ≤ 57) ∧
        (∀ acc, foldDigits 10 pre acc = acc * 10 ^ pre.length + n) ∧
        (∃ c rest, pre = c :: rest ∧ (0 < n → 49 ≤ c.toNat)) ∧
        (n = 0 → pre = ['0'])
  | 0, n, ds, h => by omega
  | fuel + 1, n, ds, h => by
    have hd := digitChar_toNat (n % 10) (Nat.mod_lt n (by omega))
    simp only [Nat.toDigitsCore]
    by_cases h0 : n / 10 = 0
    · have hn : n < 10 := by omega
      have hmod : n % 10 = n := Nat.mod_eq_of_lt hn
      rw [hmod] at hd
      refine ⟨[Nat.digitChar (n % 10)], by simp [h0], ?_, ?_, ?_, ?_⟩
      · intro c hc
        simp only [List.mem_singleton] at hc
        subst hc
        rw [hmod]
        omega
      · intro acc
        rw [hmod]
        simp only [foldDigits, ne_underscore_of_decimal _ (by omega : (Nat.digitChar n).toNat ≤ 57),
          if_false, digitOf_decimal _ (by omega : 48 ≤ (Nat.digitChar n).toNat) (by omega),
          Option.getD_some, List.length_singleton, pow_one]
        omega
      · refine ⟨_, [], rfl, ?_⟩
        intro hpos
        rw [hmod]
        omega
      · intro hz
        subst hz
        rfl
    · obtain ⟨pre, hpre, hdig, hfold, ⟨c, rest, hcons, hhead⟩, _⟩ :=
        toDigitsCore_spec fuel (n / 10) (Nat.digitChar (n % 10) :: ds) (by omega)
      refine ⟨pre ++ [Nat.digitChar (n % 10)], by simp [h0, hpre], ?_, ?_, ?_, ?_⟩
      · intro c' hc'
        simp only [List.mem_append, List.mem_singleton] at hc'
        rcases hc' with hc' | hc'
        · exact hdig c' hc'
        · subst hc'
          omega
      · intro acc
        rw [foldDigits_append, hfold]
        simp only [foldDigits,
          ne_underscore_of_decimal _ (by omega : (Nat.digitChar (n % 10)).toNat ≤ 57), if_false,
          digitOf_decimal _ (by omega : 48 ≤ (Nat.digitChar (n % 10)).toNat) (by omega),
          Option.getD_some, List.length_append, List.length_singleton, pow_succ]
        have := Nat.div_add_mod n 10
        rw [hd]
        have e : 48 + n % 10 - 48 = n % 10 := by omega
        rw [e]
        nlinarith [this]
      · refine ⟨c, rest ++ [Nat.digitChar (n % 10)], by simp [hcons], ?_⟩
        intro _
        exact hhead (by omega)
      · intro hz
        subst hz
        simp at h0

/-- A text of decimal digit characters has valid digits of base 10 and no underscore. -/
theorem validDigits_decimal :
    ∀ cs : List Char, (∀ c ∈ cs, 48 ≤ c.toNat ∧ c.toNat ≤ 57) →
      validDigits 10 cs = true ∧ hasUnderscore cs = false
  | [], _ => by simp [validDigits, hasUnderscore]
  | c :: cs, h => by
    have hc := h c (by simp)
    have ih := validDigits_decimal cs (fun x hx => h x (by simp [hx]))
    have hne := ne_underscore_of_decimal c hc.2
    have hlt : c.toNat - 48 < 10 := by omega
    simp [validDigits, hasUnderscore, digitOf_decimal c hc.1 hc.2, hne, ih.1, ih.2, hlt]

/-- A text that does not begin with `0` has no base prefix. -/
theorem detectBase_of_ne_zero (c : Char) (rest : List Char) (h : c ≠ '0') :
    detectBase (c :: rest) = (10, c :: rest) := by
  unfold detectBase
  split
  · rename_i heq
    simp only [List.cons.injEq] at heq
    exact absurd heq.1.symm (fun e => h e.symm)
  · rename_i heq
    simp only [List.cons.injEq] at heq
    exact absurd heq.1.symm (fun e => h e.symm)
  · rfl

/-- The decimal rendering of a natural number is a well-formed literal that denotes it. -/
theorem uintLiteral_repr (n : Nat) : uintLiteral (Nat.repr n) = some n := by
  obtain ⟨pre, hpre, hdig, hfold, ⟨c, rest, hcons, hhead⟩, hzero⟩ :=
    toDigitsCore_spec (n + 1) n [] (by omega)
  have hdata : (Nat.repr n).data = pre := by
    simp [Nat.repr, Nat.toDigits, hpre, List.asString]
  have hne : Nat.repr n ≠ "" := by
    intro he
    have := congrArg String.data he
    rw [hdata, hcons] at this
    simp at this
  unfold uintLiteral
  simp only [hne, if_false, hdata]
  by_cases hz : n = 0
  · rw [hzero hz]
    subst hz
    simp [detectBase, validDigits, hasUnderscore, foldDigits]
  · have hc0 : c ≠ '0' := by
      intro he
      subst he
      have := hhead (by omega)
      revert this
      decide
    rw [hcons, detectBase_of_ne_zero c rest hc0, ← hcons]
    obtain ⟨hv, hu⟩ := validDigits_decimal pre hdig
    simp [hv, hu, hfold]

/-- The decimal rendering of a natural number begins with a decimal digit. -/
theorem repr_data_head (n : Nat) :
    ∃ c rest, (Nat.repr n).data = c :: rest ∧ 48 ≤ c.toNat ∧ c.toNat ≤ 57 := by
  obtain ⟨pre, hpre, hdig, _, ⟨c, rest, hcons, _⟩, _⟩ :=
    toDigitsCore_spec (n + 1) n [] (by omega)
  have hdata : (Nat.repr n).data = pre := by
    simp [Nat.repr, Nat.toDigits, hpre, List.asString]
  exact ⟨c, rest, by rw [hdata, hcons], hdig c (by simp [hcons])⟩

/-- A text that begins with a decimal digit has no sign. -/
theorem dropSign_of_digit (c : Char) (rest : List Char) (h1 : 48 ≤ c.toNat) :
    dropSign (c :: rest) = c :: rest ∧ isNeg (c :: rest) = false := by
  have hm : c ≠ '-' := by
    intro he
    subst he
    revert h1
    decide
  have hp : c ≠ '+' := by
    intro he
    subst he
    revert h1
    decide
  constructor
  · unfold dropSign
    split
    · rename_i heq
      simp only [List.cons.injEq] at heq
      exact absurd heq.1 hm
    · rename_i heq
      simp only [List.cons.injEq] at heq
      exact absurd heq.1 hp
    · rfl
  · unfold isNeg
    split
    · rename_i heq
      simp only [List.cons.injEq] at heq
      exact absurd heq.1 hm
    · rfl

/-- The decimal rendering of an integer is a well-formed literal that denotes it. -/
theorem intLiteral_repr (i : Int) : intLiteral (Int.repr i) = some i := by
  cases i with
  | ofNat m =>
    obtain ⟨c, rest, hdata, h1, _⟩ := repr_data_head m
    obtain ⟨hdrop, hneg⟩ := dropSign_of_digit c rest h1
    have hlit := uintLiteral_repr m
    simp only [intLiteral, Int.repr, hdata, hdrop, hneg]
    rw [← hdata, hlit]
    simp
  | negSucc m =>
    have hlit := uintLiteral_repr (m + 1)
    have hdata : ("-" ++ Nat.repr (m + 1)).data = '-' :: (Nat.repr (m + 1)).data := by
      simp [String.data_append]
    simp only [intLiteral, Int.repr, hdata, dropSign, isNeg, hlit, if_true]
    rfl

/-- A minus sign is not a digit. -/
theorem digitOf_minus : digitOf '-' = none := by decide

/-- The errors `ErrSyntax` and `ErrRange` differ. -/
theorem ErrSyntax_ne_ErrRange : ErrSyntax ≠ ErrRange := by decide

/-- On a text that begins with a minus sign `strconv.ParseUint` with base 0 returns a
syntax error. -/
theorem strconvParseUintRaw_minus (s : String) (rest : List Char) (bitSize : Nat)
    (hs : s.data = '-' :: rest) (hbits : bitSize ≤ 64) :
    strconvParseUintRaw s 0 bitSize = (0, some ⟨"ParseUint", s, ErrSyntax⟩) := by
  have hne : s ≠ "" := by
    intro he
    subst he
    simp at hs
  unfold strconvParseUintRaw
  simp only [hne, if_false, Nat.not_le.mpr (by omega : 0 < 2), false_and, beq_self_eq_true,
    if_true, Nat.not_lt.mpr hbits, hs,
    detectBase_of_ne_zero '-' rest (by decide), parseUintLoop, digitOf_minus]
  simp

/-- The text without its sign is part of the text. -/
theorem mem_of_mem_dropSign (cs : List Char) (c : Char) (h : c ∈ dropSign cs) : c ∈ cs := by
  unfold dropSign at h
  split at h
  · exact List.mem_cons_of_mem _ h
  · exact List.mem_cons_of_mem _ h
  · exact h

/-- The underscores of a text that begins with an underscore are not allowed. -/
theorem underscoreOK_underscore (rest : List Char) : underscoreOK ('_' :: rest) = false := by
  have hd : dropSign ('_' :: rest) = '_' :: rest := by
    unfold dropSign
    split
    · rename_i heq
      simp only [List.cons.injEq] at heq
      exact absurd heq.1 (by decide)
    · rename_i heq
      simp only [List.cons.injEq] at heq
      exact absurd heq.1 (by decide)
    · rfl
  unfold underscoreOK
  rw [hd]
  cases rest with
  | nil => simp [underscoreOKLoop]
  | cons c rest =>
    have h0 : ¬('_' = '0' ∧ (lowerCode c = 98 ∨ lowerCode c = 111 ∨ lowerCode c = 120)) := by
      intro h
      exact absurd h.1 (by decide)
    simp only [h0, if_false, underscoreOKLoop]
    simp

/-- On a text without a decimal digit the loop of `strconv.ParseUint` in base 10 returns a
syntax error, or reads nothing but underscores. -/
theorem parseUintLoop_no_digit (cutoff maxVal : Nat) :
    ∀ (cs : List Char) (us : Bool), (∀ c ∈ cs, ¬(48 ≤ c.toNat ∧ c.toNat ≤ 57)) →
      parseUintLoop true 10 cutoff maxVal cs 0 us = .error (0, ErrSyntax) ∨
      (parseUintLoop true 10 cutoff maxVal cs 0 us = .ok (0, if cs = [] then us else true) ∧
        ∀ c ∈ cs, c = '_')
  | [], us, _ => by simp [parseUintLoop]
  | c :: cs, us, h => by
    have hc := h c (by simp)
    have hcs : ∀ x ∈ cs, ¬(48 ≤ x.toNat ∧ x.toNat ≤ 57) := fun x hx => h x (by simp [hx])
    by_cases hu : c = '_'
    · simp only [parseUintLoop, hu, and_self, if_true]
      rcases parseUintLoop_no_digit cutoff maxVal cs true hcs with he | ⟨hok, hall⟩
      · exact Or.inl he
      · right
        refine ⟨?_, ?_⟩
        · rw [hok]
          simp
        · intro x hx
          simp only [List.mem_cons] at hx
          rcases hx with hx | hx
          · exact hx
          · exact hall x hx
    · left
      simp only [parseUintLoop, hu, false_and, if_false]
      unfold digitOf
      rw [if_neg hc]
      by_cases hl : 97 ≤ lowerCode c ∧ lowerCode c ≤ 122
      · rw [if_pos hl]
        simp only [ge_iff_le]
        rw [if_pos (by omega)]
      · rw [if_neg hl]

/-- On a text without a decimal digit `strconv.ParseUint` with base 0 returns a syntax
error. -/
theorem strconvParseUintRaw_no_digit (s : String) (bitSize : Nat) (hbits : bitSize ≤ 64)
    (h : ∀ c ∈ s.data, ¬(48 ≤ c.toNat ∧ c.toNat ≤ 57)) :
    strconvParseUintRaw s 0 bitSize = (0, some ⟨"ParseUint", s, ErrSyntax⟩) := by
  unfold strconvParseUintRaw
  by_cases hs : s = ""
  · simp [hs]
  simp only [hs, if_false, Nat.not_le.mpr (by omega : 0 < 2), false_and, beq_self_eq_true,
    if_true, Nat.not_lt.mpr hbits]
  cases hdata : s.data with
  | nil =>
    exfalso
    apply hs
    cases s
    simp only at hdata
    subst hdata
    rfl
  | cons c rest =>
    have hc0 : c ≠ '0' := by
      intro he
      subst he
      exact h '0' (by simp [hdata]) (by decide)
    rw [detectBase_of_ne_zero c rest hc0]
    simp only
    rcases parseUintLoop_no_digit (maxUint64 / 10 + 1)
        (2 ^ (if bitSize = 0 then 64 else bitSize) - 1) (c :: rest) false
        (by rw [← hdata]; exact h) with he | ⟨hok, hall⟩
    · rw [he]
    · rw [hok]
      have hcu : c = '_' := hall c (by simp)
      subst hcu
      simp [underscoreOK_underscore]

/-- On a text without a decimal digit `strconv.ParseInt` with base 0 returns a syntax
error. -/
theorem strconvParseIntRaw_no_digit (s : String) (bitSize : Nat) (hbits : bitSize ≤ 64)
    (h : ∀ c ∈ s.data, ¬(48 ≤ c.toNat ∧ c.toNat ≤ 57)) :
    strconvParseIntRaw s 0 bitSize = (0, some ⟨"ParseInt", s, ErrSyntax⟩) := by
  unfold strconvParseIntRaw
  by_cases hs : s = ""
  · simp [hs]
  simp only [hs, if_false]
  rw [strconvParseUintRaw_no_digit (String.mk (dropSign s.data)) bitSize hbits
    (fun c hc => h c (mem_of_mem_dropSign s.data c hc))]
  simp [ErrSyntax_ne_ErrRange]

/-- Underscores do not change the value read. -/
theorem foldDigits_filter (base : Nat) :
    ∀ (cs : List Char) (n : Nat),
      foldDigits base cs n = foldDigits base (cs.filter (fun c => c != '_')) n
  | [], n => by simp [foldDigits]
  | c :: cs, n => by
    by_cases hu : c = '_'
    · simp only [foldDigits, hu, if_true, List.filter, bne_self_eq_false]
      exact foldDigits_filter base cs n
    · have hb : (c != '_') = true := by simp [hu]
      simp only [foldDigits, hu, if_false, List.filter, hb]
      exact foldDigits_filter base cs _

/-- The value a well-formed unsigned literal denotes is that of its digits after the
prefix, in the base the prefix implies. -/
theorem uintLiteral_value (s : String) (v : Nat) (h : uintLiteral s = some v) :
    v = foldDigits (detectBase s.data).1 (detectBase s.data).2 0 := by
  unfold uintLiteral at h
  split at h
  · simp at h
  · split at h
    · simp only [Option.some.injEq] at h
      exact h.symm
    · simp at h

/-- A text that begins with `0` and has none of the prefixes `0b`, `0o`, `0x` is read in
base 8. -/
theorem detectBase_leading_zero (c : Char) (rest : List Char) (hb : lowerCode c ≠ 98)
    (ho : lowerCode c ≠ 111) (hx : lowerCode c ≠ 120) :
    detectBase ('0' :: c :: rest) = (8, c :: rest) := by
  cases rest with
  | nil => simp [detectBase]
  | cons c₂ rest => simp [detectBase, hb, ho, hx]

/-- The function `strconv.ParseBool` accepts twelve texts. -/
theorem strconvParseBool_eq (lib : Lib) (str : String) :
    strconvParseBool lib str =
      if str ∈ ["1", "t", "T", "true", "TRUE", "True"] then .ok true
      else if str ∈ ["0", "f", "F", "false", "FALSE", "False"] then .ok false
      else .error (numError lib "ParseBool" str ErrSyntax) := by
  unfold strconvParseBool
  split <;> simp_all

/-- When no parser is registered for the type, `setParsedValue` leaves the value and
returns the unsupported-type error. -/
theorem setParsedValue_unsupported (lib : Lib) (fieldVal : Value) (fieldType : GoType)
    (tagVal : String) (h : parser lib (typeName lib fieldType) = none) :
    setParsedValue lib fieldVal fieldType tagVal =
      some (fieldVal,
        some (.text ("unsupported type" ++ " \"" ++ typeName lib fieldType ++ "\""))) := by
  simp [setParsedValue, h, ErrUnsupportedType, GoError.Error]

/-- An error of the loop body comes from the recursion into a struct field, from the
recursion into the struct a pointer field points to, or from `setFieldValue`. -/
theorem setDefaultsField_err_cases (recurse : GoType → Value → Option Outcome)
    (env : TypeEnv) (lib : Lib) (Tag : String) (field : StructField)
    (fieldVal fieldVal' : Value) (err : GoError)
    (h : setDefaultsField recurse env lib Tag field fieldVal = some (fieldVal', some err)) :
    (∃ (x : Value) (e : GoError), field.Typ.Kind = .Struct ∧
        recurse field.Typ fieldVal = some (x, some e) ∧
        err = .wrap ("failed to set defaults for field " ++ field.Name ++ ": ") e) ∨
    (∃ (elemType : GoType) (pointee x : Value) (e : GoError), field.Typ.Kind = .Pointer ∧
        field.Typ.Elem env = some elemType ∧
        recurse elemType pointee = some (x, some e) ∧
        err = .wrap ("failed to set defaults for field " ++ field.Name ++ ": ") e) ∨
    (∃ (x : Value) (cause : GoError),
        setFieldValue env lib fieldVal field.Typ (field.Tag.Get Tag) = some (x, some cause) ∧
        err = .wrap ("failed to set default for field " ++ field.Name ++ ": ") cause) := by
  unfold setDefaultsField at h
  by_cases ha : assignable field = true
  swap
  · simp [ha] at h
  by_cases hb : (isStructOrStructPtr env field.Typ &&
      (field.Tag.Get Tag == "" || field.Typ.Kind == .Struct)) = true
  · simp only [ha, hb, Bool.not_true, Bool.false_eq_true, if_false, if_true] at h
    by_cases hk : field.Typ.Kind = .Pointer
    · simp only [hk, if_true] at h
      cases he : field.Typ.Elem env with
      | none => simp [he] at h
      | some elemType =>
        simp only [he] at h
        cases hal : (if fieldVal.IsNil = true then Value.ptr (zeroValue elemType)
            else fieldVal).Elem with
        | none => simp [hal] at h
        | some pointee =>
          simp only [hal] at h
          rcases hr : recurse elemType pointee with _ | ⟨x, _ | e⟩
          · simp [hr] at h
          · simp [hr] at h
          · simp only [hr, Option.some.injEq, Prod.mk.injEq] at h
            exact Or.inr (Or.inl ⟨elemType, pointee, x, e, hk, rfl, hr, h.2.symm⟩)
    · simp only [hk, if_false] at h
      have hs : field.Typ.Kind = .Struct := by
        have h1 : isStructOrStructPtr env field.Typ = true := by
          simp only [Bool.and_eq_true] at hb
          exact hb.1
        unfold isStructOrStructPtr at h1
        by_cases hks : field.Typ.Kind = .Struct
        · exact hks
        · simp [hks, hk] at h1
      rcases hr : recurse field.Typ fieldVal with _ | ⟨x, _ | e⟩
      · simp [hr] at h
      · simp [hr] at h
      · simp only [hr, Option.some.injEq, Prod.mk.injEq] at h
        exact Or.inl ⟨x, e, hs, rfl, h.2.symm⟩
  · simp only [ha, hb, Bool.not_true, Bool.false_eq_true, if_false] at h
    by_cases hu : isUnset field.Typ fieldVal = true
    swap
    · simp [hu] at h
    by_cases ht : field.Tag.Get Tag = ""
    · simp [hu, ht] at h
    · simp only [hu, ht, Bool.not_true, Bool.false_eq_true, if_false] at h
      rcases hr : setFieldValue env lib fieldVal field.Typ (field.Tag.Get Tag) with
        _ | ⟨x, _ | e⟩
      · simp [hr] at h
      · simp [hr] at h
      · simp only [hr, Option.some.injEq, Prod.mk.injEq] at h
        exact Or.inr (Or.inr ⟨x, e, rfl, h.2.symm⟩)

/-- An error of the loop names a path of fields when every error of the recursion does. -/
theorem setDefaultsLoop_errPath (recurse : GoType → Value → Option Outcome)
    (env : TypeEnv) (lib : Lib) (Tag : String)
    (hrec : ∀ (t : GoType) (v out : Value) (e : GoError), recurse t v = some (out, some e) →
      ∃ names leaf cause, ErrPath env lib Tag t e names leaf cause)
    (t : GoType) (vals vals' : List Value) (err : GoError)
    (h : setDefaultsLoop (setDefaultsField recurse env lib Tag) t.Fields vals =
      some (vals', some err)) :
    ∃ names leaf cause, ErrPath env lib Tag t err names leaf cause := by
  obtain ⟨i, field, fieldVal, fieldVal', hf, _, hb, _⟩ := setDefaultsLoop_err _ _ _ _ _ h
  have hmem : field ∈ t.Fields := List.getElem?_mem hf
  rcases setDefaultsField_err_cases recurse env lib Tag field fieldVal fieldVal' err hb with
    ⟨x, e, hk, hr, he⟩ | ⟨elemType, pointee, x, e, hk, hel, hr, he⟩ | ⟨x, cause, hs, he⟩
  · obtain ⟨names, leaf, cause, hp, hw, hc⟩ := hrec _ _ _ _ hr
    refine ⟨field.Name :: names, leaf, cause, ⟨field, hmem, rfl, Or.inl ⟨hk, hp⟩⟩, ?_, hc⟩
    rw [he, hw]
    rfl
  · obtain ⟨names, leaf, cause, hp, hw, hc⟩ := hrec _ _ _ _ hr
    refine ⟨field.Name :: names, leaf, cause,
      ⟨field, hmem, rfl, Or.inr ⟨hk, elemType, hel, hp⟩⟩, ?_, hc⟩
    rw [he, hw]
    rfl
  · exact ⟨[], field.Name, cause, ⟨field, hmem, rfl⟩, he, field, fieldVal, x, rfl, hs⟩

/-- Every error of `setDefaults` names a path of fields. -/
theorem setDefaults_errPath (env : TypeEnv) (lib : Lib) (Tag : String) :
    ∀ (fuel : Nat) (t : GoType) (v out : Value) (e : GoError),
      setDefaults env lib Tag fuel t v = some (out, some e) →
      ∃ names leaf cause, ErrPath env lib Tag t e names leaf cause
  | fuel, t, v, out, e, h => by
    obtain ⟨n, vals, vals', hfuel, _, _, hl⟩ := setDefaults_some env lib Tag fuel t v out _ h
    subst hfuel
    exact setDefaultsLoop_errPath _ env lib Tag (setDefaults_errPath env lib Tag n) t vals
      vals' e hl

/-- The text of a chain of wrappers is the prefixes followed by the text of the innermost
error. -/
theorem wrapPath_Error (leaf : GoError) :
    ∀ names : List String, (wrapPath names leaf).Error = pathText names ++ leaf.Error
  | [] => by simp [wrapPath, pathText]
  | n :: ns => by
    simp only [wrapPath, pathText, GoError.Error, wrapPath_Error leaf ns, String.append_assoc]

/-- Unwrapping a chain of wrappers once per wrapper returns the innermost error. -/
theorem unwrapN_wrapPath (pre : String) (cause : GoError) :
    ∀ names : List String,
      unwrapN (names.length + 1) (wrapPath names (.wrap pre cause)) = some cause
  | [] => rfl
  | n :: ns => by
    simp only [List.length_cons, unwrapN, wrapPath, GoError.Unwrap]
    exact unwrapN_wrapPath pre cause ns

/-- The traversal of a `Node` whose `Next` is nil does not return, whatever the depth of
recursion allowed. -/
theorem setDefaults_node (lib : Lib) (Tag : String) :
    ∀ fuel : Nat, setDefaults nodeEnv lib Tag fuel nodeType (.struct [.nil]) = none
  | 0 => rfl
  | n + 1 => by
    have ih := setDefaults_node lib Tag n
    have hz : zeroValue (GoType.named "Node" "main.Node"
        (GoType.struct [StructField.mk "Next" "" (GoType.ptrRef "main.Node") []])) =
          .struct [.nil] := rfl
    simp only [setDefaults, nodeType, GoType.Fields, setDefaultsLoop, setDefaultsField,
      assignable, untaggedField, StructField.IsExported, CanSet, isStructOrStructPtr,
      GoType.Kind, GoType.Elem, nodeEnv, StructTag.Get, Value.IsNil, Value.Elem,
      StructField.PkgPath, StructField.Typ, StructField.Tag] at ih ⊢
    simp [hz, ih, GoType.Kind]

/-- The elements of the zero value of a type of kind array. -/
theorem zeroValue_array_Elems : ∀ t : GoType, t.Kind = .Array →
    (zeroValue t).Elems = List.replicate t.Len (zeroValue t.ArrayElem)
  | .basic k, h => by
    simp only [GoType.Kind] at h
    subst h
    rfl
  | .other _ _, _ => by simp [zeroValue, Value.Elems, GoType.Len]
  | .ptr _, _ => by simp [zeroValue, Value.Elems, GoType.Len]
  | .ptrRef _, _ => by simp [zeroValue, Value.Elems, GoType.Len]
  | .slice _, _ => by simp [zeroValue, Value.Elems, GoType.Len]
  | .map _ _, _ => by simp [zeroValue, Value.Elems, GoType.Len]
  | .array _ _, _ => by simp [zeroValue, Value.Elems, GoType.Len, GoType.ArrayElem]
  | .struct _, h => by simp [GoType.Kind] at h
  | .named _ _ u, h => by
    simp only [GoType.Kind] at h
    simp only [zeroValue, GoType.Len, GoType.ArrayElem]
    exact zeroValue_array_Elems u h

/-- The name under which the parser of an unnamed type is looked up is the name of its
kind. -/
theorem typeName_unnamed (lib : Lib) (t : GoType) (h : t.Name = "") :
    typeName lib t = kindString t.Kind := by
  simp [typeName, h]

/-- When the registered parser returns an error, `setParsedValue` leaves the value and
returns that error. -/
theorem setParsedValue_parse_error (lib : Lib) (fieldVal : Value) (fieldType : GoType)
    (tagVal : String) (pf : ParserFunc) (x : Option RValue) (err : GoError)
    (hp : parser lib (typeName lib fieldType) = some pf)
    (he : pf tagVal fieldType = some (x, some err)) :
    setParsedValue lib fieldVal fieldType tagVal = some (fieldVal, some err) := by
  simp [setParsedValue, hp, he]

/-- When the registered parser of the target type (the field type with one pointer level
removed) returns an error on the tag, the loop body on an assignable, unset field that is
not a struct or pointer to struct returns this error wrapped with the field name; the field
keeps its value, except that a nil pointer now points to a zero value. -/
theorem setDefaultsField_parse_error (recurse : GoType → Value → Option Outcome)
    (env : TypeEnv) (lib : Lib) (Tag : String) (field : StructField) (fieldVal : Value)
    (target : GoType) (pf : ParserFunc) (x : Option RValue) (err : GoError)
    (ha : assignable field = true) (hleaf : isStructOrStructPtr env field.Typ = false)
    (hunset : isUnset field.Typ fieldVal = true) (htag : field.Tag.Get Tag ≠ "")
    (htarget : if field.Typ.Kind = .Pointer then field.Typ.Elem env = some target
      else target = field.Typ)
    (hp : parser lib (typeName lib target) = some pf)
    (he : pf (field.Tag.Get Tag) target = some (x, some err)) :
    setDefaultsField recurse env lib Tag field fieldVal =
      some (if field.Typ.Kind = .Pointer then .ptr (zeroValue target) else fieldVal,
        some (.wrap ("failed to set default for field " ++ field.Name ++ ": ") err)) := by
  rw [setDefaultsField_parse recurse env lib Tag field fieldVal ha (by simp [hleaf]) hunset
    htag]
  by_cases hk : field.Typ.Kind = .Pointer
  · simp only [hk, if_true] at htarget ⊢
    have hnil : fieldVal.IsNil = true := by simpa [isUnset, hk] using hunset
    simp only [setFieldValue, hk, if_true, htarget, hnil, Value.Elem,
      setParsedValue_parse_error lib _ target _ pf x err hp he]
  · simp only [hk, if_false] at htarget ⊢
    subst htarget
    simp only [setFieldValue, hk, if_false,
      setParsedValue_parse_error lib _ _ _ pf x err hp he]

/-- When the loop body returns the error `e₀` at field `i` whatever the recursion,
`Defaults` on the struct never returns without an error, and the error is `e₀` unless the
loop body returned an error at an earlier field. -/
theorem Defaults_err_of_body (env : TypeEnv) (lib : Lib) (Tag : String) (fuel : Nat)
    (t : GoType) (vals : List Value) (i : Nat) (field : StructField) (fieldVal v' : Value)
    (e₀ : GoError)
    (hfield : t.Fields[i]? = some field) (hval : vals[i]? = some fieldVal)
    (hbody : ∀ recurse, setDefaultsField recurse env lib Tag field fieldVal =
      some (v', some e₀))
    (out : Value) (err : Option GoError)
    (hrun : Defaults env lib Tag fuel ⟨.ptr t, .ptr (.struct vals)⟩ = some (out, err)) :
    ∃ e, err = some e ∧
      (t.Kind = .Struct →
        e = e₀ ∨
        ∃ (n k : Nat) (g : StructField) (w w' : Value), k < i ∧ t.Fields[k]? = some g ∧
          vals[k]? = some w ∧
          setDefaultsField (setDefaults env lib Tag n) env lib Tag g w =
            some (w', some e)) := by
  rcases Defaults_some env lib Tag fuel t vals out err hrun with
    ⟨hns, _, herr⟩ | ⟨_, n, vals', _, _, hl⟩
  · exact ⟨_, herr, fun hs => absurd hs hns⟩
  · cases err with
    | none =>
      obtain ⟨w, _, hb⟩ := setDefaultsLoop_ok_get _ _ _ _ hl i field fieldVal hfield hval
      rw [hbody] at hb
      simp at hb
    | some e =>
      refine ⟨e, rfl, fun _ => ?_⟩
      obtain ⟨k, g, w, w', hg, hw, hb, _, hbefore, _⟩ := setDefaultsLoop_err _ _ _ _ _ hl
      rcases Nat.lt_trichotomy k i with hlt | heq | hgt
      · exact Or.inr ⟨n, k, g, w, w', hlt, hg, hw, hb⟩
      · subst heq
        rw [hfield] at hg
        rw [hval] at hw
        simp only [Option.some.injEq] at hg hw
        subst hg hw
        rw [hbody] at hb
        simp only [Option.some.injEq, Prod.mk.injEq] at hb
        exact Or.inl hb.2.symm
      · obtain ⟨x, _, hbx⟩ := hbefore i field fieldVal hgt hfield hval
        rw [hbody] at hbx
        simp at hbx

/-- The zero value of a type of kind map or slice is nil. -/
theorem zeroValue_map_slice : ∀ t : GoType, t.Kind = .Map ∨ t.Kind = .Slice →
    zeroValue t = .nil
  | .basic k, h => by
    simp only [GoType.Kind] at h
    rcases h with h | h <;> subst h <;> rfl
  | .other _ _, _ => by simp [zeroValue]
  | .ptr _, _ => by simp [zeroValue]
  | .ptrRef _, _ => by simp [zeroValue]
  | .slice _, _ => by simp [zeroValue]
  | .map _ _, _ => by simp [zeroValue]
  | .array _ _, h => by simp [GoType.Kind] at h
  | .struct _, h => by simp [GoType.Kind] at h
  | .named _ _ u, h => by
    simp only [GoType.Kind] at h
    simp only [zeroValue]
    exact zeroValue_map_slice u h

/-- The loop body depends on the field only through its name, package path, type and the
value of its tag under the key `Tag`. -/
theorem setDefaultsField_congr (recurse : GoType → Value → Option Outcome) (env : TypeEnv)
    (lib : Lib) (Tag : String) (f g : StructField) (fieldVal : Value)
    (hn : f.Name = g.Name) (hp : f.PkgPath = g.PkgPath) (ht : f.Typ = g.Typ)
    (hg : f.Tag.Get Tag = g.Tag.Get Tag) :
    setDefaultsField recurse env lib Tag f fieldVal =
      setDefaultsField recurse env lib Tag g fieldVal := by
  simp only [setDefaultsField, assignable, CanSet, StructField.IsExported, hn, hp, ht, hg]

/-- The loop over two lists of fields that agree under the key `Tag` gives the same
result. -/
theorem setDefaultsLoop_congr (recurse : GoType → Value → Option Outcome) (env : TypeEnv)
    (lib : Lib) (Tag : String) :
    ∀ (fs gs : List StructField) (vals : List Value), agreeUnderKey Tag fs gs →
      setDefaultsLoop (setDefaultsField recurse env lib Tag) fs vals =
        setDefaultsLoop (setDefaultsField recurse env lib Tag) gs vals
  | [], [], _, _ => rfl
  | [], _ :: _, _, h => by cases h
  | _ :: _, [], _, h => by cases h
  | f :: fs, g :: gs, [], _ => by simp [setDefaultsLoop]
  | f :: fs, g :: gs, v :: vs, h => by
    cases h with
    | cons hfg hrest =>
      simp only [setDefaultsLoop,
        setDefaultsField_congr recurse env lib Tag f g v hfg.1 hfg.2.1 hfg.2.2.1 hfg.2.2.2,
        setDefaultsLoop_congr recurse env lib Tag fs gs vs hrest]

/-- The loop returns the values unchanged and no error when the body does so for every
field. -/
theorem setDefaultsLoop_skip_all (body : StructField → Value → Option Outcome) :
    ∀ (fields : List StructField) (vals : List Value),
      (∀ f ∈ fields, ∀ v, body f v = some (v, none)) → fields.length ≤ vals.length →
      setDefaultsLoop body fields vals = some (vals, none)
  | [], _, _, _ => by simp [setDefaultsLoop]
  | _ :: _, [], _, h => by simp at h
  | f :: fs, v :: vs, hb, h => by
    simp only [setDefaultsLoop, hb f (List.mem_cons_self f fs) v,
      setDefaultsLoop_skip_all body fs vs
        (fun g hg w => hb g (List.mem_cons_of_mem f hg) w)
        (by simpa using h)]

/-- A second run of `setParsedValue` on the value a first run left without error gives that
value again, without error: the result of the parser does not depend on the value the field
holds. -/
theorem setParsedValue_idem (lib : Lib) (fieldVal x : Value) (fieldType : GoType)
    (tagVal : String)
    (h : setParsedValue lib fieldVal fieldType tagVal = some (x, none)) :
    setParsedValue lib x fieldType tagVal = some (x, none) := by
  unfold setParsedValue at h ⊢
  cases hp : parser lib (typeName lib fieldType) with
  | none => simp [hp] at h
  | some pf =>
    simp only [hp] at h ⊢
    rcases hr : pf tagVal fieldType with _ | ⟨_ | r, _ | e⟩
    · simp [hr] at h
    · simp
    · simp [hr] at h
    · simp only [hr] at h ⊢
      by_cases hk : fieldType.Kind = .Map ∨ fieldType.Kind = .Slice ∨ fieldType.Kind = .Array
      · simp only [hk, if_true] at h ⊢
        by_cases hc : lib.convertibleTo r.typ fieldType = true
        · simp only [hc, if_true, Option.some.injEq, Prod.mk.injEq, and_true] at h ⊢
          exact h
        · simp [hc] at h
      · simp only [hk, if_false, Option.some.injEq, Prod.mk.injEq, and_true] at h ⊢
        exact h
    · simp [hr] at h

/-- A second run of the loop body on the value a first run left without error gives that
value again, without error, when the recursive call has this property. -/
theorem setDefaultsField_idem (recurse : GoType → Value → Option Outcome)
    (env : TypeEnv) (lib : Lib) (Tag : String)
    (hrec : ∀ t v v', recurse t v = some (v', none) → recurse t v' = some (v', none))
    (field : StructField) (fieldVal fieldVal' : Value)
    (h : setDefaultsField recurse env lib Tag field fieldVal = some (fieldVal', none)) :
    setDefaultsField recurse env lib Tag field fieldVal' = some (fieldVal', none) := by
  unfold setDefaultsField at h ⊢
  by_cases ha : assignable field = true
  swap
  · simp only [ha, Bool.not_false, if_true, Option.some.injEq, Prod.mk.injEq, and_true] at h ⊢
  simp only [ha, Bool.not_true, Bool.false_eq_true, if_false] at h ⊢
  by_cases hb : (isStructOrStructPtr env field.Typ &&
      (field.Tag.Get Tag == "" || field.Typ.Kind == .Struct)) = true
  · simp only [hb, if_true] at h ⊢
    by_cases hk : field.Typ.Kind = .Pointer
    · simp only [hk, if_true] at h ⊢
      cases he : field.Typ.Elem env with
      | none => simp [he] at h
      | some elemType =>
        simp only [he] at h ⊢
        cases hal : (if fieldVal.IsNil = true then Value.ptr (zeroValue elemType)
            else fieldVal).Elem with
        | none => simp [hal] at h
        | some pointee =>
          simp only [hal] at h
          rcases hr : recurse elemType pointee with _ | ⟨p', _ | e⟩
          · simp [hr] at h
          · simp only [hr, Option.some.injEq, Prod.mk.injEq, and_true] at h
            subst h
            simp [Value.IsNil, Value.Elem, hrec elemType pointee p' hr]
          · simp [hr] at h
    · simp only [hk, if_false] at h ⊢
      rcases hr : recurse field.Typ fieldVal with _ | ⟨p', _ | e⟩
      · simp [hr] at h
      · simp only [hr, Option.some.injEq, Prod.mk.injEq, and_true] at h
        subst h
        simp [hrec field.Typ fieldVal p' hr]
      · simp [hr] at h
  · simp only [hb, Bool.false_eq_true, if_false] at h ⊢
    by_cases hu' : isUnset field.Typ fieldVal' = true
    swap
    · simp [hu']
    simp only [hu', Bool.not_true, Bool.false_eq_true, if_false]
    by_cases hu : isUnset field.Typ fieldVal = true
    swap
    · simp only [hu, Bool.not_false, if_true, Option.some.injEq, Prod.mk.injEq, and_true] at h
      subst h
      exact absurd hu' hu
    simp only [hu, Bool.not_true, Bool.false_eq_true, if_false] at h
    by_cases ht : field.Tag.Get Tag = ""
    · simp [ht]
    simp only [ht, if_false] at h ⊢
    rcases hr : setFieldValue env lib fieldVal field.Typ (field.Tag.Get Tag) with
      _ | ⟨x, _ | e⟩
    · simp [hr] at h
    · simp only [hr, Option.some.injEq, Prod.mk.injEq, and_true] at h
      subst h
      have h2 : setFieldValue env lib x field.Typ (field.Tag.Get Tag) = some (x, none) := by
        unfold setFieldValue at hr ⊢
        by_cases hk : field.Typ.Kind = .Pointer
        · simp only [hk, if_true] at hr
          cases he : field.Typ.Elem env with
          | none => simp [he] at hr
          | some elemType =>
            simp only [he] at hr
            cases hal : (if fieldVal.IsNil = true then Value.ptr (zeroValue elemType)
                else fieldVal).Elem with
            | none => simp [hal] at hr
            | some pointee =>
              simp only [hal] at hr
              rcases hs : setParsedValue lib pointee elemType (field.Tag.Get Tag) with
                _ | ⟨p', e'⟩
              · simp [hs] at hr
              · simp only [hs, Option.some.injEq, Prod.mk.injEq] at hr
                have hx := hr.1
                subst hx
                simp [isUnset, hk, Value.IsNil] at hu'
        · simp only [hk, if_false] at hr ⊢
          exact setParsedValue_idem lib fieldVal x field.Typ _ hr
      simp [h2]
    · simp [hr] at h

/-- A second run of the loop on the values a first run left without error gives those values
again, without error, when the recursive call has this property. -/
theorem setDefaultsLoop_idem (recurse : GoType → Value → Option Outcome)
    (env : TypeEnv) (lib : Lib) (Tag : String)
    (hrec : ∀ t v v', recurse t v = some (v', none) → recurse t v' = some (v', none)) :
    ∀ (fields : List StructField) (vals vals' : List Value),
      setDefaultsLoop (setDefaultsField recurse env lib Tag) fields vals = some (vals', none) →
      setDefaultsLoop (setDefaultsField recurse env lib Tag) fields vals' = some (vals', none)
  | [], vals, vals', h => by
    simp only [setDefaultsLoop, Option.some.injEq, Prod.mk.injEq, and_true] at h ⊢
  | _ :: _, [], _, h => by simp [setDefaultsLoop] at h
  | f :: fs, v :: vs, vals', h => by
    simp only [setDefaultsLoop] at h
    rcases hb : setDefaultsField recurse env lib Tag f v with _ | ⟨v', _ | e⟩
    · simp [hb] at h
    · simp only [hb] at h
      rcases hl : setDefaultsLoop (setDefaultsField recurse env lib Tag) fs vs with
        _ | ⟨rest', err⟩
      · simp [hl] at h
      · simp only [hl, Option.some.injEq, Prod.mk.injEq] at h
        obtain ⟨h1, h2⟩ := h
        subst h1 h2
        simp only [setDefaultsLoop, setDefaultsField_idem recurse env lib Tag hrec f v v' hb,
          setDefaultsLoop_idem recurse env lib Tag hrec fs vs rest' hl]
    · simp [hb] at h

/-- A second run of `setDefaults` on the struct a first run left without error gives that
struct again, without error. -/
theorem setDefaults_idem (env : TypeEnv) (lib : Lib) (Tag : String) :
    ∀ (fuel : Nat) (t : GoType) (v v' : Value),
      setDefaults env lib Tag fuel t v = some (v', none) →
      setDefaults env lib Tag fuel t v' = some (v', none)
  | 0, _, _, _, h => by simp [setDefaults] at h
  | fuel + 1, t, v, v', h => by
    cases v with
    | struct vals =>
      simp only [setDefaults] at h
      rcases hl : setDefaultsLoop (setDefaultsField (setDefaults env lib Tag fuel) env lib Tag)
          t.Fields vals with _ | ⟨vals', err⟩
      · simp [hl] at h
      · simp only [hl, Option.some.injEq, Prod.mk.injEq] at h
        obtain ⟨h1, h2⟩ := h
        subst h1 h2
        simp only [setDefaults, setDefaultsLoop_idem _ env lib Tag
          (setDefaults_idem env lib Tag fuel) t.Fields vals vals' hl]
    | _ => simp [setDefaults] at h

/-- The value of a text of digits is at least the number it continues from. -/
theorem decimalValue_ge : ∀ (cs : List Char) (x : Nat), x ≤ decimalValue cs x
  | [], _ => Nat.le_refl _
  | c :: cs, x => by
    have h := decimalValue_ge cs (x * 10 + (c.toNat - 48))
    simp only [decimalValue]
    omega

/-- On a text of digits whose value is at most `2^63`, followed by a text that does not
begin with a digit, `leadingInt` returns the value and that text. -/
theorem leadingInt_digits : ∀ (ds : List Char) (x : Nat) (rest : List Char),
    (∀ c ∈ ds, 48 ≤ c.toNat ∧ c.toNat ≤ 57) →
    (∀ c r, rest = c :: r → c.toNat < 48 ∨ c.toNat > 57) →
    decimalValue ds x ≤ 2 ^ 63 →
    leadingInt (ds ++ rest) x = some (decimalValue ds x, rest)
  | [], x, rest, _, hrest, _ => by
    cases rest with
    | nil => rfl
    | cons c r => simp [leadingInt, decimalValue, hrest c r rfl]
  | c :: cs, x, rest, hds, hrest, hv => by
    have hc := hds c (List.mem_cons_self c cs)
    have hge := decimalValue_ge cs (x * 10 + (c.toNat - 48))
    simp only [decimalValue] at hv
    have h63 : (2 : Nat) ^ 63 = 9223372036854775808 := by norm_num
    have h64 : (2 : Nat) ^ 64 = 18446744073709551616 := by norm_num
    have ih := leadingInt_digits cs (x * 10 + (c.toNat - 48)) rest
      (fun c' hc' => hds c' (List.mem_cons_of_mem c hc')) hrest hv
    rw [h63] at hv
    have e1 : ¬ (c.toNat < 48 ∨ c.toNat > 57) := by omega
    have e2 : ¬ (x > 9223372036854775808 / 10) := by omega
    have e3 : (x * 10 + c.toNat - 48) % 18446744073709551616 = x * 10 + (c.toNat - 48) := by
      omega
    have e4 : ¬ (x * 10 + (c.toNat - 48) > 9223372036854775808) := by omega
    simp only [List.cons_append, leadingInt, h63, h64, e1, e2, e3, e4, if_false, decimalValue]
    exact ih

/-- On a text without digits and periods, followed by a text that is empty or begins with a
digit or a period, `unitText` splits between the two. -/
theorem unitText_append : ∀ (u T : List Char),
    (∀ c ∈ u, isDigitOrDot c = false) →
    (∀ c r, T = c :: r → isDigitOrDot c = true) →
    unitText (u ++ T) = (u, T)
  | [], T, _, hT => by
    cases T with
    | nil => rfl
    | cons c r => simp [unitText, hT c r rfl]
  | c :: cs, T, hu, hT => by
    have ih := unitText_append cs T (fun c' hc' => hu c' (List.mem_cons_of_mem c hc')) hT
    simp [unitText, hu c (List.mem_cons_self c cs), ih]

/-- The rest that `leadingInt` returns is not longer than the text. -/
theorem leadingInt_length : ∀ (s : List Char) (x v : Nat) (s₁ : List Char),
    leadingInt s x = some (v, s₁) → s₁.length ≤ s.length
  | [], x, v, s₁, h => by
    simp only [leadingInt, Option.some.injEq, Prod.mk.injEq] at h
    rw [← h.2]
  | c :: cs, x, v, s₁, h => by
    simp only [leadingInt] at h
    split at h
    · simp only [Option.some.injEq, Prod.mk.injEq] at h
      rw [← h.2]
    · split at h
      · exact absurd h (by simp)
      · split at h
        · exact absurd h (by simp)
        · have := leadingInt_length cs _ v s₁ h
          simp only [List.length_cons]
          omega

/-- The rest that `leadingFraction` returns is not longer than the text. -/
theorem leadingFraction_length : ∀ (s : List Char) (x scale : Nat) (overflow : Bool),
    (leadingFraction s x scale overflow).2.2.length ≤ s.length
  | [], _, _, _ => by simp [leadingFraction]
  | c :: cs, x, scale, overflow => by
    simp only [leadingFraction]
    split
    · exact Nat.le_refl _
    · split
      · exact Nat.le_succ_of_le (leadingFraction_length cs _ _ _)
      · split
        · exact Nat.le_succ_of_le (leadingFraction_length cs _ _ _)
        · split
          · exact Nat.le_succ_of_le (leadingFraction_length cs _ _ _)
          · exact Nat.le_succ_of_le (leadingFraction_length cs _ _ _)

/-- The two parts that `unitText` returns make up the text. -/
theorem unitText_length : ∀ s : List Char,
    (unitText s).1.length + (unitText s).2.length = s.length
  | [] => rfl
  | c :: cs => by
    have ih := unitText_length cs
    simp only [unitText]
    split
    · simp
    · simp only [List.length_cons]
      omega

/-- The rest that `durationFraction` returns is not longer than the text. -/
theorem durationFraction_length (s₁ : List Char) :
    (durationFraction s₁).2.2.1.length ≤ s₁.length := by
  cases s₁ with
  | nil => simp [durationFraction]
  | cons c₁ r =>
    by_cases hc : c₁ = '.'
    · simp only [durationFraction, hc, if_true, List.length_cons]
      exact Nat.le_succ_of_le (leadingFraction_length r 0 1 false)
    · simp only [durationFraction, hc, if_false]
      exact Nat.le_refl _

/-- The end of a round that returns without error leaves a shorter text. -/
theorem parseDurationUnit_length (orig : List Char) (v f scale : Nat) (s₂ : List Char)
    (d : Nat) (s' : List Char) (d' : Nat)
    (h : parseDurationUnit orig v f scale s₂ d = .ok (s', d')) :
    s'.length < s₂.length := by
  have hut := unitText_length s₂
  unfold parseDurationUnit at h
  by_cases hu : (unitText s₂).1.isEmpty = true
  · simp [hu] at h
  · simp only [hu, Bool.false_eq_true, if_false] at h
    have hpos : 1 ≤ (unitText s₂).1.length := by
      cases hq : (unitText s₂).1 with
      | nil => simp [hq] at hu
      | cons a b => simp
    cases hm : unitMap (String.mk (unitText s₂).1) with
    | none => simp [hm] at h
    | some unit =>
      simp only [hm] at h
      split at h
      · exact absurd h (by simp)
      · split at h
        · exact absurd h (by simp)
        · split at h
          · exact absurd h (by simp)
          · simp only [Except.ok.injEq, Prod.mk.injEq] at h
            rw [← h.1]
            omega

/-- A round of the loop that returns without error leaves a shorter text. -/
theorem parseDurationRound_length (orig : List Char) (c : Char) (cs : List Char) (d : Nat)
    (s' : List Char) (d' : Nat)
    (h : parseDurationRound orig (c :: cs) d = .ok (s', d')) :
    s'.length < (c :: cs).length := by
  simp only [parseDurationRound] at h
  split at h
  · exact absurd h (by simp)
  · split at h
    · exact absurd h (by simp)
    · rename_i v s₁ hli
      have h1 := leadingInt_length _ _ _ _ hli
      have h2 := durationFraction_length s₁
      split at h
      · exact absurd h (by simp)
      · have h3 := parseDurationUnit_length orig _ _ _ _ d s' d' h
        omega

/-- The loop of `time.ParseDuration` on the empty text returns the sum so far. -/
theorem parseDurationLoop_nil (orig : List Char) (fuel d : Nat) :
    parseDurationLoop orig fuel [] d = .ok d := by
  cases fuel <;> rfl

/-- The bound on the rounds does not matter once it is at least the length of the text: the
loop ends because the text is used up, never because the bound is reached. -/
theorem parseDurationLoop_fuel (orig : List Char) :
    ∀ (n m : Nat) (s : List Char) (d : Nat), s.length ≤ n → s.length ≤ m →
      parseDurationLoop orig n s d = parseDurationLoop orig m s d
  | _, _, [], d, _, _ => by rw [parseDurationLoop_nil, parseDurationLoop_nil]
  | 0, _, _ :: _, _, hn, _ => by simp at hn
  | _ + 1, 0, _ :: _, _, _, hm => by simp at hm
  | n + 1, m + 1, c :: cs, d, hn, hm => by
    simp only [parseDurationLoop]
    cases hr : parseDurationRound orig (c :: cs) d with
    | error err => rfl
    | ok p =>
      obtain ⟨s', d'⟩ := p
      have hl := parseDurationRound_length orig c cs d s' d' hr
      exact parseDurationLoop_fuel orig n m s' d' (by omega) (by omega)

/-- One round of the loop of `time.ParseDuration` on a number without fraction whose value
is at most `2^63`, followed by a unit text and then by a text that is empty or begins with a
digit or a period. -/
theorem parseDurationRound_number (orig : List Char) (c : Char)
    (cs u T : List Char) (d : Nat)
    (hds : ∀ x ∈ c :: cs, 48 ≤ x.toNat ∧ x.toNat ≤ 57)
    (hv : decimalValue (c :: cs) 0 ≤ 2 ^ 63)
    (hne : u ≠ [])
    (hu : ∀ x ∈ u, isDigitOrDot x = false)
    (hT : ∀ x r, T = x :: r → isDigitOrDot x = true) :
    parseDurationRound orig (c :: cs ++ (u ++ T)) d =
      match unitMap (String.mk u) with
      | none =>
        .error (.text ("time: unknown unit " ++ timeQuote u ++ " in duration " ++
          timeQuote orig))
      | some unit =>
        if decimalValue (c :: cs) 0 > 2 ^ 63 / unit then .error (invalidDuration orig)
        else if (d + decimalValue (c :: cs) 0 * unit % 2 ^ 64) % 2 ^ 64 > 2 ^ 63 then
          .error (invalidDuration orig)
        else .ok (T, (d + decimalValue (c :: cs) 0 * unit % 2 ^ 64) % 2 ^ 64) := by
  obtain ⟨x, u', rfl⟩ : ∃ x u', u = x :: u' := by
    cases u with
    | nil => exact absurd rfl hne
    | cons x u' => exact ⟨x, u', rfl⟩
  have hx := hu x (List.mem_cons_self x u')
  have hxd : x.toNat < 48 ∨ x.toNat > 57 := by
    simp only [isDigitOrDot, decide_eq_false_iff_not, not_or, not_and] at hx
    omega
  have hxdot : x ≠ '.' := by
    simp only [isDigitOrDot, decide_eq_false_iff_not, not_or] at hx
    exact hx.1
  have hli : leadingInt (c :: (cs ++ (x :: u' ++ T))) 0 =
      some (decimalValue (c :: cs) 0, x :: (u' ++ T)) := by
    have h := leadingInt_digits (c :: cs) 0 (x :: u' ++ T) hds
      (fun c' r hcr => by
        simp only [List.cons_append, List.cons.injEq] at hcr
        rw [← hcr.1]
        exact hxd) hv
    simpa using h
  have hcd : isDigitOrDot c = true := by
    have := hds c (List.mem_cons_self c cs)
    simp [isDigitOrDot, this]
  have hut : unitText (x :: (u' ++ T)) = (x :: u', T) := by
    have h := unitText_append (x :: u') T hu hT
    simpa using h
  have hlen : ((c :: (cs ++ (x :: u' ++ T))).length != (x :: (u' ++ T)).length) = true := by
    simp
    omega
  rw [show c :: cs ++ (x :: u' ++ T) = c :: (cs ++ (x :: u' ++ T)) from rfl]
  simp only [parseDurationRound, parseDurationUnit, durationFraction, addFraction, hcd,
    Bool.not_true, Bool.false_eq_true, if_false, hli, hlen, hxdot, hut, Bool.and_false,
    List.isEmpty_cons, Bool.false_and, gt_iff_lt, Nat.lt_irrefl, false_and]

/-- The loop of `time.ParseDuration` at such a round. -/
theorem parseDurationLoop_round (orig : List Char) (fuel : Nat) (c : Char)
    (cs u T : List Char) (d : Nat)
    (hds : ∀ x ∈ c :: cs, 48 ≤ x.toNat ∧ x.toNat ≤ 57)
    (hv : decimalValue (c :: cs) 0 ≤ 2 ^ 63)
    (hne : u ≠ [])
    (hu : ∀ x ∈ u, isDigitOrDot x = false)
    (hT : ∀ x r, T = x :: r → isDigitOrDot x = true) :
    parseDurationLoop orig (fuel + 1) (c :: cs ++ (u ++ T)) d =
      match unitMap (String.mk u) with
      | none =>
        .error (.text ("time: unknown unit " ++ timeQuote u ++ " in duration " ++
          timeQuote orig))
      | some unit =>
        if decimalValue (c :: cs) 0 > 2 ^ 63 / unit then .error (invalidDuration orig)
        else if (d + decimalValue (c :: cs) 0 * unit % 2 ^ 64) % 2 ^ 64 > 2 ^ 63 then
          .error (invalidDuration orig)
        else parseDurationLoop orig fuel T
          ((d + decimalValue (c :: cs) 0 * unit % 2 ^ 64) % 2 ^ 64) := by
  have h := parseDurationRound_number orig c cs u T d hds hv hne hu hT
  rw [show c :: cs ++ (u ++ T) = c :: (cs ++ (u ++ T)) from rfl] at h ⊢
  simp only [parseDurationLoop, h]
  cases unitMap (String.mk u) with
  | none => rfl
  | some unit =>
    dsimp only
    by_cases h1 : decimalValue (c :: cs) 0 > 2 ^ 63 / unit
    · simp only [h1, if_true]
    · simp only [h1, if_false]
      by_cases h2 : (d + decimalValue (c :: cs) 0 * unit % 2 ^ 64) % 2 ^ 64 > 2 ^ 63
      · simp only [h2, if_true]
      · simp only [h2, if_false]

/-- The suffix of a unit is in `unitMap`, with the length of the unit; it is not empty and
has neither a digit nor a period. -/
theorem DurationUnit.suffix_spec (k : DurationUnit) :
    unitMap (String.mk k.suffix.data) = some k.nanos ∧ k.suffix.data ≠ [] ∧
      (∀ x ∈ k.suffix.data, isDigitOrDot x = false) ∧ 1 ≤ k.nanos := by
  cases k <;> refine ⟨rfl, by decide, by decide, by decide⟩

/-- A decimal digit passes the test `isDigitOrDot`. -/
theorem isDigitOrDot_of_digit (c : Char) (h : 48 ≤ c.toNat ∧ c.toNat ≤ 57) :
    isDigitOrDot c = true := by
  simp [isDigitOrDot, h]

/-- The text of a well-formed literal, followed by a text that is empty or begins with a
digit, is itself empty or begins with a digit. -/
theorem durationText_append_head (gs : DurationGroups) (R : List Char)
    (h : wellFormedGroups gs = true)
    (hR : ∀ x r, R = x :: r → 48 ≤ x.toNat ∧ x.toNat ≤ 57) :
    ∀ x r, durationText gs ++ R = x :: r → 48 ≤ x.toNat ∧ x.toNat ≤ 57 := by
  intro x r hx
  cases gs with
  | nil => exact hR x r (by simpa [durationText] using hx)
  | cons g gs' =>
    simp only [wellFormedGroups, List.all_cons, Bool.and_eq_true, isDecimal] at h
    obtain ⟨⟨hne, hall⟩, _⟩ := h
    cases hg : g.1 with
    | nil => simp [hg] at hne
    | cons c cs =>
      simp only [durationText, hg, List.cons_append, List.cons.injEq] at hx
      rw [hg] at hall
      simp only [List.all_cons, Bool.and_eq_true, decide_eq_true_eq] at hall
      rw [← hx.1]
      exact hall.1

/-- The text of a well-formed literal has at least two characters for each group. -/
theorem durationText_length (gs : DurationGroups) (h : wellFormedGroups gs = true) :
    2 * gs.length ≤ (durationText gs).length := by
  induction gs with
  | nil => simp
  | cons g gs ih =>
    simp only [wellFormedGroups, List.all_cons, Bool.and_eq_true] at h
    have ih' := ih h.2
    have hg1 : isDecimal g.1 = true := h.1
    obtain ⟨_, hne, _, _⟩ := g.2.suffix_spec
    have h1 : 1 ≤ g.1.length := by
      cases hg : g.1 with
      | nil =>
        rw [hg] at hg1
        simp [isDecimal] at hg1
      | cons c cs => simp
    have h2 : 1 ≤ g.2.suffix.data.length := by
      cases hs : g.2.suffix.data with
      | nil => exact absurd hs hne
      | cons c cs => simp
    simp only [durationText, List.length_append, List.length_cons]
    omega

/-- The loop of `time.ParseDuration` on a well-formed literal, followed by a text that is
empty or begins with a digit or a period: when the sum of the literal, added to the sum so
far, is at most `2^63`, the loop reaches that text with the total, after one round for each
group. -/
theorem parseDurationLoop_groups (orig : List Char) (R : List Char)
    (hR : ∀ x r, R = x :: r → 48 ≤ x.toNat ∧ x.toNat ≤ 57) :
    ∀ (gs : DurationGroups) (fuel d : Nat), wellFormedGroups gs = true →
      d + durationSum gs ≤ 2 ^ 63 →
      parseDurationLoop orig (gs.length + fuel) (durationText gs ++ R) d =
        parseDurationLoop orig fuel R (d + durationSum gs)
  | [], fuel, d, _, _ => by simp [durationText, durationSum]
  | g :: gs, fuel, d, hwf, hsum => by
    have hwf' : wellFormedGroups gs = true := by
      simp only [wellFormedGroups, List.all_cons, Bool.and_eq_true] at hwf ⊢
      exact hwf.2
    have hg : isDecimal g.1 = true := by
      simp only [wellFormedGroups, List.all_cons, Bool.and_eq_true] at hwf
      exact hwf.1
    obtain ⟨hmap, hne, hnd, hpos⟩ := g.2.suffix_spec
    simp only [durationSum] at hsum
    have h63 : (2 : Nat) ^ 63 = 9223372036854775808 := by norm_num
    have h64 : (2 : Nat) ^ 64 = 18446744073709551616 := by norm_num
    cases hd : g.1 with
    | nil => simp [isDecimal, hd] at hg
    | cons c cs =>
      rw [hd] at hsum
      have hds : ∀ x ∈ c :: cs, 48 ≤ x.toNat ∧ x.toNat ≤ 57 := by
        simp only [isDecimal, hd, Bool.and_eq_true, List.all_eq_true, decide_eq_true_eq] at hg
        exact hg.2
      have hvu : decimalValue (c :: cs) 0 ≤ decimalValue (c :: cs) 0 * g.2.nanos :=
        Nat.le_mul_of_pos_right _ hpos
      have hround := parseDurationLoop_round orig (gs.length + fuel) c cs g.2.suffix.data
        (durationText gs ++ R) d hds (by omega) hne hnd
        (fun x r hx => isDigitOrDot_of_digit x (durationText_append_head gs R hwf' hR x r hx))
      simp only [durationText, hd, List.append_assoc, List.length_cons]
      rw [show gs.length + 1 + fuel = gs.length + fuel + 1 by omega, hround, hmap,
        show durationSum (g :: gs) =
          decimalValue (c :: cs) 0 * g.2.nanos + durationSum gs by simp [durationSum, hd]]
      dsimp only
      have hle : decimalValue (c :: cs) 0 ≤ 2 ^ 63 / g.2.nanos := by
        rw [Nat.le_div_iff_mul_le hpos]
        omega
      rw [h63] at hsum hle
      generalize decimalValue (c :: cs) 0 = v at *
      generalize hn : g.2.nanos = n at *
      generalize hvn : v * n = p at *
      have e2 : (d + p % 18446744073709551616) % 18446744073709551616 = d + p := by omega
      simp only [h63, h64, e2]
      rw [if_neg (by omega), if_neg (by omega)]
      have ih := parseDurationLoop_groups orig R hR gs fuel (d + p) hwf'
        (by rw [h63]; omega)
      rw [ih, Nat.add_assoc]

/-- On a well-formed literal with at least one group whose sum is at most `2^63 - 1`,
`time.ParseDuration` returns the sum. -/
theorem timeParseDuration_groups (gs : DurationGroups) (hne : gs ≠ [])
    (hwf : wellFormedGroups gs = true) (hsum : durationSum gs ≤ 2 ^ 63 - 1) :
    timeParseDuration (String.mk (durationText gs)) = .ok (durationSum gs : Int) := by
  have h63 : (2 : Nat) ^ 63 = 9223372036854775808 := by norm_num
  rw [h63] at hsum
  have hlen := durationText_length gs hwf
  have hgl : 1 ≤ gs.length := by
    cases gs with
    | nil => exact absurd rfl hne
    | cons g gs' => simp
  cases hL : durationText gs with
  | nil =>
    rw [hL] at hlen
    simp only [List.length_nil] at hlen
    omega
  | cons c rest =>
    have hc48 : 48 ≤ c.toNat :=
      (durationText_append_head gs [] hwf (fun x r h => by cases h) c rest
        (by rw [List.append_nil]; exact hL)).1
    obtain ⟨hdrop, hneg⟩ := dropSign_of_digit c rest hc48
    have hrest : rest ≠ [] := by
      intro h
      rw [hL, h] at hlen
      simp at hlen
      omega
    have hloop := parseDurationLoop_groups (c :: rest) [] (fun x r h => by cases h) gs
      ((c :: rest).length - gs.length) 0 hwf (by rw [h63]; omega)
    rw [show gs.length + ((c :: rest).length - gs.length) = (c :: rest).length by
      rw [hL] at hlen; omega, List.append_nil, hL, parseDurationLoop_nil] at hloop
    simp only [timeParseDuration, hdrop, hneg, List.cons.injEq, hrest, and_false, if_false,
      hloop, Nat.zero_add, Bool.false_eq_true, h63]
    rw [if_neg (by simp), if_neg (by omega)]

/-- On a well-formed literal followed by a number and a unit text that is not in `unitMap`,
`time.ParseDuration` returns the error that names the unit, when the sum of the literal and
the value of the number are at most `2^63`. -/
theorem timeParseDuration_unknown_unit (gs : DurationGroups) (c : Char)
    (cs u T : List Char) (hwf : wellFormedGroups gs = true)
    (hsum : durationSum gs ≤ 2 ^ 63)
    (hds : ∀ x ∈ c :: cs, 48 ≤ x.toNat ∧ x.toNat ≤ 57)
    (hv : decimalValue (c :: cs) 0 ≤ 2 ^ 63)
    (hne : u ≠ []) (hu : ∀ x ∈ u, isDigitOrDot x = false)
    (hT : ∀ x r, T = x :: r → isDigitOrDot x = true)
    (hmap : unitMap (String.mk u) = none) :
    timeParseDuration (String.mk (durationText gs ++ (c :: cs ++ (u ++ T)))) =
      .error (.text ("time: unknown unit " ++ timeQuote u ++ " in duration " ++
        timeQuote (durationText gs ++ (c :: cs ++ (u ++ T))))) := by
  have hlen := durationText_length gs hwf
  have hcd : isDigitOrDot c = true := by
    have := hds c (List.mem_cons_self c cs)
    simp [isDigitOrDot, this]
  have hul : 1 ≤ u.length := by
    cases u with
    | nil => exact absurd rfl hne
    | cons x u' => simp
  cases hL : durationText gs ++ (c :: cs ++ (u ++ T)) with
  | nil => simp at hL
  | cons y rest =>
    have hy48 : 48 ≤ y.toNat :=
      (durationText_append_head gs (c :: cs ++ (u ++ T)) hwf
        (fun x r h => by
          simp only [List.cons_append, List.cons.injEq] at h
          rw [← h.1]
          exact hds c (List.mem_cons_self c cs)) y rest hL).1
    obtain ⟨hdrop, hneg⟩ := dropSign_of_digit y rest hy48
    have hLlen : (y :: rest).length =
        (durationText gs).length + ((c :: cs).length + (u.length + T.length)) := by
      rw [← hL]
      simp only [List.length_append]
    have hrest : rest ≠ [] := by
      intro h
      rw [h] at hLlen
      simp at hLlen
      omega
    have hloop := parseDurationLoop_groups (y :: rest) (c :: cs ++ (u ++ T))
      (fun x r h => by
        simp only [List.cons_append, List.cons.injEq] at h
        rw [← h.1]
        exact hds c (List.mem_cons_self c cs)) gs
      ((y :: rest).length - gs.length - 1 + 1) 0 hwf (by omega)
    rw [parseDurationLoop_round (y :: rest) _ c cs u T _ hds hv hne hu hT, hmap] at hloop
    dsimp only at hloop
    rw [show gs.length + ((y :: rest).length - gs.length - 1 + 1) = (y :: rest).length by
      simp only [List.length_cons] at hLlen ⊢; omega, hL] at hloop
    simp only [timeParseDuration, hdrop, hneg, List.cons.injEq, hrest, and_false, if_false,
      hloop]
    rw [if_neg (List.cons_ne_nil y rest)]

/-- The loop body on an assignable, unset field outside the recursion branch with a
non-empty tag, in terms of `setParsedValue` on the target: the field itself, or the fresh
zero value a nil pointer is made to point to. -/
theorem setDefaultsField_leaf (recurse : GoType → Value → Option Outcome)
    (env : TypeEnv) (lib : Lib) (Tag : String) (field : StructField) (fieldVal : Value)
    (target : GoType)
    (ha : assignable field = true)
    (hbranch : (isStructOrStructPtr env field.Typ &&
      (field.Tag.Get Tag == "" || field.Typ.Kind == .Struct)) = false)
    (hunset : isUnset field.Typ fieldVal = true) (htag : field.Tag.Get Tag ≠ "")
    (htarget : if field.Typ.Kind = .Pointer then field.Typ.Elem env = some target
      else target = field.Typ) :
    setDefaultsField recurse env lib Tag field fieldVal =
      match setParsedValue lib
          (if field.Typ.Kind = .Pointer then zeroValue target else fieldVal) target
          (field.Tag.Get Tag) with
      | none => none
      | some (p, some err) =>
        some (if field.Typ.Kind = .Pointer then .ptr p else p,
          some (.wrap ("failed to set default for field " ++ field.Name ++ ": ") err))
      | some (p, none) => some (if field.Typ.Kind = .Pointer then .ptr p else p, none) := by
  rw [setDefaultsField_parse recurse env lib Tag field fieldVal ha hbranch hunset htag]
  by_cases hk : field.Typ.Kind = .Pointer
  · simp only [hk, if_true] at htarget ⊢
    have hnil : fieldVal.IsNil = true := by simpa [isUnset, hk] using hunset
    simp only [setFieldValue, hk, if_true, htarget, hnil, Value.Elem]
    all_goals
      rcases setParsedValue lib (zeroValue target) target (field.Tag.Get Tag) with
        _ | ⟨p, _ | e⟩ <;> rfl
  · simp only [hk, if_false] at htarget ⊢
    subst htarget
    simp only [setFieldValue, hk, if_false]

/-- When `setParsedValue` returns an error it leaves the value as it was. -/
theorem setParsedValue_err_val (lib : Lib) (fieldVal p : Value) (fieldType : GoType)
    (tagVal : String) (err : GoError)
    (h : setParsedValue lib fieldVal fieldType tagVal = some (p, some err)) : p = fieldVal := by
  unfold setParsedValue at h
  cases hp : parser lib (typeName lib fieldType) with
  | none =>
    simp only [hp, Option.some.injEq, Prod.mk.injEq] at h
    exact h.1.symm
  | some pf =>
    simp only [hp] at h
    rcases hr : pf tagVal fieldType with _ | ⟨_ | r, _ | e⟩
    · simp [hr] at h
    · simp [hr] at h
    · simp only [hr, Option.some.injEq, Prod.mk.injEq] at h
      exact h.1.symm
    · simp only [hr] at h
      split at h
      · split at h
        · simp at h
        · simp only [Option.some.injEq, Prod.mk.injEq] at h
          exact h.1.symm
      · simp at h
    · simp only [hr, Option.some.injEq, Prod.mk.injEq] at h
      exact h.1.symm

/-- The loop body on an assignable, unset field outside the recursion branch with a
non-empty tag whose target type has no registered parser: the unsupported-type error,
wrapped with the field name; a nil pointer now points to a zero value. -/
theorem setDefaultsField_unsupported (recurse : GoType → Value → Option Outcome)
    (env : TypeEnv) (lib : Lib) (Tag : String) (field : StructField) (fieldVal : Value)
    (target : GoType)
    (ha : assignable field = true)
    (hbranch : (isStructOrStructPtr env field.Typ &&
      (field.Tag.Get Tag == "" || field.Typ.Kind == .Struct)) = false)
    (hunset : isUnset field.Typ fieldVal = true) (htag : field.Tag.Get Tag ≠ "")
    (htarget : if field.Typ.Kind = .Pointer then field.Typ.Elem env = some target
      else target = field.Typ)
    (hparser : parser lib (typeName lib target) = none) :
    setDefaultsField recurse env lib Tag field fieldVal =
      some (if field.Typ.Kind = .Pointer then .ptr (zeroValue target) else fieldVal,
        some (.wrap ("failed to set default for field " ++ field.Name ++ ": ")
          (.text ("unsupported type" ++ " \"" ++ typeName lib target ++ "\"")))) := by
  rw [setDefaultsField_leaf recurse env lib Tag field fieldVal target ha hbranch hunset htag
    htarget, setParsedValue_unsupported lib _ target _ hparser]
  by_cases hk : field.Typ.Kind = .Pointer <;> simp [hk]

/-- Every name with a registered parser is one of the twenty keys. -/
theorem parser_keys (lib : Lib) (name : String) (h : parser lib name ≠ none) :
    name ∈ parserKeys := by
  unfold parser at h
  split at h <;> simp_all [parserKeys]

/-- The tail `returnConverted` returns a valid value when it returns no error. -/
theorem returnConverted_valid (lib : Lib) (v : RValue) (t : GoType) (x : Option RValue)
    (h : returnConverted lib v t = some (x, none)) : ∃ r, x = some r := by
  unfold returnConverted at h
  cases hc : Convert lib v t with
  | none => simp [hc] at h
  | some r' =>
    simp only [hc, Option.some.injEq, Prod.mk.injEq, and_true] at h
    exact ⟨r', h.symm⟩

/-- Every parser of the registry that returns no error returns a valid value. -/
theorem parser_valid (lib : Lib) (name : String) (parserFunc : ParserFunc)
    (hparser : parser lib name = some parserFunc) (str : String) (t : GoType)
    (x : Option RValue) (h : parserFunc str t = some (x, none)) : ∃ r, x = some r := by
  unfold parser at hparser
  split at hparser
  all_goals
    first
    | (simp only [Option.some.injEq] at hparser
       subst hparser
       first
       | (unfold ParseInt at h; simp only at h; split at h
          · simp at h
          · exact returnConverted_valid lib _ t x h)
       | (unfold ParseUint at h; simp only at h; split at h
          · simp at h
          · exact returnConverted_valid lib _ t x h)
       | (unfold ParseFloat at h; simp only at h; split at h
          · simp at h
          · split at h
            · simp at h
            · exact returnConverted_valid lib _ t x h)
       | (unfold ParseComplex at h; simp only at h; split at h
          · simp at h
          · split at h
            · simp at h
            · exact returnConverted_valid lib _ t x h)
       | (unfold ParseBool at h; split at h
          · simp at h
          · exact returnConverted_valid lib _ t x h)
       | (unfold ParseString at h; exact returnConverted_valid lib _ t x h)
       | (unfold ParseDuration at h; split at h
          · simp at h
          · exact returnConverted_valid lib _ t x h)
       | (unfold ParseMap at h; split at h
          · simp at h
          · split at h
            · simp at h
            · simp only [Option.some.injEq, Prod.mk.injEq, and_true] at h
              exact ⟨_, h.symm⟩)
       | (unfold ParseSlice at h; split at h
          · simp at h
          · split at h
            · simp at h
            · simp only [Option.some.injEq, Prod.mk.injEq, and_true] at h
              exact ⟨_, h.symm⟩)
       | (unfold ParseArray at h; split at h
          · simp at h
          · simp only at h
            split at h
            · simp at h
            · split at h
              · simp at h
              · simp only [Option.some.injEq, Prod.mk.injEq, and_true] at h
                exact ⟨_, h.symm⟩))
    | simp at hparser

/-- An error of `setParsedValue` is the unsupported-type error, when no parser is
registered, or the error the registered parser returned. -/
theorem setParsedValue_err_cases (lib : Lib) (fieldVal p : Value) (fieldType : GoType)
    (tagVal : String) (err : GoError)
    (h : setParsedValue lib fieldVal fieldType tagVal = some (p, some err)) :
    (parser lib (typeName lib fieldType) = none ∧
      err = .text ("unsupported type" ++ " \"" ++ typeName lib fieldType ++ "\"")) ∨
    ∃ pf x, parser lib (typeName lib fieldType) = some pf ∧
      pf tagVal fieldType = some (x, some err) := by
  cases hp : parser lib (typeName lib fieldType) with
  | none =>
    rw [setParsedValue_unsupported lib fieldVal fieldType tagVal hp] at h
    simp only [Option.some.injEq, Prod.mk.injEq] at h
    exact Or.inl ⟨rfl, h.2.symm⟩
  | some pf =>
    right
    rcases hr : pf tagVal fieldType with _ | ⟨x, _ | e⟩
    · simp [setParsedValue, hp, hr] at h
    · obtain ⟨r, rfl⟩ := parser_valid lib _ pf hp tagVal fieldType x hr
      rw [setParsedValue_accept lib fieldVal fieldType tagVal pf r hp hr] at h
      simp at h
    · have : setParsedValue lib fieldVal fieldType tagVal = some (fieldVal, some e) := by
        simp [setParsedValue, hp, hr]
      rw [this] at h
      simp only [Option.some.injEq, Prod.mk.injEq] at h
      exact ⟨pf, x, rfl, by rw [← h.2]; exact hr⟩

/-- The loop over a list of fields with their values succeeds exactly when the loop body
succeeds on every field with its value. -/
theorem setDefaultsLoop_succeeds_iff (body : StructField → Value → Option Outcome) :
    ∀ ps : List (StructField × Value),
      (∃ vals', setDefaultsLoop body (ps.map Prod.fst) (ps.map Prod.snd) = some (vals', none)) ↔
        ∀ p ∈ ps, ∃ v', body p.1 p.2 = some (v', none)
  | [] => by simp [setDefaultsLoop]
  | p :: ps => by
    have ih := setDefaultsLoop_succeeds_iff body ps
    simp only [List.map_cons, setDefaultsLoop, List.mem_cons, forall_eq_or_imp]
    constructor
    · rintro ⟨vals', h⟩
      rcases hb : body p.1 p.2 with _ | ⟨v', _ | e⟩
      · simp [hb] at h
      · simp only [hb] at h
        rcases hl : setDefaultsLoop body (ps.map Prod.fst) (ps.map Prod.snd) with
          _ | ⟨rest', err⟩
        · simp [hl] at h
        · simp only [hl, Option.some.injEq, Prod.mk.injEq] at h
          refine ⟨⟨v', rfl⟩, ih.mp ⟨rest', ?_⟩⟩
          rw [hl, h.2]
      · simp [hb] at h
    · rintro ⟨⟨v', hb⟩, hrest⟩
      obtain ⟨rest', hl⟩ := ih.mpr hrest
      exact ⟨v' :: rest', by simp [hb, hl]⟩

/-- On a pointer to a struct `Defaults` returns what the loop over the fields returns. -/
theorem Defaults_of_loop (env : TypeEnv) (lib : Lib) (Tag : String) (n : Nat) (t : GoType)
    (vals vals' : List Value) (err : Option GoError) (ht : t.Kind = .Struct)
    (h : setDefaultsLoop (setDefaultsField (setDefaults env lib Tag n) env lib Tag)
      t.Fields vals = some (vals', err)) :
    Defaults env lib Tag (n + 1) ⟨.ptr t, .ptr (.struct vals)⟩ =
      some (.ptr (.struct vals'), err) := by
  simp [Defaults, GoType.Kind, GoType.Elem, Value.IsNil, Value.Elem, ht, setDefaults, h]

/-- The loop of `strconv.ParseUint` on a text in two parts: the loop on the second part
from where the loop on the first part ends. -/
theorem parseUintLoop_append (base0 : Bool) (base cutoff maxVal : Nat) :
    ∀ (pre R : List Char) (n : Nat) (us : Bool),
      parseUintLoop base0 base cutoff maxVal (pre ++ R) n us =
        match parseUintLoop base0 base cutoff maxVal pre n us with
        | .error e => .error e
        | .ok (n', us') => parseUintLoop base0 base cutoff maxVal R n' us'
  | [], R, n, us => by simp [parseUintLoop]
  | c :: cs, R, n, us => by
    simp only [List.cons_append, parseUintLoop]
    split
    · exact parseUintLoop_append base0 base cutoff maxVal cs R n true
    · split
      · rfl
      · split
        · rfl
        · split
          · rfl
          · split
            · rfl
            · exact parseUintLoop_append base0 base cutoff maxVal cs R _ us

/-- The code of a decimal digit is its own lower-case code. -/
theorem lowerCode_digit (c : Char) (h1 : 48 ≤ c.toNat) (h2 : c.toNat ≤ 57) :
    lowerCode c = c.toNat := by
  unfold lowerCode
  generalize c.toNat = n at h1 h2
  interval_cases n <;> rfl

/-- A text that begins with `0` and then a decimal digit is read in base 8, from that
digit on. -/
theorem detectBase_zero_digit (c : Char) (rest : List Char) (h1 : 48 ≤ c.toNat)
    (h2 : c.toNat ≤ 57) : detectBase ('0' :: c :: rest) = (8, c :: rest) := by
  have h := lowerCode_digit c h1 h2
  exact detectBase_leading_zero c rest (by omega) (by omega) (by omega)

/-- Octal digits are valid digits of base 8 and have no underscore. -/
theorem validDigits_octal : ∀ cs : List Char, isOctal cs = true →
    validDigits 8 cs = true ∧ hasUnderscore cs = false
  | [], _ => by simp [validDigits, hasUnderscore]
  | c :: cs, h => by
    simp only [isOctal, List.all_cons, Bool.and_eq_true, decide_eq_true_eq] at h
    obtain ⟨ih1, ih2⟩ := validDigits_octal cs h.2
    have hu : c ≠ '_' := ne_underscore_of_decimal c (by omega)
    have hcu : (c == '_') = false := by simp [hu]
    have hd := digitOf_decimal c h.1.1 (by omega)
    refine ⟨?_, ?_⟩
    · simp only [validDigits, hd, ih1, Bool.and_true, Bool.or_eq_true, decide_eq_true_eq]
      right
      omega
    · simp [hasUnderscore, hcu, ih2]

/-- The literal `0` followed by octal digits denotes the value of these digits in base 8. -/
theorem uintLiteral_octal (c : Char) (cs : List Char) (h : isOctal (c :: cs) = true) :
    uintLiteral (String.mk ('0' :: c :: cs)) = some (foldDigits 8 (c :: cs) 0) ∧
      intLiteral (String.mk ('0' :: c :: cs)) = some (foldDigits 8 (c :: cs) 0 : Int) := by
  have hc : 48 ≤ c.toNat ∧ c.toNat ≤ 55 := by
    simp only [isOctal, List.all_cons, Bool.and_eq_true, decide_eq_true_eq] at h
    exact h.1
  obtain ⟨hv, hu⟩ := validDigits_octal (c :: cs) h
  have hdb := detectBase_zero_digit c cs hc.1 (by omega)
  have hne : String.mk ('0' :: c :: cs) ≠ "" := by
    intro he
    have := congrArg String.data he
    simp at this
  have hlit : uintLiteral (String.mk ('0' :: c :: cs)) = some (foldDigits 8 (c :: cs) 0) := by
    simp only [uintLiteral, hne, if_false, hdb, hv, hu, Bool.false_eq_true, false_implies,
      and_self, if_true]
  refine ⟨hlit, ?_⟩
  obtain ⟨hdrop, hneg⟩ := dropSign_of_digit '0' (c :: cs) (by decide)
  simp only [intLiteral, hdrop, hneg, hlit, Bool.false_eq_true, if_false]

/-- On a text that begins with `0`, goes on with octal digits whose value is at most the
largest value of the bit size, and then has the digit `8` or `9`, `strconv.ParseUint` with
base 0 returns a syntax error. -/
theorem strconvParseUintRaw_octal_bad_digit (pre : List Char) (c : Char) (rest : List Char)
    (bitSize : Nat) (hbits : bitSize ≤ 64) (hpre : isOctal pre = true)
    (hc : c = '8' ∨ c = '9')
    (hval : foldDigits 8 pre 0 ≤ 2 ^ (if bitSize = 0 then 64 else bitSize) - 1) :
    strconvParseUintRaw (String.mk ('0' :: (pre ++ c :: rest))) 0 bitSize =
      (0, some ⟨"ParseUint", String.mk ('0' :: (pre ++ c :: rest)), ErrSyntax⟩) := by
  have hne : String.mk ('0' :: (pre ++ c :: rest)) ≠ "" := by
    intro he
    have := congrArg String.data he
    simp at this
  have hc57 : 48 ≤ c.toNat ∧ c.toNat ≤ 57 := by
    rcases hc with rfl | rfl <;> decide
  have hdb : detectBase ('0' :: (pre ++ c :: rest)) = (8, pre ++ c :: rest) := by
    cases pre with
    | nil => exact detectBase_zero_digit c rest hc57.1 hc57.2
    | cons p ps =>
      simp only [isOctal, List.all_cons, Bool.and_eq_true, decide_eq_true_eq] at hpre
      exact detectBase_zero_digit p (ps ++ c :: rest) hpre.1.1 (by omega)
  obtain ⟨hv, hu⟩ := validDigits_octal pre hpre
  have hmaxle : 2 ^ (if bitSize = 0 then 64 else bitSize) - 1 ≤ maxUint64 := by
    have h64 : (2 : Nat) ^ 64 = 18446744073709551616 := by norm_num
    have hle : 2 ^ (if bitSize = 0 then 64 else bitSize) ≤ 2 ^ 64 :=
      Nat.pow_le_pow_right (by omega) (by split <;> omega)
    rw [maxUint64_eq]
    omega
  have hloop := parseUintLoop_valid 8 (2 ^ (if bitSize = 0 then 64 else bitSize) - 1)
    (by omega) (by omega) hmaxle pre 0 false hv (Nat.zero_le _)
  rw [if_pos hval] at hloop
  have hbad : ∀ (n : Nat) (us : Bool), parseUintLoop true 8 (maxUint64 / 8 + 1)
      (2 ^ (if bitSize = 0 then 64 else bitSize) - 1) (c :: rest) n us =
        .error (0, ErrSyntax) := by
    intro n us
    rcases hc with rfl | rfl
    · have hd : digitOf '8' = some 8 := by decide
      simp [parseUintLoop, hd]
    · have hd : digitOf '9' = some 9 := by decide
      simp [parseUintLoop, hd]
  unfold strconvParseUintRaw
  simp only [hne, if_false, Nat.not_le.mpr (by omega : 0 < 2), false_and, beq_self_eq_true,
    if_true, Nat.not_lt.mpr hbits, hdb, parseUintLoop_append, hloop, hbad]

/-! ## The memory with sharing -/

/-- A place that can be loaded can be stored to. -/
theorem Cell.set_of_get : ∀ (path : List Nat) (c y x : Cell), c.get path = some y →
    ∃ c', c.set path x = some c'
  | [], _, _, x, _ => ⟨x, by simp [Cell.set]⟩
  | i :: path, c, y, x, h => by
    cases c with
    | val v => simp [Cell.get] at h
    | ptr t => simp [Cell.get] at h
    | struct fields =>
      simp only [Cell.get] at h
      cases hf : fields[i]? with
      | none => simp [hf] at h
      | some d =>
        simp only [hf] at h
        obtain ⟨d', hd'⟩ := Cell.set_of_get path d y x h
        exact ⟨.struct (fields.set i d'), by simp [Cell.set, hf, hd']⟩

/-- An address that can be loaded can be stored to. -/
theorem Memory.store_of_load (m : Memory) (a : Addr) (y x : Cell) (h : m.load a = some y) :
    ∃ m', m.store a x = some m' := by
  simp only [Memory.load] at h
  cases hc : m[a.obj]? with
  | none => simp [hc] at h
  | some c =>
    simp only [hc] at h
    obtain ⟨c', hc'⟩ := Cell.set_of_get a.path c y x h
    exact ⟨m.set a.obj c', by simp [Memory.store, hc, hc']⟩

/-- An allocation does not change what an address holds. -/
theorem Memory.load_append (m extra : Memory) (a : Addr) (y : Cell) (h : m.load a = some y) :
    (m ++ extra).load a = some y := by
  simp only [Memory.load] at h ⊢
  cases hc : m[a.obj]? with
  | none => simp [hc] at h
  | some c =>
    have hlt : a.obj < m.length := (List.getElem?_eq_some.mp hc).1
    rw [List.getElem?_append_left hlt, hc]
    simpa [hc] using h

/-- The loop body on the memory skips a field that is not assignable: it stores nothing. -/
theorem setDefaultsFieldMem_skip_unassignable
    (recurse : Memory → GoType → Addr → Option MemOutcome) (env : TypeEnv) (lib : Lib)
    (Tag : String) (v : Addr) (m : Memory) (i : Nat) (field : StructField) (val : Cell)
    (hload : m.load ⟨v.obj, v.path ++ [i]⟩ = some val) (h : assignable field = false) :
    setDefaultsFieldMem recurse env lib Tag v m i field = some (m, none) := by
  simp [setDefaultsFieldMem, hload, h]

/-- The loop body on the memory skips a field that is outside the recursion branch and
already set: it stores nothing. -/
theorem setDefaultsFieldMem_skip_set
    (recurse : Memory → GoType → Addr → Option MemOutcome) (env : TypeEnv) (lib : Lib)
    (Tag : String) (v : Addr) (m : Memory) (i : Nat) (field : StructField) (val : Cell)
    (hload : m.load ⟨v.obj, v.path ++ [i]⟩ = some val)
    (hbranch : (isStructOrStructPtr env field.Typ &&
      (field.Tag.Get Tag == "" || field.Typ.Kind == .Struct)) = false)
    (hset : isUnsetMem field.Typ val = some false) :
    setDefaultsFieldMem recurse env lib Tag v m i field = some (m, none) := by
  unfold setDefaultsFieldMem
  by_cases ha : assignable field = true
  · simp [hload, ha, hbranch, hset]
  · simp [hload, ha]

/-- The loop body on the memory, on an assignable nil pointer field outside the recursion
branch with a non-empty tag, when no parser is registered for the pointee type: a zero
pointee is allocated, the field is made to point to it, and the error names the type. -/
theorem setDefaultsFieldMem_unsupported_nil
    (recurse : Memory → GoType → Addr → Option MemOutcome) (env : TypeEnv) (lib : Lib)
    (Tag : String) (v : Addr) (m : Memory) (i : Nat) (field : StructField)
    (elemType : GoType)
    (hload : m.load ⟨v.obj, v.path ++ [i]⟩ = some (.ptr none))
    (ha : assignable field = true)
    (hk : field.Typ.Kind = .Pointer) (he : field.Typ.Elem env = some elemType)
    (htag : field.Tag.Get Tag ≠ "")
    (hp : parser lib (typeName lib elemType) = none) :
    ∃ m', (m ++ [zeroCell elemType]).store ⟨v.obj, v.path ++ [i]⟩
        (.ptr (some ⟨m.length, []⟩)) = some m' ∧
      setDefaultsFieldMem recurse env lib Tag v m i field =
        some (m', some (.wrap ("failed to set default for field " ++ field.Name ++ ": ")
          (.text ("unsupported type" ++ " \"" ++ typeName lib elemType ++ "\"")))) := by
  obtain ⟨m', hm'⟩ := Memory.store_of_load (m ++ [zeroCell elemType]) ⟨v.obj, v.path ++ [i]⟩
    (.ptr none) (.ptr (some ⟨m.length, []⟩)) (Memory.load_append m _ _ _ hload)
  refine ⟨m', hm', ?_⟩
  unfold setDefaultsFieldMem
  simp [hload, ha, isUnsetMem, hk, htag, setFieldValueMem, he, elemOrNew, hm',
    setParsedValueMem, hp, ErrUnsupportedType, GoError.Error]

/-- A pass of the loop on the memory that returns an error stopped at one field: the loop
ran without error over the fields before it, the body returned the error at that field, and
the memory the loop returns is the memory the body returned there. -/
theorem setDefaultsLoopMem_err (body : Memory → Nat → StructField → Option MemOutcome) :
    ∀ (fields : List StructField) (k : Nat) (m m' : Memory) (err : GoError),
      setDefaultsLoopMem body fields k m = some (m', some err) →
      ∃ (i : Nat) (field : StructField) (mi : Memory), fields[i]? = some field ∧
        setDefaultsLoopMem body (fields.take i) k m = some (mi, none) ∧
        body mi (k + i) field = some (m', some err)
  | [], k, m, m', err, h => by simp [setDefaultsLoopMem] at h
  | f :: fs, k, m, m', err, h => by
    simp only [setDefaultsLoopMem] at h
    cases hb : body m k f with
    | none => simp [hb] at h
    | some r =>
      obtain ⟨m1, e⟩ := r
      cases e with
      | some e1 =>
        simp only [hb, Option.some.injEq, Prod.mk.injEq] at h
        obtain ⟨h1, h2⟩ := h
        subst h1 h2
        exact ⟨0, f, m, by simp, by simp [setDefaultsLoopMem], by simpa using hb⟩
      | none =>
        simp only [hb] at h
        obtain ⟨i, field, mi, hf, hl, hbi⟩ := setDefaultsLoopMem_err body fs (k + 1) m1 m' err h
        refine ⟨i + 1, field, mi, by simpa using hf, ?_, ?_⟩
        · simp only [List.take_succ_cons, setDefaultsLoopMem, hb]
          exact hl
        · rw [show k + (i + 1) = k + 1 + i by omega]
          exact hbi

/-- A call of `Defaults` on the memory, on a pointer to a struct, that returns ran the loop
of `setDefaults` on a place that holds a struct, with one unit of depth less. -/
theorem DefaultsMem_some (env : TypeEnv) (lib : Lib) (Tag : String) (fuel : Nat) (m : Memory)
    (t : GoType) (v : Addr) (r : MemOutcome) (ht : t.Kind = .Struct)
    (h : DefaultsMem env lib Tag fuel m (.ptr t) (.ptr (some v)) = some r) :
    ∃ (n : Nat) (cells : List Cell), fuel = n + 1 ∧ m.load v = some (.struct cells) ∧
      setDefaultsLoopMem (setDefaultsFieldMem (setDefaultsMem env lib Tag n) env lib Tag v)
        t.Fields 0 m = some r := by
  cases fuel with
  | zero => simp [DefaultsMem, GoType.Kind, GoType.Elem, ht, setDefaultsMem] at h
  | succ n =>
    simp only [DefaultsMem, GoType.Kind, GoType.Elem, ht, ne_eq, not_true_eq_false, if_false,
      setDefaultsMem] at h
    cases hl : m.load v with
    | none => simp [hl] at h
    | some c =>
      cases c with
      | val x => simp [hl] at h
      | ptr x => simp [hl] at h
      | struct cells =>
        simp only [hl] at h
        exact ⟨n, cells, rfl, rfl, h⟩

/-- A struct type that has a field is of struct kind. -/
theorem GoType.Kind_of_Fields : ∀ (t : GoType) (i : Nat) (field : StructField),
    t.Fields[i]? = some field → t.Kind = .Struct
  | .struct _, _, _, _ => rfl
  | .named _ _ u, i, field, h => GoType.Kind_of_Fields u i field h
  | .basic _, _, _, h => by simp [GoType.Fields] at h
  | .other _ _, _, _, h => by simp [GoType.Fields] at h
  | .ptr _, _, _, h => by simp [GoType.Fields] at h
  | .ptrRef _, _, _, h => by simp [GoType.Fields] at h
  | .slice _, _, _, h => by simp [GoType.Fields] at h
  | .array _ _, _, _, h => by simp [GoType.Fields] at h
  | .map _ _, _, _, h => by simp [GoType.Fields] at h

/-- A key of the registry that has a period is "time.Duration". -/
theorem parser_qualified (lib : Lib) (key : String) (hd : '.' ∈ key.data)
    (hs : key ≠ "time.Duration") : parser lib key = none := by
  by_contra hne
  have hmem := parser_keys lib key hne
  simp only [parserKeys, List.mem_cons, List.mem_singleton, List.not_mem_nil, or_false]
    at hmem
  rcases hmem with h | h | h | h | h | h | h | h | h | h | h | h | h | h | h | h | h | h |
    h | h <;> subst h <;> first | exact hs rfl | (revert hd; decide)

/-- When the loop body gives field `i` the value `x` without error whatever the recursion,
every `Defaults` that returns leaves `x` in the field, unless the loop body returned an
error at an earlier field, which `Defaults` then returns with field `i` as it was. -/
theorem Defaults_of_body (env : TypeEnv) (lib : Lib) (Tag : String) (fuel : Nat)
    (t : GoType) (vals : List Value) (i : Nat) (field : StructField) (fieldVal x : Value)
    (hfield : t.Fields[i]? = some field) (hval : vals[i]? = some fieldVal)
    (hbody : ∀ recurse, setDefaultsField recurse env lib Tag field fieldVal = some (x, none))
    (out : Value) (err : Option GoError)
    (hrun : Defaults env lib Tag fuel ⟨.ptr t, .ptr (.struct vals)⟩ = some (out, err)) :
    ∃ vals', out = .ptr (.struct vals') ∧
      (vals'[i]? = some x ∨
        (vals'[i]? = some fieldVal ∧
          ∃ (e : GoError) (n k : Nat) (g : StructField) (w w' : Value), err = some e ∧
            k < i ∧ t.Fields[k]? = some g ∧ vals[k]? = some w ∧
            setDefaultsField (setDefaults env lib Tag n) env lib Tag g w =
              some (w', some e))) := by
  rcases Defaults_some env lib Tag fuel t vals out err hrun with
    ⟨hns, _, _⟩ | ⟨_, n, vals', _, hout, hl⟩
  · exact absurd (GoType.Kind_of_Fields t i field hfield) hns
  · refine ⟨vals', hout, ?_⟩
    cases err with
    | none =>
      obtain ⟨w, hw, hb⟩ := setDefaultsLoop_ok_get _ _ _ _ hl i field fieldVal hfield hval
      rw [hbody] at hb
      simp only [Option.some.injEq, Prod.mk.injEq, and_true] at hb
      exact Or.inl (by rw [hw, hb])
    | some e =>
      obtain ⟨k, g, w, w', hg, hw, hb, _, hbefore, hafter⟩ := setDefaultsLoop_err _ _ _ _ _ hl
      rcases Nat.lt_trichotomy k i with hlt | heq | hgt
      · exact Or.inr ⟨by rw [hafter i hlt, hval], e, n, k, g, w, w', rfl, hlt, hg, hw, hb⟩
      · subst heq
        rw [hfield] at hg
        rw [hval] at hw
        simp only [Option.some.injEq] at hg hw
        subst hg hw
        rw [hbody] at hb
        simp at hb
      · obtain ⟨y, hy, hby⟩ := hbefore i field fieldVal hgt hfield hval
        rw [hbody] at hby
        simp only [Option.some.injEq, Prod.mk.injEq, and_true] at hby
        exact Or.inl (by rw [hy, hby])

/-- On a text of digits whose value is more than `2^63`, whatever follows it, `leadingInt`
returns `errLeadingInt`. -/
theorem leadingInt_overflow : ∀ (ds : List Char) (x : Nat) (rest : List Char),
    (∀ c ∈ ds, 48 ≤ c.toNat ∧ c.toNat ≤ 57) → x ≤ 2 ^ 63 →
    2 ^ 63 < decimalValue ds x →
    leadingInt (ds ++ rest) x = none
  | [], x, rest, _, hx, hv => by
    simp only [decimalValue] at hv
    omega
  | c :: cs, x, rest, hds, hx, hv => by
    have hc := hds c (List.mem_cons_self c cs)
    simp only [decimalValue] at hv
    have h63 : (2 : Nat) ^ 63 = 9223372036854775808 := by norm_num
    have h64 : (2 : Nat) ^ 64 = 18446744073709551616 := by norm_num
    have e1 : ¬ (c.toNat < 48 ∨ c.toNat > 57) := by omega
    simp only [List.cons_append, leadingInt, e1, if_false, h63, h64]
    by_cases h1 : x > 9223372036854775808 / 10
    · rw [if_pos h1]
    · rw [if_neg h1]
      have e3 : (x * 10 + c.toNat - 48) % 18446744073709551616 = x * 10 + (c.toNat - 48) := by
        omega
      rw [e3]
      by_cases h2 : x * 10 + (c.toNat - 48) > 9223372036854775808
      · rw [if_pos h2]
      · rw [if_neg h2]
        exact leadingInt_overflow cs (x * 10 + (c.toNat - 48)) rest
          (fun c' hc' => hds c' (List.mem_cons_of_mem c hc')) (by rw [h63]; omega) hv

/-- The loop of `time.ParseDuration` at a round that begins with a number of more than
`2^63`: the error "invalid duration". -/
theorem parseDurationLoop_overflow (orig : List Char) (fuel : Nat) (c : Char)
    (cs rest : List Char) (d : Nat)
    (hds : ∀ x ∈ c :: cs, 48 ≤ x.toNat ∧ x.toNat ≤ 57)
    (hv : 2 ^ 63 < decimalValue (c :: cs) 0) :
    parseDurationLoop orig (fuel + 1) (c :: cs ++ rest) d = .error (invalidDuration orig) := by
  have hcd : isDigitOrDot c = true :=
    isDigitOrDot_of_digit c (hds c (List.mem_cons_self c cs))
  have hli : leadingInt (c :: (cs ++ rest)) 0 = none := by
    have h := leadingInt_overflow (c :: cs) 0 rest hds (Nat.zero_le _) hv
    simpa using h
  rw [show c :: cs ++ rest = c :: (cs ++ rest) from rfl]
  simp only [parseDurationLoop, parseDurationRound, hcd, Bool.not_true, Bool.false_eq_true,
    if_false, hli]

/-- On a well-formed literal followed by a number of more than `2^63`, whatever follows
the number, `time.ParseDuration` returns the error "invalid duration". -/
theorem timeParseDuration_number_overflow (gs : DurationGroups) (c : Char)
    (cs rest : List Char) (hwf : wellFormedGroups gs = true)
    (hsum : durationSum gs ≤ 2 ^ 63)
    (hds : ∀ x ∈ c :: cs, 48 ≤ x.toNat ∧ x.toNat ≤ 57)
    (hv : 2 ^ 63 < decimalValue (c :: cs) 0) :
    timeParseDuration (String.mk (durationText gs ++ (c :: cs ++ rest))) =
      .error (invalidDuration (durationText gs ++ (c :: cs ++ rest))) := by
  have hlen := durationText_length gs hwf
  have hv1 : 1 ≤ cs.length := by
    cases cs with
    | nil =>
      have hc := hds c (List.mem_cons_self c [])
      have h63 : (2 : Nat) ^ 63 = 9223372036854775808 := by norm_num
      simp only [decimalValue] at hv
      omega
    | cons a b => simp
  cases hL : durationText gs ++ (c :: cs ++ rest) with
  | nil => simp at hL
  | cons y rest' =>
    have hy48 : 48 ≤ y.toNat :=
      (durationText_append_head gs (c :: cs ++ rest) hwf
        (fun x r h => by
          simp only [List.cons_append, List.cons.injEq] at h
          rw [← h.1]
          exact hds c (List.mem_cons_self c cs)) y rest' hL).1
    obtain ⟨hdrop, hneg⟩ := dropSign_of_digit y rest' hy48
    have hLlen : (y :: rest').length =
        (durationText gs).length + ((c :: cs).length + rest.length) := by
      rw [← hL]
      simp only [List.length_append]
    have hrest : rest' ≠ [] := by
      intro h
      rw [h] at hLlen
      simp at hLlen
      omega
    have hloop := parseDurationLoop_groups (y :: rest') (c :: cs ++ rest)
      (fun x r h => by
        simp only [List.cons_append, List.cons.injEq] at h
        rw [← h.1]
        exact hds c (List.mem_cons_self c cs)) gs
      ((y :: rest').length - gs.length - 1 + 1) 0 hwf (by omega)
    rw [parseDurationLoop_overflow (y :: rest') _ c cs rest _ hds hv] at hloop
    rw [show gs.length + ((y :: rest').length - gs.length - 1 + 1) = (y :: rest').length by
      simp only [List.length_cons] at hLlen ⊢; omega, hL] at hloop
    simp only [timeParseDuration, hdrop, hneg, List.cons.injEq, hrest, and_false, if_false,
      hloop]
    rw [if_neg (List.cons_ne_nil y rest')]

/-- On a text that begins with `0` and goes on with octal digits whose value is more than
the largest value of the bit size, whatever follows them, `strconv.ParseUint` with base 0
returns that largest value and a range error. -/
theorem strconvParseUintRaw_octal_overflow (pre rest : List Char) (bitSize : Nat)
    (hbits : bitSize ≤ 64) (hpre : isOctal pre = true)
    (hval : 2 ^ (if bitSize = 0 then 64 else bitSize) - 1 < foldDigits 8 pre 0) :
    strconvParseUintRaw (String.mk ('0' :: (pre ++ rest))) 0 bitSize =
      (2 ^ (if bitSize = 0 then 64 else bitSize) - 1,
        some ⟨"ParseUint", String.mk ('0' :: (pre ++ rest)), ErrRange⟩) := by
  have hne : String.mk ('0' :: (pre ++ rest)) ≠ "" := by
    intro he
    have := congrArg String.data he
    simp at this
  obtain ⟨p, ps, rfl⟩ : ∃ p ps, pre = p :: ps := by
    cases pre with
    | nil => simp [foldDigits] at hval
    | cons p ps => exact ⟨p, ps, rfl⟩
  have hdb : detectBase ('0' :: (p :: ps ++ rest)) = (8, p :: ps ++ rest) := by
    simp only [isOctal, List.all_cons, Bool.and_eq_true, decide_eq_true_eq] at hpre
    exact detectBase_zero_digit p (ps ++ rest) hpre.1.1 (by omega)
  obtain ⟨hv, hu⟩ := validDigits_octal (p :: ps) hpre
  have hmaxle : 2 ^ (if bitSize = 0 then 64 else bitSize) - 1 ≤ maxUint64 := by
    have h64 : (2 : Nat) ^ 64 = 18446744073709551616 := by norm_num
    have hle : 2 ^ (if bitSize = 0 then 64 else bitSize) ≤ 2 ^ 64 :=
      Nat.pow_le_pow_right (by omega) (by split <;> omega)
    rw [maxUint64_eq]
    omega
  have hloop := parseUintLoop_valid 8 (2 ^ (if bitSize = 0 then 64 else bitSize) - 1)
    (by omega) (by omega) hmaxle (p :: ps) 0 false hv (Nat.zero_le _)
  rw [if_neg (Nat.not_le.mpr hval)] at hloop
  unfold strconvParseUintRaw
  simp only [hne, if_false, Nat.not_le.mpr (by omega : 0 < 2), false_and, beq_self_eq_true,
    if_true, Nat.not_lt.mpr hbits, hdb, parseUintLoop_append, hloop]

/-! ## From the memory to the tree -/

/-- The objects a tree reaches are allocated. -/
theorem HoldsTree.lt_length {m : Memory} {c : Cell} {x : Value} {F : List Nat}
    (h : HoldsTree m c x F) : ∀ k ∈ F, k < m.length := by
  induction h with
  | val v => intro k hk; simp at hk
  | nil => intro k hk; simp at hk
  | ptr o c x F hobj _ _ ih =>
    intro k hk
    rcases List.mem_cons.mp hk with rfl | hk
    · exact (List.getElem?_eq_some.mp hobj).1
    · exact ih k hk
  | struct cs xs G F hlen _ _ hF ih =>
    intro k hk
    obtain ⟨j, hj, hkG⟩ := (hF k).mp hk
    obtain ⟨c, hc⟩ : ∃ c, cs[j]? = some c := ⟨cs[j], List.getElem?_eq_getElem hj⟩
    obtain ⟨x, hx⟩ : ∃ x, xs[j]? = some x := ⟨xs[j], List.getElem?_eq_getElem (by omega)⟩
    exact ih j c x hc hx k hkG

/-- A tree is still held after the memory has changed outside the objects it reaches. -/
theorem HoldsTree.congr {m m' : Memory} {c : Cell} {x : Value} {F : List Nat}
    (h : HoldsTree m c x F) (hsame : ∀ k ∈ F, m'[k]? = m[k]?) : HoldsTree m' c x F := by
  induction h with
  | val v => exact .val v
  | nil => exact .nil
  | ptr o c x F hobj _ hfresh ih =>
    exact .ptr o c x F (by rw [hsame o (List.mem_cons_self o F)]; exact hobj)
      (ih (fun k hk => hsame k (List.mem_cons_of_mem o hk))) hfresh
  | struct cs xs G F hlen _ hdisj hF ih =>
    exact .struct cs xs G F hlen
      (fun j c x hc hx => ih j c x hc hx
        (fun k hk => hsame k ((hF k).mpr
          ⟨j, (List.getElem?_eq_some.mp hc).1, hk⟩))) hdisj hF

mutual
/-- A zero value is held by its zero cell, which reaches no object. -/
theorem HoldsTree.zero (m : Memory) : ∀ t : GoType, HoldsTree m (zeroCell t) (zeroValue t) []
  | .basic k => by simp only [zeroCell, zeroValue]; exact .val _
  | .other _ _ => by simp only [zeroCell, zeroValue]; exact .val _
  | .ptr _ => by simp only [zeroCell, zeroValue]; exact .nil
  | .ptrRef _ => by simp only [zeroCell, zeroValue]; exact .nil
  | .slice _ => by simp only [zeroCell, zeroValue]; exact .val _
  | .map _ _ => by simp only [zeroCell, zeroValue]; exact .val _
  | .array n e => by simp only [zeroCell]; exact .val _
  | .struct fs => by
    simp only [zeroCell, zeroValue]
    obtain ⟨h1, h2⟩ := HoldsTree.zeroFields m fs
    exact .struct _ _ (fun _ => []) [] h1 (fun j c x hc hx => h2 j c x hc hx)
      (fun _ _ _ _ _ k hk => by simp at hk) (fun k => by simp)
  | .named _ _ u => by simp only [zeroCell, zeroValue]; exact HoldsTree.zero m u
/-- The zero values of the fields are held by their zero cells. -/
theorem HoldsTree.zeroFields (m : Memory) : ∀ fs : List StructField,
    (zeroCells fs).length = (zeroFields fs).length ∧
    ∀ (j : Nat) (c : Cell) (x : Value), (zeroCells fs)[j]? = some c →
      (GoDefaults.zeroFields fs)[j]? = some x → HoldsTree m c x []
  | [] => by simp [zeroCells, GoDefaults.zeroFields]
  | f :: fs => by
    obtain ⟨h1, h2⟩ := HoldsTree.zeroFields m fs
    refine ⟨by simp [zeroCells, GoDefaults.zeroFields, h1], ?_⟩
    intro j c x hc hx
    cases j with
    | zero =>
      simp only [zeroCells, GoDefaults.zeroFields, List.getElem?_cons_zero,
        Option.some.injEq] at hc hx
      subst hc hx
      exact HoldsTree.zeroField m f
    | succ j =>
      simp only [zeroCells, GoDefaults.zeroFields, List.getElem?_cons_succ] at hc hx
      exact h2 j c x hc hx
/-- The zero value of a field is held by its zero cell. -/
theorem HoldsTree.zeroField (m : Memory) : ∀ f : StructField,
    HoldsTree m (zeroFieldCell f) (GoDefaults.zeroField f) []
  | .mk _ _ t _ => by simp only [zeroFieldCell, GoDefaults.zeroField]; exact HoldsTree.zero m t
end

/-- What a struct holds at the index of a field. -/
theorem Cell.get_field (cells : List Cell) (i : Nat) :
    (Cell.struct cells).get [i] = cells[i]? := by
  simp only [Cell.get]
  cases cells[i]? with
  | none => rfl
  | some c => simp [Cell.get]

/-- The place a path in two parts leads to. -/
theorem Cell.get_append : ∀ (p q : List Nat) (c : Cell),
    c.get (p ++ q) = (c.get p).bind (fun d => d.get q)
  | [], q, c => by simp [Cell.get]
  | i :: p, q, c => by
    cases c with
    | val v => simp [Cell.get]
    | ptr t => simp [Cell.get]
    | struct cells =>
      simp only [List.cons_append, Cell.get]
      cases cells[i]? with
      | none => rfl
      | some d => exact Cell.get_append p q d

/-- After a store, the place holds what was stored. -/
theorem Cell.get_set : ∀ (p : List Nat) (c c' x : Cell), c.set p x = some c' →
    c'.get p = some x
  | [], c, c', x, h => by
    simp only [Cell.set, Option.some.injEq] at h
    simp [Cell.get, h]
  | i :: p, c, c', x, h => by
    cases c with
    | val v => simp [Cell.set] at h
    | ptr t => simp [Cell.set] at h
    | struct cells =>
      simp only [Cell.set] at h
      cases hd : cells[i]? with
      | none => simp [hd] at h
      | some d =>
        simp only [hd] at h
        cases hs : d.set p x with
        | none => simp [hs] at h
        | some d' =>
          simp only [hs, Option.some.injEq] at h
          subst h
          have hi : i < cells.length := (List.getElem?_eq_some.mp hd).1
          simp only [Cell.get, List.getElem?_set_self hi]
          exact Cell.get_set p d d' x hs

/-- A second store at a place replaces the first. -/
theorem Cell.set_set : ∀ (p : List Nat) (c c' x y : Cell), c.set p x = some c' →
    c'.set p y = c.set p y
  | [], c, c', x, y, h => by simp [Cell.set]
  | i :: p, c, c', x, y, h => by
    cases c with
    | val v => simp [Cell.set] at h
    | ptr t => simp [Cell.set] at h
    | struct cells =>
      simp only [Cell.set] at h
      cases hd : cells[i]? with
      | none => simp [hd] at h
      | some d =>
        simp only [hd] at h
        cases hs : d.set p x with
        | none => simp [hs] at h
        | some d' =>
          simp only [hs, Option.some.injEq] at h
          subst h
          have hi : i < cells.length := (List.getElem?_eq_some.mp hd).1
          simp only [Cell.set, List.getElem?_set_self hi, hd, Cell.set_set p d d' x y hs,
            List.set_set]

/-- A store of what a place holds changes nothing. -/
theorem Cell.set_get_self : ∀ (p : List Nat) (c d : Cell), c.get p = some d →
    c.set p d = some c
  | [], c, d, h => by
    simp only [Cell.get, Option.some.injEq] at h
    simp [Cell.set, h]
  | i :: p, c, d, h => by
    cases c with
    | val v => simp [Cell.get] at h
    | ptr t => simp [Cell.get] at h
    | struct cells =>
      simp only [Cell.get] at h
      cases hd : cells[i]? with
      | none => simp [hd] at h
      | some e =>
        simp only [hd] at h
        have hi : i < cells.length := (List.getElem?_eq_some.mp hd).1
        have he : cells.set i e = cells := by
          apply List.ext_getElem?
          intro n
          by_cases hn : i = n
          · subst hn
            rw [List.getElem?_set_self hi, hd]
          · rw [List.getElem?_set_ne hn]
        simp only [Cell.set, hd, Cell.set_get_self p e d h, he]

/-- A store at a field of the struct a path leads to is a store of the changed struct at
the path. -/
theorem Cell.set_field : ∀ (p : List Nat) (c : Cell) (cells : List Cell) (i : Nat)
    (d x : Cell), c.get p = some (.struct cells) → cells[i]? = some d →
    c.set (p ++ [i]) x = c.set p (.struct (cells.set i x))
  | [], c, cells, i, d, x, h, hd => by
    simp only [Cell.get, Option.some.injEq] at h
    subst h
    simp [Cell.set, hd]
  | j :: p, c, cells, i, d, x, h, hd => by
    cases c with
    | val v => simp [Cell.get] at h
    | ptr t => simp [Cell.get] at h
    | struct cs =>
      simp only [Cell.get] at h
      cases he : cs[j]? with
      | none => simp [he] at h
      | some e =>
        simp only [he] at h
        have ih := Cell.set_field p e cells i d x h hd
        simp only [List.cons_append, Cell.set, he]
        rw [show p.append [i] = p ++ [i] from rfl, ih]

/-- The memory after a store: the object is replaced by the object with the place changed,
and the other objects are as they were. -/
theorem Memory.store_some (m m' : Memory) (a : Addr) (x : Cell)
    (h : m.store a x = some m') :
    ∃ obj obj', m[a.obj]? = some obj ∧ obj.set a.path x = some obj' ∧ m' = m.set a.obj obj' := by
  simp only [Memory.store] at h
  cases hc : m[a.obj]? with
  | none => simp [hc] at h
  | some obj =>
    simp only [hc] at h
    cases hs : obj.set a.path x with
    | none => simp [hs] at h
    | some obj' =>
      simp only [hs, Option.some.injEq] at h
      exact ⟨obj, obj', rfl, hs, h.symm⟩

/-- A call that stores nothing leaves the tree as it was. -/
theorem TreeResult.refl (m : Memory) (o : Nat) (p : List Nat) (c : Cell) (x : Value)
    (F : List Nat) (hload : m.load ⟨o, p⟩ = some c) (h : HoldsTree m c x F) (ho : o ∉ F) :
    TreeResult m m o p F c x F := by
  simp only [Memory.load] at hload
  cases hobj : m[o]? with
  | none => simp [hobj] at hload
  | some obj =>
    simp only [hobj] at hload
    exact ⟨Nat.le_refl _, ⟨obj, obj, hobj, hobj, Cell.set_get_self p obj c hload⟩,
      fun _ _ _ _ => rfl, h, ho, fun k hk => Or.inl hk⟩

/-- The test `isUnset` on a cell agrees with the test on the tree the cell holds. -/
theorem isUnset_of_isUnsetMem (m : Memory) (t : GoType) (c : Cell) (x : Value)
    (F : List Nat) (b : Bool) (h : HoldsTree m c x F) (hu : isUnsetMem t c = some b) :
    isUnset t x = b := by
  unfold isUnsetMem at hu
  unfold isUnset
  by_cases hk : t.Kind = .Pointer
  · simp only [hk, if_true] at hu ⊢
    cases h with
    | val v => simp at hu
    | nil => simpa [Value.IsNil] using hu
    | ptr o c x F hobj h hfresh => simpa [Value.IsNil] using hu
    | struct cs xs G F hlen hrep hdisj hF => simp at hu
  · simp only [hk, if_false] at hu ⊢
    cases h with
    | val v => simpa using hu
    | nil => simp at hu
    | ptr o c x F hobj h hfresh => simp at hu
    | struct cs xs G F hlen hrep hdisj hF => simp at hu

/-- The parse and the assignment on the memory do what they do on the tree: the value is
returned as it was and the memory is unchanged, or the parsed value is stored. -/
theorem setParsedValue_of_Mem (lib : Lib) (m m' : Memory) (a : Addr) (t : GoType)
    (tag : String) (e : Option GoError) (x : Value)
    (h : setParsedValueMem lib m a t tag = some (m', e)) :
    (setParsedValue lib x t tag = some (x, e) ∧ m' = m) ∨
    (∃ v, setParsedValue lib x t tag = some (v, e) ∧ m.store a (.val v) = some m') := by
  unfold setParsedValueMem at h
  cases hp : parser lib (typeName lib t) with
  | none =>
    simp only [hp, Option.some.injEq, Prod.mk.injEq] at h
    obtain ⟨h1, h2⟩ := h
    subst h1 h2
    exact Or.inl ⟨by simp [setParsedValue, hp], rfl⟩
  | some pf =>
    simp only [hp] at h
    cases hr : pf tag t with
    | none => simp [hr] at h
    | some r =>
      obtain ⟨pv, pe⟩ := r
      cases pe with
      | some err =>
        simp only [hr, Option.some.injEq, Prod.mk.injEq] at h
        obtain ⟨h1, h2⟩ := h
        subst h1 h2
        exact Or.inl ⟨by simp [setParsedValue, hp, hr], rfl⟩
      | none =>
        cases pv with
        | none =>
          simp only [hr, Option.some.injEq, Prod.mk.injEq] at h
          obtain ⟨h1, h2⟩ := h
          subst h1 h2
          exact Or.inl ⟨by simp [setParsedValue, hp, hr], rfl⟩
        | some parsedVal =>
          simp only [hr] at h
          by_cases hk : t.Kind = .Map ∨ t.Kind = .Slice ∨ t.Kind = .Array
          · simp only [hk, if_true] at h
            by_cases hc : lib.convertibleTo parsedVal.typ t = true
            · simp only [hc, if_true] at h
              cases hs : m.store a (.val parsedVal.val) with
              | none => simp [hs] at h
              | some m'' =>
                simp only [hs, Option.some.injEq, Prod.mk.injEq] at h
                obtain ⟨h1, h2⟩ := h
                subst h1 h2
                exact Or.inr ⟨parsedVal.val, by simp [setParsedValue, hp, hr, hk, hc], hs⟩
            · simp only [hc, Bool.false_eq_true, if_false, Option.some.injEq,
                Prod.mk.injEq] at h
              obtain ⟨h1, h2⟩ := h
              subst h1 h2
              exact Or.inl ⟨by simp [setParsedValue, hp, hr, hk, hc], rfl⟩
          · simp only [hk, if_false] at h
            cases hs : m.store a (.val parsedVal.val) with
            | none => simp [hs] at h
            | some m'' =>
              simp only [hs, Option.some.injEq, Prod.mk.injEq] at h
              obtain ⟨h1, h2⟩ := h
              subst h1 h2
              exact Or.inr ⟨parsedVal.val, by simp [setParsedValue, hp, hr, hk], hs⟩

/-- A store of a parsed value at a place: the place holds the value, which reaches no
object. -/
theorem TreeResult.store_val (m m' : Memory) (o : Nat) (p : List Nat) (F : List Nat)
    (v : Value) (h : m.store ⟨o, p⟩ (.val v) = some m') :
    TreeResult m m' o p F (.val v) v [] := by
  obtain ⟨obj, obj', hobj, hset, hm'⟩ := Memory.store_some m m' _ _ h
  have ho : o < m.length := (List.getElem?_eq_some.mp hobj).1
  subst hm'
  exact ⟨by simp, ⟨obj, obj', hobj, List.getElem?_set_self ho, hset⟩,
    fun k _ hk _ => List.getElem?_set_ne (Ne.symm hk), .val v, by simp,
    fun k hk => by simp at hk⟩

/-- The memory after a nil pointer field has been made to point to a new object. -/
theorem Memory.store_new (m m₁ : Memory) (o : Nat) (q : List Nat) (z c : Cell)
    (hload : m.load ⟨o, q⟩ = some c)
    (h : (m ++ [z]).store ⟨o, q⟩ (.ptr (some ⟨m.length, []⟩)) = some m₁) :
    m₁.length = m.length + 1 ∧ o < m.length ∧
    (∃ obj obj₁, m[o]? = some obj ∧ m₁[o]? = some obj₁ ∧
      obj.set q (.ptr (some ⟨m.length, []⟩)) = some obj₁) ∧
    m₁[m.length]? = some z ∧
    (∀ k, k < m.length → k ≠ o → m₁[k]? = m[k]?) := by
  obtain ⟨obj, obj', hobj, hset, hm'⟩ := Memory.store_some _ _ _ _ h
  simp only [Memory.load] at hload
  cases hmo : m[o]? with
  | none => simp [hmo] at hload
  | some obj₀ =>
    have ho : o < m.length := (List.getElem?_eq_some.mp hmo).1
    have hobj' : (m ++ [z])[o]? = some obj₀ := by
      rw [List.getElem?_append_left ho, hmo]
    simp only at hobj hset hm'
    rw [hobj'] at hobj
    simp only [Option.some.injEq] at hobj
    subst hobj hm'
    refine ⟨by simp, ho, ⟨obj₀, obj', rfl, ?_, hset⟩, ?_, ?_⟩
    · exact List.getElem?_set_self (by simp; omega)
    · rw [List.getElem?_set_ne (by omega)]
      exact List.getElem?_concat_length m z
    · intro k hk hko
      rw [List.getElem?_set_ne (Ne.symm hko), List.getElem?_append_left hk]

/-- The result of a call on a pointer field, from the result of the call on the object the
pointer holds: `m₁` is the memory when the call on the pointee begins, in which the field
holds the address of the object `o₁`. -/
theorem TreeResult.of_pointee (m m₁ m' : Memory) (o : Nat) (q : List Nat) (G G₁ : List Nat)
    (o₁ : Nat) (c₁' : Cell) (y' : Value) (G₁' : List Nat)
    (hlen : m.length ≤ m₁.length) (ho : o < m.length) (hne : o₁ ≠ o)
    (hobj : ∃ obj obj₁, m[o]? = some obj ∧ m₁[o]? = some obj₁ ∧
      obj.set q (.ptr (some ⟨o₁, []⟩)) = some obj₁)
    (hframe : ∀ k, k < m.length → k ≠ o → m₁[k]? = m[k]?)
    (hoG : o ∉ G₁) (hsub : ∀ k ∈ G₁, k ∈ G)
    (hout : ∀ k, k < m.length → k ∉ G → k ≠ o₁ ∧ k ∉ G₁)
    (ho₁ : o₁ ∈ G ∨ m.length ≤ o₁)
    (h : TreeResult m₁ m' o₁ [] G₁ c₁' y' G₁') :
    TreeResult m m' o q G (.ptr (some ⟨o₁, []⟩)) (.ptr y') (o₁ :: G₁') := by
  obtain ⟨hlen', ⟨objA, objB, hA, hB, hAB⟩, hframe', hheld, hfresh, hsub'⟩ := h
  obtain ⟨obj, obj₁, hobj0, hobj1, hset⟩ := hobj
  simp only [Cell.set, Option.some.injEq] at hAB
  subst hAB
  have hoG' : o ∉ G₁' := by
    intro hmem
    rcases hsub' o hmem with h1 | h1
    · exact hoG h1
    · omega
  refine ⟨by omega, ⟨obj, obj₁, hobj0, ?_, hset⟩, ?_, .ptr o₁ c₁' y' G₁' hB hheld hfresh, ?_, ?_⟩
  · rw [hframe' o (by omega) (Ne.symm hne) hoG, hobj1]
  · intro k hk hko hkG
    obtain ⟨h1, h2⟩ := hout k hk hkG
    rw [hframe' k (by omega) h1 h2, hframe k hk hko]
  · intro hmem
    rcases List.mem_cons.mp hmem with h1 | h1
    · exact hne h1.symm
    · exact hoG' h1
  · intro k hk
    rcases List.mem_cons.mp hk with h1 | h1
    · rw [h1]; exact ho₁
    · rcases hsub' k h1 with h2 | h2
      · exact Or.inl (hsub k h2)
      · exact Or.inr (by omega)

/-- The function `setFieldValue` on the memory does to the tree an unset field holds what
the function does on the tree. -/
theorem setFieldValue_of_Mem (env : TypeEnv) (lib : Lib) (m : Memory) (o : Nat)
    (q : List Nat) (c : Cell) (x : Value) (G : List Nat) (t : GoType) (tag : String)
    (m' : Memory) (e : Option GoError)
    (hload : m.load ⟨o, q⟩ = some c) (hc : HoldsTree m c x G) (ho : o ∉ G)
    (hu : isUnsetMem t c = some true)
    (h : setFieldValueMem env lib m ⟨o, q⟩ c t tag = some (m', e)) :
    ∃ c' x' G', setFieldValue env lib x t tag = some (x', e) ∧
      TreeResult m m' o q G c' x' G' := by
  unfold setFieldValueMem at h
  by_cases hk : t.Kind = .Pointer
  · simp only [hk, if_true] at h
    cases he : t.Elem env with
    | none => simp [he] at h
    | some te =>
      simp only [he] at h
      cases hc with
      | val v => simp [isUnsetMem, hk] at hu
      | ptr o₁ c₁ y G₁ hobj hy hfresh => simp [isUnsetMem, hk] at hu
      | struct cs xs G F hlen hrep hdisj hF => simp [isUnsetMem, hk] at hu
      | nil =>
        simp only [elemOrNew] at h
        cases hs : (m ++ [zeroCell te]).store ⟨o, q⟩ (.ptr (some ⟨m.length, []⟩)) with
        | none => simp [hs] at h
        | some m₁ =>
          simp only [hs] at h
          obtain ⟨hlen1, holt, hobj, hnew, hframe⟩ :=
            Memory.store_new m m₁ o q (zeroCell te) _ hload hs
          have hloadn : m₁.load ⟨m.length, []⟩ = some (zeroCell te) := by
            simp [Memory.load, hnew, Cell.get]
          have hsub : ∃ c₁' y', setParsedValue lib (zeroValue te) te tag = some (y', e) ∧
              TreeResult m₁ m' m.length [] [] c₁' y' [] := by
            rcases setParsedValue_of_Mem lib m₁ m' _ te tag e (zeroValue te) h with
              ⟨hT, hm⟩ | ⟨v, hT, hst⟩
            · subst hm
              exact ⟨_, _, hT, TreeResult.refl m' m.length [] _ _ [] hloadn
                (HoldsTree.zero m' te) (by simp)⟩
            · exact ⟨_, _, hT, TreeResult.store_val m₁ m' m.length [] [] v hst⟩
          obtain ⟨c₁', y', hT, hres⟩ := hsub
          refine ⟨_, .ptr y', _, ?_, TreeResult.of_pointee m m₁ m' o q [] [] m.length c₁' y' []
            (by omega) holt (by omega) hobj hframe (by simp) (by simp)
            (fun k hk _ => ⟨by omega, by simp⟩) (Or.inr (Nat.le_refl _)) hres⟩
          simp [setFieldValue, hk, he, Value.IsNil, Value.Elem, hT]
  · simp only [hk, if_false] at h
    rcases setParsedValue_of_Mem lib m m' _ t tag e x h with ⟨hT, hm⟩ | ⟨v, hT, hst⟩
    · subst hm
      exact ⟨c, x, G, by simp [setFieldValue, hk, hT], TreeResult.refl m' o q c x G hload hc ho⟩
    · exact ⟨_, v, [], by simp [setFieldValue, hk, hT], TreeResult.store_val m m' o q G v hst⟩

/-- The result of two calls on the same place, one after the other. -/
theorem TreeResult.trans (m m₁ m' : Memory) (o : Nat) (p : List Nat) (F F₁ F' : List Nat)
    (c₁ c' : Cell) (x₁ x' : Value) (h₁ : TreeResult m m₁ o p F c₁ x₁ F₁)
    (h₂ : TreeResult m₁ m' o p F₁ c' x' F') : TreeResult m m' o p F c' x' F' := by
  obtain ⟨hl₁, ⟨obj, obj₁, ho, ho₁, hs₁⟩, hf₁, _, _, hsub₁⟩ := h₁
  obtain ⟨hl₂, ⟨objA, obj', hoA, ho', hs₂⟩, hf₂, hheld, hfresh, hsub₂⟩ := h₂
  rw [ho₁] at hoA
  simp only [Option.some.injEq] at hoA
  subst hoA
  refine ⟨by omega, ⟨obj, obj', ho, ho', ?_⟩, ?_, hheld, hfresh, ?_⟩
  · rw [← Cell.set_set p obj obj₁ c₁ c' hs₁]
    exact hs₂
  · intro k hk hko hkF
    have hk₁ : k ∉ F₁ := by
      intro hmem
      rcases hsub₁ k hmem with h | h
      · exact hkF h
      · omega
    rw [hf₂ k (by omega) hko hk₁, hf₁ k hk hko hkF]
  · intro k hk
    rcases hsub₂ k hk with h | h
    · exact hsub₁ k h
    · exact Or.inr (by omega)

/-- The loop body on the memory returns only when the place of the field can be loaded. -/
theorem setDefaultsFieldMem_load (recurse : Memory → GoType → Addr → Option MemOutcome)
    (env : TypeEnv) (lib : Lib) (Tag : String) (v : Addr) (m : Memory) (i : Nat)
    (field : StructField) (r : MemOutcome)
    (h : setDefaultsFieldMem recurse env lib Tag v m i field = some r) :
    ∃ c, m.load ⟨v.obj, v.path ++ [i]⟩ = some c := by
  unfold setDefaultsFieldMem at h
  cases hl : m.load ⟨v.obj, v.path ++ [i]⟩ with
  | none => simp [hl] at h
  | some c => exact ⟨c, rfl⟩

/-- The loop body on the memory does to the tree a field holds what the loop body does on
the tree, when the recursive call does. -/
theorem setDefaultsField_of_Mem (recM : Memory → GoType → Addr → Option MemOutcome)
    (recT : GoType → Value → Option Outcome) (env : TypeEnv) (lib : Lib) (Tag : String)
    (hrec : ∀ (m : Memory) (t : GoType) (o : Nat) (p : List Nat) (c : Cell) (x : Value)
      (F : List Nat) (m' : Memory) (e : Option GoError),
      m.load ⟨o, p⟩ = some c → HoldsTree m c x F → o ∉ F → recM m t ⟨o, p⟩ = some (m', e) →
      ∃ c' x' F', recT t x = some (x', e) ∧ TreeResult m m' o p F c' x' F')
    (m : Memory) (o : Nat) (p : List Nat) (i : Nat) (field : StructField) (c : Cell)
    (x : Value) (G : List Nat) (m' : Memory) (e : Option GoError)
    (hload : m.load ⟨o, p ++ [i]⟩ = some c) (hc : HoldsTree m c x G) (ho : o ∉ G)
    (h : setDefaultsFieldMem recM env lib Tag ⟨o, p⟩ m i field = some (m', e)) :
    ∃ c' x' G', setDefaultsField recT env lib Tag field x = some (x', e) ∧
      TreeResult m m' o (p ++ [i]) G c' x' G' := by
  unfold setDefaultsFieldMem at h
  simp only [hload] at h
  unfold setDefaultsField
  by_cases ha : assignable field = true
  · simp only [ha, Bool.not_true, Bool.false_eq_true, if_false] at h ⊢
    by_cases hb : (isStructOrStructPtr env field.Typ &&
        (field.Tag.Get Tag == "" || field.Typ.Kind == .Struct)) = true
    · simp only [hb, if_true] at h ⊢
      by_cases hk : field.Typ.Kind = .Pointer
      · simp only [hk, if_true] at h ⊢
        cases he : field.Typ.Elem env with
        | none => simp [he] at h
        | some te =>
          simp only [he] at h ⊢
          cases hc with
          | val v => simp [elemOrNew] at h
          | struct cs xs G₀ F hlen hrep hdisj hF => simp [elemOrNew] at h
          | nil =>
            simp only [elemOrNew] at h
            cases hs : (m ++ [zeroCell te]).store ⟨o, p ++ [i]⟩
                (.ptr (some ⟨m.length, []⟩)) with
            | none => simp [hs] at h
            | some m₁ =>
              simp only [hs] at h
              obtain ⟨hlen1, holt, hobj, hnew, hframe⟩ :=
                Memory.store_new m m₁ o (p ++ [i]) (zeroCell te) _ hload hs
              have hloadn : m₁.load ⟨m.length, []⟩ = some (zeroCell te) := by
                simp [Memory.load, hnew, Cell.get]
              cases hr : recM m₁ te ⟨m.length, []⟩ with
              | none => simp [hr] at h
              | some r =>
                obtain ⟨m₂, e₂⟩ := r
                obtain ⟨c₁', y', G₁', hT, hres⟩ := hrec m₁ te m.length [] (zeroCell te)
                  (zeroValue te) [] m₂ e₂ hloadn (HoldsTree.zero m₁ te) (by simp) hr
                have hfin := TreeResult.of_pointee m m₁ m₂ o (p ++ [i]) [] [] m.length c₁' y'
                  G₁' (by omega) holt (by omega) hobj hframe (by simp) (by simp)
                  (fun k hk _ => ⟨by omega, by simp⟩) (Or.inr (Nat.le_refl _)) hres
                cases e₂ with
                | none =>
                  simp only [hr, Option.some.injEq, Prod.mk.injEq] at h
                  obtain ⟨h1, h2⟩ := h
                  subst h1 h2
                  exact ⟨_, .ptr y', _, by simp [Value.IsNil, Value.Elem, hT], hfin⟩
                | some err =>
                  simp only [hr, Option.some.injEq, Prod.mk.injEq] at h
                  obtain ⟨h1, h2⟩ := h
                  subst h1 h2
                  exact ⟨_, .ptr y', _, by simp [Value.IsNil, Value.Elem, hT], hfin⟩
          | ptr o₁ c₁ y G₁ hobj₁ hy hfresh =>
            simp only [elemOrNew] at h
            have hloado : m.load ⟨o₁, []⟩ = some c₁ := by
              simp [Memory.load, hobj₁, Cell.get]
            have hne : o₁ ≠ o := fun hEq => ho (by rw [hEq]; exact List.mem_cons_self _ _)
            have hoG₁ : o ∉ G₁ := fun hmem => ho (List.mem_cons_of_mem _ hmem)
            obtain ⟨hl0, hobj0, _⟩ := TreeResult.refl m o (p ++ [i]) _ _ _ hload
              (HoldsTree.ptr o₁ c₁ y G₁ hobj₁ hy hfresh) ho
            have holt : o < m.length := by
              obtain ⟨obj, _, hobj, _⟩ := hobj0
              exact (List.getElem?_eq_some.mp hobj).1
            cases hr : recM m te ⟨o₁, []⟩ with
            | none => simp [hr] at h
            | some r =>
              obtain ⟨m₂, e₂⟩ := r
              obtain ⟨c₁', y', G₁', hT, hres⟩ := hrec m te o₁ [] c₁ y G₁ m₂ e₂ hloado hy
                hfresh hr
              have hfin := TreeResult.of_pointee m m m₂ o (p ++ [i]) (o₁ :: G₁) G₁ o₁ c₁' y'
                G₁' (Nat.le_refl _) holt hne hobj0 (fun _ _ _ => rfl) hoG₁
                (fun k hk => List.mem_cons_of_mem _ hk)
                (fun k _ hk => ⟨fun hEq => hk (by rw [hEq]; exact List.mem_cons_self _ _),
                  fun hmem => hk (List.mem_cons_of_mem _ hmem)⟩)
                (Or.inl (List.mem_cons_self _ _)) hres
              cases e₂ with
              | none =>
                simp only [hr, Option.some.injEq, Prod.mk.injEq] at h
                obtain ⟨h1, h2⟩ := h
                subst h1 h2
                exact ⟨_, .ptr y', _, by simp [Value.IsNil, Value.Elem, hT], hfin⟩
              | some err =>
                simp only [hr, Option.some.injEq, Prod.mk.injEq] at h
                obtain ⟨h1, h2⟩ := h
                subst h1 h2
                exact ⟨_, .ptr y', _, by simp [Value.IsNil, Value.Elem, hT], hfin⟩
      · simp only [hk, if_false] at h ⊢
        cases hr : recM m field.Typ ⟨o, p ++ [i]⟩ with
        | none => simp [hr] at h
        | some r =>
          obtain ⟨m₂, e₂⟩ := r
          obtain ⟨c', x', G', hT, hres⟩ := hrec m field.Typ o (p ++ [i]) c x G m₂ e₂ hload hc
            ho hr
          cases e₂ with
          | none =>
            simp only [hr, Option.some.injEq, Prod.mk.injEq] at h
            obtain ⟨h1, h2⟩ := h
            subst h1 h2
            exact ⟨c', x', G', by simp [hT], hres⟩
          | some err =>
            simp only [hr, Option.some.injEq, Prod.mk.injEq] at h
            obtain ⟨h1, h2⟩ := h
            subst h1 h2
            exact ⟨c', x', G', by simp [hT], hres⟩
    · simp only [hb, Bool.false_eq_true, if_false] at h ⊢
      cases hu : isUnsetMem field.Typ c with
      | none => simp [hu] at h
      | some b =>
        have hub := isUnset_of_isUnsetMem m field.Typ c x G b hc hu
        cases b with
        | false =>
          simp only [hu, Option.some.injEq, Prod.mk.injEq] at h
          obtain ⟨h1, h2⟩ := h
          subst h1 h2
          exact ⟨c, x, G, by simp [hub], TreeResult.refl _ o (p ++ [i]) c x G hload hc ho⟩
        | true =>
          simp only [hu] at h
          simp only [hub, Bool.not_true, Bool.false_eq_true, if_false]
          by_cases ht : field.Tag.Get Tag = ""
          · simp only [ht, if_true, Option.some.injEq, Prod.mk.injEq] at h
            obtain ⟨h1, h2⟩ := h
            subst h1 h2
            exact ⟨c, x, G, by simp [ht], TreeResult.refl _ o (p ++ [i]) c x G hload hc ho⟩
          · simp only [ht, if_false] at h ⊢
            cases hr : setFieldValueMem env lib m ⟨o, p ++ [i]⟩ c field.Typ
                (field.Tag.Get Tag) with
            | none => simp [hr] at h
            | some r =>
              obtain ⟨m₂, e₂⟩ := r
              obtain ⟨c', x', G', hT, hres⟩ := setFieldValue_of_Mem env lib m o (p ++ [i]) c x
                G field.Typ (field.Tag.Get Tag) m₂ e₂ hload hc ho hu hr
              cases e₂ with
              | none =>
                simp only [hr, Option.some.injEq, Prod.mk.injEq] at h
                obtain ⟨h1, h2⟩ := h
                subst h1 h2
                exact ⟨c', x', G', by simp [hT], hres⟩
              | some err =>
                simp only [hr, Option.some.injEq, Prod.mk.injEq] at h
                obtain ⟨h1, h2⟩ := h
                subst h1 h2
                exact ⟨c', x', G', by simp [hT], hres⟩
  · simp only [ha, Bool.not_false, if_true, Option.some.injEq, Prod.mk.injEq] at h ⊢
    obtain ⟨h1, h2⟩ := h
    subst h1 h2
    exact ⟨c, x, G, ⟨rfl, rfl⟩, TreeResult.refl _ o (p ++ [i]) c x G hload hc ho⟩

/-- The result of a call on a field of a struct, as a result on the struct. -/
theorem TreeResult.of_field (m m₁ : Memory) (o : Nat) (p : List Nat) (cs : List Cell)
    (xs : List Value) (F : List Nat) (i : Nat) (c c' : Cell) (x' : Value)
    (G : Nat → List Nat) (Gi' : List Nat)
    (hload : m.load ⟨o, p⟩ = some (.struct cs))
    (hlen : cs.length = xs.length)
    (hrep : ∀ (j : Nat) (c : Cell) (x : Value),
      cs[j]? = some c → xs[j]? = some x → HoldsTree m c x (G j))
    (hdisj : ∀ (j₁ j₂ : Nat), j₁ ≠ j₂ → j₁ < cs.length → j₂ < cs.length →
      ∀ k ∈ G j₁, k ∉ G j₂)
    (hF : ∀ k, k ∈ F ↔ ∃ j, j < cs.length ∧ k ∈ G j)
    (ho : o ∉ F) (hci : cs[i]? = some c)
    (h : TreeResult m m₁ o (p ++ [i]) (G i) c' x' Gi') :
    ∃ F₁, TreeResult m m₁ o p F (.struct (cs.set i c')) (.struct (xs.set i x')) F₁ := by
  obtain ⟨hl, ⟨obj, obj', hobj, hobj', hset⟩, hframe, hheld, hfresh, hsub⟩ := h
  have hi : i < cs.length := (List.getElem?_eq_some.mp hci).1
  have hget : obj.get p = some (.struct cs) := by
    simpa [Memory.load, hobj] using hload
  have hbound : ∀ j, j < cs.length → ∀ k ∈ G j, k < m.length := by
    intro j hj k hk
    exact (hrep j cs[j] xs[j] (List.getElem?_eq_getElem hj)
      (List.getElem?_eq_getElem (by omega))).lt_length k hk
  refine ⟨(List.range cs.length).flatMap (Function.update G i Gi'), hl,
    ⟨obj, obj', hobj, hobj', ?_⟩, ?_, ?_, ?_, ?_⟩
  · rw [← Cell.set_field p obj cs i c c' hget hci]
    exact hset
  · intro k hk hko hkF
    exact hframe k hk hko (fun hmem => hkF ((hF k).mpr ⟨i, hi, hmem⟩))
  · refine .struct _ _ (Function.update G i Gi') _ (by simp [hlen]) ?_ ?_ ?_
    · intro j c₀ x₀ hc₀ hx₀
      by_cases hj : j = i
      · subst hj
        rw [List.getElem?_set_self hi] at hc₀
        rw [List.getElem?_set_self (by omega)] at hx₀
        simp only [Option.some.injEq] at hc₀ hx₀
        subst hc₀ hx₀
        simpa using hheld
      · rw [List.getElem?_set_ne (Ne.symm hj)] at hc₀ hx₀
        rw [Function.update_noteq hj]
        have hjl : j < cs.length := (List.getElem?_eq_some.mp hc₀).1
        refine (hrep j c₀ x₀ hc₀ hx₀).congr ?_
        intro k hk
        exact hframe k (hbound j hjl k hk)
          (fun hko => ho ((hF k).mpr ⟨j, hjl, hk⟩ |> fun h => hko ▸ h))
          (hdisj j i hj hjl hi k hk)
    · intro j₁ j₂ hne hj₁ hj₂ k hk
      simp only [List.length_set] at hj₁ hj₂
      by_cases h₁ : j₁ = i
      · subst h₁
        rw [Function.update_same] at hk
        rw [Function.update_noteq (Ne.symm hne)]
        intro hk₂
        rcases hsub k hk with h | h
        · exact hdisj j₁ j₂ hne hj₁ hj₂ k h hk₂
        · have := hbound j₂ hj₂ k hk₂
          omega
      · rw [Function.update_noteq h₁] at hk
        by_cases h₂ : j₂ = i
        · subst h₂
          rw [Function.update_same]
          intro hk₂
          rcases hsub k hk₂ with h | h
          · exact hdisj j₁ j₂ hne hj₁ hj₂ k hk h
          · have := hbound j₁ hj₁ k hk
            omega
        · rw [Function.update_noteq h₂]
          exact hdisj j₁ j₂ hne hj₁ hj₂ k hk
    · intro k
      simp only [List.mem_flatMap, List.mem_range, List.length_set]
  · intro hmem
    simp only [List.mem_flatMap, List.mem_range] at hmem
    obtain ⟨j, hj, hk⟩ := hmem
    by_cases hji : j = i
    · subst hji
      rw [Function.update_same] at hk
      exact hfresh hk
    · rw [Function.update_noteq hji] at hk
      exact ho ((hF o).mpr ⟨j, hj, hk⟩)
  · intro k hk
    simp only [List.mem_flatMap, List.mem_range] at hk
    obtain ⟨j, hj, hk⟩ := hk
    by_cases hji : j = i
    · subst hji
      rw [Function.update_same] at hk
      rcases hsub k hk with h | h
      · exact Or.inl ((hF k).mpr ⟨j, hj, h⟩)
      · exact Or.inr h
    · rw [Function.update_noteq hji] at hk
      exact Or.inl ((hF k).mpr ⟨j, hj, hk⟩)

/-- The value at the end of the fields done is replaced. -/
theorem List.set_length_middle {α : Type} (done : List α) (x x' : α) (rest : List α) :
    (done ++ x :: rest).set done.length x' = done ++ x' :: rest := by
  induction done with
  | nil => rfl
  | cons a done ih => simp [ih]

/-- The loop of `setDefaults` on the memory does to the tree a struct holds what the loop
does on the tree, when the recursive call does. -/
theorem setDefaultsLoop_of_Mem (recM : Memory → GoType → Addr → Option MemOutcome)
    (recT : GoType → Value → Option Outcome) (env : TypeEnv) (lib : Lib) (Tag : String)
    (hrec : ∀ (m : Memory) (t : GoType) (o : Nat) (p : List Nat) (c : Cell) (x : Value)
      (F : List Nat) (m' : Memory) (e : Option GoError),
      m.load ⟨o, p⟩ = some c → HoldsTree m c x F → o ∉ F → recM m t ⟨o, p⟩ = some (m', e) →
      ∃ c' x' F', recT t x = some (x', e) ∧ TreeResult m m' o p F c' x' F')
    (o : Nat) (p : List Nat) :
    ∀ (fields : List StructField) (done rest : List Value) (m : Memory) (cs : List Cell)
      (F : List Nat) (m' : Memory) (e : Option GoError),
      m.load ⟨o, p⟩ = some (.struct cs) →
      HoldsTree m (.struct cs) (.struct (done ++ rest)) F → o ∉ F →
      setDefaultsLoopMem (setDefaultsFieldMem recM env lib Tag ⟨o, p⟩) fields done.length m =
        some (m', e) →
      ∃ cs' rest' F',
        setDefaultsLoop (setDefaultsField recT env lib Tag) fields rest = some (rest', e) ∧
        TreeResult m m' o p F (.struct cs') (.struct (done ++ rest')) F'
  | [], done, rest, m, cs, F, m', e, hload, hc, ho, h => by
    simp only [setDefaultsLoopMem, Option.some.injEq, Prod.mk.injEq] at h
    obtain ⟨h1, h2⟩ := h
    subst h1 h2
    exact ⟨cs, rest, F, by simp [setDefaultsLoop], TreeResult.refl _ o p _ _ F hload hc ho⟩
  | f :: fs, done, rest, m, cs, F, m', e, hload, hc, ho, h => by
    simp only [setDefaultsLoopMem] at h
    cases hb : setDefaultsFieldMem recM env lib Tag ⟨o, p⟩ m done.length f with
    | none => simp [hb] at h
    | some r =>
      obtain ⟨m₁, e₁⟩ := r
      obtain ⟨c, hlc⟩ := setDefaultsFieldMem_load recM env lib Tag ⟨o, p⟩ m done.length f _ hb
      simp only at hlc
      have hci : cs[done.length]? = some c := by
        have h1 : m.load ⟨o, p ++ [done.length]⟩ =
            (m.load ⟨o, p⟩).bind (fun d => d.get [done.length]) := by
          simp only [Memory.load]
          cases m[o]? with
          | none => rfl
          | some obj => exact Cell.get_append p [done.length] obj
        rw [h1, hload] at hlc
        simpa [Cell.get_field] using hlc
      have hi : done.length < cs.length := (List.getElem?_eq_some.mp hci).1
      cases hc with
      | struct _ _ G _ hlen hrep hdisj hF =>
        cases rest with
        | nil => simp at hlen; omega
        | cons x rest₀ =>
          have hxi : (done ++ x :: rest₀)[done.length]? = some x := by
            rw [List.getElem?_append_right (Nat.le_refl _)]
            simp
          have hGi : o ∉ G done.length := fun hmem => ho ((hF o).mpr ⟨_, hi, hmem⟩)
          obtain ⟨c', x', Gi', hT, hres⟩ := setDefaultsField_of_Mem recM recT env lib Tag hrec
            m o p done.length f c x (G done.length) m₁ e₁ hlc (hrep _ c x hci hxi) hGi hb
          obtain ⟨F₁, hres₁⟩ := TreeResult.of_field m m₁ o p cs (done ++ x :: rest₀) F
            done.length c c' x' G Gi' hload hlen hrep hdisj hF ho hci hres
          rw [List.set_length_middle] at hres₁
          cases e₁ with
          | some err =>
            simp only [hb, Option.some.injEq, Prod.mk.injEq] at h
            obtain ⟨h1, h2⟩ := h
            subst h1 h2
            exact ⟨_, x' :: rest₀, F₁, by simp [setDefaultsLoop, hT], hres₁⟩
          | none =>
            simp only [hb] at h
            obtain ⟨_, ⟨obj, obj₁, hobj, hobj₁, hset⟩, _, hheld, hfresh, _⟩ := hres₁
            have hload₁ : m₁.load ⟨o, p⟩ = some (.struct (cs.set done.length c')) := by
              simp only [Memory.load, hobj₁]
              exact Cell.get_set p obj obj₁ _ hset
            have hheld₁ : HoldsTree m₁ (.struct (cs.set done.length c'))
                (.struct ((done ++ [x']) ++ rest₀)) F₁ := by
              simpa using hheld
            have h' : setDefaultsLoopMem (setDefaultsFieldMem recM env lib Tag ⟨o, p⟩) fs
                (done ++ [x']).length m₁ = some (m', e) := by
              simpa using h
            obtain ⟨cs', rest', F', hT', hres'⟩ := setDefaultsLoop_of_Mem recM recT env lib Tag
              hrec o p fs (done ++ [x']) rest₀ m₁ _ F₁ m' e hload₁ hheld₁ hfresh h'
            refine ⟨cs', x' :: rest', F', by simp [setDefaultsLoop, hT, hT'], ?_⟩
            have hres'' : TreeResult m₁ m' o p F₁ (.struct cs') (.struct (done ++ x' :: rest'))
                F' := by
              simpa using hres'
            exact TreeResult.trans m m₁ m' o p F F₁ F' _ _ _ _
              ⟨by assumption, ⟨obj, obj₁, hobj, hobj₁, hset⟩, by assumption, hheld, hfresh,
                by assumption⟩ hres''

/-- The function `setDefaults` on the memory does to the tree a struct holds what
`setDefaults` does on the tree: when the call on the memory returns, the call on the tree
returns the same error, and the place holds the tree that call returns. -/
theorem setDefaults_of_Mem (env : TypeEnv) (lib : Lib) (Tag : String) :
    ∀ (fuel : Nat) (m : Memory) (t : GoType) (o : Nat) (p : List Nat) (c : Cell) (x : Value)
      (F : List Nat) (m' : Memory) (e : Option GoError),
      m.load ⟨o, p⟩ = some c → HoldsTree m c x F → o ∉ F →
      setDefaultsMem env lib Tag fuel m t ⟨o, p⟩ = some (m', e) →
      ∃ c' x' F', setDefaults env lib Tag fuel t x = some (x', e) ∧
        TreeResult m m' o p F c' x' F'
  | 0, m, t, o, p, c, x, F, m', e, _, _, _, h => by simp [setDefaultsMem] at h
  | fuel + 1, m, t, o, p, c, x, F, m', e, hload, hc, ho, h => by
    simp only [setDefaultsMem, hload] at h
    cases hc with
    | val v => simp at h
    | nil => simp at h
    | ptr o₁ c₁ y G₁ hobj₁ hy hfresh => simp at h
    | struct cs xs G _ hlen hrep hdisj hF =>
      simp only at h
      obtain ⟨cs', rest', F', hT, hres⟩ := setDefaultsLoop_of_Mem
        (setDefaultsMem env lib Tag fuel) (setDefaults env lib Tag fuel) env lib Tag
        (setDefaults_of_Mem env lib Tag fuel) o p t.Fields [] xs m cs F m' e hload
        (.struct cs xs G F hlen hrep hdisj hF) ho h
      exact ⟨.struct cs', .struct rest', F', by simp [setDefaults, hT], by simpa using hres⟩

/-- The function `Defaults` on a memory that holds its argument as a tree, without sharing,
does what `Defaults` does on the tree: when the call on the memory returns, the call on the
tree returns the same error, the argument holds the tree that call returns, again without
sharing, and the objects the argument did not reach are as they were. -/
theorem Defaults_of_Mem (env : TypeEnv) (lib : Lib) (Tag : String) (fuel : Nat) (m : Memory)
    (typ : GoType) (target : Option Addr) (x : Value) (F : List Nat) (m' : Memory)
    (e : Option GoError) (hs : HoldsTree m (.ptr target) x F)
    (h : DefaultsMem env lib Tag fuel m typ (.ptr target) = some (m', e)) :
    ∃ x' F', Defaults env lib Tag fuel ⟨typ, x⟩ = some (x', e) ∧
      HoldsTree m' (.ptr target) x' F' ∧
      (∀ k, k < m.length → k ∉ F → m'[k]? = m[k]?) := by
  cases hs with
  | nil =>
    simp only [DefaultsMem, Option.some.injEq, Prod.mk.injEq] at h
    obtain ⟨h1, h2⟩ := h
    subst h1 h2
    exact ⟨.nil, [], by simp [Defaults, Value.IsNil], .nil, fun _ _ _ => rfl⟩
  | ptr o c y F₀ hobj hy hfresh =>
    simp only [DefaultsMem] at h
    by_cases hk : typ.Kind = .Pointer
    · simp only [hk, ne_eq, not_true_eq_false, if_false] at h
      cases he : typ.Elem env with
      | none => simp [he] at h
      | some t =>
        simp only [he] at h
        by_cases hst : t.Kind = .Struct
        · simp only [hst, ne_eq, not_true_eq_false, if_false] at h
          have hload : m.load ⟨o, []⟩ = some c := by simp [Memory.load, hobj, Cell.get]
          obtain ⟨c', y', F', hT, _, ⟨obj, obj', _, hobj', hset⟩, hframe, hheld, hfresh', _⟩ :=
            setDefaults_of_Mem env lib Tag fuel m t o [] c y F₀ m' e hload hy hfresh h
          simp only [Cell.set, Option.some.injEq] at hset
          subst hset
          refine ⟨.ptr y', o :: F', by simp [Defaults, hk, he, hst, Value.IsNil, Value.Elem, hT],
            .ptr o c' y' F' hobj' hheld hfresh', ?_⟩
          intro k hk hkF
          exact hframe k hk (fun hEq => hkF (by rw [hEq]; exact List.mem_cons_self _ _))
            (fun hmem => hkF (List.mem_cons_of_mem _ hmem))
        · simp only [hst, ne_eq, not_false_eq_true, if_true, Option.some.injEq,
            Prod.mk.injEq] at h
          obtain ⟨h1, h2⟩ := h
          subst h1 h2
          exact ⟨.ptr y, o :: F₀, by simp [Defaults, hk, he, hst, Value.IsNil, Value.Elem],
            .ptr o c y F₀ hobj hy hfresh, fun _ _ _ => rfl⟩
    · simp only [hk, ne_eq, not_false_eq_true, if_true, Option.some.injEq, Prod.mk.injEq] at h
      obtain ⟨h1, h2⟩ := h
      subst h1 h2
      exact ⟨.ptr y, o :: F₀, by simp [Defaults, hk],
        .ptr o c y F₀ hobj hy hfresh, fun _ _ _ => rfl⟩

/-- A struct without fields holds the empty tree. -/
theorem HoldsTree.struct_nil (m : Memory) : HoldsTree m (.struct []) (.struct []) [] :=
  .struct [] [] (fun _ => []) [] rfl (fun j c x hc _ => by simp at hc)
    (fun _ _ _ h _ => by simp at h) (fun k => by simp)

/-- A struct holds a tree when its first field holds one, the struct of its other fields
holds one, and the two reach different objects. -/
theorem HoldsTree.struct_cons (m : Memory) (c : Cell) (x : Value) (G : List Nat)
    (cs : List Cell) (xs : List Value) (F : List Nat) (hc : HoldsTree m c x G)
    (hcs : HoldsTree m (.struct cs) (.struct xs) F) (hd : ∀ k ∈ G, k ∉ F) :
    HoldsTree m (.struct (c :: cs)) (.struct (x :: xs)) (G ++ F) := by
  cases hcs with
  | struct _ _ G₀ _ hlen hrep hdisj hF =>
    refine .struct _ _ (fun j => match j with | 0 => G | j + 1 => G₀ j) _ (by simp [hlen])
      ?_ ?_ ?_
    · intro j c₀ x₀ hc₀ hx₀
      cases j with
      | zero =>
        simp only [List.getElem?_cons_zero, Option.some.injEq] at hc₀ hx₀
        subst hc₀ hx₀
        exact hc
      | succ j =>
        simp only [List.getElem?_cons_succ] at hc₀ hx₀
        exact hrep j c₀ x₀ hc₀ hx₀
    · intro j₁ j₂ hne hj₁ hj₂ k hk
      simp only [List.length_cons] at hj₁ hj₂
      cases j₁ with
      | zero =>
        cases j₂ with
        | zero => exact absurd rfl hne
        | succ j₂ =>
          simp only at hk ⊢
          exact fun hk₂ => hd k hk ((hF k).mpr ⟨j₂, by omega, hk₂⟩)
      | succ j₁ =>
        cases j₂ with
        | zero =>
          simp only at hk ⊢
          exact fun hk₂ => hd k hk₂ ((hF k).mpr ⟨j₁, by omega, hk⟩)
        | succ j₂ =>
          simp only at hk ⊢
          exact hdisj j₁ j₂ (fun hEq => hne (by rw [hEq])) (by omega) (by omega) k hk
    · intro k
      simp only [List.mem_append, List.length_cons]
      constructor
      · rintro (hk | hk)
        · exact ⟨0, by omega, hk⟩
        · obtain ⟨j, hj, hkj⟩ := (hF k).mp hk
          exact ⟨j + 1, by omega, hkj⟩
      · rintro ⟨j, hj, hkj⟩
        cases j with
        | zero => exact Or.inl hkj
        | succ j => exact Or.inr ((hF k).mpr ⟨j, by omega, hkj⟩)

/-! ## The claims -/

/-- **C1.** Take a struct and an exported, settable field of it that is neither a struct nor
a pointer to a struct, whose value is unset, whose tag is non-empty, and whose type (the
pointee type for a pointer field) has a registered parser that accepts the tag.  If
`Defaults` returns no error, the field afterwards (its pointee, for a pointer field) is the
value that parser returned for the tag and the type. -/
theorem C1_unset_field_gets_parsed_tag (env : TypeEnv) (lib : Lib) (Tag : String)
    (fuel : Nat) (t : GoType) (vals : List Value) (out : Value)
    (i : Nat) (field : StructField) (fieldVal : Value)
    (target : GoType) (parserFunc : ParserFunc) (parsedVal : RValue)
    (hfield : t.Fields[i]? = some field) (hval : vals[i]? = some fieldVal)
    (hassign : assignable field = true)
    (hleaf : isStructOrStructPtr env field.Typ = false)
    (hunset : isUnset field.Typ fieldVal = true)
    (htag : field.Tag.Get Tag ≠ "")
    (htarget : if field.Typ.Kind = .Pointer then field.Typ.Elem env = some target
      else target = field.Typ)
    (hparser : parser lib (typeName lib target) = some parserFunc)
    (haccept : parserFunc (field.Tag.Get Tag) target = some (some parsedVal, none))
    (hrun : Defaults env lib Tag fuel ⟨.ptr t, .ptr (.struct vals)⟩ = some (out, none)) :
    ∃ vals', out = .ptr (.struct vals') ∧
      vals'[i]? =
        some (if field.Typ.Kind = .Pointer then .ptr parsedVal.val else parsedVal.val) := by
  rcases Defaults_some env lib Tag fuel t vals out none hrun with
    ⟨_, _, h⟩ | ⟨_, n, vals', _, hout, hl⟩
  · simp at h
  · exact ⟨vals', hout, setDefaultsLoop_parsed _ env lib Tag t.Fields vals vals' hl i field
      fieldVal target parserFunc parsedVal hfield hval hassign (by simp [hleaf]) hunset htag
      htarget hparser haccept⟩

/-- **C1, instance.** A bool field holding `false` with the tag `"true"` ends as `true`. -/
theorem C1_unset_field_gets_parsed_tag_witness :
    Defaults noEnv sampleLib "default" 1 ⟨.ptr boolRecord, .ptr (.struct [.bool false])⟩ =
        some (.ptr (.struct [.bool true]), none) ∧
      ∃ vals', Value.ptr (.struct [.bool true]) = .ptr (.struct vals') ∧
        vals'[0]? = some (.bool true) :=
  ⟨rfl, C1_unset_field_gets_parsed_tag noEnv sampleLib "default" 1 boolRecord [.bool false]
    (.ptr (.struct [.bool true])) 0 (taggedField "Bool" (.basic .Bool) "true") (.bool false)
    (.basic .Bool) (ParseBool sampleLib) ⟨.basic .Bool, .bool true⟩
    rfl rfl rfl rfl rfl (by decide) rfl rfl rfl rfl⟩

/-- **C2, counterexample.** In a value of the struct `T2` with the fields `P *int` tagged
`default:"1"` and `S Inner`, where `P` points to the field `S.A`, tagged `default:"5"` and
zero: the field `P` is exported, is neither a struct nor a pointer to a struct, and is set
(not nil).  `Defaults` returns no error and leaves the pointer as it was, but the pointee of
`P` is 0 before the call and 5 after it, written by the recursion into `S`. -/
theorem C2_shared_pointee_counterexample :
    sharedPointeeRecord.Fields[0]? = some (taggedField "P" (.ptr (.basic .Int)) "1") ∧
    assignable (taggedField "P" (.ptr (.basic .Int)) "1") = true ∧
    isStructOrStructPtr noEnv (.ptr (.basic .Int)) = false ∧
    sharedPointeeMemory.load ⟨0, [0]⟩ = some (.ptr (some ⟨0, [1, 0]⟩)) ∧
    isUnsetMem (.ptr (.basic .Int)) (.ptr (some ⟨0, [1, 0]⟩)) = some false ∧
    sharedPointeeMemory.load ⟨0, [1, 0]⟩ = some (.val (.int 0)) ∧
    DefaultsMem noEnv sampleLib "default" 2 sharedPointeeMemory (.ptr sharedPointeeRecord)
        (.ptr (some ⟨0, []⟩)) =
      some ([.struct [.ptr (some ⟨0, [1, 0]⟩), .struct [.val (.int 5)]]], none) ∧
    Memory.load [.struct [.ptr (some ⟨0, [1, 0]⟩), .struct [.val (.int 5)]]] ⟨0, [0]⟩ =
      some (.ptr (some ⟨0, [1, 0]⟩)) ∧
    Memory.load [.struct [.ptr (some ⟨0, [1, 0]⟩), .struct [.val (.int 5)]]] ⟨0, [1, 0]⟩ =
      some (.val (.int 5)) :=
  ⟨rfl, rfl, rfl, rfl, rfl, rfl, rfl, rfl, rfl⟩

/-- **C2, amended.** Take a struct and a field of it that is neither a struct nor a pointer
to a struct and is already set (a non-nil pointer, or a value not deep-equal to the zero
value of its type).  The loop body returns the field as it was and no error, whatever the
tag, the tag key and the library, so the tag is not parsed; and when no memory is shared (the
value is a tree, in which a pointer owns its pointee), then whenever `Defaults` returns, with
or without an error, the field, with its pointee, is as it was.  In a memory with sharing the
loop body for the field stores nothing: it returns the memory as it was and no error.  And
when `Defaults` returns on a memory that holds the struct without sharing (every pointer
reached points to a whole object and no object is reached twice), the memory it returns holds
the struct without sharing, with the field, and its pointee, as it was. -/
theorem C2_set_field_is_kept (env : TypeEnv) (lib : Lib) (Tag : String) (fuel : Nat)
    (t : GoType) (vals : List Value) (i : Nat) (field : StructField) (fieldVal : Value)
    (hfield : t.Fields[i]? = some field) (hval : vals[i]? = some fieldVal)
    (hleaf : isStructOrStructPtr env field.Typ = false)
    (hset : isUnset field.Typ fieldVal = false) :
    (∀ recurse, setDefaultsField recurse env lib Tag field fieldVal = some (fieldVal, none)) ∧
    (∀ out err, Defaults env lib Tag fuel ⟨.ptr t, .ptr (.struct vals)⟩ = some (out, err) →
      ∃ vals', out = .ptr (.struct vals') ∧ vals'[i]? = some fieldVal) ∧
    (∀ recurse (m : Memory) (v : Addr) (j : Nat) (val : Cell),
      m.load ⟨v.obj, v.path ++ [j]⟩ = some val → isUnsetMem field.Typ val = some false →
      setDefaultsFieldMem recurse env lib Tag v m j field = some (m, none)) ∧
    (∀ (m : Memory) (target : Option Addr) (F : List Nat) (m' : Memory)
      (err : Option GoError), HoldsTree m (.ptr target) (.ptr (.struct vals)) F →
      DefaultsMem env lib Tag fuel m (.ptr t) (.ptr target) = some (m', err) →
      ∃ vals' F', HoldsTree m' (.ptr target) (.ptr (.struct vals')) F' ∧
        vals'[i]? = some fieldVal) := by
  have hbody : ∀ recurse, setDefaultsField recurse env lib Tag field fieldVal =
      some (fieldVal, none) := fun recurse =>
    setDefaultsField_skip_set recurse env lib Tag field fieldVal (by simp [hleaf]) hset
  refine ⟨hbody, fun out err hrun =>
    Defaults_frame env lib Tag fuel t vals out err i field fieldVal hfield hval hbody hrun,
    fun recurse m v j val hload hs =>
      setDefaultsFieldMem_skip_set recurse env lib Tag v m j field val hload
        (by simp [hleaf]) hs, ?_⟩
  intro m target F m' err hs hrun
  obtain ⟨x', F', hT, hheld, _⟩ :=
    Defaults_of_Mem env lib Tag fuel m (.ptr t) target _ F m' err hs hrun
  obtain ⟨vals', hout, hv⟩ :=
    Defaults_frame env lib Tag fuel t vals x' err i field fieldVal hfield hval hbody hT
  subst hout
  exact ⟨vals', F', hheld, hv⟩

/-- **C2, amended, instances.** The field `Bool` of `testParseBool`, tagged `"TTT"`, holding
`true`: `Defaults` returns no error and the field stays `true`, in the value as a tree and
in a memory that holds it.  And the struct `T2` of the counterexample without sharing, `P`
pointing to an int of its own: the pointee of `P` stays 0 while `S.A` is set to 5, and the
memory `Defaults` returns holds the struct without sharing, with `P` and its pointee as they
were. -/
theorem C2_set_field_is_kept_witness :
    Defaults noEnv sampleLib "default" 1 ⟨.ptr testParseBool, .ptr (.struct [.bool true])⟩ =
        some (.ptr (.struct [.bool true]), none) ∧
      (∃ vals', Value.ptr (.struct [.bool true]) = .ptr (.struct vals') ∧
        vals'[0]? = some (.bool true)) ∧
      DefaultsMem noEnv sampleLib "default" 1 [.struct [.val (.bool true)]] (.ptr testParseBool)
          (.ptr (some ⟨0, []⟩)) = some ([.struct [.val (.bool true)]], none) ∧
      setDefaultsFieldMem (fun _ _ _ => none) noEnv sampleLib "default" ⟨0, []⟩
          [.struct [.val (.bool true)]] 0 (taggedField "Bool" (.basic .Bool) "TTT") =
        some ([.struct [.val (.bool true)]], none) ∧
      DefaultsMem noEnv sampleLib "default" 2
          [.struct [.ptr (some ⟨1, []⟩), .struct [.val (.int 0)]], .val (.int 0)]
          (.ptr sharedPointeeRecord) (.ptr (some ⟨0, []⟩)) =
        some ([.struct [.ptr (some ⟨1, []⟩), .struct [.val (.int 5)]], .val (.int 0)], none) ∧
      HoldsTree [.struct [.ptr (some ⟨1, []⟩), .struct [.val (.int 0)]], .val (.int 0)]
        (.ptr (some ⟨0, []⟩)) (.ptr (.struct [.ptr (.int 0), .struct [.int 0]])) [0, 1] ∧
      (∃ vals' F',
        HoldsTree [.struct [.ptr (some ⟨1, []⟩), .struct [.val (.int 5)]], .val (.int 0)]
          (.ptr (some ⟨0, []⟩)) (.ptr (.struct vals')) F' ∧
        vals'[0]? = some (.ptr (.int 0))) :=
  have h := C2_set_field_is_kept noEnv sampleLib "default" 1 testParseBool [.bool true] 0
    (taggedField "Bool" (.basic .Bool) "TTT") (.bool true) rfl rfl rfl rfl
  have hs : HoldsTree [.struct [.ptr (some ⟨1, []⟩), .struct [.val (.int 0)]], .val (.int 0)]
      (.ptr (some ⟨0, []⟩)) (.ptr (.struct [.ptr (.int 0), .struct [.int 0]])) [0, 1] :=
    .ptr 0 _ _ [1] rfl
      (.struct_cons _ _ _ [1] _ _ [] (.ptr 1 _ _ [] rfl (.val _) (by simp))
        (.struct_cons _ _ _ [] _ _ []
          (.struct_cons _ _ _ [] _ _ [] (.val _) (.struct_nil _) (by simp))
          (.struct_nil _) (by simp)) (by simp)) (by simp)
  ⟨rfl, h.2.1 (.ptr (.struct [.bool true])) none rfl, rfl,
    h.2.2.1 (fun _ _ _ => none) [.struct [.val (.bool true)]] ⟨0, []⟩ 0 (.val (.bool true))
      rfl rfl, rfl, hs,
    (C2_set_field_is_kept noEnv sampleLib "default" 2 sharedPointeeRecord
      [.ptr (.int 0), .struct [.int 0]] 0 (taggedField "P" (.ptr (.basic .Int)) "1")
      (.ptr (.int 0)) rfl rfl rfl rfl).2.2.2 _ _ _ _ none hs rfl⟩

/-- **C8, counterexample.** In a value of the struct `T8` with an unexported field
`inner Inner` and a field `S *Inner` that points to `inner`: the unexported field holds
`A = 0` before the call, `Defaults` returns no error, and the unexported field holds
`A = 5` after it, written by the recursion through `S`. -/
theorem C8_shared_unexported_counterexample :
    sharedUnexportedRecord.Fields[0]? = some (.mk "inner" "defaults" innerType []) ∧
    StructField.IsExported (.mk "inner" "defaults" innerType []) = false ∧
    sharedUnexportedMemory.load ⟨0, [0]⟩ = some (.struct [.val (.int 0)]) ∧
    sharedUnexportedMemory.load ⟨0, [1]⟩ = some (.ptr (some ⟨0, [0]⟩)) ∧
    DefaultsMem noEnv sampleLib "default" 2 sharedUnexportedMemory
        (.ptr sharedUnexportedRecord) (.ptr (some ⟨0, []⟩)) =
      some ([.struct [.struct [.val (.int 5)], .ptr (some ⟨0, [0]⟩)]], none) ∧
    Memory.load [.struct [.struct [.val (.int 5)], .ptr (some ⟨0, [0]⟩)]] ⟨0, [0]⟩ =
      some (.struct [.val (.int 5)]) :=
  ⟨rfl, rfl, rfl, rfl, rfl, rfl⟩

/-- **C8, amended.** An unexported field is skipped: the loop body returns it as it was and
no error, whatever the tag, the tag key and the library, so its tag is not parsed and it
never makes `Defaults` return an error; and when no memory is shared (the value is a tree,
in which a pointer owns its pointee), then whenever `Defaults` returns, the field is as it
was.  In a memory with sharing the loop body for the field stores nothing: it returns the
memory as it was and no error.  And when `Defaults` returns on a memory that holds the struct
without sharing (every pointer reached points to a whole object and no object is reached
twice), the memory it returns holds the struct without sharing, with the field as it was. -/
theorem C8_unexported_field_is_skipped (env : TypeEnv) (lib : Lib) (Tag : String)
    (fuel : Nat) (t : GoType) (vals : List Value) (i : Nat) (field : StructField)
    (fieldVal : Value)
    (hfield : t.Fields[i]? = some field) (hval : vals[i]? = some fieldVal)
    (hunexported : field.IsExported = false) :
    (∀ recurse, setDefaultsField recurse env lib Tag field fieldVal = some (fieldVal, none)) ∧
    (∀ out err, Defaults env lib Tag fuel ⟨.ptr t, .ptr (.struct vals)⟩ = some (out, err) →
      ∃ vals', out = .ptr (.struct vals') ∧ vals'[i]? = some fieldVal) ∧
    (∀ recurse (m : Memory) (v : Addr) (j : Nat) (val : Cell),
      m.load ⟨v.obj, v.path ++ [j]⟩ = some val →
      setDefaultsFieldMem recurse env lib Tag v m j field = some (m, none)) ∧
    (∀ (m : Memory) (target : Option Addr) (F : List Nat) (m' : Memory)
      (err : Option GoError), HoldsTree m (.ptr target) (.ptr (.struct vals)) F →
      DefaultsMem env lib Tag fuel m (.ptr t) (.ptr target) = some (m', err) →
      ∃ vals' F', HoldsTree m' (.ptr target) (.ptr (.struct vals')) F' ∧
        vals'[i]? = some fieldVal) := by
  have hbody : ∀ recurse, setDefaultsField recurse env lib Tag field fieldVal =
      some (fieldVal, none) := fun recurse =>
    setDefaultsField_skip_unassignable recurse env lib Tag field fieldVal
      (by simp [assignable, hunexported])
  refine ⟨hbody, fun out err hrun =>
    Defaults_frame env lib Tag fuel t vals out err i field fieldVal hfield hval hbody hrun,
    fun recurse m v j val hload =>
      setDefaultsFieldMem_skip_unassignable recurse env lib Tag v m j field val hload
        (by simp [assignable, hunexported]), ?_⟩
  intro m target F m' err hs hrun
  obtain ⟨x', F', hT, hheld, _⟩ :=
    Defaults_of_Mem env lib Tag fuel m (.ptr t) target _ F m' err hs hrun
  obtain ⟨vals', hout, hv⟩ :=
    Defaults_frame env lib Tag fuel t vals x' err i field fieldVal hfield hval hbody hT
  subst hout
  exact ⟨vals', F', hheld, hv⟩

/-- **C8, amended, instances.** The struct `testUnexportedField`, whose only field is an
unexported int tagged `"123"`: `Defaults` returns a nil error and the field stays zero, in
the value as a tree and in a memory that holds it.  And the struct `T8` of the
counterexample without sharing, `S` pointing to an `Inner` of its own: the unexported
field `inner` stays as it was while the struct `S` points to is set, and the memory
`Defaults` returns holds the struct without sharing, with `inner` as it was. -/
theorem C8_unexported_field_is_skipped_witness :
    Defaults noEnv sampleLib "default" 1
        ⟨.ptr testUnexportedField, .ptr (.struct [.int 0])⟩ =
        some (.ptr (.struct [.int 0]), none) ∧
      (∃ vals', Value.ptr (.struct [.int 0]) = .ptr (.struct vals') ∧
        vals'[0]? = some (.int 0)) ∧
      DefaultsMem noEnv sampleLib "default" 1 [.struct [.val (.int 0)]]
          (.ptr testUnexportedField) (.ptr (some ⟨0, []⟩)) =
        some ([.struct [.val (.int 0)]], none) ∧
      DefaultsMem noEnv sampleLib "default" 2
          [.struct [.struct [.val (.int 0)], .ptr (some ⟨1, []⟩)], .struct [.val (.int 0)]]
          (.ptr sharedUnexportedRecord) (.ptr (some ⟨0, []⟩)) =
        some ([.struct [.struct [.val (.int 0)], .ptr (some ⟨1, []⟩)],
          .struct [.val (.int 5)]], none) ∧
      HoldsTree [.struct [.struct [.val (.int 0)], .ptr (some ⟨1, []⟩)], .struct [.val (.int 0)]]
        (.ptr (some ⟨0, []⟩)) (.ptr (.struct [.struct [.int 0], .ptr (.struct [.int 0])]))
        [0, 1] ∧
      (∃ vals' F',
        HoldsTree [.struct [.struct [.val (.int 0)], .ptr (some ⟨1, []⟩)],
            .struct [.val (.int 5)]] (.ptr (some ⟨0, []⟩)) (.ptr (.struct vals')) F' ∧
        vals'[0]? = some (.struct [.int 0])) :=
  have hs : HoldsTree
      [.struct [.struct [.val (.int 0)], .ptr (some ⟨1, []⟩)], .struct [.val (.int 0)]]
      (.ptr (some ⟨0, []⟩)) (.ptr (.struct [.struct [.int 0], .ptr (.struct [.int 0])]))
      [0, 1] :=
    .ptr 0 _ _ [1] rfl
      (.struct_cons _ _ _ [] _ _ [1]
        (.struct_cons _ _ _ [] _ _ [] (.val _) (.struct_nil _) (by simp))
        (.struct_cons _ _ _ [1] _ _ []
          (.ptr 1 _ _ [] rfl
            (.struct_cons _ _ _ [] _ _ [] (.val _) (.struct_nil _) (by simp)) (by simp))
          (.struct_nil _) (by simp)) (by simp)) (by simp)
  ⟨rfl, (C8_unexported_field_is_skipped noEnv sampleLib "default" 1 testUnexportedField
    [.int 0] 0 (.mk "privateField" "defaults" (.basic .Int) [("default", "123")]) (.int 0)
    rfl rfl rfl).2.1 (.ptr (.struct [.int 0])) none rfl, rfl, rfl, hs,
    (C8_unexported_field_is_skipped noEnv sampleLib "default" 2 sharedUnexportedRecord
      [.struct [.int 0], .ptr (.struct [.int 0])] 0 (.mk "inner" "defaults" innerType [])
      (.struct [.int 0]) rfl rfl rfl).2.2.2 _ _ _ _ none hs rfl⟩

/-- **C3.** For an argument that is not a pointer, or is a nil pointer, `Defaults` returns
the error "input must be a non-nil pointer to a struct"; for a non-nil pointer whose target
is not a struct it returns the error "input must be a pointer to a struct"; in both cases
the argument is returned as it was.  For a non-nil pointer to a struct, no error that
`Defaults` returns has either of these two texts. -/
theorem C3_invalid_input_errors (env : TypeEnv) (lib : Lib) (Tag : String) (fuel : Nat)
    (s : RValue) :
    ((s.typ.Kind ≠ .Pointer ∨ s.val.IsNil = true) →
      Defaults env lib Tag fuel s =
        some (s.val, some (.text "input must be a non-nil pointer to a struct"))) ∧
    (∀ t v, s.typ.Kind = .Pointer → s.typ.Elem env = some t → s.val = .ptr v →
      t.Kind ≠ .Struct →
      Defaults env lib Tag fuel s =
        some (s.val, some (.text "input must be a pointer to a struct"))) ∧
    (∀ t v out err, s.typ.Kind = .Pointer → s.typ.Elem env = some t → s.val = .ptr v →
      t.Kind = .Struct → Defaults env lib Tag fuel s = some (out, some err) →
      err.Error ≠ "input must be a non-nil pointer to a struct" ∧
        err.Error ≠ "input must be a pointer to a struct") := by
  refine ⟨?_, ?_, ?_⟩
  · intro h
    simp only [Defaults, ne_eq]
    rw [if_pos h]
  · intro t v hk he hv ht
    simp only [Defaults, ne_eq, hk, he, hv, Value.IsNil, Value.Elem, not_true_eq_false,
      Bool.false_eq_true, or_self, if_false, ht, not_false_eq_true, if_true]
  · intro t v out err hk he hv ht hrun
    simp only [Defaults, ne_eq, hk, he, hv, Value.IsNil, Value.Elem, not_true_eq_false,
      Bool.false_eq_true, or_self, if_false, ht] at hrun
    rcases hs : setDefaults env lib Tag fuel t v with _ | ⟨v', e⟩
    · simp [hs] at hrun
    · simp only [hs, Option.some.injEq, Prod.mk.injEq] at hrun
      rw [hrun.2] at hs
      exact setDefaults_err_text env lib Tag fuel t v v' err hs

/-- **C3, instances.** The arguments `123`, a nil `*testStruct`, `intPtr(123)` of the test
`TestNonStructInputCases`, and a pointer to a `testParseBool` whose tag `"TTT"` does not
parse. -/
theorem C3_invalid_input_errors_witness :
    Defaults noEnv sampleLib "default" 1 ⟨.basic .Int, .int 123⟩ =
        some (.int 123, some (.text "input must be a non-nil pointer to a struct")) ∧
    Defaults noEnv sampleLib "default" 1 ⟨.ptr testStruct, .nil⟩ =
        some (.nil, some (.text "input must be a non-nil pointer to a struct")) ∧
    Defaults noEnv sampleLib "default" 1 ⟨.ptr (.basic .Int), .ptr (.int 123)⟩ =
        some (.ptr (.int 123), some (.text "input must be a pointer to a struct")) ∧
    (GoError.wrap "failed to set default for field Bool: "
        (numError sampleLib "ParseBool" "TTT" ErrSyntax)).Error ≠
      "input must be a non-nil pointer to a struct" :=
  ⟨(C3_invalid_input_errors noEnv sampleLib "default" 1 ⟨.basic .Int, .int 123⟩).1
      (Or.inl (by decide)),
   (C3_invalid_input_errors noEnv sampleLib "default" 1 ⟨.ptr testStruct, .nil⟩).1
      (Or.inr rfl),
   (C3_invalid_input_errors noEnv sampleLib "default" 1
      ⟨.ptr (.basic .Int), .ptr (.int 123)⟩).2.1 (.basic .Int) (.int 123) rfl rfl rfl
      (by decide),
   ((C3_invalid_input_errors noEnv sampleLib "default" 1
      ⟨.ptr testParseBool, .ptr (.struct [.bool false])⟩).2.2 testParseBool
      (.struct [.bool false]) (.ptr (.struct [.bool false]))
      (.wrap "failed to set default for field Bool: "
        (numError sampleLib "ParseBool" "TTT" ErrSyntax)) rfl rfl rfl rfl rfl).1⟩

/-- **C4.** Take a struct with an exported field that is a nil pointer to a struct and has
an empty tag.  After a `Defaults` that returns no error the field is a non-nil pointer to a
struct, and every field of that struct that is exported, neither a struct nor a pointer to
a struct, and has a non-empty tag that the registered parser of its type accepts, holds the
parsed value of its own tag (as its pointee, for a pointer field); such a field of the fresh
struct is always unset. -/
theorem C4_nil_struct_pointer_is_allocated (env : TypeEnv) (lib : Lib) (Tag : String)
    (fuel : Nat) (t : GoType) (vals : List Value) (out : Value)
    (i : Nat) (field : StructField) (elemType : GoType)
    (hfield : t.Fields[i]? = some field) (hval : vals[i]? = some .nil)
    (hassign : assignable field = true)
    (hk : field.Typ.Kind = .Pointer) (he : field.Typ.Elem env = some elemType)
    (hek : elemType.Kind = .Struct) (htag : field.Tag.Get Tag = "")
    (hrun : Defaults env lib Tag fuel ⟨.ptr t, .ptr (.struct vals)⟩ = some (out, none)) :
    ∃ vals' nested', out = .ptr (.struct vals') ∧
      vals'[i]? = some (.ptr (.struct nested')) ∧
      ∀ (j : Nat) (g : StructField) (target : GoType) (parserFunc : ParserFunc)
        (parsedVal : RValue),
        elemType.Fields[j]? = some g → assignable g = true →
        isStructOrStructPtr env g.Typ = false → g.Tag.Get Tag ≠ "" →
        (if g.Typ.Kind = .Pointer then g.Typ.Elem env = some target else target = g.Typ) →
        parser lib (typeName lib target) = some parserFunc →
        parserFunc (g.Tag.Get Tag) target = some (some parsedVal, none) →
        nested'[j]? =
          some (if g.Typ.Kind = .Pointer then .ptr parsedVal.val else parsedVal.val) := by
  rcases Defaults_some env lib Tag fuel t vals out none hrun with
    ⟨_, _, h⟩ | ⟨_, n, vals', _, hout, hl⟩
  · simp at h
  obtain ⟨v', hv', hb⟩ := setDefaultsLoop_ok_get _ _ _ _ hl i field .nil hfield hval
  rw [setDefaultsField_structPtr _ env lib Tag field .nil elemType hassign hk he hek htag] at hb
  simp only [Value.IsNil, if_true, Value.Elem] at hb
  rcases hr : setDefaults env lib Tag n elemType (zeroValue elemType) with _ | ⟨p', _ | e⟩
  · simp [hr] at hb
  swap
  · simp [hr] at hb
  simp only [hr, Option.some.injEq, Prod.mk.injEq, and_true] at hb
  obtain ⟨m, zs, nested', _, hzs, hp', hnl⟩ := setDefaults_some env lib Tag n elemType _ p' _ hr
  refine ⟨vals', nested', hout, ?_, ?_⟩
  · rw [hv', ← hb, hp']
  · intro j g target parserFunc parsedVal hg hga hgleaf hgtag hgtarget hgparser hgaccept
    have hz : zs[j]? = some (zeroValue g.Typ) := by
      rw [zeroValue_struct elemType zs hzs]
      exact zeroFields_get _ j g hg
    exact setDefaultsLoop_parsed _ env lib Tag elemType.Fields zs nested' hnl j g
      (zeroValue g.Typ) target parserFunc parsedVal hg hz hga (by simp [hgleaf])
      (isUnset_zeroValue g.Typ) hgtag hgtarget hgparser hgaccept

/-- **C4, instance.** The field `StructPtr *testStruct` of the test record, nil and without
a tag: afterwards it points to a `testStruct` whose field `A`, tagged `"123"`, is 123. -/
theorem C4_nil_struct_pointer_is_allocated_witness :
    Defaults noEnv sampleLib "default" 2 ⟨.ptr structPtrRecord, .ptr (.struct [.nil])⟩ =
        some (.ptr (.struct [.ptr (.struct [.int 123, .string "gm"])]), none) ∧
      ∃ vals' nested', Value.ptr (.struct [.ptr (.struct [.int 123, .string "gm"])]) =
          .ptr (.struct vals') ∧
        vals'[0]? = some (.ptr (.struct nested')) ∧ nested'[0]? = some (.int 123) := by
  refine ⟨rfl, ?_⟩
  obtain ⟨vals', nested', h1, h2, h3⟩ :=
    C4_nil_struct_pointer_is_allocated noEnv sampleLib "default" 2 structPtrRecord [.nil]
      (.ptr (.struct [.ptr (.struct [.int 123, .string "gm"])])) 0
      (untaggedField "StructPtr" (.ptr testStruct)) testStruct rfl rfl rfl rfl rfl rfl rfl rfl
  exact ⟨vals', nested', h1, h2,
    h3 0 (taggedField "A" (.basic .Int) "123") (.basic .Int) (ParseInt sampleLib)
      ⟨.basic .Int, .int 123⟩ rfl rfl rfl (by decide) rfl rfl rfl⟩

/-- **C5.** For an exported field of struct kind the loop body is the recursive call on
the field, whatever the tag of the field and whatever the struct holds: the tag of the
field is not read, and the only error is one of the nested traversal, wrapped with the
field name.  After a `Defaults` that returns no error the field holds what `setDefaults`
made of it. -/
theorem C5_struct_field_is_recursed (env : TypeEnv) (lib : Lib) (Tag : String)
    (t : GoType) (vals : List Value) (i : Nat) (field : StructField) (fieldVal : Value)
    (hfield : t.Fields[i]? = some field) (hval : vals[i]? = some fieldVal)
    (hassign : assignable field = true) (hk : field.Typ.Kind = .Struct) :
    (∀ recurse, setDefaultsField recurse env lib Tag field fieldVal =
      match recurse field.Typ fieldVal with
      | none => none
      | some (fieldVal', some err) =>
        some (fieldVal',
          some (.wrap ("failed to set defaults for field " ++ field.Name ++ ": ") err))
      | some (fieldVal', none) => some (fieldVal', none)) ∧
    (∀ n out, Defaults env lib Tag (n + 1) ⟨.ptr t, .ptr (.struct vals)⟩ = some (out, none) →
      ∃ vals' fieldVal', out = .ptr (.struct vals') ∧ vals'[i]? = some fieldVal' ∧
        setDefaults env lib Tag n field.Typ fieldVal = some (fieldVal', none)) := by
  refine ⟨fun recurse =>
    setDefaultsField_struct recurse env lib Tag field fieldVal hassign hk, ?_⟩
  intro n out hrun
  rcases Defaults_some env lib Tag (n + 1) t vals out none hrun with
    ⟨_, _, h⟩ | ⟨_, m, vals', hm, hout, hl⟩
  · simp at h
  have hmn : m = n := by omega
  subst hmn
  obtain ⟨v', hv', hb⟩ := setDefaultsLoop_ok_get _ _ _ _ hl i field fieldVal hfield hval
  rw [setDefaultsField_struct _ env lib Tag field fieldVal hassign hk] at hb
  rcases hr : setDefaults env lib Tag m field.Typ fieldVal with _ | ⟨w, _ | e⟩
  · simp [hr] at hb
  · simp only [hr, Option.some.injEq, Prod.mk.injEq, and_true] at hb
    exact ⟨vals', v', hout, hv', by rw [hb]⟩
  · simp [hr] at hb

/-- **C5, instance.** A field of type `testStruct` that holds `{A: 0, B: "kept"}` and has
the tag `"not parsed"`: the nested field `A` is defaulted to 123, `B` is kept, and the tag
of the field causes no error. -/
theorem C5_struct_field_is_recursed_witness :
    Defaults noEnv sampleLib "default" 2
        ⟨.ptr structRecord, .ptr (.struct [.struct [.int 0, .string "kept"]])⟩ =
        some (.ptr (.struct [.struct [.int 123, .string "kept"]]), none) ∧
      ∃ vals' fieldVal', Value.ptr (.struct [.struct [.int 123, .string "kept"]]) =
          .ptr (.struct vals') ∧ vals'[0]? = some fieldVal' ∧
        setDefaults noEnv sampleLib "default" 1 testStruct (.struct [.int 0, .string "kept"]) =
          some (fieldVal', none) :=
  ⟨rfl, (C5_struct_field_is_recursed noEnv sampleLib "default" structRecord
    [.struct [.int 0, .string "kept"]] 0 (taggedField "Struct" testStruct "not parsed")
    (.struct [.int 0, .string "kept"]) rfl rfl rfl rfl).2 1 _ rfl⟩

/-- **C6, counterexample.** A non-nil `*testStruct` field with the tag `"x"` is not
recursed into: `Defaults` returns no error and leaves the nested field `A`, tagged `"123"`,
at 0, although `setDefaults` on the referenced record sets it to 123.  When the field is
nil, `Defaults` returns an "unsupported type" error and the nested fields stay zero. -/
theorem C6_struct_pointer_counterexample :
    Defaults noEnv sampleLib "default" 2
        ⟨.ptr taggedStructPtrRecord, .ptr (.struct [.ptr (.struct [.int 0, .string ""])])⟩ =
      some (.ptr (.struct [.ptr (.struct [.int 0, .string ""])]), none) ∧
    setDefaults noEnv sampleLib "default" 1 testStruct (.struct [.int 0, .string ""]) =
      some (.struct [.int 123, .string "gm"], none) ∧
    Defaults noEnv sampleLib "default" 2
        ⟨.ptr taggedStructPtrRecord, .ptr (.struct [.nil])⟩ =
      some (.ptr (.struct [.ptr (.struct [.int 0, .string ""])]),
        some (.wrap "failed to set default for field StructPtr: "
          (.text "unsupported type \"defaults.testStruct\""))) :=
  ⟨rfl, rfl, rfl⟩

/-- **C6, amended.** For an exported field that is a pointer to a struct and has an empty
tag, the loop body is the recursive call on the referenced struct, a fresh zero struct when
the pointer is nil, whether the pointer is nil or not; after a `Defaults` that returns no
error the field points to what `setDefaults` made of that struct. -/
theorem C6_untagged_struct_pointer_is_recursed (env : TypeEnv) (lib : Lib) (Tag : String)
    (t : GoType) (vals : List Value) (i : Nat) (field : StructField) (fieldVal : Value)
    (elemType : GoType)
    (hfield : t.Fields[i]? = some field) (hval : vals[i]? = some fieldVal)
    (hassign : assignable field = true) (hk : field.Typ.Kind = .Pointer)
    (he : field.Typ.Elem env = some elemType) (hek : elemType.Kind = .Struct)
    (htag : field.Tag.Get Tag = "") :
    (∀ recurse, setDefaultsField recurse env lib Tag field fieldVal =
      match (if fieldVal.IsNil then Value.ptr (zeroValue elemType) else fieldVal).Elem with
      | none => none
      | some pointee =>
        match recurse elemType pointee with
        | none => none
        | some (pointee', some err) =>
          some (.ptr pointee',
            some (.wrap ("failed to set defaults for field " ++ field.Name ++ ": ") err))
        | some (pointee', none) => some (.ptr pointee', none)) ∧
    (∀ n out, Defaults env lib Tag (n + 1) ⟨.ptr t, .ptr (.struct vals)⟩ = some (out, none) →
      ∃ vals' pointee pointee', out = .ptr (.struct vals') ∧
        (if fieldVal.IsNil then Value.ptr (zeroValue elemType) else fieldVal) = .ptr pointee ∧
        vals'[i]? = some (.ptr pointee') ∧
        setDefaults env lib Tag n elemType pointee = some (pointee', none)) := by
  refine ⟨fun recurse =>
    setDefaultsField_structPtr recurse env lib Tag field fieldVal elemType hassign hk he hek
      htag, ?_⟩
  intro n out hrun
  rcases Defaults_some env lib Tag (n + 1) t vals out none hrun with
    ⟨_, _, h⟩ | ⟨_, m, vals', hm, hout, hl⟩
  · simp at h
  have hmn : m = n := by omega
  subst hmn
  obtain ⟨v', hv', hb⟩ := setDefaultsLoop_ok_get _ _ _ _ hl i field fieldVal hfield hval
  rw [setDefaultsField_structPtr _ env lib Tag field fieldVal elemType hassign hk he hek
    htag] at hb
  cases hal : (if fieldVal.IsNil = true then Value.ptr (zeroValue elemType) else fieldVal) with
  | ptr pointee =>
    simp only [hal, Value.Elem] at hb
    rcases hr : setDefaults env lib Tag m elemType pointee with _ | ⟨w, _ | e⟩
    · simp [hr] at hb
    · simp only [hr, Option.some.injEq, Prod.mk.injEq, and_true] at hb
      exact ⟨vals', pointee, w, hout, rfl, by rw [hv', hb], hr⟩
    · simp [hr] at hb
  | _ => simp [hal, Value.Elem] at hb

/-- **C6, amended, instances.** The field `StructPtr *testStruct` without a tag, once nil
and once pointing to `{A: 0, B: "kept"}`: both are recursed into. -/
theorem C6_untagged_struct_pointer_is_recursed_witness :
    Defaults noEnv sampleLib "default" 2 ⟨.ptr structPtrRecord, .ptr (.struct [.nil])⟩ =
        some (.ptr (.struct [.ptr (.struct [.int 123, .string "gm"])]), none) ∧
    Defaults noEnv sampleLib "default" 2
        ⟨.ptr structPtrRecord, .ptr (.struct [.ptr (.struct [.int 0, .string "kept"])])⟩ =
        some (.ptr (.struct [.ptr (.struct [.int 123, .string "kept"])]), none) ∧
    ∃ vals' pointee pointee',
      Value.ptr (.struct [.ptr (.struct [.int 123, .string "kept"])]) = .ptr (.struct vals') ∧
      Value.ptr (.struct [.int 0, .string "kept"]) = .ptr pointee ∧
      vals'[0]? = some (.ptr pointee') ∧
      setDefaults noEnv sampleLib "default" 1 testStruct pointee = some (pointee', none) :=
  ⟨rfl, rfl, (C6_untagged_struct_pointer_is_recursed noEnv sampleLib "default" structPtrRecord
    [.ptr (.struct [.int 0, .string "kept"])] 0 (untaggedField "StructPtr" (.ptr testStruct))
    (.ptr (.struct [.int 0, .string "kept"])) testStruct rfl rfl rfl rfl rfl rfl rfl).2 1 _ rfl⟩

/-- **C7.** Take an exported nil pointer field of type `*T` with a non-empty tag that the
registered parser of `T` accepts.  The loop body makes the field a non-nil pointer to the
value parsed for `T` and returns no error.  So after every `Defaults` that returns, with or
without an error, the field is non-nil and its pointee is that value, unless the loop body
returned an error at an earlier field: then `Defaults` returns that error and the field is
still nil.  The loop body gives the same value to an unset, exported field of type `T`
itself with that tag. -/
theorem C7_nil_pointer_field_gets_parsed_pointee (env : TypeEnv) (lib : Lib) (Tag : String)
    (fuel : Nat) (t : GoType) (vals : List Value) (i : Nat) (field : StructField)
    (target : GoType) (parserFunc : ParserFunc) (parsedVal : RValue)
    (hfield : t.Fields[i]? = some field) (hval : vals[i]? = some .nil)
    (hassign : assignable field = true)
    (hk : field.Typ.Kind = .Pointer) (he : field.Typ.Elem env = some target)
    (htag : field.Tag.Get Tag ≠ "")
    (hparser : parser lib (typeName lib target) = some parserFunc)
    (haccept : parserFunc (field.Tag.Get Tag) target = some (some parsedVal, none)) :
    (∀ recurse, setDefaultsField recurse env lib Tag field .nil =
      some (.ptr parsedVal.val, none)) ∧
    (∀ out err, Defaults env lib Tag fuel ⟨.ptr t, .ptr (.struct vals)⟩ = some (out, err) →
      ∃ vals', out = .ptr (.struct vals') ∧
        (vals'[i]? = some (.ptr parsedVal.val) ∨
          (vals'[i]? = some .nil ∧
            ∃ (e : GoError) (n k : Nat) (g : StructField) (w w' : Value), err = some e ∧
              k < i ∧ t.Fields[k]? = some g ∧ vals[k]? = some w ∧
              setDefaultsField (setDefaults env lib Tag n) env lib Tag g w =
                some (w', some e)))) ∧
    (∀ recurse (g : StructField) (w : Value), g.Typ = target →
      g.Tag.Get Tag = field.Tag.Get Tag → assignable g = true →
      target.Kind ≠ .Pointer → target.Kind ≠ .Struct → isUnset target w = true →
      setDefaultsField recurse env lib Tag g w = some (parsedVal.val, none)) := by
  have hbody : ∀ recurse, setDefaultsField recurse env lib Tag field .nil =
      some (.ptr parsedVal.val, none) := by
    intro recurse
    rw [setDefaultsField_parse recurse env lib Tag field .nil hassign (by simp [hk, htag])
      (by simp [isUnset, hk, Value.IsNil]) htag]
    simp only [setFieldValue, hk, if_true, he, Value.IsNil, Value.Elem,
      setParsedValue_accept lib _ target _ parserFunc parsedVal hparser haccept]
  refine ⟨hbody, ?_, ?_⟩
  · intro out err hrun
    exact Defaults_of_body env lib Tag fuel t vals i field .nil _ hfield hval hbody out err hrun
  · intro recurse g w hg hgtag hga hnp hns hu
    subst hg
    have hleaf : isStructOrStructPtr env g.Typ = false := by
      simp [isStructOrStructPtr, hnp, hns]
    rw [setDefaultsField_parse recurse env lib Tag g w hga (by simp [hleaf]) hu
      (by rw [hgtag]; exact htag)]
    simp only [setFieldValue, hnp, if_false, hgtag,
      setParsedValue_accept lib _ g.Typ _ parserFunc parsedVal hparser haccept]

/-- **C7, instances.** The field `BoolPtr *bool`, nil, tagged `"true"`: afterwards it points
to `true`, the value a `bool` field tagged `"true"` receives.  It does so too when a later
field `Bad` makes `Defaults` return an error; when the field `Bad` comes first, `Defaults`
returns its error and `BoolPtr` is still nil. -/
theorem C7_nil_pointer_field_gets_parsed_pointee_witness :
    Defaults noEnv sampleLib "default" 1 ⟨.ptr boolPtrRecord, .ptr (.struct [.nil])⟩ =
        some (.ptr (.struct [.ptr (.bool true)]), none) ∧
      Defaults noEnv sampleLib "default" 1
          ⟨.ptr boolPtrThenBad, .ptr (.struct [.nil, .bool false])⟩ =
        some (.ptr (.struct [.ptr (.bool true), .bool false]),
          some (.wrap "failed to set default for field Bad: "
            (numError sampleLib "ParseBool" "TTT" ErrSyntax))) ∧
      Defaults noEnv sampleLib "default" 1
          ⟨.ptr badThenBoolPtr, .ptr (.struct [.bool false, .nil])⟩ =
        some (.ptr (.struct [.bool false, .nil]),
          some (.wrap "failed to set default for field Bad: "
            (numError sampleLib "ParseBool" "TTT" ErrSyntax))) ∧
      (∃ vals', Value.ptr (.struct [.ptr (.bool true)]) = .ptr (.struct vals') ∧
        (vals'[0]? = some (.ptr (.bool true)) ∨
          (vals'[0]? = some .nil ∧
            ∃ (e : GoError) (n k : Nat) (g : StructField) (w w' : Value), none = some e ∧
              k < 0 ∧ boolPtrRecord.Fields[k]? = some g ∧ [Value.nil][k]? = some w ∧
              setDefaultsField (setDefaults noEnv sampleLib "default" n) noEnv sampleLib
                "default" g w = some (w', some e)))) ∧
      setDefaultsField (fun _ _ => none) noEnv sampleLib "default"
        (taggedField "Bool" (.basic .Bool) "true") (.bool false) = some (.bool true, none) :=
  have h := C7_nil_pointer_field_gets_parsed_pointee noEnv sampleLib "default" 1 boolPtrRecord
    [.nil] 0 (taggedField "BoolPtr" (.ptr (.basic .Bool)) "true") (.basic .Bool)
    (ParseBool sampleLib) ⟨.basic .Bool, .bool true⟩ rfl rfl rfl rfl rfl (by decide) rfl rfl
  ⟨rfl, rfl, rfl, h.2.1 _ none rfl,
    h.2.2 (fun _ _ => none) (taggedField "Bool" (.basic .Bool) "true") (.bool false) rfl rfl
      rfl (by decide) (by decide) rfl⟩

/-- **C9.** A field that is neither a struct nor a pointer to a struct and whose tag is
absent or empty is left as it was, without error, whatever its type: the loop body returns
it unchanged, and so does every `Defaults` that returns.  A record none of whose fields
(those of nested structs included) carries a tag and which has no pointer-to-struct field
is returned unchanged with a nil error. -/
theorem C9_untagged_field_is_skipped (env : TypeEnv) (lib : Lib) (Tag : String) :
    (∀ (fuel : Nat) (t : GoType) (vals : List Value) (i : Nat) (field : StructField)
      (fieldVal : Value), t.Fields[i]? = some field → vals[i]? = some fieldVal →
      isStructOrStructPtr env field.Typ = false → field.Tag.Get Tag = "" →
      (∀ recurse, setDefaultsField recurse env lib Tag field fieldVal =
        some (fieldVal, none)) ∧
      (∀ out err, Defaults env lib Tag fuel ⟨.ptr t, .ptr (.struct vals)⟩ = some (out, err) →
        ∃ vals', out = .ptr (.struct vals') ∧ vals'[i]? = some fieldVal)) ∧
    (∀ (depth fuel : Nat) (t : GoType) (vals : List Value), depth ≤ fuel →
      t.Kind = .Struct → untaggedRecord env Tag depth t (.struct vals) = true →
      Defaults env lib Tag fuel ⟨.ptr t, .ptr (.struct vals)⟩ =
        some (.ptr (.struct vals), none)) := by
  constructor
  · intro fuel t vals i field fieldVal hfield hval hleaf htag
    have hbody : ∀ recurse, setDefaultsField recurse env lib Tag field fieldVal =
        some (fieldVal, none) := fun recurse =>
      setDefaultsField_skip_untagged recurse env lib Tag field fieldVal hleaf htag
    exact ⟨hbody, fun out err hrun =>
      Defaults_frame env lib Tag fuel t vals out err i field fieldVal hfield hval hbody hrun⟩
  · intro depth fuel t vals hle hk h
    simp only [Defaults, GoType.Kind, Value.IsNil, GoType.Elem, Value.Elem, ne_eq,
      not_true_eq_false, false_or, Bool.false_eq_true, if_false, hk,
      setDefaults_untagged env lib Tag depth fuel t _ hle h]

/-- **C9, instances.** The struct `testEmptyDefaultTag`, whose field has the tag
`default:""`, and a record without tags holding a nested struct and a func: both are
returned unchanged with a nil error. -/
theorem C9_untagged_field_is_skipped_witness :
    (∃ vals', Value.ptr (.struct [.int 0]) = .ptr (.struct vals') ∧
      vals'[0]? = some (.int 0)) ∧
    Defaults noEnv sampleLib "default" 1 ⟨.ptr testEmptyDefaultTag, .ptr (.struct [.int 0])⟩ =
      some (.ptr (.struct [.int 0]), none) ∧
    Defaults noEnv sampleLib "default" 2
        ⟨.ptr plainRecord, .ptr (.struct [.int 0, .struct [.string "", .nil]])⟩ =
      some (.ptr (.struct [.int 0, .struct [.string "", .nil]]), none) :=
  have h := C9_untagged_field_is_skipped noEnv sampleLib "default"
  ⟨((h.1 1 testEmptyDefaultTag [.int 0] 0 (taggedField "Field" (.basic .Int) "") (.int 0)
      rfl rfl rfl rfl).2 _ none rfl),
    h.2 1 1 testEmptyDefaultTag [.int 0] (Nat.le_refl 1) rfl rfl,
    h.2 2 2 plainRecord [.int 0, .struct [.string "", .nil]] (Nat.le_refl 2) rfl rfl⟩

/-- **C10, counterexample.** In a value of the struct `T10` with the fields `S *Inner`,
`Bad bool` tagged `default:"TTT"` and `V Inner`, where `S` points to `V`: `Defaults`
returns the error raised at the field `Bad`, of index 1, and the field `V`, of index 2, which
held `A = 0` before the call, holds `A = 5`, written by the recursion through `S` before
the traversal stopped. -/
theorem C10_shared_later_field_counterexample :
    sharedLaterRecord.Fields[2]? = some (untaggedField "V" innerType) ∧
    sharedLaterMemory.load ⟨0, [0]⟩ = some (.ptr (some ⟨0, [2]⟩)) ∧
    sharedLaterMemory.load ⟨0, [2]⟩ = some (.struct [.val (.int 0)]) ∧
    DefaultsMem noEnv sampleLib "default" 2 sharedLaterMemory (.ptr sharedLaterRecord)
        (.ptr (some ⟨0, []⟩)) =
      some ([.struct [.ptr (some ⟨0, [2]⟩), .val (.bool false), .struct [.val (.int 5)]]],
        some (.wrap "failed to set default for field Bad: "
          (numError sampleLib "ParseBool" "TTT" ErrSyntax))) ∧
    setDefaultsFieldMem (setDefaultsMem noEnv sampleLib "default" 1) noEnv sampleLib "default"
        ⟨0, []⟩ [.struct [.ptr (some ⟨0, [2]⟩), .val (.bool false), .struct [.val (.int 5)]]] 1
        (taggedField "Bad" (.basic .Bool) "TTT") =
      some ([.struct [.ptr (some ⟨0, [2]⟩), .val (.bool false), .struct [.val (.int 5)]]],
        some (.wrap "failed to set default for field Bad: "
          (numError sampleLib "ParseBool" "TTT" ErrSyntax))) ∧
    Memory.load [.struct [.ptr (some ⟨0, [2]⟩), .val (.bool false), .struct [.val (.int 5)]]]
        ⟨0, [2]⟩ = some (.struct [.val (.int 5)]) :=
  ⟨rfl, rfl, rfl, rfl, rfl, rfl⟩

/-- **C10, amended.** When `Defaults` returns an error on a pointer to a struct, the
traversal stopped at one field, of index `i`: the loop body returned that error there.  When
no memory is shared (the value is a tree, in which a pointer owns its pointee), every field
before `i` holds the value the loop body gave it without error, which is the value it holds
after any pass that returns no error on a struct with the same fields and values before
`i`, and every field after `i` holds the value it had before the call.  In a memory with
sharing the traversal stops in the same way: the loop ran without error over the fields
before `i`, and the memory `Defaults` returns is the memory the loop body returned at field
`i`, no later field having been processed.  And when `Defaults` returns an error on a memory
that holds the struct without sharing (every pointer reached points to a whole object and no
object is reached twice), the call on the struct as a tree returns the same error, and the
memory returned holds, without sharing, the struct that call returns: what is said above of
the fields before and after `i` is true of the memory. -/
theorem C10_stops_at_first_failing_field (env : TypeEnv) (lib : Lib) (Tag : String)
    (fuel : Nat) (t : GoType) (ht : t.Kind = .Struct) :
    (∀ (vals : List Value) (out : Value) (err : GoError),
      Defaults env lib Tag fuel ⟨.ptr t, .ptr (.struct vals)⟩ = some (out, some err) →
      ∃ (n : Nat) (vals' : List Value) (i : Nat) (field : StructField)
        (fieldVal fieldVal' : Value),
        fuel = n + 1 ∧ out = .ptr (.struct vals') ∧
        t.Fields[i]? = some field ∧ vals[i]? = some fieldVal ∧
        setDefaultsField (setDefaults env lib Tag n) env lib Tag field fieldVal =
          some (fieldVal', some err) ∧
        vals'[i]? = some fieldVal' ∧
        (∀ (j : Nat) (g : StructField) (w : Value), j < i → t.Fields[j]? = some g →
          vals[j]? = some w → ∃ w', vals'[j]? = some w' ∧
            setDefaultsField (setDefaults env lib Tag n) env lib Tag g w = some (w', none)) ∧
        (∀ (t₂ : GoType) (vals₂ : List Value) (out₂ : Value),
          (∀ j, j < i → t₂.Fields[j]? = t.Fields[j]? ∧ vals₂[j]? = vals[j]?) →
          Defaults env lib Tag fuel ⟨.ptr t₂, .ptr (.struct vals₂)⟩ = some (out₂, none) →
          ∃ vals₂', out₂ = .ptr (.struct vals₂') ∧ ∀ j, j < i → vals₂'[j]? = vals'[j]?) ∧
        (∀ j : Nat, i < j → vals'[j]? = vals[j]?)) ∧
    (∀ (m m' : Memory) (v : Addr) (err : GoError),
      DefaultsMem env lib Tag fuel m (.ptr t) (.ptr (some v)) = some (m', some err) →
      ∃ (n i : Nat) (field : StructField) (mi : Memory), fuel = n + 1 ∧
        t.Fields[i]? = some field ∧
        setDefaultsLoopMem (setDefaultsFieldMem (setDefaultsMem env lib Tag n) env lib Tag v)
          (t.Fields.take i) 0 m = some (mi, none) ∧
        setDefaultsFieldMem (setDefaultsMem env lib Tag n) env lib Tag v mi i field =
          some (m', some err)) ∧
    (∀ (m : Memory) (target : Option Addr) (vals : List Value) (F : List Nat) (m' : Memory)
      (err : GoError), HoldsTree m (.ptr target) (.ptr (.struct vals)) F →
      DefaultsMem env lib Tag fuel m (.ptr t) (.ptr target) = some (m', some err) →
      ∃ vals' F',
        Defaults env lib Tag fuel ⟨.ptr t, .ptr (.struct vals)⟩ =
          some (.ptr (.struct vals'), some err) ∧
        HoldsTree m' (.ptr target) (.ptr (.struct vals')) F') := by
  refine ⟨?_, ?_, ?_⟩
  · intro vals out err hrun
    rcases Defaults_some env lib Tag fuel t vals out _ hrun with
      ⟨hns, _, _⟩ | ⟨_, n, vals', hn, hout, hl⟩
    · exact absurd ht hns
    obtain ⟨i, field, fieldVal, fieldVal', hf, hv, hb, hv', hbefore, hafter⟩ :=
      setDefaultsLoop_err _ _ _ _ _ hl
    refine ⟨n, vals', i, field, fieldVal, fieldVal', hn, hout, hf, hv, hb, hv', hbefore, ?_,
      hafter⟩
    intro t₂ vals₂ out₂ hagree hrun₂
    rcases Defaults_some env lib Tag fuel t₂ vals₂ out₂ none hrun₂ with
      ⟨_, _, h⟩ | ⟨_, n₂, vals₂', hn₂, hout₂, hl₂⟩
    · simp at h
    have hnn : n₂ = n := by omega
    subst hnn
    refine ⟨vals₂', hout₂, ?_⟩
    intro j hj
    have hi : i < t.Fields.length := (List.getElem?_eq_some.mp hf).1
    have hiv : i < vals.length := (List.getElem?_eq_some.mp hv).1
    obtain ⟨g, hg⟩ : ∃ g, t.Fields[j]? = some g := by
      cases hq : t.Fields[j]? with
      | some g => exact ⟨g, rfl⟩
      | none =>
        rw [List.getElem?_eq_none_iff] at hq
        omega
    obtain ⟨w, hw⟩ : ∃ w, vals[j]? = some w := by
      cases hq : vals[j]? with
      | some w => exact ⟨w, rfl⟩
      | none =>
        rw [List.getElem?_eq_none_iff] at hq
        omega
    obtain ⟨w', hw', hbw⟩ := hbefore j _ _ hj hg hw
    obtain ⟨w₂, hw₂, hbw₂⟩ := setDefaultsLoop_ok_get _ _ _ _ hl₂ j _ _
      ((hagree j hj).1.trans hg) ((hagree j hj).2.trans hw)
    rw [hbw] at hbw₂
    simp only [Option.some.injEq, Prod.mk.injEq, and_true] at hbw₂
    rw [hw', hw₂, hbw₂]
  · intro m m' v err hrun
    obtain ⟨n, _, hn, _, hloop⟩ := DefaultsMem_some env lib Tag fuel m t v _ ht hrun
    obtain ⟨i, field, mi, hf, hl, hb⟩ := setDefaultsLoopMem_err _ _ _ _ _ _ hloop
    exact ⟨n, i, field, mi, hn, hf, hl, by simpa using hb⟩
  · intro m target vals F m' err hs hrun
    obtain ⟨x', F', hT, hheld, _⟩ :=
      Defaults_of_Mem env lib Tag fuel m (.ptr t) target _ F m' _ hs hrun
    rcases Defaults_some env lib Tag fuel t vals x' _ hT with
      ⟨hns, _, _⟩ | ⟨_, n, vals', _, hout, _⟩
    · exact absurd ht hns
    · subst hout
      exact ⟨vals', F', hT, hheld⟩

/-- **C10, amended, instances.** On `stopRecord`, all fields zero, `Defaults` returns the
error of the field `Bad` at index 1: `A` holds 123, as after the pass on the repaired record
that returns no error, and `C` is still 0; the same in a memory that holds the record.  And
the struct `T10` of the counterexample without sharing, `S` pointing to an `Inner` of its
own: the field `V`, after the failing field, still holds `A = 0`, and the memory
`Defaults` returns holds, without sharing, the struct the call on the tree returns. -/
theorem C10_stops_at_first_failing_field_witness :
    Defaults noEnv sampleLib "default" 1
        ⟨.ptr stopRecord, .ptr (.struct [.int 0, .bool false, .int 0])⟩ =
      some (.ptr (.struct [.int 123, .bool false, .int 0]),
        some (.wrap "failed to set default for field Bad: "
          (numError sampleLib "ParseBool" "TTT" ErrSyntax))) ∧
    Defaults noEnv sampleLib "default" 1
        ⟨.ptr stopRecordRepaired, .ptr (.struct [.int 0, .bool false, .int 0])⟩ =
      some (.ptr (.struct [.int 123, .bool true, .int 123]), none) ∧
    DefaultsMem noEnv sampleLib "default" 1
        [.struct [.val (.int 0), .val (.bool false), .val (.int 0)]] (.ptr stopRecord)
        (.ptr (some ⟨0, []⟩)) =
      some ([.struct [.val (.int 123), .val (.bool false), .val (.int 0)]],
        some (.wrap "failed to set default for field Bad: "
          (numError sampleLib "ParseBool" "TTT" ErrSyntax))) ∧
    DefaultsMem noEnv sampleLib "default" 2
        [.struct [.ptr (some ⟨1, []⟩), .val (.bool false), .struct [.val (.int 0)]],
          .struct [.val (.int 0)]] (.ptr sharedLaterRecord) (.ptr (some ⟨0, []⟩)) =
      some ([.struct [.ptr (some ⟨1, []⟩), .val (.bool false), .struct [.val (.int 0)]],
          .struct [.val (.int 5)]],
        some (.wrap "failed to set default for field Bad: "
          (numError sampleLib "ParseBool" "TTT" ErrSyntax))) ∧
    (∃ (n : Nat) (vals' : List Value) (i : Nat), 1 = n + 1 ∧
      Value.ptr (.struct [.int 123, .bool false, .int 0]) = .ptr (.struct vals') ∧
      ∀ j : Nat, i < j → vals'[j]? = [Value.int 0, .bool false, .int 0][j]?) ∧
    (∃ (n i : Nat) (field : StructField) (mi : Memory), 1 = n + 1 ∧
      stopRecord.Fields[i]? = some field ∧
      setDefaultsFieldMem (setDefaultsMem noEnv sampleLib "default" n) noEnv sampleLib
          "default" ⟨0, []⟩ mi i field =
        some ([.struct [.val (.int 123), .val (.bool false), .val (.int 0)]],
          some (.wrap "failed to set default for field Bad: "
            (numError sampleLib "ParseBool" "TTT" ErrSyntax)))) ∧
    HoldsTree [.struct [.ptr (some ⟨1, []⟩), .val (.bool false), .struct [.val (.int 0)]],
        .struct [.val (.int 0)]] (.ptr (some ⟨0, []⟩))
      (.ptr (.struct [.ptr (.struct [.int 0]), .bool false, .struct [.int 0]])) [0, 1] ∧
    (∃ vals' F',
      Defaults noEnv sampleLib "default" 2
          ⟨.ptr sharedLaterRecord,
            .ptr (.struct [.ptr (.struct [.int 0]), .bool false, .struct [.int 0]])⟩ =
        some (.ptr (.struct vals'), some (.wrap "failed to set default for field Bad: "
          (numError sampleLib "ParseBool" "TTT" ErrSyntax))) ∧
      HoldsTree [.struct [.ptr (some ⟨1, []⟩), .val (.bool false), .struct [.val (.int 0)]],
          .struct [.val (.int 5)]] (.ptr (some ⟨0, []⟩)) (.ptr (.struct vals')) F') := by
  have hs : HoldsTree
      [.struct [.ptr (some ⟨1, []⟩), .val (.bool false), .struct [.val (.int 0)]],
        .struct [.val (.int 0)]] (.ptr (some ⟨0, []⟩))
      (.ptr (.struct [.ptr (.struct [.int 0]), .bool false, .struct [.int 0]])) [0, 1] :=
    .ptr 0 _ _ [1] rfl
      (.struct_cons _ _ _ [1] _ _ []
        (.ptr 1 _ _ [] rfl
          (.struct_cons _ _ _ [] _ _ [] (.val _) (.struct_nil _) (by simp)) (by simp))
        (.struct_cons _ _ _ [] _ _ [] (.val _)
          (.struct_cons _ _ _ [] _ _ []
            (.struct_cons _ _ _ [] _ _ [] (.val _) (.struct_nil _) (by simp))
            (.struct_nil _) (by simp)) (by simp)) (by simp)) (by simp)
  refine ⟨rfl, rfl, rfl, rfl, ?_, ?_, hs,
    (C10_stops_at_first_failing_field noEnv sampleLib "default" 2 sharedLaterRecord rfl).2.2
      _ _ _ _ _ _ hs rfl⟩
  · obtain ⟨n, vals', i, _, _, _, hn, hout, _, _, _, _, _, _, hafter⟩ :=
      (C10_stops_at_first_failing_field noEnv sampleLib "default" 1 stopRecord rfl).1
        [.int 0, .bool false, .int 0] (.ptr (.struct [.int 123, .bool false, .int 0]))
        (.wrap "failed to set default for field Bad: "
          (numError sampleLib "ParseBool" "TTT" ErrSyntax)) rfl
    exact ⟨n, vals', i, hn, hout, hafter⟩
  · obtain ⟨n, i, field, mi, hn, hf, _, hb⟩ :=
      (C10_stops_at_first_failing_field noEnv sampleLib "default" 1 stopRecord rfl).2.1
        [.struct [.val (.int 0), .val (.bool false), .val (.int 0)]]
        [.struct [.val (.int 123), .val (.bool false), .val (.int 0)]] ⟨0, []⟩
        (.wrap "failed to set default for field Bad: "
          (numError sampleLib "ParseBool" "TTT" ErrSyntax)) rfl
    exact ⟨n, i, field, mi, hn, hf, hb⟩

/-- **C16.** Integer parse/format round trip: for a signed target type of width `w` and
every integer `n` with `-2^(w-1) ≤ n ≤ 2^(w-1)-1`, `ParseInt` on the decimal rendering of
`n` returns `n`, as a value of the target type, with no error; for an unsigned target type
of width `w` and every `n ≤ 2^w-1`, `ParseUint` on the decimal rendering of `n` returns `n`
with no error.  The widths are those of the integer kinds: 8, 16, 32 and 64. -/
theorem C16_integer_round_trip (lib : Lib) (t : GoType) (w : Nat) :
    (∀ n : Int, intBits t.Kind = some w → -(2 : Int) ^ (w - 1) ≤ n → n ≤ 2 ^ (w - 1) - 1 →
      ParseInt (withStrconv lib) (Int.repr n) t = some (some ⟨t, .int n⟩, none)) ∧
    (∀ n : Nat, uintBits t.Kind = some w → n ≤ 2 ^ w - 1 →
      ParseUint (withStrconv lib) (Nat.repr n) t = some (some ⟨t, .uint n⟩, none)) := by
  constructor
  · intro n hw h1 h2
    exact (ParseInt_literal lib (Int.repr n) t w n hw (intLiteral_repr n)).1 ⟨h1, h2⟩
  · intro n hw h
    exact (ParseUint_literal lib (Nat.repr n) t w n hw (uintLiteral_repr n)).1 h

/-- **C16, instances.** The smallest `int8`, the largest `int64` and the largest `uint64`,
parsed from their decimal renderings. -/
theorem C16_integer_round_trip_witness :
    ParseInt (withStrconv sampleLib) (Int.repr (-128)) (.basic .Int8) =
      some (some ⟨.basic .Int8, .int (-128)⟩, none) ∧
    ParseInt (withStrconv sampleLib) (Int.repr 9223372036854775807) (.basic .Int64) =
      some (some ⟨.basic .Int64, .int 9223372036854775807⟩, none) ∧
    ParseUint (withStrconv sampleLib) (Nat.repr 18446744073709551615) (.basic .Uint64) =
      some (some ⟨.basic .Uint64, .uint 18446744073709551615⟩, none) :=
  ⟨(C16_integer_round_trip sampleLib (.basic .Int8) 8).1 (-128) rfl (by norm_num)
      (by norm_num),
    (C16_integer_round_trip sampleLib (.basic .Int64) 64).1 9223372036854775807 rfl
      (by norm_num) (by norm_num),
    (C16_integer_round_trip sampleLib (.basic .Uint64) 64).2 18446744073709551615 rfl
      (by norm_num)⟩

/-- **C17.** The range check follows the kind of the target.  For a well-formed integer
literal that denotes `v` and a target of signed integer kind of width `w` (64 for `int`),
`ParseInt` returns a valid value exactly when `-2^(w-1) ≤ v ≤ 2^(w-1)-1`, and the value is
`v`; for a well-formed unsigned literal and a target of unsigned integer kind of width `w`
(64 for `uint`), `ParseUint` returns a valid value exactly when `v ≤ 2^w-1`.  Otherwise
they return an invalid value and an error whose text ends in "value out of range". -/
theorem C17_range_check_follows_kind (lib : Lib) (s : String) (t : GoType) (w : Nat) :
    (∀ v : Int, intBits t.Kind = some w → intLiteral s = some v →
      ((∃ r, ParseInt (withStrconv lib) s t = some (some r, none)) ↔
        (-(2 : Int) ^ (w - 1) ≤ v ∧ v ≤ 2 ^ (w - 1) - 1)) ∧
      ((-(2 : Int) ^ (w - 1) ≤ v ∧ v ≤ 2 ^ (w - 1) - 1) →
        ParseInt (withStrconv lib) s t = some (some ⟨t, .int v⟩, none)) ∧
      (¬(-(2 : Int) ^ (w - 1) ≤ v ∧ v ≤ 2 ^ (w - 1) - 1) →
        ParseInt (withStrconv lib) s t =
          some (none, some (numError lib "ParseInt" s ErrRange)))) ∧
    (∀ v : Nat, uintBits t.Kind = some w → uintLiteral s = some v →
      ((∃ r, ParseUint (withStrconv lib) s t = some (some r, none)) ↔ v ≤ 2 ^ w - 1) ∧
      (v ≤ 2 ^ w - 1 → ParseUint (withStrconv lib) s t = some (some ⟨t, .uint v⟩, none)) ∧
      (¬v ≤ 2 ^ w - 1 →
        ParseUint (withStrconv lib) s t =
          some (none, some (numError lib "ParseUint" s ErrRange)))) ∧
    (∀ fn, (numError lib fn s ErrRange).Error =
      "strconv." ++ fn ++ ": parsing " ++ lib.strconvQuote s ++ ": " ++
        "value out of range") := by
  refine ⟨?_, ?_, ?_⟩
  · intro v hw hv
    obtain ⟨hin, hout⟩ := ParseInt_literal lib s t w v hw hv
    refine ⟨⟨?_, fun h => ⟨_, hin h⟩⟩, hin, hout⟩
    rintro ⟨r, hr⟩
    by_contra hn
    rw [hout hn] at hr
    simp at hr
  · intro v hw hv
    obtain ⟨hin, hout⟩ := ParseUint_literal lib s t w v hw hv
    refine ⟨⟨?_, fun h => ⟨_, hin h⟩⟩, hin, hout⟩
    rintro ⟨r, hr⟩
    by_contra hn
    rw [hout hn] at hr
    simp at hr
  · intro fn
    simp [numError, GoError.Error, ErrRange]

/-- **C17, instances.** The literals `127` and `128` against `int8`, and `0xff` and `256`
against `uint8`. -/
theorem C17_range_check_follows_kind_witness :
    ParseInt (withStrconv sampleLib) "127" (.basic .Int8) =
      some (some ⟨.basic .Int8, .int 127⟩, none) ∧
    ParseInt (withStrconv sampleLib) "128" (.basic .Int8) =
      some (none, some (numError sampleLib "ParseInt" "128" ErrRange)) ∧
    ParseUint (withStrconv sampleLib) "0xff" (.basic .Uint8) =
      some (some ⟨.basic .Uint8, .uint 255⟩, none) ∧
    ParseUint (withStrconv sampleLib) "256" (.basic .Uint8) =
      some (none, some (numError sampleLib "ParseUint" "256" ErrRange)) ∧
    (numError sampleLib "ParseInt" "128" ErrRange).Error =
      "strconv.ParseInt: parsing \"128\": value out of range" :=
  ⟨((C17_range_check_follows_kind sampleLib "127" (.basic .Int8) 8).1 127 rfl rfl).2.1
      (by norm_num),
    ((C17_range_check_follows_kind sampleLib "128" (.basic .Int8) 8).1 128 rfl rfl).2.2
      (by norm_num),
    ((C17_range_check_follows_kind sampleLib "0xff" (.basic .Uint8) 8).2.1 255 rfl rfl).2.1
      (by norm_num),
    ((C17_range_check_follows_kind sampleLib "256" (.basic .Uint8) 8).2.1 256 rfl rfl).2.2
      (by norm_num),
    (C17_range_check_follows_kind sampleLib "128" (.basic .Int8) 8).2.2 "ParseInt"⟩

/-- **C19.** `ParseUint` rejects signed text: for every text that begins with a minus sign
and every target type, it returns an invalid value and the syntax error of
`strconv.ParseUint`, which is not a range error. -/
theorem C19_ParseUint_rejects_minus (lib : Lib) (s : String) (t : GoType)
    (rest : List Char) (hs : s.data = '-' :: rest) :
    ParseUint (withStrconv lib) s t =
        some (none, some (numError lib "ParseUint" s ErrSyntax)) ∧
      (numError lib "ParseUint" s ErrSyntax).Unwrap = some ErrSyntax ∧
      ErrSyntax ≠ ErrRange := by
  refine ⟨?_, rfl, ErrSyntax_ne_ErrRange⟩
  have key : ∀ bitSize : Nat, bitSize ≤ 64 →
      (match strconvParseUint lib s 0 bitSize with
        | .error err => some (none, some err)
        | .ok val => returnConverted (withStrconv lib) ⟨.basic .Uint64, .uint val⟩ t) =
        some (none, some (numError lib "ParseUint" s ErrSyntax)) := by
    intro bitSize hbits
    simp [strconvParseUint, strconvParseUintRaw_minus s rest bitSize hs hbits,
      NumError.toError]
  cases hk : t.Kind <;>
    (simp only [ParseUint, hk, withStrconv]
     exact key _ (by omega))

/-- **C19, instance.** The text `-1` against `uint8`. -/
theorem C19_ParseUint_rejects_minus_witness :
    ParseUint (withStrconv sampleLib) "-1" (.basic .Uint8) =
        some (none, some (numError sampleLib "ParseUint" "-1" ErrSyntax)) ∧
      (numError sampleLib "ParseUint" "-1" ErrSyntax).Unwrap = some ErrSyntax ∧
      ErrSyntax ≠ ErrRange :=
  C19_ParseUint_rejects_minus sampleLib "-1" (.basic .Uint8) ['1'] rfl

/-- **C18, counterexample.** The literal `010` has none of the prefixes `0x`, `0o`, `0b`,
and `ParseInt` and `ParseUint` read it in base 8, as 8; in base 10 its digits denote 10. -/
theorem C18_leading_zero_counterexample :
    ParseInt (withStrconv sampleLib) "010" (.basic .Int) =
      some (some ⟨.basic .Int, .int 8⟩, none) ∧
    ParseUint (withStrconv sampleLib) "010" (.basic .Uint) =
      some (some ⟨.basic .Uint, .uint 8⟩, none) ∧
    foldDigits 10 "010".data 0 = 10 :=
  ⟨rfl, rfl, rfl⟩

/-- **C18, amended.** `ParseInt` and `ParseUint` detect the base: after the prefix `0x`,
`0o` or `0b` (in either letter case) the digits are read in base 16, 8 or 2, a text that
begins with `0` without such a prefix is read in base 8, and a text that does not begin with
`0` in base 10.  The value of a well-formed literal is that of its digits in this base with
the underscores removed, and it is what `ParseUint` and, with the sign, `ParseInt` return
when it fits the target.  A text that is empty or has no decimal digit yields an invalid
value and a syntax error. -/
theorem C18_base_auto_detection (lib : Lib) :
    (∀ (c : Char) (rest : List Char),
      detectBase ('0' :: 'x' :: c :: rest) = (16, c :: rest) ∧
      detectBase ('0' :: 'X' :: c :: rest) = (16, c :: rest) ∧
      detectBase ('0' :: 'o' :: c :: rest) = (8, c :: rest) ∧
      detectBase ('0' :: 'O' :: c :: rest) = (8, c :: rest) ∧
      detectBase ('0' :: 'b' :: c :: rest) = (2, c :: rest) ∧
      detectBase ('0' :: 'B' :: c :: rest) = (2, c :: rest)) ∧
    (∀ (c : Char) (rest : List Char), lowerCode c ≠ 98 → lowerCode c ≠ 111 →
      lowerCode c ≠ 120 → detectBase ('0' :: c :: rest) = (8, c :: rest)) ∧
    (∀ (c : Char) (rest : List Char), c ≠ '0' → detectBase (c :: rest) = (10, c :: rest)) ∧
    (∀ (s : String) (t : GoType) (w v : Nat), uintBits t.Kind = some w →
      uintLiteral s = some v → v ≤ 2 ^ w - 1 →
      v = foldDigits (detectBase s.data).1
        ((detectBase s.data).2.filter (fun c => c != '_')) 0 ∧
      ParseUint (withStrconv lib) s t = some (some ⟨t, .uint v⟩, none)) ∧
    (∀ (s : String) (t : GoType) (w : Nat) (v : Int), intBits t.Kind = some w →
      intLiteral s = some v → -(2 : Int) ^ (w - 1) ≤ v → v ≤ 2 ^ (w - 1) - 1 →
      (∃ u : Nat, u = foldDigits (detectBase (dropSign s.data)).1
          ((detectBase (dropSign s.data)).2.filter (fun c => c != '_')) 0 ∧
        v = if isNeg s.data = true then -(u : Int) else (u : Int)) ∧
      ParseInt (withStrconv lib) s t = some (some ⟨t, .int v⟩, none)) ∧
    (∀ (s : String) (t : GoType), (∀ c ∈ s.data, ¬(48 ≤ c.toNat ∧ c.toNat ≤ 57)) →
      ParseInt (withStrconv lib) s t =
        some (none, some (numError lib "ParseInt" s ErrSyntax)) ∧
      ParseUint (withStrconv lib) s t =
        some (none, some (numError lib "ParseUint" s ErrSyntax))) ∧
    ParseInt (withStrconv lib) "1_000_000_000" (.basic .Int) =
      some (some ⟨.basic .Int, .int 1000000000⟩, none) ∧
    ParseInt (withStrconv lib) "20_11_2002" (.basic .Int) =
      some (some ⟨.basic .Int, .int 20112002⟩, none) := by
  refine ⟨?_, detectBase_leading_zero, detectBase_of_ne_zero, ?_, ?_, ?_, ?_, ?_⟩
  · intro c rest
    have hx : lowerCode 'x' = 120 := by decide
    have hX : lowerCode 'X' = 120 := by decide
    have ho : lowerCode 'o' = 111 := by decide
    have hO : lowerCode 'O' = 111 := by decide
    have hb : lowerCode 'b' = 98 := by decide
    have hB : lowerCode 'B' = 98 := by decide
    simp [detectBase, hx, hX, ho, hO, hb, hB]
  · intro s t w v hw hv hr
    refine ⟨?_, (ParseUint_literal lib s t w v hw hv).1 hr⟩
    rw [← foldDigits_filter]
    exact uintLiteral_value s v hv
  · intro s t w v hw hv h1 h2
    refine ⟨?_, (ParseInt_literal lib s t w v hw hv).1 ⟨h1, h2⟩⟩
    unfold intLiteral at hv
    cases hu : uintLiteral (String.mk (dropSign s.data)) with
    | none => simp [hu] at hv
    | some u =>
      simp only [hu, Option.some.injEq] at hv
      refine ⟨u, ?_, hv.symm⟩
      rw [← foldDigits_filter]
      exact uintLiteral_value _ u hu
  · intro s t h
    constructor
    · have key : ∀ bitSize : Nat, bitSize ≤ 64 →
          (match strconvParseInt lib s 0 bitSize with
            | .error err => some (none, some err)
            | .ok val => returnConverted (withStrconv lib) ⟨.basic .Int64, .int val⟩ t) =
            some (none, some (numError lib "ParseInt" s ErrSyntax)) := by
        intro bitSize hbits
        simp [strconvParseInt, strconvParseIntRaw_no_digit s bitSize hbits h, NumError.toError]
      cases hk : t.Kind <;>
        (simp only [ParseInt, hk, withStrconv]
         exact key _ (by omega))
    · have key : ∀ bitSize : Nat, bitSize ≤ 64 →
          (match strconvParseUint lib s 0 bitSize with
            | .error err => some (none, some err)
            | .ok val => returnConverted (withStrconv lib) ⟨.basic .Uint64, .uint val⟩ t) =
            some (none, some (numError lib "ParseUint" s ErrSyntax)) := by
        intro bitSize hbits
        simp [strconvParseUint, strconvParseUintRaw_no_digit s bitSize hbits h,
          NumError.toError]
      cases hk : t.Kind <;>
        (simp only [ParseUint, hk, withStrconv]
         exact key _ (by omega))
  · rfl
  · rfl

/-- **C18, amended, instances.** The literals `0x1F`, `0o17`, `0b101`, `42` and `-0x_80`,
and the texts `abc` and the empty text. -/
theorem C18_base_auto_detection_witness :
    ParseUint (withStrconv sampleLib) "0x1F" (.basic .Uint8) =
      some (some ⟨.basic .Uint8, .uint 31⟩, none) ∧
    ParseUint (withStrconv sampleLib) "0o17" (.basic .Uint8) =
      some (some ⟨.basic .Uint8, .uint 15⟩, none) ∧
    ParseUint (withStrconv sampleLib) "0b101" (.basic .Uint8) =
      some (some ⟨.basic .Uint8, .uint 5⟩, none) ∧
    ParseUint (withStrconv sampleLib) "42" (.basic .Uint8) =
      some (some ⟨.basic .Uint8, .uint 42⟩, none) ∧
    ParseInt (withStrconv sampleLib) "-0x_80" (.basic .Int8) =
      some (some ⟨.basic .Int8, .int (-128)⟩, none) ∧
    ParseInt (withStrconv sampleLib) "abc" (.basic .Int) =
      some (none, some (numError sampleLib "ParseInt" "abc" ErrSyntax)) ∧
    ParseUint (withStrconv sampleLib) "" (.basic .Uint) =
      some (none, some (numError sampleLib "ParseUint" "" ErrSyntax)) :=
  have h := C18_base_auto_detection sampleLib
  ⟨(h.2.2.2.1 "0x1F" (.basic .Uint8) 8 31 rfl rfl (by norm_num)).2,
    (h.2.2.2.1 "0o17" (.basic .Uint8) 8 15 rfl rfl (by norm_num)).2,
    (h.2.2.2.1 "0b101" (.basic .Uint8) 8 5 rfl rfl (by norm_num)).2,
    (h.2.2.2.1 "42" (.basic .Uint8) 8 42 rfl rfl (by norm_num)).2,
    (h.2.2.2.2.1 "-0x_80" (.basic .Int8) 8 (-128) rfl rfl (by norm_num) (by norm_num)).2,
    (h.2.2.2.2.2.1 "abc" (.basic .Int) (by decide)).1,
    (h.2.2.2.2.2.1 "" (.basic .Uint) (by decide)).2⟩

/-- **C20, counterexample.** `ParseBool` is not case-insensitive, and `true`, `false`, `1`
and `0` are not the only texts it accepts: it rejects `tRuE` and `FaLsE` with a syntax
error, and it returns true for `t` and false for `F`. -/
theorem C20_ParseBool_counterexample :
    ParseBool sampleLib "tRuE" (.basic .Bool) =
      some (none, some (numError sampleLib "ParseBool" "tRuE" ErrSyntax)) ∧
    ParseBool sampleLib "FaLsE" (.basic .Bool) =
      some (none, some (numError sampleLib "ParseBool" "FaLsE" ErrSyntax)) ∧
    ParseBool sampleLib "t" (.basic .Bool) = some (some ⟨.basic .Bool, .bool true⟩, none) ∧
    ParseBool sampleLib "F" (.basic .Bool) = some (some ⟨.basic .Bool, .bool false⟩, none) :=
  ⟨rfl, rfl, rfl, rfl⟩

/-- **C20, amended.** For a target of kind bool, `ParseBool` returns true for the texts
`1`, `t`, `T`, `true`, `TRUE` and `True`, false for `0`, `f`, `F`, `false`, `FALSE` and
`False`, and an invalid value with a syntax error for every other text. -/
theorem C20_ParseBool_spellings (lib : Lib) (str : String) (t : GoType)
    (ht : t.Kind = .Bool) :
    ParseBool lib str t =
      if str ∈ ["1", "t", "T", "true", "TRUE", "True"] then
        some (some ⟨t, .bool true⟩, none)
      else if str ∈ ["0", "f", "F", "false", "FALSE", "False"] then
        some (some ⟨t, .bool false⟩, none)
      else some (none, some (numError lib "ParseBool" str ErrSyntax)) := by
  rw [ParseBool, strconvParseBool_eq]
  split_ifs <;> simp [returnConverted, Convert, intBits, uintBits, GoType.Kind,
    sameKindConvertible, ht]

/-- **C20, amended, instances.** The texts `TRUE`, `0`, `TTT`, `42`, `abc` and the empty
text. -/
theorem C20_ParseBool_spellings_witness :
    ParseBool sampleLib "TRUE" (.basic .Bool) = some (some ⟨.basic .Bool, .bool true⟩, none) ∧
    ParseBool sampleLib "0" (.basic .Bool) = some (some ⟨.basic .Bool, .bool false⟩, none) ∧
    ParseBool sampleLib "TTT" (.basic .Bool) =
      some (none, some (numError sampleLib "ParseBool" "TTT" ErrSyntax)) ∧
    ParseBool sampleLib "42" (.basic .Bool) =
      some (none, some (numError sampleLib "ParseBool" "42" ErrSyntax)) ∧
    ParseBool sampleLib "abc" (.basic .Bool) =
      some (none, some (numError sampleLib "ParseBool" "abc" ErrSyntax)) ∧
    ParseBool sampleLib "" (.basic .Bool) =
      some (none, some (numError sampleLib "ParseBool" "" ErrSyntax)) :=
  ⟨C20_ParseBool_spellings sampleLib "TRUE" (.basic .Bool) rfl,
    C20_ParseBool_spellings sampleLib "0" (.basic .Bool) rfl,
    C20_ParseBool_spellings sampleLib "TTT" (.basic .Bool) rfl,
    C20_ParseBool_spellings sampleLib "42" (.basic .Bool) rfl,
    C20_ParseBool_spellings sampleLib "abc" (.basic .Bool) rfl,
    C20_ParseBool_spellings sampleLib "" (.basic .Bool) rfl⟩

/-- **C14, counterexample.** A field of struct kind has no registered parser, and with a
non-empty tag and a zero value it causes no error: the field `Struct testStruct` tagged
`"not parsed"` is recursed into and `Defaults` returns a nil error. -/
theorem C14_struct_field_counterexample :
    parser sampleLib (typeName sampleLib testStruct) = none ∧
    isUnset testStruct (.struct [.int 0, .string ""]) = true ∧
    Defaults noEnv sampleLib "default" 2
        ⟨.ptr structRecord, .ptr (.struct [.struct [.int 0, .string ""]])⟩ =
      some (.ptr (.struct [.struct [.int 123, .string "gm"]]), none) :=
  ⟨rfl, rfl, rfl⟩

/-- **C14, amended.** Take an exported, unset field with a non-empty tag that is not of
struct kind and whose type, after one pointer level is removed, has no registered parser.
The loop body returns the error "failed to set default for field F: unsupported type "N"",
where `N` is the name under which the parser was looked up; so `Defaults` on a struct with
such a field never returns without an error, and the error it returns is this one unless
an earlier field failed.  The unnamed types of kind func, chan, interface and unsafe pointer
have no registered parser and are looked up under the name of their kind. -/
theorem C14_unsupported_type (env : TypeEnv) (lib : Lib) (Tag : String) (fuel : Nat)
    (t : GoType) (vals : List Value) (i : Nat) (field : StructField) (fieldVal : Value)
    (target : GoType)
    (hfield : t.Fields[i]? = some field) (hval : vals[i]? = some fieldVal)
    (hassign : assignable field = true) (hkind : field.Typ.Kind ≠ .Struct)
    (hunset : isUnset field.Typ fieldVal = true) (htag : field.Tag.Get Tag ≠ "")
    (htarget : if field.Typ.Kind = .Pointer then field.Typ.Elem env = some target
      else target = field.Typ)
    (hparser : parser lib (typeName lib target) = none) :
    (∀ recurse, setDefaultsField recurse env lib Tag field fieldVal =
      some (if field.Typ.Kind = .Pointer then .ptr (zeroValue target) else fieldVal,
        some (.wrap ("failed to set default for field " ++ field.Name ++ ": ")
          (.text ("unsupported type" ++ " \"" ++ typeName lib target ++ "\""))))) ∧
    (GoError.wrap ("failed to set default for field " ++ field.Name ++ ": ")
        (.text ("unsupported type" ++ " \"" ++ typeName lib target ++ "\""))).Error =
      "failed to set default for field " ++ field.Name ++ ": " ++
        ("unsupported type" ++ " \"" ++ typeName lib target ++ "\"") ∧
    (∀ out err, Defaults env lib Tag fuel ⟨.ptr t, .ptr (.struct vals)⟩ = some (out, err) →
      ∃ e, err = some e ∧
        (t.Kind = .Struct →
          e = .wrap ("failed to set default for field " ++ field.Name ++ ": ")
              (.text ("unsupported type" ++ " \"" ++ typeName lib target ++ "\"")) ∨
          ∃ (n k : Nat) (g : StructField) (w w' : Value), k < i ∧ t.Fields[k]? = some g ∧
            vals[k]? = some w ∧
            setDefaultsField (setDefaults env lib Tag n) env lib Tag g w =
              some (w', some e))) ∧
    (∀ (k : Kind) (str : String),
      k = .Func ∨ k = .Chan ∨ k = .Interface ∨ k = .UnsafePointer →
      typeName lib (.other k str) = kindString k ∧
        parser lib (typeName lib (.other k str)) = none) := by
  have hbody : ∀ recurse, setDefaultsField recurse env lib Tag field fieldVal =
      some (if field.Typ.Kind = .Pointer then .ptr (zeroValue target) else fieldVal,
        some (.wrap ("failed to set default for field " ++ field.Name ++ ": ")
          (.text ("unsupported type" ++ " \"" ++ typeName lib target ++ "\"")))) := by
    intro recurse
    rw [setDefaultsField_parse recurse env lib Tag field fieldVal hassign
      (by simp [hkind, htag]) hunset htag]
    by_cases hk : field.Typ.Kind = .Pointer
    · simp only [hk, if_true] at htarget ⊢
      have hnil : fieldVal.IsNil = true := by simpa [isUnset, hk] using hunset
      simp only [setFieldValue, hk, if_true, htarget, hnil, Value.Elem,
        setParsedValue_unsupported lib _ target _ hparser]
    · simp only [hk, if_false] at htarget ⊢
      subst htarget
      simp only [setFieldValue, hk, if_false,
        setParsedValue_unsupported lib _ _ _ hparser]
  refine ⟨hbody, rfl, ?_, ?_⟩
  · intro out err hrun
    rcases Defaults_some env lib Tag fuel t vals out err hrun with
      ⟨hns, _, herr⟩ | ⟨_, n, vals', _, _, hl⟩
    · exact ⟨_, herr, fun hs => absurd hs hns⟩
    · cases err with
      | none =>
        obtain ⟨w, _, hb⟩ := setDefaultsLoop_ok_get _ _ _ _ hl i field fieldVal hfield hval
        rw [hbody] at hb
        simp at hb
      | some e =>
        refine ⟨e, rfl, fun _ => ?_⟩
        obtain ⟨k, g, w, w', hg, hw, hb, _, hbefore, _⟩ := setDefaultsLoop_err _ _ _ _ _ hl
        rcases Nat.lt_trichotomy k i with hlt | heq | hgt
        · exact Or.inr ⟨n, k, g, w, w', hlt, hg, hw, hb⟩
        · subst heq
          rw [hfield] at hg
          rw [hval] at hw
          simp only [Option.some.injEq] at hg hw
          subst hg hw
          rw [hbody] at hb
          simp only [Option.some.injEq, Prod.mk.injEq] at hb
          exact Or.inl hb.2.symm
        · obtain ⟨x, _, hbx⟩ := hbefore i field fieldVal hgt hfield hval
          rw [hbody] at hbx
          simp at hbx
  · intro k str hk
    rcases hk with rfl | rfl | rfl | rfl <;> exact ⟨rfl, rfl⟩

/-- **C14, amended, instances.** The test types `testFuncType` and `testFuncPtrType`: a
`func()` field and a `*func()` field tagged `"some_value"`. -/
theorem C14_unsupported_type_witness :
    Defaults noEnv sampleLib "default" 1 ⟨.ptr testFuncType, .ptr (.struct [.nil])⟩ =
      some (.ptr (.struct [.nil]),
        some (.wrap "failed to set default for field FuncField: "
          (.text "unsupported type \"func\""))) ∧
    Defaults noEnv sampleLib "default" 1 ⟨.ptr testFuncPtrType, .ptr (.struct [.nil])⟩ =
      some (.ptr (.struct [.ptr .nil]),
        some (.wrap "failed to set default for field FuncPtrField: "
          (.text "unsupported type \"func\""))) ∧
    (GoError.wrap "failed to set default for field FuncField: "
        (.text "unsupported type \"func\"")).Error =
      "failed to set default for field FuncField: unsupported type \"func\"" :=
  ⟨rfl, rfl,
    (C14_unsupported_type noEnv sampleLib "default" 1 testFuncType [.nil] 0
      (taggedField "FuncField" (.other .Func "func()") "some_value") .nil
      (.other .Func "func()") rfl rfl rfl (by decide) rfl (by decide) rfl rfl).2.1⟩

/-- **C12.** Every error of the traversal names the path of fields to the failure: it is
the error `cause` that `setFieldValue` returned for a field `leaf`, wrapped with "failed to
set default for field LEAF: " and then, innermost first, with "failed to set defaults for
field NAME: " for each enclosing field on the way up, where the names lead from the struct
through struct fields and pointers to structs to the one that declares `leaf`.  Its text
is these prefixes, outermost first, followed by the text of `cause`, and `cause` is reached
by unwrapping once per prefix.  This holds of `setDefaults` and of `Defaults` on a pointer
to a struct. -/
theorem C12_error_names_field_path (env : TypeEnv) (lib : Lib) (Tag : String) (fuel : Nat)
    (t : GoType) (err : GoError) :
    (∀ v out, setDefaults env lib Tag fuel t v = some (out, some err) →
      ∃ names leaf cause, ErrPath env lib Tag t err names leaf cause ∧
        err.Error = pathText names ++
          ("failed to set default for field " ++ leaf ++ ": " ++ cause.Error) ∧
        unwrapN (names.length + 1) err = some cause) ∧
    (∀ vals out, t.Kind = .Struct →
      Defaults env lib Tag fuel ⟨.ptr t, .ptr (.struct vals)⟩ = some (out, some err) →
      ∃ names leaf cause, ErrPath env lib Tag t err names leaf cause ∧
        err.Error = pathText names ++
          ("failed to set default for field " ++ leaf ++ ": " ++ cause.Error) ∧
        unwrapN (names.length + 1) err = some cause) := by
  have key : ∀ names leaf cause, ErrPath env lib Tag t err names leaf cause →
      ∃ names leaf cause, ErrPath env lib Tag t err names leaf cause ∧
        err.Error = pathText names ++
          ("failed to set default for field " ++ leaf ++ ": " ++ cause.Error) ∧
        unwrapN (names.length + 1) err = some cause := by
    intro names leaf cause hp
    refine ⟨names, leaf, cause, hp, ?_, ?_⟩
    · rw [hp.2.1, wrapPath_Error]
      rfl
    · rw [hp.2.1]
      exact unwrapN_wrapPath _ cause names
  constructor
  · intro v out h
    obtain ⟨names, leaf, cause, hp⟩ := setDefaults_errPath env lib Tag fuel t v out err h
    exact key names leaf cause hp
  · intro vals out ht hrun
    rcases Defaults_some env lib Tag fuel t vals out _ hrun with
      ⟨hns, _, _⟩ | ⟨_, n, vals', _, _, hl⟩
    · exact absurd ht hns
    · obtain ⟨names, leaf, cause, hp⟩ := setDefaultsLoop_errPath _ env lib Tag
        (setDefaults_errPath env lib Tag n) t vals vals' err hl
      exact key names leaf cause hp

/-- **C12, instance.** A struct `Outer` with a field `Inner` of struct type whose field
`Count int` is tagged `"abc"`: the error names `Inner`, then `Count`, then gives the
error of `strconv.ParseInt`. -/
theorem C12_error_names_field_path_witness :
    Defaults noEnv (withStrconv sampleLib) "default" 2
        ⟨.ptr badOuter, .ptr (.struct [.struct [.int 0]])⟩ =
      some (.ptr (.struct [.struct [.int 0]]),
        some (wrapPath ["Inner"] (.wrap "failed to set default for field Count: "
          (numError sampleLib "ParseInt" "abc" ErrSyntax)))) ∧
    (wrapPath ["Inner"] (GoError.wrap "failed to set default for field Count: "
        (numError sampleLib "ParseInt" "abc" ErrSyntax))).Error =
      "failed to set defaults for field Inner: failed to set default for field Count: " ++
        "strconv.ParseInt: parsing \"abc\": invalid syntax" ∧
    ∃ names leaf cause,
      ErrPath noEnv (withStrconv sampleLib) "default" badOuter
        (wrapPath ["Inner"] (.wrap "failed to set default for field Count: "
          (numError sampleLib "ParseInt" "abc" ErrSyntax))) names leaf cause ∧
      (wrapPath ["Inner"] (GoError.wrap "failed to set default for field Count: "
          (numError sampleLib "ParseInt" "abc" ErrSyntax))).Error =
        pathText names ++
          ("failed to set default for field " ++ leaf ++ ": " ++ cause.Error) ∧
      unwrapN (names.length + 1)
        (wrapPath ["Inner"] (.wrap "failed to set default for field Count: "
          (numError sampleLib "ParseInt" "abc" ErrSyntax))) = some cause :=
  ⟨rfl, by decide,
    (C12_error_names_field_path noEnv (withStrconv sampleLib) "default" 2 badOuter _).2
      [.struct [.int 0]] _ rfl rfl⟩

/-- **C11, failing input.** The test type `testInt8PtrOverflow`, a field `Int8Ptr *int8`
tagged `"128"`, with the field nil.  `Defaults` returns the range error of
`strconv.ParseInt`, and the field no longer holds nil: it points to a new `int8` that is 0.
A second call on the result finds the field set and returns no error.  For the test type
`testInt8Overflow`, the same field without the pointer, the error is the same and the field
keeps its value. -/
theorem C11_range_error_allocates_pointer :
    Defaults noEnv (withStrconv sampleLib) "default" 1
        ⟨.ptr testInt8PtrOverflow, .ptr (.struct [.nil])⟩ =
      some (.ptr (.struct [.ptr (.int 0)]),
        some (.wrap "failed to set default for field Int8Ptr: "
          (numError sampleLib "ParseInt" "128" ErrRange))) ∧
    (GoError.wrap "failed to set default for field Int8Ptr: "
        (numError sampleLib "ParseInt" "128" ErrRange)).Error =
      "failed to set default for field Int8Ptr: " ++
        "strconv.ParseInt: parsing \"128\": value out of range" ∧
    Defaults noEnv (withStrconv sampleLib) "default" 1
        ⟨.ptr testInt8PtrOverflow, .ptr (.struct [.ptr (.int 0)])⟩ =
      some (.ptr (.struct [.ptr (.int 0)]), none) ∧
    Defaults noEnv (withStrconv sampleLib) "default" 1
        ⟨.ptr testInt8Overflow, .ptr (.struct [.int 0])⟩ =
      some (.ptr (.struct [.int 0]),
        some (.wrap "failed to set default for field Int8: "
          (numError sampleLib "ParseInt" "128" ErrRange))) :=
  ⟨rfl, by decide, rfl, rfl⟩

/-- **C13, failing input.** The record `struct { P *int8; Q int }` tagged `"128"` and `"5"`,
with both fields unset.  The first call of `Defaults` stops at `P` with a range error,
having made `P` point to a new 0, and leaves `Q` at 0.  The second call, on that result,
skips `P`, sets `Q` to 5 and returns no error: the state after two calls differs from the
state after one. -/
theorem C13_second_pass_differs :
    Defaults noEnv (withStrconv sampleLib) "default" 1
        ⟨.ptr retryRecord, .ptr (.struct [.nil, .int 0])⟩ =
      some (.ptr (.struct [.ptr (.int 0), .int 0]),
        some (.wrap "failed to set default for field P: "
          (numError sampleLib "ParseInt" "128" ErrRange))) ∧
    Defaults noEnv (withStrconv sampleLib) "default" 1
        ⟨.ptr retryRecord, .ptr (.struct [.ptr (.int 0), .int 0])⟩ =
      some (.ptr (.struct [.ptr (.int 0), .int 5]), none) ∧
    Value.ptr (.struct [.ptr (.int 0), .int 5]) ≠ .ptr (.struct [.ptr (.int 0), .int 0]) :=
  ⟨rfl, rfl, by simp⟩

/-- **C15, failing input.** The type `type Node struct { Next *Node }` and a `Node` whose
`Next` is nil: whatever the library, the tag key and the depth of recursion allowed,
`Defaults` does not return.  Each level allocates a new `Node` for the nil `Next` and
recurses into it, and the new `Node` has a nil `Next` again. -/
theorem C15_self_referential_type_diverges (lib : Lib) (Tag : String) (fuel : Nat) :
    Defaults nodeEnv lib Tag fuel ⟨.ptr nodeType, .ptr (.struct [.nil])⟩ = none := by
  have hk : nodeType.Kind = .Struct := rfl
  simp [Defaults, GoType.Kind, GoType.Elem, Value.IsNil, Value.Elem, hk,
    setDefaults_node lib Tag fuel]

/-- **C21.** `ParseString` never fails and is the identity on text: for every text `s`,
and every target type of kind string, it returns the value of that type whose text is `s`,
with the same characters in the same order, and a nil error.  It is the parser registered
for `string`, so a field of type `string` receives its tag as it stands. -/
theorem C21_ParseString_is_identity (lib : Lib) (s : String) (t : GoType)
    (ht : t.Kind = .String) :
    ParseString lib s t = some (some ⟨t, .string s⟩, none) ∧
      (∀ r, ParseString lib s t = some (some r, none) →
        ∃ s', r.val = .string s' ∧ s'.data = s.data ∧ s'.length = s.length) ∧
      parser lib (typeName lib (.basic .String)) = some (ParseString lib) ∧
      (∀ fieldVal, setParsedValue lib fieldVal (.basic .String) s =
        some (.string s, none)) := by
  have h : ParseString lib s t = some (some ⟨t, .string s⟩, none) := by
    simp [ParseString, returnConverted, Convert, ht, sameKindConvertible, GoType.Kind]
  refine ⟨h, ?_, rfl, ?_⟩
  · intro r hr
    rw [h] at hr
    simp only [Option.some.injEq, Prod.mk.injEq, and_true] at hr
    subst hr
    exact ⟨s, rfl, rfl, rfl⟩
  · intro fieldVal
    simp [setParsedValue, typeName, GoType.Name, kindString, GoType.TypeString, parser,
      ParseString, returnConverted, Convert, GoType.Kind, intBits, uintBits,
      sameKindConvertible]

/-- **C21, instances.** The empty text, and a text with a backslash followed by `n`, which
stays two characters. -/
theorem C21_ParseString_is_identity_witness :
    ParseString sampleLib "" (.basic .String) = some (some ⟨.basic .String, .string ""⟩, none) ∧
    ParseString sampleLib "hello\\nworld" (.basic .String) =
      some (some ⟨.basic .String, .string "hello\\nworld"⟩, none) ∧
    "hello\\nworld".length = 12 :=
  ⟨(C21_ParseString_is_identity sampleLib "" (.basic .String) rfl).1,
    (C21_ParseString_is_identity sampleLib "hello\\nworld" (.basic .String) rfl).1,
    by decide⟩

/-- **C25.** The composite parsers check the kind of the target before they look at the
literal: for every library (so whatever the decoder would say about the literal) and every
literal, `ParseMap` with a target that is not of kind map returns an invalid value and the
error "t is not a map", `ParseSlice` with a target not of kind slice returns "t is not a
slice", and `ParseArray` with a target not of kind array returns "t is not an array". -/
theorem C25_kind_checked_before_literal (lib : Lib) (str : String) (t : GoType) :
    (t.Kind ≠ .Map → ParseMap lib str t = some (none, some (.text "t is not a map"))) ∧
    (t.Kind ≠ .Slice → ParseSlice lib str t = some (none, some (.text "t is not a slice"))) ∧
    (t.Kind ≠ .Array →
      ParseArray lib str t = some (none, some (.text "t is not an array"))) := by
  refine ⟨fun h => ?_, fun h => ?_, fun h => ?_⟩
  · simp [ParseMap, h]
  · simp [ParseSlice, h]
  · simp [ParseArray, h]

/-- **C23.** For a target type of kind array, of length `M` and element type `E`, and a
literal that the decoder turns into a slice `s` of `n ≤ M` elements, `ParseArray` returns no
error and an array of the target type with `M` elements: element `i` is `s[i]` for `i < n`
and the zero value of `E` for `n ≤ i < M`. -/
theorem C23_ParseArray_fills_prefix (lib : Lib) (str : String) (t : GoType)
    (s : List Value) (ht : t.Kind = .Array)
    (hdec : lib.jsonUnmarshal str (.slice t.ArrayElem) = .ok (.slice s))
    (hn : s.length ≤ t.Len) :
    ∃ xs, ParseArray lib str t = some (some ⟨t, .array xs⟩, none) ∧
      xs.length = t.Len ∧
      (∀ i, i < s.length → xs[i]? = s[i]?) ∧
      (∀ i, s.length ≤ i → i < t.Len → xs[i]? = some (zeroValue t.ArrayElem)) := by
  refine ⟨s ++ (List.replicate t.Len (zeroValue t.ArrayElem)).drop s.length, ?_, ?_, ?_, ?_⟩
  · have hz := zeroValue_array_Elems t ht
    simp only [Value.Elems] at hz
    simp only [ParseArray, ht, ne_eq, not_true_eq_false, if_false, hdec, Value.Len,
      Value.Elems]
    rw [if_neg (by omega), hz]
  · simp
    omega
  · intro i hi
    rw [List.getElem?_append_left hi]
  · intro i h1 h2
    rw [List.getElem?_append_right h1]
    simp [List.getElem?_replicate]
    omega

/-- **C23, instance.** The literal `[1,2,3]` against `[5]int`. -/
theorem C23_ParseArray_fills_prefix_witness :
    ParseArray jsonLib "[1,2,3]" (.array 5 (.basic .Int)) =
      some (some ⟨.array 5 (.basic .Int), .array [.int 1, .int 2, .int 3, .int 0, .int 0]⟩,
        none) ∧
    ∃ xs, ParseArray jsonLib "[1,2,3]" (.array 5 (.basic .Int)) =
        some (some ⟨.array 5 (.basic .Int), .array xs⟩, none) ∧
      xs.length = 5 ∧
      (∀ i, i < 3 → xs[i]? = [Value.int 1, .int 2, .int 3][i]?) ∧
      (∀ i, 3 ≤ i → i < 5 → xs[i]? = some (.int 0)) :=
  ⟨rfl, C23_ParseArray_fills_prefix jsonLib "[1,2,3]" (.array 5 (.basic .Int))
    [.int 1, .int 2, .int 3] rfl rfl (by decide)⟩

/-- **C25, instances.** A literal the decoder accepts, against targets of another kind. -/
theorem C25_kind_checked_before_literal_witness :
    ParseMap jsonLib "[1,2,3]" (.slice (.basic .Int)) =
      some (none, some (.text "t is not a map")) ∧
    ParseSlice jsonLib "[1,2,3]" (.array 5 (.basic .Int)) =
      some (none, some (.text "t is not a slice")) ∧
    ParseArray jsonLib "[1,2,3]" (.slice (.basic .Int)) =
      some (none, some (.text "t is not an array")) ∧
    ParseSlice jsonLib "[1,2,3]" (.slice (.basic .Int)) =
      some (some ⟨.slice (.basic .Int), .slice [.int 1, .int 2, .int 3]⟩, none) :=
  ⟨(C25_kind_checked_before_literal jsonLib "[1,2,3]" (.slice (.basic .Int))).1 (by decide),
    (C25_kind_checked_before_literal jsonLib "[1,2,3]" (.array 5 (.basic .Int))).2.1
      (by decide),
    (C25_kind_checked_before_literal jsonLib "[1,2,3]" (.slice (.basic .Int))).2.2
      (by decide),
    rfl⟩

/-- **C24.** For a target type of kind array and length `M`, and a literal that the decoder
turns into a slice of `n > M` elements, `ParseArray` returns an invalid value and the error
"array length n exceeds capacity M", both numbers in decimal.  So the loop body, on an
assignable, unset field of an unnamed array type or of pointer to it that carries the
literal as its tag, returns this error wrapped with the field name, and `Defaults` on a
struct with such a field returns an error: this one, unless an earlier field failed. -/
theorem C24_ParseArray_capacity_error (lib : Lib) (str : String) (t : GoType)
    (s : List Value) (ht : t.Kind = .Array)
    (hdec : lib.jsonUnmarshal str (.slice t.ArrayElem) = .ok (.slice s))
    (hn : t.Len < s.length) :
    ParseArray lib str t =
      some (none, some (.text ("array length " ++ Nat.repr s.length ++
        " exceeds capacity " ++ Nat.repr t.Len))) ∧
    (∀ (env : TypeEnv) (Tag : String) (fuel : Nat) (r : GoType) (vals : List Value)
      (i : Nat) (field : StructField) (fieldVal : Value),
      t.Name = "" → (field.Typ = t ∨ field.Typ = .ptr t) → str ≠ "" →
      field.Tag.Get Tag = str → assignable field = true →
      isUnset field.Typ fieldVal = true →
      r.Fields[i]? = some field → vals[i]? = some fieldVal →
      (∀ recurse, setDefaultsField recurse env lib Tag field fieldVal =
        some (if field.Typ.Kind = .Pointer then .ptr (zeroValue t) else fieldVal,
          some (.wrap ("failed to set default for field " ++ field.Name ++ ": ")
            (.text ("array length " ++ Nat.repr s.length ++
              " exceeds capacity " ++ Nat.repr t.Len))))) ∧
      (∀ out err, Defaults env lib Tag fuel ⟨.ptr r, .ptr (.struct vals)⟩ = some (out, err) →
        ∃ e, err = some e ∧
          (r.Kind = .Struct →
            e = .wrap ("failed to set default for field " ++ field.Name ++ ": ")
              (.text ("array length " ++ Nat.repr s.length ++
                " exceeds capacity " ++ Nat.repr t.Len)) ∨
            ∃ (n k : Nat) (g : StructField) (w w' : Value), k < i ∧
              r.Fields[k]? = some g ∧ vals[k]? = some w ∧
              setDefaultsField (setDefaults env lib Tag n) env lib Tag g w =
                some (w', some e)))) := by
  have hparse : ParseArray lib str t =
      some (none, some (.text ("array length " ++ Nat.repr s.length ++
        " exceeds capacity " ++ Nat.repr t.Len))) := by
    simp only [ParseArray, ht, ne_eq, not_true_eq_false, if_false, hdec, Value.Len]
    rw [if_pos hn]
    rfl
  refine ⟨hparse, ?_⟩
  intro env Tag fuel r vals i field fieldVal hname htyp hstr htag ha hunset hfield hval
  have hbody : ∀ recurse, setDefaultsField recurse env lib Tag field fieldVal =
      some (if field.Typ.Kind = .Pointer then .ptr (zeroValue t) else fieldVal,
        some (.wrap ("failed to set default for field " ++ field.Name ++ ": ")
          (.text ("array length " ++ Nat.repr s.length ++
            " exceeds capacity " ++ Nat.repr t.Len)))) := by
    intro recurse
    have hp : parser lib (typeName lib t) = some (ParseArray lib) := by
      rw [typeName_unnamed lib t hname, ht]
      rfl
    refine setDefaultsField_parse_error recurse env lib Tag field fieldVal t (ParseArray lib)
      none _ ha ?_ hunset (by rw [htag]; exact hstr) ?_ hp (by rw [htag]; exact hparse)
    · rcases htyp with h | h
      · simp [isStructOrStructPtr, h, ht]
      · simp [isStructOrStructPtr, h, GoType.Kind, GoType.Elem, ht]
    · rcases htyp with h | h
      · simp [h, ht]
      · simp [h, GoType.Kind, GoType.Elem]
  exact ⟨hbody, fun out err hrun =>
    Defaults_err_of_body env lib Tag fuel r vals i field fieldVal _ _ hfield hval hbody out
      err hrun⟩

/-- **C24, instances.** The test types `testArrayOverflow` and `testArrayPtrOverflow`: a
`[5]int` field and a `*[5]int` field tagged `[1,2,3,4,5,6]`. -/
theorem C24_ParseArray_capacity_error_witness :
    ParseArray jsonLib "[1,2,3,4,5,6]" (.array 5 (.basic .Int)) =
      some (none, some (.text ("array length " ++ Nat.repr 6 ++
        " exceeds capacity " ++ Nat.repr 5))) ∧
    Defaults noEnv jsonLib "default" 1
        ⟨.ptr testArrayOverflow, .ptr (.struct [zeroValue (.array 5 (.basic .Int))])⟩ =
      some (.ptr (.struct [zeroValue (.array 5 (.basic .Int))]),
        some (.wrap "failed to set default for field Array: "
          (.text "array length 6 exceeds capacity 5"))) ∧
    Defaults noEnv jsonLib "default" 1 ⟨.ptr testArrayPtrOverflow, .ptr (.struct [.nil])⟩ =
      some (.ptr (.struct [.ptr (zeroValue (.array 5 (.basic .Int)))]),
        some (.wrap "failed to set default for field ArrayPtr: "
          (.text "array length 6 exceeds capacity 5"))) ∧
    (GoError.wrap "failed to set default for field Array: "
        (.text "array length 6 exceeds capacity 5")).Error =
      "failed to set default for field Array: array length 6 exceeds capacity 5" :=
  ⟨(C24_ParseArray_capacity_error jsonLib "[1,2,3,4,5,6]" (.array 5 (.basic .Int))
      [.int 1, .int 2, .int 3, .int 4, .int 5, .int 6] rfl rfl (by decide)).1,
    rfl, rfl, by decide⟩

/-- **C26.** Whenever the decoder rejects the literal with an error `err`, `ParseMap` (on
a target of kind map), `ParseSlice` (kind slice) and `ParseArray` (kind array) return an
invalid value and an error that wraps `err` and whose text is "invalid map format: ",
"invalid slice format: " or "invalid array format: " followed by the text of `err`.  So the
loop body, on an assignable, unset field of an unnamed map type that carries the literal as
its tag, returns this error wrapped with the field name and leaves the field as it was;
`Defaults` on a struct with such a field returns an error (this one, unless an earlier
field failed) and the field keeps its value. -/
theorem C26_decoder_error_is_wrapped (lib : Lib) (str : String) (t : GoType)
    (err : GoError) :
    (t.Kind = .Map → lib.jsonUnmarshal str t = .error err →
      ParseMap lib str t = some (none, some (.wrap "invalid map format: " err))) ∧
    (t.Kind = .Slice → lib.jsonUnmarshal str t = .error err →
      ParseSlice lib str t = some (none, some (.wrap "invalid slice format: " err))) ∧
    (t.Kind = .Array → lib.jsonUnmarshal str (.slice t.ArrayElem) = .error err →
      ParseArray lib str t = some (none, some (.wrap "invalid array format: " err))) ∧
    ((GoError.wrap "invalid map format: " err).Error = "invalid map format: " ++ err.Error ∧
      (GoError.wrap "invalid slice format: " err).Error =
        "invalid slice format: " ++ err.Error ∧
      (GoError.wrap "invalid array format: " err).Error =
        "invalid array format: " ++ err.Error) ∧
    (∀ (env : TypeEnv) (Tag : String) (fuel : Nat) (r : GoType) (vals : List Value)
      (i : Nat) (field : StructField) (fieldVal : Value),
      t.Kind = .Map → lib.jsonUnmarshal str t = .error err →
      t.Name = "" → field.Typ = t → str ≠ "" →
      field.Tag.Get Tag = str → assignable field = true →
      isUnset field.Typ fieldVal = true →
      r.Fields[i]? = some field → vals[i]? = some fieldVal →
      (∀ recurse, setDefaultsField recurse env lib Tag field fieldVal =
        some (fieldVal,
          some (.wrap ("failed to set default for field " ++ field.Name ++ ": ")
            (.wrap "invalid map format: " err)))) ∧
      (GoError.wrap ("failed to set default for field " ++ field.Name ++ ": ")
          (.wrap "invalid map format: " err)).Error =
        "failed to set default for field " ++ field.Name ++ ": " ++
          ("invalid map format: " ++ err.Error) ∧
      (∀ out e', Defaults env lib Tag fuel ⟨.ptr r, .ptr (.struct vals)⟩ = some (out, e') →
        (∃ vals', out = .ptr (.struct vals') ∧ vals'[i]? = some fieldVal) ∧
        ∃ e, e' = some e ∧
          (r.Kind = .Struct →
            e = .wrap ("failed to set default for field " ++ field.Name ++ ": ")
              (.wrap "invalid map format: " err) ∨
            ∃ (n k : Nat) (g : StructField) (w w' : Value), k < i ∧
              r.Fields[k]? = some g ∧ vals[k]? = some w ∧
              setDefaultsField (setDefaults env lib Tag n) env lib Tag g w =
                some (w', some e)))) := by
  have hmap : t.Kind = .Map → lib.jsonUnmarshal str t = .error err →
      ParseMap lib str t = some (none, some (.wrap "invalid map format: " err)) := by
    intro hk hd
    simp [ParseMap, hk, hd]
  refine ⟨hmap, ?_, ?_, ⟨rfl, rfl, rfl⟩, ?_⟩
  · intro hk hd
    simp [ParseSlice, hk, hd]
  · intro hk hd
    simp [ParseArray, hk, hd]
  · intro env Tag fuel r vals i field fieldVal hk hd hname htyp hstr htag ha hunset hfield
      hval
    have hbody : ∀ recurse, setDefaultsField recurse env lib Tag field fieldVal =
        some (fieldVal,
          some (.wrap ("failed to set default for field " ++ field.Name ++ ": ")
            (.wrap "invalid map format: " err))) := by
      intro recurse
      have hp : parser lib (typeName lib t) = some (ParseMap lib) := by
        rw [typeName_unnamed lib t hname, hk]
        rfl
      have h := setDefaultsField_parse_error recurse env lib Tag field fieldVal t
        (ParseMap lib) none _ ha (by simp [isStructOrStructPtr, htyp, hk]) hunset
        (by rw [htag]; exact hstr) (by simp [htyp, hk]) hp
        (by rw [htag]; exact hmap hk hd)
      rw [h, htyp, hk]
      simp
    refine ⟨hbody, rfl, fun out e' hrun => ⟨?_, ?_⟩⟩
    · rcases Defaults_some env lib Tag fuel r vals out e' hrun with
        ⟨_, hout, _⟩ | ⟨_, n, vals', _, hout, hl⟩
      · exact ⟨vals, hout, hval⟩
      · obtain ⟨w, hw, hor⟩ := setDefaultsLoop_get _ _ _ _ _ hl i field fieldVal hfield hval
        refine ⟨vals', hout, ?_⟩
        rcases hor with rfl | ⟨e, he⟩
        · exact hw
        · rw [hbody] at he
          simp only [Option.some.injEq, Prod.mk.injEq] at he
          rw [hw, ← he.1]
    · exact Defaults_err_of_body env lib Tag fuel r vals i field fieldVal _ _ hfield hval
        hbody out e' hrun

/-- **C26, instance.** The test type `testInvalidMap`, a field `Map map[string]any` tagged
`{invalid}`, with a nil map. -/
theorem C26_decoder_error_is_wrapped_witness :
    ParseMap sampleLib "{invalid}" (.map (.basic .String) (.other .Interface "interface {}")) =
      some (none, some (.wrap "invalid map format: " (.text "json: invalid character"))) ∧
    Defaults noEnv sampleLib "default" 1 ⟨.ptr testInvalidMap, .ptr (.struct [.nil])⟩ =
      some (.ptr (.struct [.nil]),
        some (.wrap "failed to set default for field Map: "
          (.wrap "invalid map format: " (.text "json: invalid character")))) ∧
    (GoError.wrap "failed to set default for field Map: "
        (.wrap "invalid map format: " (.text "json: invalid character"))).Error =
      "failed to set default for field Map: invalid map format: json: invalid character" :=
  ⟨(C26_decoder_error_is_wrapped sampleLib "{invalid}"
      (.map (.basic .String) (.other .Interface "interface {}"))
      (.text "json: invalid character")).1 rfl rfl,
    rfl, by decide⟩

/-- **C28.** A map or slice field that is non-nil counts as set, also when it is empty.  For
a field whose type is of kind map or slice: `isUnset` holds of the nil value and of no
non-nil map or slice; the loop body returns a non-nil map or slice unchanged and without
error, whatever the tag, the tag key and the library, so the tag is not parsed; and every
`Defaults` that returns leaves the field as it was. -/
theorem C28_empty_collection_counts_as_set (env : TypeEnv) (lib : Lib) (Tag : String)
    (field : StructField) (es : List Value) (ps : List (Value × Value))
    (ht : field.Typ.Kind = .Map ∨ field.Typ.Kind = .Slice) :
    (isUnset field.Typ .nil = true ∧ isUnset field.Typ (.map ps) = false ∧
      isUnset field.Typ (.slice es) = false) ∧
    (∀ recurse fieldVal, fieldVal = .map ps ∨ fieldVal = .slice es →
      setDefaultsField recurse env lib Tag field fieldVal = some (fieldVal, none)) ∧
    (∀ (fuel : Nat) (t : GoType) (vals : List Value) (i : Nat) (fieldVal out : Value)
      (err : Option GoError), fieldVal = .map ps ∨ fieldVal = .slice es →
      t.Fields[i]? = some field → vals[i]? = some fieldVal →
      Defaults env lib Tag fuel ⟨.ptr t, .ptr (.struct vals)⟩ = some (out, err) →
      ∃ vals', out = .ptr (.struct vals') ∧ vals'[i]? = some fieldVal) := by
  have hz := zeroValue_map_slice field.Typ ht
  have hk : field.Typ.Kind ≠ .Pointer := by
    rcases ht with h | h <;> rw [h] <;> decide
  have hs : field.Typ.Kind ≠ .Struct := by
    rcases ht with h | h <;> rw [h] <;> decide
  have hunset : isUnset field.Typ (.map ps) = false ∧ isUnset field.Typ (.slice es) = false := by
    simp [isUnset, hk, hz, deepEqual]
  have hbody : ∀ recurse fieldVal, fieldVal = .map ps ∨ fieldVal = .slice es →
      setDefaultsField recurse env lib Tag field fieldVal = some (fieldVal, none) := by
    intro recurse fieldVal hv
    refine setDefaultsField_skip_set recurse env lib Tag field fieldVal ?_ ?_
    · simp [isStructOrStructPtr, hk, hs]
    · rcases hv with rfl | rfl
      · exact hunset.1
      · exact hunset.2
  refine ⟨⟨?_, hunset.1, hunset.2⟩, hbody, ?_⟩
  · simp [isUnset, hk, hz, deepEqual]
  · intro fuel t vals i fieldVal out err hv hfield hval hrun
    exact Defaults_frame env lib Tag fuel t vals out err i field fieldVal hfield hval
      (fun recurse => hbody recurse fieldVal hv) hrun

/-- **C28, instance.** The record `collectionRecord`: with an empty non-nil map and an
empty non-nil slice nothing changes; with a nil slice the tag `[1,2,3]` is parsed. -/
theorem C28_empty_collection_counts_as_set_witness :
    Defaults noEnv jsonLib "default" 1
        ⟨.ptr collectionRecord, .ptr (.struct [.map [], .slice []])⟩ =
      some (.ptr (.struct [.map [], .slice []]), none) ∧
    Defaults noEnv jsonLib "default" 1
        ⟨.ptr collectionRecord, .ptr (.struct [.map [], .nil])⟩ =
      some (.ptr (.struct [.map [], .slice [.int 1, .int 2, .int 3]]), none) ∧
    ∃ vals', Value.ptr (.struct [.map [], .slice []]) = .ptr (.struct vals') ∧
      vals'[1]? = some (.slice []) :=
  ⟨rfl, rfl,
    (C28_empty_collection_counts_as_set noEnv jsonLib "default"
      (taggedField "Slice" (.slice (.basic .Int)) "[1,2,3]") [] [] (Or.inr rfl)).2.2 1
      collectionRecord [.map [], .slice []] 1 (.slice []) _ none (Or.inr rfl) rfl rfl rfl⟩

/-- **C27.** The tag key is "default" until changed, and after `SetDefaultTag(k)` the
variable `Tag` is `k`.  With `Tag = k` the loop body reads the tag of a field only through
its value under `k`: two fields that differ only in what their tags carry under other keys
get the same result, and so do `setDefaults` and `Defaults` on two struct types whose fields
agree under `k`. -/
theorem C27_tag_key_is_the_key_read (env : TypeEnv) (lib : Lib) (old k : String) :
    initialTag = "default" ∧ SetDefaultTag old k = k ∧
    (∀ recurse (name pkg : String) (typ : GoType) (tag₁ tag₂ : StructTag) (fieldVal : Value),
      StructTag.Get tag₁ k = StructTag.Get tag₂ k →
      setDefaultsField recurse env lib (SetDefaultTag old k) (.mk name pkg typ tag₁) fieldVal =
        setDefaultsField recurse env lib (SetDefaultTag old k) (.mk name pkg typ tag₂)
          fieldVal) ∧
    (∀ (fuel : Nat) (t t' : GoType) (v : Value), agreeUnderKey k t.Fields t'.Fields →
      setDefaults env lib (SetDefaultTag old k) fuel t v =
        setDefaults env lib (SetDefaultTag old k) fuel t' v) ∧
    (∀ (fuel : Nat) (t t' : GoType) (v : Value), agreeUnderKey k t.Fields t'.Fields →
      t.Kind = .Struct → t'.Kind = .Struct →
      Defaults env lib (SetDefaultTag old k) fuel ⟨.ptr t, v⟩ =
        Defaults env lib (SetDefaultTag old k) fuel ⟨.ptr t', v⟩) := by
  have hsd : ∀ (fuel : Nat) (t t' : GoType) (v : Value), agreeUnderKey k t.Fields t'.Fields →
      setDefaults env lib k fuel t v = setDefaults env lib k fuel t' v := by
    intro fuel t t' v h
    cases fuel with
    | zero => rfl
    | succ n =>
      cases v with
      | struct vals =>
        simp only [setDefaults, setDefaultsLoop_congr _ env lib k t.Fields t'.Fields vals h]
      | _ => rfl
  refine ⟨rfl, rfl, ?_, hsd, ?_⟩
  · intro recurse name pkg typ tag₁ tag₂ fieldVal h
    exact setDefaultsField_congr recurse env lib k _ _ fieldVal rfl rfl rfl h
  · intro fuel t t' v h hk hk'
    cases hv : v.Elem with
    | none => simp [Defaults, GoType.Kind, GoType.Elem, hv]
    | some p =>
      simp [Defaults, SetDefaultTag, GoType.Kind, GoType.Elem, hv, hk, hk',
        hsd fuel t t' p h]

/-- **C27, instance.** The field `N int` with `default:"5" cfg:"7"`: with the initial key
it becomes 5, after `SetDefaultTag("cfg")` it becomes 7, also when the pair under
`default` is changed to a text that does not parse; a field that has only a pair under
`default` is then skipped. -/
theorem C27_tag_key_is_the_key_read_witness :
    Defaults noEnv sampleLib initialTag 1 ⟨.ptr twoKeyRecord, .ptr (.struct [.int 0])⟩ =
      some (.ptr (.struct [.int 5]), none) ∧
    Defaults noEnv sampleLib (SetDefaultTag initialTag "cfg") 1
        ⟨.ptr twoKeyRecord, .ptr (.struct [.int 0])⟩ =
      some (.ptr (.struct [.int 7]), none) ∧
    Defaults noEnv sampleLib (SetDefaultTag initialTag "cfg") 1
        ⟨.ptr twoKeyRecord, .ptr (.struct [.int 0])⟩ =
      Defaults noEnv sampleLib (SetDefaultTag initialTag "cfg") 1
        ⟨.ptr twoKeyRecordOther, .ptr (.struct [.int 0])⟩ ∧
    Defaults noEnv sampleLib (SetDefaultTag initialTag "cfg") 1
        ⟨.ptr boolRecord, .ptr (.struct [.bool false])⟩ =
      some (.ptr (.struct [.bool false]), none) :=
  ⟨rfl, rfl,
    (C27_tag_key_is_the_key_read noEnv sampleLib initialTag "cfg").2.2.2.2 1 twoKeyRecord
      twoKeyRecordOther (.ptr (.struct [.int 0]))
      (List.Forall₂.cons ⟨rfl, rfl, rfl, rfl⟩ List.Forall₂.nil) rfl rfl,
    rfl⟩

/-- **C29, counterexample.** The test type `testUnexportedField`, whose only field is
unexported, and the test type `testEmptyDefaultTag`, whose `int` field has an empty default
tag: `Defaults` returns a nil error on both and changes nothing. -/
theorem C29_no_error_counterexample :
    Defaults noEnv sampleLib "default" 1 ⟨.ptr testUnexportedField, .ptr (.struct [.int 0])⟩ =
      some (.ptr (.struct [.int 0]), none) ∧
    Defaults noEnv sampleLib "default" 1 ⟨.ptr testEmptyDefaultTag, .ptr (.struct [.int 0])⟩ =
      some (.ptr (.struct [.int 0]), none) :=
  ⟨rfl, rfl⟩

/-- **C29, amended.** An unexported field, and a field that is neither a struct nor a pointer
to a struct and has an empty default tag, cause no error: the loop body returns such a
field unchanged with a nil error, and on a struct all of whose fields are of these two sorts
`Defaults` returns a nil error and leaves the struct as it was. -/
theorem C29_unexported_or_empty_tag_is_no_error (env : TypeEnv) (lib : Lib) (Tag : String)
    (fuel : Nat) (t : GoType) (vals : List Value) (ht : t.Kind = .Struct)
    (hlen : t.Fields.length = vals.length)
    (hall : ∀ f ∈ t.Fields, unexportedOrEmptyTag env Tag f = true) :
    (∀ f ∈ t.Fields, ∀ recurse v, setDefaultsField recurse env lib Tag f v = some (v, none)) ∧
      Defaults env lib Tag (fuel + 1) ⟨.ptr t, .ptr (.struct vals)⟩ =
        some (.ptr (.struct vals), none) := by
  have hbody : ∀ f ∈ t.Fields, ∀ recurse v,
      setDefaultsField recurse env lib Tag f v = some (v, none) := by
    intro f hf recurse v
    have h := hall f hf
    simp only [unexportedOrEmptyTag, Bool.or_eq_true, Bool.and_eq_true, Bool.not_eq_true',
      beq_iff_eq] at h
    rcases h with h | ⟨h1, h2⟩
    · exact setDefaultsField_skip_unassignable recurse env lib Tag f v
        (by simp [assignable, h])
    · exact setDefaultsField_skip_untagged recurse env lib Tag f v h2 h1
  refine ⟨hbody, ?_⟩
  simp only [Defaults, GoType.Kind, GoType.Elem, Value.IsNil, Value.Elem, ht, setDefaults,
    setDefaultsLoop_skip_all _ t.Fields vals (fun f hf v => hbody f hf _ v) (by omega)]
  simp

/-- **C29, amended, instance.** A struct with an unexported field and a field with an empty
default tag, both holding zero. -/
theorem C29_unexported_or_empty_tag_is_no_error_witness :
    Defaults noEnv sampleLib "default" 1
        ⟨.ptr (.struct [.mk "privateField" "defaults" (.basic .Int) [("default", "123")],
          taggedField "Field" (.basic .Int) ""]), .ptr (.struct [.int 0, .int 0])⟩ =
      some (.ptr (.struct [.int 0, .int 0]), none) :=
  (C29_unexported_or_empty_tag_is_no_error noEnv sampleLib "default" 0
    (.struct [.mk "privateField" "defaults" (.basic .Int) [("default", "123")],
      taggedField "Field" (.basic .Int) ""]) [.int 0, .int 0] rfl rfl (by decide)).2

/-- **C30.** A successful pass is a fixed point: whenever `Defaults` returns no error and
leaves the argument as `out`, a second call on `out`, as a value of the same type, also
returns no error and leaves `out` as it is, every field and every pointee included. -/
theorem C30_successful_pass_is_fixed_point (env : TypeEnv) (lib : Lib) (Tag : String)
    (fuel : Nat) (typ : GoType) (v out : Value)
    (h : Defaults env lib Tag fuel ⟨typ, v⟩ = some (out, none)) :
    Defaults env lib Tag fuel ⟨typ, out⟩ = some (out, none) := by
  unfold Defaults at h ⊢
  by_cases hc : typ.Kind ≠ .Pointer ∨ v.IsNil = true
  · simp [hc] at h
  simp only [hc, if_false] at h
  have hk : typ.Kind = .Pointer := by
    by_contra hne
    exact hc (Or.inl hne)
  cases he : typ.Elem env with
  | none => simp [he] at h
  | some t =>
    cases hv : v.Elem with
    | none => simp [he, hv] at h
    | some p =>
      simp only [he, hv] at h
      by_cases hs : t.Kind ≠ .Struct
      · simp [hs] at h
      simp only [hs, if_false] at h
      rcases hr : setDefaults env lib Tag fuel t p with _ | ⟨p', err⟩
      · simp [hr] at h
      · simp only [hr, Option.some.injEq, Prod.mk.injEq] at h
        obtain ⟨h1, h2⟩ := h
        subst h1 h2
        simp [hk, he, Value.IsNil, Value.Elem, hs, setDefaults_idem env lib Tag fuel t p p' hr]

/-- **C30, instance.** The record `struct { P *int8; Q int }` with `P` pointing to 0 and
`Q` unset: the first call sets `Q` to 5 and the second changes nothing. -/
theorem C30_successful_pass_is_fixed_point_witness :
    Defaults noEnv (withStrconv sampleLib) "default" 1
        ⟨.ptr retryRecord, .ptr (.struct [.ptr (.int 0), .int 0])⟩ =
      some (.ptr (.struct [.ptr (.int 0), .int 5]), none) ∧
    Defaults noEnv (withStrconv sampleLib) "default" 1
        ⟨.ptr retryRecord, .ptr (.struct [.ptr (.int 0), .int 5])⟩ =
      some (.ptr (.struct [.ptr (.int 0), .int 5]), none) :=
  ⟨rfl, C30_successful_pass_is_fixed_point noEnv (withStrconv sampleLib) "default" 1
    (.ptr retryRecord) (.ptr (.struct [.ptr (.int 0), .int 0])) _ rfl⟩

/-- **C22, counterexample.** The literal `2562048h` is a decimal number followed by the unit
suffix `h`, and its number times unit is 9223372800000000000 nanoseconds, more than the
largest duration `2^63 - 1`: `ParseDuration` returns an invalid value and the error "time:
invalid duration", not the sum. -/
theorem C22_duration_overflow_counterexample :
    wellFormedGroups [("2562048".data, .h)] = true ∧
    String.mk (durationText [("2562048".data, .h)]) = "2562048h" ∧
    durationSum [("2562048".data, .h)] = 9223372800000000000 ∧
    ParseDuration (withTime sampleLib) "2562048h" durationType =
      some (none, some (.text "time: invalid duration \"2562048h\"")) :=
  ⟨rfl, rfl, rfl, rfl⟩

/-- **C22, amended.** For a target type of kind `int64` such as `time.Duration`:
on every literal that is a sequence of one or more decimal numbers, each followed by one of
the unit suffixes ns, us, ms, s, m, h, and whose sum of number times unit is at most
`2^63 - 1` nanoseconds, `ParseDuration` returns that sum with no error.  On a literal in
which such a sequence (possibly empty, of sum at most `2^63`) is followed by a decimal number
of at most `2^63` and a unit text that is not a unit (a non-empty text without digits and
periods that ends where the literal ends or the next digit or period stands), it returns an
invalid value and the error "time: unknown unit ..." that quotes the unit text and the
literal; when the decimal number is more than `2^63`, it returns an invalid value and the
error "time: invalid duration ...", whatever follows the number.  On the empty text it
returns an invalid value and the error "time: invalid duration". -/
theorem C22_ParseDuration_sums_groups (lib : Lib) (t : GoType) :
    (∀ gs : DurationGroups, intBits t.Kind = some 64 → gs ≠ [] →
      wellFormedGroups gs = true → durationSum gs ≤ 2 ^ 63 - 1 →
      ParseDuration (withTime lib) (String.mk (durationText gs)) t =
        some (some ⟨t, .int (durationSum gs)⟩, none)) ∧
    (∀ (gs : DurationGroups) (c : Char) (cs u T : List Char),
      wellFormedGroups gs = true → durationSum gs ≤ 2 ^ 63 →
      isDecimal (c :: cs) = true → decimalValue (c :: cs) 0 ≤ 2 ^ 63 →
      u ≠ [] → (∀ x ∈ u, isDigitOrDot x = false) → unitMap (String.mk u) = none →
      (∀ x r, T = x :: r → isDigitOrDot x = true) →
      ParseDuration (withTime lib) (String.mk (durationText gs ++ (c :: cs ++ (u ++ T)))) t =
        some (none, some (.text ("time: unknown unit " ++ timeQuote u ++ " in duration " ++
          timeQuote (durationText gs ++ (c :: cs ++ (u ++ T))))))) ∧
    (∀ (gs : DurationGroups) (c : Char) (cs rest : List Char),
      wellFormedGroups gs = true → durationSum gs ≤ 2 ^ 63 →
      isDecimal (c :: cs) = true → 2 ^ 63 < decimalValue (c :: cs) 0 →
      ParseDuration (withTime lib) (String.mk (durationText gs ++ (c :: cs ++ rest))) t =
        some (none, some (.text ("time: invalid duration " ++
          timeQuote (durationText gs ++ (c :: cs ++ rest)))))) ∧
    ParseDuration (withTime lib) "" t =
      some (none, some (.text "time: invalid duration \"\"")) := by
  refine ⟨?_, ?_, ?_, rfl⟩
  · intro gs ht hne hwf hsum
    have h63 : (2 : Int) ^ (64 - 1) = 9223372036854775808 := by norm_num
    have hn63 : (2 : Nat) ^ 63 = 9223372036854775808 := by norm_num
    have hw : wrapSigned 64 (durationSum gs : Int) = (durationSum gs : Int) := by
      apply wrapSigned_of_inRange 64 (by norm_num)
      · rw [h63]
        omega
      · rw [h63]
        rw [hn63] at hsum
        omega
    simp only [ParseDuration, withTime, timeParseDuration_groups gs hne hwf hsum,
      returnConverted, Convert, ht, hw]
  · intro gs c cs u T hwf hsum hdec hv hne hu hmap hT
    have hds : ∀ x ∈ c :: cs, 48 ≤ x.toNat ∧ x.toNat ≤ 57 := by
      simp only [isDecimal, Bool.and_eq_true, List.all_eq_true, decide_eq_true_eq] at hdec
      exact hdec.2
    simp only [ParseDuration, withTime,
      timeParseDuration_unknown_unit gs c cs u T hwf hsum hds hv hne hu hT hmap]
  · intro gs c cs rest hwf hsum hdec hv
    have hds : ∀ x ∈ c :: cs, 48 ≤ x.toNat ∧ x.toNat ≤ 57 := by
      simp only [isDecimal, Bool.and_eq_true, List.all_eq_true, decide_eq_true_eq] at hdec
      exact hdec.2
    simp only [ParseDuration, withTime,
      timeParseDuration_number_overflow gs c cs rest hwf hsum hds hv, invalidDuration]

/-- **C22, amended, instances.** The literals of `TestParseDuration`: `1h30m`, `45s`, `1x`
and the empty text; and the literal `9223372036854775809x`, whose number is more than
`2^63`. -/
theorem C22_ParseDuration_sums_groups_witness :
    ParseDuration (withTime sampleLib) "1h30m" durationType =
      some (some ⟨durationType, .int 5400000000000⟩, none) ∧
    ParseDuration (withTime sampleLib) "45s" durationType =
      some (some ⟨durationType, .int 45000000000⟩, none) ∧
    ParseDuration (withTime sampleLib) "1x" durationType =
      some (none, some (.text "time: unknown unit \"x\" in duration \"1x\"")) ∧
    ParseDuration (withTime sampleLib) "9223372036854775809x" durationType =
      some (none, some (.text "time: invalid duration \"9223372036854775809x\"")) ∧
    ParseDuration (withTime sampleLib) "" durationType =
      some (none, some (.text "time: invalid duration \"\"")) :=
  ⟨(C22_ParseDuration_sums_groups sampleLib durationType).1
      [(['1'], .h), (['3', '0'], .m)] rfl (by simp) rfl (by decide),
    (C22_ParseDuration_sums_groups sampleLib durationType).1
      [(['4', '5'], .s)] rfl (by simp) rfl (by decide),
    (C22_ParseDuration_sums_groups sampleLib durationType).2.1
      [] '1' [] ['x'] [] rfl (by decide) rfl (by decide) (by simp) (by decide) rfl
      (fun x r h => by cases h),
    (C22_ParseDuration_sums_groups sampleLib durationType).2.2.1
      [] '9' "223372036854775809".data ['x'] rfl (by decide) rfl (by decide),
    (C22_ParseDuration_sums_groups sampleLib durationType).2.2.2⟩

/-- **C36.** The conversion-failure branch of `setFieldValue` is not reached.  A parser of
the registry that returns a nil error returns a valid value of the type `t` it was asked
for, to which `ConvertibleTo` applies with result true; so every error of `setParsedValue`,
and of `setFieldValue`, is the unsupported-type error (when no parser is registered for the
target) or the error the registered parser returned, never the error "parsed value type ...
cannot be converted to field type ...", and after a parse without error the value is
assigned. -/
theorem C36_conversion_failure_unreachable (env : TypeEnv) (lib : Lib) :
    (∀ (name : String) (pf : ParserFunc) (tag : String) (t : GoType) (x : Option RValue),
      parser lib name = some pf → pf tag t = some (x, none) →
      ∃ r, x = some r ∧ r.typ = t ∧ lib.convertibleTo r.typ t = true) ∧
    (∀ (fieldVal : Value) (t : GoType) (tag : String) (pf : ParserFunc) (r : RValue),
      parser lib (typeName lib t) = some pf → pf tag t = some (some r, none) →
      setParsedValue lib fieldVal t tag = some (r.val, none)) ∧
    (∀ (fieldVal p : Value) (t : GoType) (tag : String) (e : GoError),
      setParsedValue lib fieldVal t tag = some (p, some e) →
      (parser lib (typeName lib t) = none ∧
        e = .text ("unsupported type" ++ " \"" ++ typeName lib t ++ "\"")) ∨
      ∃ pf x, parser lib (typeName lib t) = some pf ∧ pf tag t = some (x, some e)) ∧
    (∀ (fieldVal p : Value) (fieldType : GoType) (tag : String) (e : GoError),
      setFieldValue env lib fieldVal fieldType tag = some (p, some e) →
      ∃ target, (if fieldType.Kind = .Pointer then fieldType.Elem env = some target
          else target = fieldType) ∧
        ((parser lib (typeName lib target) = none ∧
          e = .text ("unsupported type" ++ " \"" ++ typeName lib target ++ "\"")) ∨
        ∃ pf x, parser lib (typeName lib target) = some pf ∧
          pf tag target = some (x, some e))) := by
  refine ⟨?_, ?_, ?_, ?_⟩
  · intro name pf tag t x hp h
    obtain ⟨r, rfl⟩ := parser_valid lib name pf hp tag t x h
    have ht := parser_typ lib name pf hp tag t r h
    exact ⟨r, rfl, ht, by rw [ht]; exact lib.convertibleTo_self t⟩
  · intro fieldVal t tag pf r hp h
    exact setParsedValue_accept lib fieldVal t tag pf r hp h
  · intro fieldVal p t tag e h
    exact setParsedValue_err_cases lib fieldVal p t tag e h
  · intro fieldVal p fieldType tag e h
    unfold setFieldValue at h
    by_cases hk : fieldType.Kind = .Pointer
    · simp only [hk, if_true] at h ⊢
      cases he : fieldType.Elem env with
      | none => simp [he] at h
      | some elemType =>
        simp only [he] at h
        cases hal : (if fieldVal.IsNil = true then Value.ptr (zeroValue elemType)
            else fieldVal).Elem with
        | none => simp [hal] at h
        | some pointee =>
          simp only [hal] at h
          rcases hs : setParsedValue lib pointee elemType tag with _ | ⟨p', e'⟩
          · simp [hs] at h
          · simp only [hs, Option.some.injEq, Prod.mk.injEq] at h
            rw [h.2] at hs
            exact ⟨elemType, rfl, setParsedValue_err_cases lib pointee p' elemType tag e hs⟩
    · simp only [hk, if_false] at h ⊢
      exact ⟨fieldType, rfl, setParsedValue_err_cases lib fieldVal p fieldType tag e h⟩

/-- **C36, instance.** A `[]int` field and the literal `[1,2,3]`: the parser returns a value
of type `[]int`, and `setParsedValue` assigns it. -/
theorem C36_conversion_failure_unreachable_witness :
    (∃ r, some (⟨.slice (.basic .Int), .slice [.int 1, .int 2, .int 3]⟩ : RValue) = some r ∧
      r.typ = .slice (.basic .Int) ∧
      jsonLib.convertibleTo r.typ (.slice (.basic .Int)) = true) ∧
    setParsedValue jsonLib .nil (.slice (.basic .Int)) "[1,2,3]" =
      some (.slice [.int 1, .int 2, .int 3], none) :=
  ⟨(C36_conversion_failure_unreachable noEnv jsonLib).1 "slice" (ParseSlice jsonLib)
      "[1,2,3]" (.slice (.basic .Int)) _ rfl rfl,
    (C36_conversion_failure_unreachable noEnv jsonLib).2.1 .nil (.slice (.basic .Int))
      "[1,2,3]" (ParseSlice jsonLib) ⟨.slice (.basic .Int), .slice [.int 1, .int 2, .int 3]⟩
      rfl rfl⟩

/-- **C33, counterexample.** In a value of the struct `T33` with a field `SP *Inner` tagged
`default:"x"` and a field `Q *Inner` without a tag, where `SP` and `Q` point to the same
`Inner`, whose field `A`, tagged `default:"5"`, is zero: the field `SP` is skipped and
`Defaults` returns no error, but the struct `SP` points to holds `A = 0` before the call
and `A = 5` after it, written by the recursion through `Q`. -/
theorem C33_shared_struct_counterexample :
    sharedStructPtrRecord.Fields[0]? = some (taggedField "SP" (.ptr innerType) "x") ∧
    sharedStructPtrMemory.load ⟨0, [0]⟩ = some (.ptr (some ⟨1, []⟩)) ∧
    sharedStructPtrMemory.load ⟨0, [1]⟩ = some (.ptr (some ⟨1, []⟩)) ∧
    sharedStructPtrMemory.load ⟨1, []⟩ = some (.struct [.val (.int 0)]) ∧
    DefaultsMem noEnv sampleLib "default" 2 sharedStructPtrMemory (.ptr sharedStructPtrRecord)
        (.ptr (some ⟨0, []⟩)) =
      some ([.struct [.ptr (some ⟨1, []⟩), .ptr (some ⟨1, []⟩)], .struct [.val (.int 5)]],
        none) ∧
    Memory.load [.struct [.ptr (some ⟨1, []⟩), .ptr (some ⟨1, []⟩)], .struct [.val (.int 5)]]
        ⟨1, []⟩ = some (.struct [.val (.int 5)]) :=
  ⟨rfl, rfl, rfl, rfl, rfl, rfl⟩

/-- **C33, amended.** A pointer-to-struct field with a non-empty tag is never recursed into.
When it is nil and the struct type is unnamed or has a qualified name other than
"time.Duration", no parser is registered under the name of the type ("struct" for an unnamed
type, the qualified name for a declared one), and the loop body, whatever the recursive call,
makes the field point to a zero struct, whose fields stay at their zero values, and returns
the error "unsupported type" with the quoted name; `Defaults` then returns an error, this one
unless an earlier field failed.  When it is not nil, the loop body returns the field
unchanged without error, and when no memory is shared (the value is a tree, in which a
pointer owns its pointee) every `Defaults` that returns leaves the pointer and the struct it
points to as they were.  In a memory with sharing the loop body for the field does the same:
for a nil pointer it allocates a zero struct, stores its address in the field and returns the
error without a recursive call; for a pointer that is not nil it stores nothing.  And when
`Defaults` returns on a memory that holds the struct without sharing (every pointer reached
points to a whole object and no object is reached twice): for a nil pointer it returns an
error, the one above unless an earlier field failed; for a pointer that is not nil the memory
it returns holds the struct without sharing, with the pointer and the struct it points to as
they were.  The field does pass the test `isStructOrStructPtr`. -/
theorem C33_tagged_struct_pointer_is_not_recursed (env : TypeEnv) (lib : Lib) (Tag : String)
    (field : StructField) (elemType : GoType)
    (ha : assignable field = true) (hk : field.Typ.Kind = .Pointer)
    (he : field.Typ.Elem env = some elemType) (hek : elemType.Kind = .Struct)
    (htag : field.Tag.Get Tag ≠ "") :
    ((elemType.Name = "" ∨
        ('.' ∈ (typeName lib elemType).data ∧ typeName lib elemType ≠ "time.Duration")) →
      parser lib (typeName lib elemType) = none ∧
      (∀ recurse, setDefaultsField recurse env lib Tag field .nil =
        some (.ptr (zeroValue elemType),
          some (.wrap ("failed to set default for field " ++ field.Name ++ ": ")
            (.text ("unsupported type" ++ " \"" ++ typeName lib elemType ++ "\"")))))  ∧
      (∀ (fuel : Nat) (t : GoType) (vals : List Value) (i : Nat) (out : Value)
        (err : Option GoError), t.Fields[i]? = some field → vals[i]? = some .nil →
        Defaults env lib Tag fuel ⟨.ptr t, .ptr (.struct vals)⟩ = some (out, err) →
        ∃ e, err = some e ∧
          (e = .wrap ("failed to set default for field " ++ field.Name ++ ": ")
              (.text ("unsupported type" ++ " \"" ++ typeName lib elemType ++ "\"")) ∨
            ∃ (n k : Nat) (g : StructField) (w w' : Value), k < i ∧
              t.Fields[k]? = some g ∧ vals[k]? = some w ∧
              setDefaultsField (setDefaults env lib Tag n) env lib Tag g w =
                some (w', some e))) ∧
      (∀ recurse (m : Memory) (v : Addr) (j : Nat),
        m.load ⟨v.obj, v.path ++ [j]⟩ = some (.ptr none) →
        ∃ m', (m ++ [zeroCell elemType]).store ⟨v.obj, v.path ++ [j]⟩
            (.ptr (some ⟨m.length, []⟩)) = some m' ∧
          setDefaultsFieldMem recurse env lib Tag v m j field =
            some (m', some (.wrap ("failed to set default for field " ++ field.Name ++ ": ")
              (.text ("unsupported type" ++ " \"" ++ typeName lib elemType ++ "\""))))) ∧
      (∀ (fuel : Nat) (t : GoType) (vals : List Value) (i : Nat) (m : Memory)
        (target : Option Addr) (F : List Nat) (m' : Memory) (err : Option GoError),
        t.Fields[i]? = some field → vals[i]? = some .nil →
        HoldsTree m (.ptr target) (.ptr (.struct vals)) F →
        DefaultsMem env lib Tag fuel m (.ptr t) (.ptr target) = some (m', err) →
        ∃ e, err = some e ∧
          (e = .wrap ("failed to set default for field " ++ field.Name ++ ": ")
              (.text ("unsupported type" ++ " \"" ++ typeName lib elemType ++ "\"")) ∨
            ∃ (n k : Nat) (g : StructField) (w w' : Value), k < i ∧
              t.Fields[k]? = some g ∧ vals[k]? = some w ∧
              setDefaultsField (setDefaults env lib Tag n) env lib Tag g w =
                some (w', some e)))) ∧
    (∀ recurse pointee, setDefaultsField recurse env lib Tag field (.ptr pointee) =
      some (.ptr pointee, none)) ∧
    (∀ (fuel : Nat) (t : GoType) (vals : List Value) (i : Nat) (pointee out : Value)
      (err : Option GoError), t.Fields[i]? = some field → vals[i]? = some (.ptr pointee) →
      Defaults env lib Tag fuel ⟨.ptr t, .ptr (.struct vals)⟩ = some (out, err) →
      ∃ vals', out = .ptr (.struct vals') ∧ vals'[i]? = some (.ptr pointee)) ∧
    (∀ recurse (m : Memory) (v : Addr) (j : Nat) (a : Addr),
      m.load ⟨v.obj, v.path ++ [j]⟩ = some (.ptr (some a)) →
      setDefaultsFieldMem recurse env lib Tag v m j field = some (m, none)) ∧
    (∀ (fuel : Nat) (t : GoType) (vals : List Value) (i : Nat) (pointee : Value) (m : Memory)
      (target : Option Addr) (F : List Nat) (m' : Memory) (err : Option GoError),
      t.Fields[i]? = some field → vals[i]? = some (.ptr pointee) →
      HoldsTree m (.ptr target) (.ptr (.struct vals)) F →
      DefaultsMem env lib Tag fuel m (.ptr t) (.ptr target) = some (m', err) →
      ∃ vals' F', HoldsTree m' (.ptr target) (.ptr (.struct vals')) F' ∧
        vals'[i]? = some (.ptr pointee)) ∧
    (∀ fs, typeName lib (.struct fs) = "struct" ∧
      parser lib (typeName lib (.struct fs)) = none) ∧
    (∀ n s u, n ≠ "" → typeName lib (.named n s u) = s) ∧
    isStructOrStructPtr env field.Typ = true := by
  have hbranch : (isStructOrStructPtr env field.Typ &&
      (field.Tag.Get Tag == "" || field.Typ.Kind == .Struct)) = false := by
    simp [htag, hk]
  have hnil : ∀ recurse, parser lib (typeName lib elemType) = none →
      setDefaultsField recurse env lib Tag field .nil =
        some (.ptr (zeroValue elemType),
          some (.wrap ("failed to set default for field " ++ field.Name ++ ": ")
            (.text ("unsupported type" ++ " \"" ++ typeName lib elemType ++ "\"")))) := by
    intro recurse hp
    have h := setDefaultsField_unsupported recurse env lib Tag field .nil elemType ha hbranch
      (by simp [isUnset, hk, Value.IsNil]) htag (by simp [hk, he]) hp
    simpa [hk] using h
  have hset : ∀ recurse pointee, setDefaultsField recurse env lib Tag field (.ptr pointee) =
      some (.ptr pointee, none) := fun recurse pointee =>
    setDefaultsField_skip_set recurse env lib Tag field (.ptr pointee) hbranch
      (by simp [isUnset, hk, Value.IsNil])
  refine ⟨fun hname => ?_, hset, ?_, ?_, ?_, fun fs => ⟨rfl, rfl⟩, ?_,
    by simp [isStructOrStructPtr, hk, he, hek]⟩
  · have hp : parser lib (typeName lib elemType) = none := by
      rcases hname with hn | ⟨hd, hs⟩
      · rw [typeName_unnamed lib elemType hn, hek]
        rfl
      · exact parser_qualified lib _ hd hs
    refine ⟨hp, fun recurse => hnil recurse hp, ?_, ?_, ?_⟩
    · intro fuel t vals i out err hfield hval hrun
      obtain ⟨e, he', hor⟩ := Defaults_err_of_body env lib Tag fuel t vals i field .nil _ _
        hfield hval (fun recurse => hnil recurse hp) out err hrun
      exact ⟨e, he', hor (GoType.Kind_of_Fields t i field hfield)⟩
    · intro recurse m v j hload
      exact setDefaultsFieldMem_unsupported_nil recurse env lib Tag v m j field elemType hload
        ha hk he htag hp
    · intro fuel t vals i m target F m' err hfield hval hs hrun
      obtain ⟨x', _, hT, _, _⟩ :=
        Defaults_of_Mem env lib Tag fuel m (.ptr t) target _ F m' err hs hrun
      obtain ⟨e, he', hor⟩ := Defaults_err_of_body env lib Tag fuel t vals i field .nil _ _
        hfield hval (fun recurse => hnil recurse hp) x' err hT
      exact ⟨e, he', hor (GoType.Kind_of_Fields t i field hfield)⟩
  · intro fuel t vals i pointee out err hfield hval hrun
    exact Defaults_frame env lib Tag fuel t vals out err i field (.ptr pointee) hfield hval
      (fun recurse => hset recurse pointee) hrun
  · intro recurse m v j a hload
    exact setDefaultsFieldMem_skip_set recurse env lib Tag v m j field _ hload hbranch
      (by simp [isUnsetMem, hk])
  · intro fuel t vals i pointee m target F m' err hfield hval hs hrun
    obtain ⟨x', F', hT, hheld, _⟩ :=
      Defaults_of_Mem env lib Tag fuel m (.ptr t) target _ F m' err hs hrun
    obtain ⟨vals', hout, hv⟩ := Defaults_frame env lib Tag fuel t vals x' err i field
      (.ptr pointee) hfield hval (fun recurse => hset recurse pointee) hT
    subst hout
    exact ⟨vals', F', hheld, hv⟩
  · intro n s u hn
    simp [typeName, GoType.Name, GoType.TypeString, hn]

/-- **C33, amended, instances.** A field `StructPtr *testStruct` tagged `default:"x"`: nil,
it ends pointing to a zero `testStruct` and the error names `defaults.testStruct`; pointing
to a zero `testStruct`, it is skipped and the fields `A` and `B`, tagged `123` and `gm`, stay
zero; the same in a memory that holds the record and the struct.  And the struct `T33` of
the counterexample without sharing, `SP` and `Q` pointing to an `Inner` each: the struct
`SP` points to stays as it was while the struct `Q` points to is set, and the memory
`Defaults` returns holds the struct without sharing, with `SP` and its struct as they
were. -/
theorem C33_tagged_struct_pointer_is_not_recursed_witness :
    Defaults noEnv sampleLib "default" 2 ⟨.ptr taggedStructPtrRecord, .ptr (.struct [.nil])⟩ =
      some (.ptr (.struct [.ptr (.struct [.int 0, .string ""])]),
        some (.wrap "failed to set default for field StructPtr: "
          (.text "unsupported type \"defaults.testStruct\""))) ∧
    Defaults noEnv sampleLib "default" 2
        ⟨.ptr taggedStructPtrRecord, .ptr (.struct [.ptr (.struct [.int 0, .string ""])])⟩ =
      some (.ptr (.struct [.ptr (.struct [.int 0, .string ""])]), none) ∧
    DefaultsMem noEnv sampleLib "default" 2 [.struct [.ptr none]] (.ptr taggedStructPtrRecord)
        (.ptr (some ⟨0, []⟩)) =
      some ([.struct [.ptr (some ⟨1, []⟩)], .struct [.val (.int 0), .val (.string "")]],
        some (.wrap "failed to set default for field StructPtr: "
          (.text "unsupported type \"defaults.testStruct\""))) ∧
    DefaultsMem noEnv sampleLib "default" 2
        [.struct [.ptr (some ⟨1, []⟩)], .struct [.val (.int 0), .val (.string "")]]
        (.ptr taggedStructPtrRecord) (.ptr (some ⟨0, []⟩)) =
      some ([.struct [.ptr (some ⟨1, []⟩)], .struct [.val (.int 0), .val (.string "")]],
        none) ∧
    DefaultsMem noEnv sampleLib "default" 2
        [.struct [.ptr (some ⟨1, []⟩), .ptr (some ⟨2, []⟩)], .struct [.val (.int 0)],
          .struct [.val (.int 0)]] (.ptr sharedStructPtrRecord) (.ptr (some ⟨0, []⟩)) =
      some ([.struct [.ptr (some ⟨1, []⟩), .ptr (some ⟨2, []⟩)], .struct [.val (.int 0)],
        .struct [.val (.int 5)]], none) ∧
    parser sampleLib (typeName sampleLib testStruct) = none ∧
    (∀ recurse pointee,
      setDefaultsField recurse noEnv sampleLib "default"
          (taggedField "StructPtr" (.ptr testStruct) "x") (.ptr pointee) =
        some (.ptr pointee, none)) ∧
    HoldsTree [.struct [.ptr (some ⟨1, []⟩), .ptr (some ⟨2, []⟩)], .struct [.val (.int 0)],
        .struct [.val (.int 0)]] (.ptr (some ⟨0, []⟩))
      (.ptr (.struct [.ptr (.struct [.int 0]), .ptr (.struct [.int 0])])) [0, 1, 2] ∧
    (∃ vals' F',
      HoldsTree [.struct [.ptr (some ⟨1, []⟩), .ptr (some ⟨2, []⟩)], .struct [.val (.int 0)],
          .struct [.val (.int 5)]] (.ptr (some ⟨0, []⟩)) (.ptr (.struct vals')) F' ∧
      vals'[0]? = some (.ptr (.struct [.int 0]))) ∧
    HoldsTree [.struct [.ptr none]] (.ptr (some ⟨0, []⟩)) (.ptr (.struct [.nil])) [0] ∧
    (∃ e, some (GoError.wrap "failed to set default for field StructPtr: "
          (.text "unsupported type \"defaults.testStruct\"")) = some e ∧
      (e = .wrap ("failed to set default for field " ++ "StructPtr" ++ ": ")
          (.text ("unsupported type" ++ " \"" ++ typeName sampleLib testStruct ++ "\"")) ∨
        ∃ (n k : Nat) (g : StructField) (w w' : Value), k < 0 ∧
          taggedStructPtrRecord.Fields[k]? = some g ∧ [Value.nil][k]? = some w ∧
          setDefaultsField (setDefaults noEnv sampleLib "default" n) noEnv sampleLib "default"
            g w = some (w', some e))) :=
  have h := C33_tagged_struct_pointer_is_not_recursed noEnv sampleLib "default"
    (taggedField "StructPtr" (.ptr testStruct) "x") testStruct rfl rfl rfl rfl (by decide)
  have hs : HoldsTree
      [.struct [.ptr (some ⟨1, []⟩), .ptr (some ⟨2, []⟩)], .struct [.val (.int 0)],
        .struct [.val (.int 0)]] (.ptr (some ⟨0, []⟩))
      (.ptr (.struct [.ptr (.struct [.int 0]), .ptr (.struct [.int 0])])) [0, 1, 2] :=
    .ptr 0 _ _ [1, 2] rfl
      (.struct_cons _ _ _ [1] _ _ [2]
        (.ptr 1 _ _ [] rfl
          (.struct_cons _ _ _ [] _ _ [] (.val _) (.struct_nil _) (by simp)) (by simp))
        (.struct_cons _ _ _ [2] _ _ []
          (.ptr 2 _ _ [] rfl
            (.struct_cons _ _ _ [] _ _ [] (.val _) (.struct_nil _) (by simp)) (by simp))
          (.struct_nil _) (by simp)) (by simp)) (by simp)
  have hn : HoldsTree [.struct [.ptr none]] (.ptr (some ⟨0, []⟩)) (.ptr (.struct [.nil]))
      [0] :=
    .ptr 0 _ _ [] rfl (.struct_cons _ _ _ [] _ _ [] .nil (.struct_nil _) (by simp)) (by simp)
  ⟨rfl, rfl, rfl, rfl, rfl, (h.1 (Or.inr ⟨by decide, by decide⟩)).1, h.2.1, hs,
    (C33_tagged_struct_pointer_is_not_recursed noEnv sampleLib "default"
      (taggedField "SP" (.ptr innerType) "x") innerType rfl rfl rfl rfl (by decide)).2.2.2.2.1
      2 sharedStructPtrRecord _ 0 _ _ _ _ _ none rfl rfl hs rfl, hn,
    (h.1 (Or.inr ⟨by decide, by decide⟩)).2.2.2.2 2 taggedStructPtrRecord _ 0 _ _ _ _ _
      rfl rfl hn rfl⟩

/-- **C34, counterexample.** A struct type has no registered parser, and a field of struct
kind with an empty tag is not skipped: the field `Inner testStruct` without a tag ends with
its nested fields set, the field `Inner badInner` without a tag makes `Defaults` return an
error, and so does a `testStruct` field that is already set when a nested field is not. -/
theorem C34_struct_field_counterexample :
    parser sampleLib (typeName sampleLib testStruct) = none ∧
    parser sampleLib (typeName sampleLib badInner) = none ∧
    Defaults noEnv sampleLib "default" 2
        ⟨.ptr untaggedStructRecord, .ptr (.struct [.struct [.int 0, .string ""]])⟩ =
      some (.ptr (.struct [.struct [.int 123, .string "gm"]]), none) ∧
    isUnset testStruct (.struct [.int 0, .string "set"]) = false ∧
    Defaults noEnv sampleLib "default" 2
        ⟨.ptr untaggedStructRecord, .ptr (.struct [.struct [.int 0, .string "set"]])⟩ =
      some (.ptr (.struct [.struct [.int 123, .string "set"]]), none) ∧
    Defaults noEnv sampleLib "default" 2 ⟨.ptr badOuter, .ptr (.struct [.struct [.int 0]])⟩ =
      some (.ptr (.struct [.struct [.int 0]]),
        some (.wrap "failed to set defaults for field Inner: "
          (.wrap "failed to set default for field Count: "
            (numError sampleLib "ParseInt" "abc" ErrSyntax)))) :=
  ⟨rfl, rfl, rfl, rfl, rfl, rfl⟩

/-- **C34, amended.** Take a field outside the recursion branch (not of struct kind, and not
an untagged pointer to a struct) whose type, after one pointer level is removed, has no
registered parser.  When its tag is empty or its value is set, the loop body returns it
unchanged with a nil error and every `Defaults` that returns leaves it as it was.  For an
exported such field the loop body returns an error exactly when the field is unset and its
tag is not empty.  The unnamed types of kind func, chan, interface and unsafe pointer have no
registered parser. -/
theorem C34_unsupported_type_only_when_defaulted (env : TypeEnv) (lib : Lib) (Tag : String)
    (field : StructField) (fieldVal : Value) (target : GoType)
    (hbranch : (isStructOrStructPtr env field.Typ &&
      (field.Tag.Get Tag == "" || field.Typ.Kind == .Struct)) = false)
    (htarget : if field.Typ.Kind = .Pointer then field.Typ.Elem env = some target
      else target = field.Typ)
    (hparser : parser lib (typeName lib target) = none) :
    (field.Tag.Get Tag = "" ∨ isUnset field.Typ fieldVal = false →
      (∀ recurse, setDefaultsField recurse env lib Tag field fieldVal =
        some (fieldVal, none)) ∧
      (∀ (fuel : Nat) (t : GoType) (vals : List Value) (i : Nat) (out : Value)
        (err : Option GoError), t.Fields[i]? = some field → vals[i]? = some fieldVal →
        Defaults env lib Tag fuel ⟨.ptr t, .ptr (.struct vals)⟩ = some (out, err) →
        ∃ vals', out = .ptr (.struct vals') ∧ vals'[i]? = some fieldVal)) ∧
    (assignable field = true → ∀ recurse,
      (∃ v e, setDefaultsField recurse env lib Tag field fieldVal = some (v, some e)) ↔
        (isUnset field.Typ fieldVal = true ∧ field.Tag.Get Tag ≠ "")) ∧
    (∀ (k : Kind) (str : String),
      k = .Func ∨ k = .Chan ∨ k = .Interface ∨ k = .UnsafePointer →
      parser lib (typeName lib (.other k str)) = none) := by
  have hskip : field.Tag.Get Tag = "" ∨ isUnset field.Typ fieldVal = false →
      ∀ recurse, setDefaultsField recurse env lib Tag field fieldVal =
        some (fieldVal, none) := by
    intro h recurse
    rcases h with h | h
    · exact setDefaultsField_skip_untagged recurse env lib Tag field fieldVal
        (by simpa [h] using hbranch) h
    · exact setDefaultsField_skip_set recurse env lib Tag field fieldVal hbranch h
  refine ⟨fun h => ⟨hskip h, ?_⟩, ?_, ?_⟩
  · intro fuel t vals i out err hfield hval hrun
    exact Defaults_frame env lib Tag fuel t vals out err i field fieldVal hfield hval
      (hskip h) hrun
  · intro ha recurse
    constructor
    · rintro ⟨v, e, hb⟩
      by_cases hu : isUnset field.Typ fieldVal = true
      · refine ⟨hu, fun ht => ?_⟩
        rw [hskip (Or.inl ht) recurse] at hb
        simp at hb
      · rw [hskip (Or.inr (by simpa using hu)) recurse] at hb
        simp at hb
    · rintro ⟨hu, ht⟩
      exact ⟨_, _, setDefaultsField_unsupported recurse env lib Tag field fieldVal target ha
        hbranch hu ht htarget hparser⟩
  · intro k str hk
    rcases hk with rfl | rfl | rfl | rfl <;> rfl

/-- **C34, amended, instances.** A field `FuncField func()`: with an empty tag, or with a
tag and a non-nil value, `Defaults` returns nil and leaves it; with a tag and a nil value it
returns the unsupported-type error. -/
theorem C34_unsupported_type_only_when_defaulted_witness :
    Defaults noEnv sampleLib "default" 1
        ⟨.ptr (.struct [untaggedField "FuncField" (.other .Func "func()")]),
          .ptr (.struct [.nil])⟩ =
      some (.ptr (.struct [.nil]), none) ∧
    Defaults noEnv sampleLib "default" 1 ⟨.ptr testFuncType, .ptr (.struct [.handle 1])⟩ =
      some (.ptr (.struct [.handle 1]), none) ∧
    Defaults noEnv sampleLib "default" 1 ⟨.ptr testFuncType, .ptr (.struct [.nil])⟩ =
      some (.ptr (.struct [.nil]),
        some (.wrap "failed to set default for field FuncField: "
          (.text "unsupported type \"func\""))) ∧
    (∀ recurse, setDefaultsField recurse noEnv sampleLib "default"
        (taggedField "FuncField" (.other .Func "func()") "some_value") (.handle 1) =
      some (.handle 1, none)) :=
  ⟨rfl, rfl, rfl,
    ((C34_unsupported_type_only_when_defaulted noEnv sampleLib "default"
      (taggedField "FuncField" (.other .Func "func()") "some_value") (.handle 1)
      (.other .Func "func()") rfl rfl rfl).1 (Or.inr rfl)).1⟩

/-- **C35, counterexample.** The type `testStruct` is a user-defined named type without a
registered parser, and a field of this type that is unset and carries a non-empty tag
causes no error: it is recursed into. -/
theorem C35_named_struct_counterexample :
    typeName sampleLib testStruct = "defaults.testStruct" ∧
    parser sampleLib (typeName sampleLib testStruct) = none ∧
    isUnset testStruct (.struct [.int 0, .string ""]) = true ∧
    StructTag.Get (taggedField "Struct" testStruct "not parsed").Tag "default" = "not parsed" ∧
    Defaults noEnv sampleLib "default" 2
        ⟨.ptr structRecord, .ptr (.struct [.struct [.int 0, .string ""]])⟩ =
      some (.ptr (.struct [.struct [.int 123, .string "gm"]]), none) :=
  ⟨rfl, rfl, rfl, rfl, rfl⟩

/-- **C35, amended.** The parser is looked up under the name of the kind for an unnamed type
and for a predeclared type, and under the qualified name for a declared type.  Of the keys
of the registry only "time.Duration" is a qualified name (has a period), and it is the key
of `time.Duration`.  So for an exported, unset field with a non-empty tag, not of struct
kind, whose type (after one pointer level is removed) is a declared type with a qualified
name other than "time.Duration", the loop body returns the error "unsupported type" with
the quoted qualified name, whatever the underlying type; and `Defaults` on a struct with such
a field returns an error, this one unless an earlier field failed. -/
theorem C35_dispatch_by_qualified_name (env : TypeEnv) (lib : Lib) (Tag : String)
    (field : StructField) (fieldVal : Value) (n s : String) (u : GoType)
    (hn : n ≠ "") (hdot : '.' ∈ s.data) (hs : s ≠ "time.Duration")
    (ha : assignable field = true) (hkind : field.Typ.Kind ≠ .Struct)
    (htarget : if field.Typ.Kind = .Pointer then field.Typ.Elem env = some (.named n s u)
      else .named n s u = field.Typ)
    (hunset : isUnset field.Typ fieldVal = true) (htag : field.Tag.Get Tag ≠ "") :
    ((∀ t : GoType, t.Name = "" → typeName lib t = kindString t.Kind) ∧
      (∀ k, typeName lib (.basic k) = kindString k) ∧
      typeName lib (.named n s u) = s ∧
      typeName lib durationType = "time.Duration" ∧
      parser lib "time.Duration" = some (ParseDuration lib)) ∧
    (∀ key, parser lib key ≠ none → '.' ∈ key.data → key = "time.Duration") ∧
    parser lib s = none ∧
    (∀ recurse, setDefaultsField recurse env lib Tag field fieldVal =
      some (if field.Typ.Kind = .Pointer then .ptr (zeroValue (.named n s u)) else fieldVal,
        some (.wrap ("failed to set default for field " ++ field.Name ++ ": ")
          (.text ("unsupported type" ++ " \"" ++ s ++ "\""))))) ∧
    (∀ (fuel : Nat) (t : GoType) (vals : List Value) (i : Nat) (out : Value)
      (err : Option GoError), t.Fields[i]? = some field → vals[i]? = some fieldVal →
      Defaults env lib Tag fuel ⟨.ptr t, .ptr (.struct vals)⟩ = some (out, err) →
      ∃ e, err = some e ∧
        (t.Kind = .Struct →
          e = .wrap ("failed to set default for field " ++ field.Name ++ ": ")
            (.text ("unsupported type" ++ " \"" ++ s ++ "\"")) ∨
          ∃ (m k : Nat) (g : StructField) (w w' : Value), k < i ∧
            t.Fields[k]? = some g ∧ vals[k]? = some w ∧
            setDefaultsField (setDefaults env lib Tag m) env lib Tag g w =
              some (w', some e))) := by
  have hname : typeName lib (.named n s u) = s := by
    simp [typeName, GoType.Name, GoType.TypeString, hn]
  have hkeys : ∀ key, parser lib key ≠ none → '.' ∈ key.data → key = "time.Duration" := by
    intro key hk hd
    have hmem := parser_keys lib key hk
    simp only [parserKeys, List.mem_cons, List.mem_singleton, List.not_mem_nil, or_false]
      at hmem
    rcases hmem with h | h | h | h | h | h | h | h | h | h | h | h | h | h | h | h | h | h |
      h | h <;> subst h <;> first | rfl | (revert hd; decide)
  have hpnone : parser lib s = none := by
    by_contra hne
    exact hs (hkeys s hne hdot)
  have hbody : ∀ recurse, setDefaultsField recurse env lib Tag field fieldVal =
      some (if field.Typ.Kind = .Pointer then .ptr (zeroValue (.named n s u)) else fieldVal,
        some (.wrap ("failed to set default for field " ++ field.Name ++ ": ")
          (.text ("unsupported type" ++ " \"" ++ s ++ "\"")))) := by
    intro recurse
    have h := setDefaultsField_unsupported recurse env lib Tag field fieldVal (.named n s u) ha
      (by simp [htag, hkind]) hunset htag htarget (by rw [hname]; exact hpnone)
    rw [hname] at h
    exact h
  refine ⟨⟨fun t ht => typeName_unnamed lib t ht, ?_, hname, rfl, rfl⟩, hkeys, hpnone, hbody,
    ?_⟩
  · intro k
    simp [typeName, GoType.TypeString, GoType.Kind]
  · intro fuel t vals i out err hfield hval hrun
    exact Defaults_err_of_body env lib Tag fuel t vals i field fieldVal _ _ hfield hval hbody
      out err hrun

/-- **C35, amended, instances.** A field `N MyInt` tagged `5`, where `type MyInt int`: the
error names `defaults.MyInt`, although a field of type `int` with that tag is set to 5; and
a field of type `time.Duration` is dispatched to `ParseDuration`. -/
theorem C35_dispatch_by_qualified_name_witness :
    Defaults noEnv sampleLib "default" 1 ⟨.ptr myIntRecord, .ptr (.struct [.int 0])⟩ =
      some (.ptr (.struct [.int 0]),
        some (.wrap "failed to set default for field N: "
          (.text "unsupported type \"defaults.MyInt\""))) ∧
    Defaults noEnv sampleLib "default" 1
        ⟨.ptr (.struct [taggedField "N" (.basic .Int) "5"]), .ptr (.struct [.int 0])⟩ =
      some (.ptr (.struct [.int 5]), none) ∧
    Defaults noEnv (withTime sampleLib) "default" 1
        ⟨.ptr durationRecord, .ptr (.struct [.int 0])⟩ =
      some (.ptr (.struct [.int 5400000000000]), none) ∧
    (∀ recurse, setDefaultsField recurse noEnv sampleLib "default"
        (taggedField "N" myIntType "5") (.int 0) =
      some (.int 0,
        some (.wrap ("failed to set default for field " ++ "N" ++ ": ")
          (.text ("unsupported type" ++ " \"" ++ "defaults.MyInt" ++ "\""))))) :=
  ⟨rfl, rfl, rfl,
    (C35_dispatch_by_qualified_name noEnv sampleLib "default" (taggedField "N" myIntType "5")
      (.int 0) "MyInt" "defaults.MyInt" (.basic .Int) (by decide) (by decide) (by decide) rfl
      (by decide) rfl rfl (by decide)).2.2.2.1⟩

/-- **C32.** A failed default on a nil pointer field leaves the pointer allocated.  Take an
exported field of pointer type `*T` with a non-empty tag for which setting the parsed value
into a zero `T` fails with the error `err` (the unsupported-type error or the error of the
registered parser, such as a syntax or range error).  On the nil field the loop body returns
`err` wrapped with the field name and leaves the field pointing to a zero value of `T`; on
that pointer the loop body returns no error and changes nothing.  So when `Defaults` returns
an error on a struct with such a nil field, either the error is this one and the field now
points to a zero `T`, or an earlier field failed and the field is still nil; and in the first
case a second `Defaults` leaves the field as it is, and any error it returns was raised at
another field. -/
theorem C32_failed_pointer_default_stays_allocated (env : TypeEnv) (lib : Lib) (Tag : String)
    (field : StructField) (target : GoType) (p : Value) (err : GoError)
    (ha : assignable field = true) (hk : field.Typ.Kind = .Pointer)
    (he : field.Typ.Elem env = some target) (htag : field.Tag.Get Tag ≠ "")
    (hfail : setParsedValue lib (zeroValue target) target (field.Tag.Get Tag) =
      some (p, some err)) :
    ((parser lib (typeName lib target) = none ∧
        err = .text ("unsupported type" ++ " \"" ++ typeName lib target ++ "\"")) ∨
      ∃ pf x, parser lib (typeName lib target) = some pf ∧
        pf (field.Tag.Get Tag) target = some (x, some err)) ∧
    (∀ recurse, setDefaultsField recurse env lib Tag field .nil =
      some (.ptr (zeroValue target),
        some (.wrap ("failed to set default for field " ++ field.Name ++ ": ") err))) ∧
    (∀ recurse, setDefaultsField recurse env lib Tag field (.ptr (zeroValue target)) =
      some (.ptr (zeroValue target), none)) ∧
    (∀ (fuel : Nat) (t : GoType) (vals : List Value) (i : Nat) (out : Value) (e : GoError),
      t.Kind = .Struct → t.Fields[i]? = some field → vals[i]? = some .nil →
      Defaults env lib Tag fuel ⟨.ptr t, .ptr (.struct vals)⟩ = some (out, some e) →
      ∃ vals', out = .ptr (.struct vals') ∧
        ((e = .wrap ("failed to set default for field " ++ field.Name ++ ": ") err ∧
            vals'[i]? = some (.ptr (zeroValue target))) ∨
          (vals'[i]? = some .nil ∧
            ∃ (n k : Nat) (g : StructField) (w w' : Value), k < i ∧
              t.Fields[k]? = some g ∧ vals[k]? = some w ∧
              setDefaultsField (setDefaults env lib Tag n) env lib Tag g w =
                some (w', some e))) ∧
        (vals'[i]? = some (.ptr (zeroValue target)) →
          ∀ out₂ e₂, Defaults env lib Tag fuel ⟨.ptr t, out⟩ = some (out₂, e₂) →
            (∃ vals'', out₂ = .ptr (.struct vals'') ∧
              vals''[i]? = some (.ptr (zeroValue target))) ∧
            (∀ e₂', e₂ = some e₂' →
              ∃ (n k : Nat) (g : StructField) (w w' : Value), k ≠ i ∧
                t.Fields[k]? = some g ∧ vals'[k]? = some w ∧
                setDefaultsField (setDefaults env lib Tag n) env lib Tag g w =
                  some (w', some e₂')))) := by
  have hbranch : (isStructOrStructPtr env field.Typ &&
      (field.Tag.Get Tag == "" || field.Typ.Kind == .Struct)) = false := by
    simp [htag, hk]
  have hp : p = zeroValue target := setParsedValue_err_val lib _ p target _ err hfail
  subst hp
  have hnil : ∀ recurse, setDefaultsField recurse env lib Tag field .nil =
      some (.ptr (zeroValue target),
        some (.wrap ("failed to set default for field " ++ field.Name ++ ": ") err)) := by
    intro recurse
    have h := setDefaultsField_leaf recurse env lib Tag field .nil target ha hbranch
      (by simp [isUnset, hk, Value.IsNil]) htag (by simp [hk, he])
    simp only [hk, if_true, hfail] at h
    exact h
  have hset : ∀ recurse, setDefaultsField recurse env lib Tag field (.ptr (zeroValue target)) =
      some (.ptr (zeroValue target), none) := fun recurse =>
    setDefaultsField_skip_set recurse env lib Tag field _ hbranch
      (by simp [isUnset, hk, Value.IsNil])
  refine ⟨setParsedValue_err_cases lib _ _ target _ err hfail, hnil, hset, ?_⟩
  intro fuel t vals i out e ht hfield hval hrun
  rcases Defaults_some env lib Tag fuel t vals out _ hrun with
    ⟨hns, _, _⟩ | ⟨_, n, vals', _, hout, hl⟩
  · exact absurd ht hns
  refine ⟨vals', hout, ?_, ?_⟩
  · obtain ⟨k, g, w, w', hg, hw, hb, hv', hbefore, hafter⟩ :=
      setDefaultsLoop_err _ _ _ _ _ hl
    rcases Nat.lt_trichotomy k i with hlt | heq | hgt
    · right
      refine ⟨?_, n, k, g, w, w', hlt, hg, hw, hb⟩
      rw [hafter i hlt]
      exact hval
    · subst heq
      rw [hfield] at hg
      rw [hval] at hw
      simp only [Option.some.injEq] at hg hw
      subst hg hw
      rw [hnil] at hb
      simp only [Option.some.injEq, Prod.mk.injEq] at hb
      left
      exact ⟨hb.2.symm, by rw [hv', ← hb.1]⟩
    · obtain ⟨x, _, hbx⟩ := hbefore i field .nil hgt hfield hval
      rw [hnil] at hbx
      simp at hbx
  · intro hvi out₂ e₂ hrun₂
    subst hout
    refine ⟨Defaults_frame env lib Tag fuel t vals' out₂ e₂ i field _ hfield hvi hset hrun₂,
      ?_⟩
    intro e₂' he₂
    subst he₂
    rcases Defaults_some env lib Tag fuel t vals' out₂ _ hrun₂ with
      ⟨hns, _, _⟩ | ⟨_, n₂, vals'', _, _, hl₂⟩
    · exact absurd ht hns
    obtain ⟨k, g, w, w', hg, hw, hb, _, _, _⟩ := setDefaultsLoop_err _ _ _ _ _ hl₂
    refine ⟨n₂, k, g, w, w', ?_, hg, hw, hb⟩
    intro hki
    subst hki
    rw [hfield] at hg
    rw [hvi] at hw
    simp only [Option.some.injEq] at hg hw
    subst hg hw
    rw [hset] at hb
    simp at hb

/-- **C32, instances.** A range error (`testInt8PtrOverflow`), a syntax error
(`testParseBoolPtr`) and an unsupported type (`testFuncPtrType`): the first call returns the
error and leaves the nil pointer pointing to a zero value, the second call returns nil. -/
theorem C32_failed_pointer_default_stays_allocated_witness :
    (∀ recurse, setDefaultsField recurse noEnv (withStrconv sampleLib) "default"
        (taggedField "Int8Ptr" (.ptr (.basic .Int8)) "128") .nil =
      some (.ptr (zeroValue (.basic .Int8)),
        some (.wrap ("failed to set default for field " ++ "Int8Ptr" ++ ": ")
          (numError sampleLib "ParseInt" "128" ErrRange)))) ∧
    Defaults noEnv (withStrconv sampleLib) "default" 1
        ⟨.ptr testInt8PtrOverflow, .ptr (.struct [.nil])⟩ =
      some (.ptr (.struct [.ptr (.int 0)]),
        some (.wrap "failed to set default for field Int8Ptr: "
          (numError sampleLib "ParseInt" "128" ErrRange))) ∧
    Defaults noEnv (withStrconv sampleLib) "default" 1
        ⟨.ptr testInt8PtrOverflow, .ptr (.struct [.ptr (.int 0)])⟩ =
      some (.ptr (.struct [.ptr (.int 0)]), none) ∧
    Defaults noEnv sampleLib "default" 1 ⟨.ptr testParseBoolPtr, .ptr (.struct [.nil])⟩ =
      some (.ptr (.struct [.ptr (.bool false)]),
        some (.wrap "failed to set default for field BoolPtr: "
          (numError sampleLib "ParseBool" "FAISE" ErrSyntax))) ∧
    Defaults noEnv sampleLib "default" 1
        ⟨.ptr testParseBoolPtr, .ptr (.struct [.ptr (.bool false)])⟩ =
      some (.ptr (.struct [.ptr (.bool false)]), none) ∧
    Defaults noEnv sampleLib "default" 1 ⟨.ptr testFuncPtrType, .ptr (.struct [.nil])⟩ =
      some (.ptr (.struct [.ptr .nil]),
        some (.wrap "failed to set default for field FuncPtrField: "
          (.text "unsupported type \"func\""))) ∧
    Defaults noEnv sampleLib "default" 1 ⟨.ptr testFuncPtrType, .ptr (.struct [.ptr .nil])⟩ =
      some (.ptr (.struct [.ptr .nil]), none) :=
  ⟨(C32_failed_pointer_default_stays_allocated noEnv (withStrconv sampleLib) "default"
      (taggedField "Int8Ptr" (.ptr (.basic .Int8)) "128") (.basic .Int8) (.int 0)
      (numError sampleLib "ParseInt" "128" ErrRange) rfl rfl rfl (by decide) rfl).2.1,
    rfl, rfl, rfl, rfl, rfl, rfl⟩

/-- **C31.** The order of the fields does not matter for success: for two struct types
whose lists of fields, each field taken with its initial value, are permutations of one
another, `Defaults` returns no error on one exactly when it returns no error on the other,
and then a field with its initial value ends with the same value in both. -/
theorem C31_field_order_is_irrelevant_on_success (env : TypeEnv) (lib : Lib) (Tag : String)
    (fuel : Nat) (t t' : GoType) (ps ps' : List (StructField × Value))
    (ht : t.Kind = .Struct) (ht' : t'.Kind = .Struct)
    (hf : t.Fields = ps.map Prod.fst) (hf' : t'.Fields = ps'.map Prod.fst)
    (hperm : ps.Perm ps') :
    ((∃ out, Defaults env lib Tag fuel ⟨.ptr t, .ptr (.struct (ps.map Prod.snd))⟩ =
        some (out, none)) ↔
      (∃ out', Defaults env lib Tag fuel ⟨.ptr t', .ptr (.struct (ps'.map Prod.snd))⟩ =
        some (out', none))) ∧
    (∀ out out',
      Defaults env lib Tag fuel ⟨.ptr t, .ptr (.struct (ps.map Prod.snd))⟩ = some (out, none) →
      Defaults env lib Tag fuel ⟨.ptr t', .ptr (.struct (ps'.map Prod.snd))⟩ =
        some (out', none) →
      ∃ vals vals', out = .ptr (.struct vals) ∧ out' = .ptr (.struct vals') ∧
        ∀ (i j : Nat) (f : StructField) (v : Value),
          ps[i]? = some (f, v) → ps'[j]? = some (f, v) →
          ∃ w, vals[i]? = some w ∧ vals'[j]? = some w) := by
  have key : ∀ (t₁ t₂ : GoType) (qs qs' : List (StructField × Value)),
      t₁.Kind = .Struct → t₂.Kind = .Struct → t₁.Fields = qs.map Prod.fst →
      t₂.Fields = qs'.map Prod.fst → qs.Perm qs' →
      (∃ out, Defaults env lib Tag fuel ⟨.ptr t₁, .ptr (.struct (qs.map Prod.snd))⟩ =
        some (out, none)) →
      ∃ out', Defaults env lib Tag fuel ⟨.ptr t₂, .ptr (.struct (qs'.map Prod.snd))⟩ =
        some (out', none) := by
    intro t₁ t₂ qs qs' h₁ h₂ hq hq' hp ⟨out, hrun⟩
    rcases Defaults_some env lib Tag fuel t₁ _ out _ hrun with
      ⟨hns, _, _⟩ | ⟨_, n, vals', hfuel, _, hl⟩
    · exact absurd h₁ hns
    subst hfuel
    rw [hq] at hl
    have hall := (setDefaultsLoop_succeeds_iff _ qs).mp ⟨vals', hl⟩
    obtain ⟨vals'', hl'⟩ := (setDefaultsLoop_succeeds_iff
      (setDefaultsField (setDefaults env lib Tag n) env lib Tag) qs').mpr
      (fun p hp' => hall p (hp.mem_iff.mpr hp'))
    rw [← hq'] at hl'
    exact ⟨_, Defaults_of_loop env lib Tag n t₂ _ vals'' none h₂ hl'⟩
  refine ⟨⟨key t t' ps ps' ht ht' hf hf' hperm, key t' t ps' ps ht' ht hf' hf hperm.symm⟩, ?_⟩
  intro out out' hrun hrun'
  rcases Defaults_some env lib Tag fuel t _ out _ hrun with
    ⟨hns, _, _⟩ | ⟨_, n, vals, hfuel, hout, hl⟩
  · exact absurd ht hns
  rcases Defaults_some env lib Tag fuel t' _ out' _ hrun' with
    ⟨hns, _, _⟩ | ⟨_, n', vals', hfuel', hout', hl'⟩
  · exact absurd ht' hns
  have hn : n' = n := by omega
  subst hn
  refine ⟨vals, vals', hout, hout', ?_⟩
  intro i j f v hi hj
  obtain ⟨w, hw, hb⟩ := setDefaultsLoop_ok_get _ _ _ _ hl i f v
    (by rw [hf, List.getElem?_map, hi]; rfl) (by rw [List.getElem?_map, hi]; rfl)
  obtain ⟨w', hw', hb'⟩ := setDefaultsLoop_ok_get _ _ _ _ hl' j f v
    (by rw [hf', List.getElem?_map, hj]; rfl) (by rw [List.getElem?_map, hj]; rfl)
  rw [hb] at hb'
  simp only [Option.some.injEq, Prod.mk.injEq, and_true] at hb'
  exact ⟨w, hw, by rw [hw', hb']⟩

/-- **C31, instance.** The fields `A int` tagged `123` and `Bad bool` tagged `true`, in
both orders. -/
theorem C31_field_order_is_irrelevant_on_success_witness :
    Defaults noEnv sampleLib "default" 1
        ⟨.ptr (.struct [taggedField "A" (.basic .Int) "123",
          taggedField "Bad" (.basic .Bool) "true"]), .ptr (.struct [.int 0, .bool false])⟩ =
      some (.ptr (.struct [.int 123, .bool true]), none) ∧
    Defaults noEnv sampleLib "default" 1
        ⟨.ptr (.struct [taggedField "Bad" (.basic .Bool) "true",
          taggedField "A" (.basic .Int) "123"]), .ptr (.struct [.bool false, .int 0])⟩ =
      some (.ptr (.struct [.bool true, .int 123]), none) ∧
    ∃ out', Defaults noEnv sampleLib "default" 1
        ⟨.ptr (.struct [taggedField "Bad" (.basic .Bool) "true",
          taggedField "A" (.basic .Int) "123"]),
          .ptr (.struct ([(taggedField "Bad" (.basic .Bool) "true", Value.bool false),
            (taggedField "A" (.basic .Int) "123", Value.int 0)].map Prod.snd))⟩ =
      some (out', none) :=
  ⟨rfl, rfl,
    (C31_field_order_is_irrelevant_on_success noEnv sampleLib "default" 1
      (.struct [taggedField "A" (.basic .Int) "123", taggedField "Bad" (.basic .Bool) "true"])
      (.struct [taggedField "Bad" (.basic .Bool) "true", taggedField "A" (.basic .Int) "123"])
      [(taggedField "A" (.basic .Int) "123", .int 0),
        (taggedField "Bad" (.basic .Bool) "true", .bool false)]
      [(taggedField "Bad" (.basic .Bool) "true", .bool false),
        (taggedField "A" (.basic .Int) "123", .int 0)]
      rfl rfl rfl rfl (List.Perm.swap _ _ _)).1.mp ⟨_, rfl⟩⟩

/-- **C37, counterexample.** The literal `07778` begins with `0` and has the digit `8`, but
against `uint8` and `int8` its octal digits `777` already exceed the largest value, and
`ParseUint` and `ParseInt` return a range error, not a syntax error. -/
theorem C37_range_error_counterexample :
    ParseUint (withStrconv sampleLib) "07778" (.basic .Uint8) =
      some (none, some (numError sampleLib "ParseUint" "07778" ErrRange)) ∧
    ParseInt (withStrconv sampleLib) "07778" (.basic .Int8) =
      some (none, some (numError sampleLib "ParseInt" "07778" ErrRange)) ∧
    (numError sampleLib "ParseUint" "07778" ErrRange).Error =
      "strconv.ParseUint: parsing \"07778\": value out of range" ∧
    ErrRange ≠ ErrSyntax :=
  ⟨rfl, rfl, by decide, by decide⟩

/-- **C37, amended.** A leading zero selects octal.  For a target of unsigned (signed)
integer kind of width `w`, `ParseUint` (`ParseInt`) reads a literal that is `0` followed by
octal digits in base 8 and returns that value when it fits the target.  On a literal that is
`0`, then octal digits whose value is at most `2^w - 1`, then the digit `8` or `9`, it returns
an invalid value and the syntax error of `strconv`; on a literal that is `0`, then octal
digits whose value is more than `2^w - 1`, then any text, it returns an invalid value and the
range error of `strconv`. -/
theorem C37_leading_zero_selects_octal (lib : Lib) (t : GoType) (w : Nat) :
    (∀ (c : Char) (cs : List Char), uintBits t.Kind = some w → isOctal (c :: cs) = true →
      foldDigits 8 (c :: cs) 0 ≤ 2 ^ w - 1 →
      ParseUint (withStrconv lib) (String.mk ('0' :: c :: cs)) t =
        some (some ⟨t, .uint (foldDigits 8 (c :: cs) 0)⟩, none)) ∧
    (∀ (c : Char) (cs : List Char), intBits t.Kind = some w → isOctal (c :: cs) = true →
      (foldDigits 8 (c :: cs) 0 : Int) ≤ 2 ^ (w - 1) - 1 →
      ParseInt (withStrconv lib) (String.mk ('0' :: c :: cs)) t =
        some (some ⟨t, .int (foldDigits 8 (c :: cs) 0)⟩, none)) ∧
    (∀ (pre : List Char) (c : Char) (rest : List Char), uintBits t.Kind = some w →
      isOctal pre = true → c = '8' ∨ c = '9' → foldDigits 8 pre 0 ≤ 2 ^ w - 1 →
      ParseUint (withStrconv lib) (String.mk ('0' :: (pre ++ c :: rest))) t =
        some (none, some (numError lib "ParseUint" (String.mk ('0' :: (pre ++ c :: rest)))
          ErrSyntax))) ∧
    (∀ (pre : List Char) (c : Char) (rest : List Char), intBits t.Kind = some w →
      isOctal pre = true → c = '8' ∨ c = '9' → foldDigits 8 pre 0 ≤ 2 ^ w - 1 →
      ParseInt (withStrconv lib) (String.mk ('0' :: (pre ++ c :: rest))) t =
        some (none, some (numError lib "ParseInt" (String.mk ('0' :: (pre ++ c :: rest)))
          ErrSyntax))) ∧
    (∀ (pre rest : List Char), uintBits t.Kind = some w →
      isOctal pre = true → 2 ^ w - 1 < foldDigits 8 pre 0 →
      ParseUint (withStrconv lib) (String.mk ('0' :: (pre ++ rest))) t =
        some (none, some (numError lib "ParseUint" (String.mk ('0' :: (pre ++ rest)))
          ErrRange))) ∧
    (∀ (pre rest : List Char), intBits t.Kind = some w →
      isOctal pre = true → 2 ^ w - 1 < foldDigits 8 pre 0 →
      ParseInt (withStrconv lib) (String.mk ('0' :: (pre ++ rest))) t =
        some (none, some (numError lib "ParseInt" (String.mk ('0' :: (pre ++ rest)))
          ErrRange))) := by
  refine ⟨?_, ?_, ?_, ?_, ?_, ?_⟩
  · intro c cs hw ho hfit
    exact (ParseUint_literal lib _ t w _ hw (uintLiteral_octal c cs ho).1).1 hfit
  · intro c cs hw ho hfit
    refine (ParseInt_literal lib _ t w _ hw (uintLiteral_octal c cs ho).2).1 ⟨?_, hfit⟩
    have h1 : (0 : Int) ≤ (foldDigits 8 (c :: cs) 0 : Int) := Int.ofNat_nonneg _
    have h2 : (0 : Int) < 2 ^ (w - 1) := by positivity
    omega
  · intro pre c rest hw ho hc hval
    have key : ∀ bitSize : Nat, (if bitSize = 0 then 64 else bitSize) = w → bitSize ≤ 64 →
        (match strconvParseUint lib (String.mk ('0' :: (pre ++ c :: rest))) 0 bitSize with
          | .error err => some (none, some err)
          | .ok val => returnConverted (withStrconv lib) ⟨.basic .Uint64, .uint val⟩ t) =
          some (none, some (numError lib "ParseUint" (String.mk ('0' :: (pre ++ c :: rest)))
            ErrSyntax)) := by
      intro bitSize hb hbits
      simp [strconvParseUint,
        strconvParseUintRaw_octal_bad_digit pre c rest bitSize hbits ho hc (by rw [hb]; exact hval),
        NumError.toError]
    cases hk : t.Kind <;> rw [hk] at hw <;> simp only [uintBits] at hw <;> cases hw <;>
      (simp only [ParseUint, hk, withStrconv]
       exact key _ (by simp) (by omega))
  · intro pre c rest hw ho hc hval
    have hne : String.mk ('0' :: (pre ++ c :: rest)) ≠ "" := by
      intro he
      have := congrArg String.data he
      simp at this
    obtain ⟨hdrop, hneg⟩ := dropSign_of_digit '0' (pre ++ c :: rest) (by decide)
    have key : ∀ bitSize : Nat, (if bitSize = 0 then 64 else bitSize) = w → bitSize ≤ 64 →
        (match strconvParseInt lib (String.mk ('0' :: (pre ++ c :: rest))) 0 bitSize with
          | .error err => some (none, some err)
          | .ok val => returnConverted (withStrconv lib) ⟨.basic .Int64, .int val⟩ t) =
          some (none, some (numError lib "ParseInt" (String.mk ('0' :: (pre ++ c :: rest)))
            ErrSyntax)) := by
      intro bitSize hb hbits
      simp [strconvParseInt, strconvParseIntRaw, hne, hdrop, hneg,
        strconvParseUintRaw_octal_bad_digit pre c rest bitSize hbits ho hc (by rw [hb]; exact hval),
        NumError.toError, ErrSyntax_ne_ErrRange]
    cases hk : t.Kind <;> rw [hk] at hw <;> simp only [intBits] at hw <;> cases hw <;>
      (simp only [ParseInt, hk, withStrconv]
       exact key _ (by simp) (by omega))
  · intro pre rest hw ho hval
    have key : ∀ bitSize : Nat, (if bitSize = 0 then 64 else bitSize) = w → bitSize ≤ 64 →
        (match strconvParseUint lib (String.mk ('0' :: (pre ++ rest))) 0 bitSize with
          | .error err => some (none, some err)
          | .ok val => returnConverted (withStrconv lib) ⟨.basic .Uint64, .uint val⟩ t) =
          some (none, some (numError lib "ParseUint" (String.mk ('0' :: (pre ++ rest)))
            ErrRange)) := by
      intro bitSize hb hbits
      simp [strconvParseUint,
        strconvParseUintRaw_octal_overflow pre rest bitSize hbits ho (by rw [hb]; exact hval),
        NumError.toError]
    cases hk : t.Kind <;> rw [hk] at hw <;> simp only [uintBits] at hw <;> cases hw <;>
      (simp only [ParseUint, hk, withStrconv]
       exact key _ (by simp) (by omega))
  · intro pre rest hw ho hval
    have hne : String.mk ('0' :: (pre ++ rest)) ≠ "" := by
      intro he
      have := congrArg String.data he
      simp at this
    obtain ⟨hdrop, hneg⟩ := dropSign_of_digit '0' (pre ++ rest) (by decide)
    have key : ∀ bitSize : Nat, (if bitSize = 0 then 64 else bitSize) = w → bitSize ≤ 64 →
        (match strconvParseInt lib (String.mk ('0' :: (pre ++ rest))) 0 bitSize with
          | .error err => some (none, some err)
          | .ok val => returnConverted (withStrconv lib) ⟨.basic .Int64, .int val⟩ t) =
          some (none, some (numError lib "ParseInt" (String.mk ('0' :: (pre ++ rest)))
            ErrRange)) := by
      intro bitSize hb hbits
      have hpos : 0 < w := by
        rw [← hb]
        split <;> omega
      have hcut : 2 ^ (w - 1) ≤ 2 ^ w - 1 := by
        have h2 : 2 ^ w = 2 * 2 ^ (w - 1) := by
          rw [← pow_succ']
          congr 1
          omega
        have h3 : 0 < 2 ^ (w - 1) := by positivity
        omega
      simp [strconvParseInt, strconvParseIntRaw, hne, hdrop, hneg,
        strconvParseUintRaw_octal_overflow pre rest bitSize hbits ho (by rw [hb]; exact hval),
        NumError.toError, parseIntTail, hb, hcut]
    cases hk : t.Kind <;> rw [hk] at hw <;> simp only [intBits] at hw <;> cases hw <;>
      (simp only [ParseInt, hk, withStrconv]
       exact key _ (by simp) (by omega))

/-- **C37, amended, instances.** The literal `010` is read as 8 and the literal `08` is
rejected with a syntax error, against `int` and `uint8`; the literal `07778` is rejected
with a range error against `uint8` and `int8`. -/
theorem C37_leading_zero_selects_octal_witness :
    ParseInt (withStrconv sampleLib) "010" (.basic .Int) =
      some (some ⟨.basic .Int, .int 8⟩, none) ∧
    ParseUint (withStrconv sampleLib) "010" (.basic .Uint8) =
      some (some ⟨.basic .Uint8, .uint 8⟩, none) ∧
    ParseInt (withStrconv sampleLib) "08" (.basic .Int) =
      some (none, some (numError sampleLib "ParseInt" "08" ErrSyntax)) ∧
    ParseUint (withStrconv sampleLib) "08" (.basic .Uint8) =
      some (none, some (numError sampleLib "ParseUint" "08" ErrSyntax)) ∧
    ParseUint (withStrconv sampleLib) "07778" (.basic .Uint8) =
      some (none, some (numError sampleLib "ParseUint" "07778" ErrRange)) ∧
    ParseInt (withStrconv sampleLib) "07778" (.basic .Int8) =
      some (none, some (numError sampleLib "ParseInt" "07778" ErrRange)) ∧
    (numError sampleLib "ParseInt" "08" ErrSyntax).Error =
      "strconv.ParseInt: parsing \"08\": invalid syntax" :=
  ⟨(C37_leading_zero_selects_octal sampleLib (.basic .Int) 64).2.1 '1' ['0'] rfl rfl
      (by decide),
    (C37_leading_zero_selects_octal sampleLib (.basic .Uint8) 8).1 '1' ['0'] rfl rfl
      (by decide),
    (C37_leading_zero_selects_octal sampleLib (.basic .Int) 64).2.2.2.1 [] '8' [] rfl rfl
      (Or.inl rfl) (by decide),
    (C37_leading_zero_selects_octal sampleLib (.basic .Uint8) 8).2.2.1 [] '8' [] rfl rfl
      (Or.inl rfl) (by decide),
    (C37_leading_zero_selects_octal sampleLib (.basic .Uint8) 8).2.2.2.2.1
      ['7', '7', '7'] ['8'] rfl rfl (by decide),
    (C37_leading_zero_selects_octal sampleLib (.basic .Int8) 8).2.2.2.2.2
      ['7', '7', '7'] ['8'] rfl rfl (by decide),
    by decide⟩

end GoDefaults
